import Mathlib

/-!
# DSD receive processor (`firmware/baseband/proc_dsd_rx.cpp`)

A shallow embedding of `DSDRxProcessor`: the burst/frame state machine
(`process_decided_symbol`), the sync correlator (`decode_sync_string`,
`build_sync_window`, `push_sync_char`), the carrier-loss monitor
(`handle_carrier_loss`), the symbol slicer (`getSymbolFromBuffer`,
`dmr_filter`), the block loop (`process_demod_block`) and the entry point
(`execute`).

Conventions of the embedding.
* Unsigned members (`uint8_t`, `uint16_t`, `uint32_t`, `uint64_t`, `size_t`)
  are natural numbers; every increment or cast that can wrap carries its
  `% 2 ^ w` explicitly.
* Signed members (`int`, `int32_t`) are integers; `/` and `%` of C++ are
  `Int.tdiv` and `Int.tmod` (truncation toward zero).  Signed overflow is
  undefined in C++ and is not modelled: signed sums and products are exact.
* A `std::array<T, N>` or `T[N]` member is the map from index to element.
  The code only uses indices below `N`.
* `shared_memory.application_queue.push` is recorded in `pushed_`, the
  messages handed to the queue, oldest first.
* The function-local `static bool execute_running` of `execute` and the
  file-scope delay line `dmr_v` are fields of the state.
-/

namespace DSDRx

/-- The enumeration `DSDRxProcessor::SyncPatternId`. -/
inductive SyncPatternId where
  | Unknown
  | BsVoice
  | BsData
  | MsVoice
  | MsData
  | DirectTs1Voice
  | DirectTs1Data
  | DirectTs2Voice
  | DirectTs2Data
  | BsVoiceInverted
  | BsDataInverted
  | MsVoiceInverted
  | MsDataInverted
  | DirectTs1VoiceInverted
  | DirectTs1DataInverted
  | DirectTs2VoiceInverted
  | DirectTs2DataInverted
  deriving DecidableEq, Repr

/-- The enumeration `DSDRxProcessor::Parse_State`. -/
inductive Parse_State where
  | Parse_State_Search_Sync
  | Parse_State_Process_Voice
  | Parse_State_Process_Data
  deriving DecidableEq, Repr

open Parse_State

/-- Numeric value of a `Parse_State` (`static_cast<uint32_t>(parseState_)`). -/
def Parse_State.toNat : Parse_State → Nat
  | Parse_State_Search_Sync => 0
  | Parse_State_Process_Voice => 1
  | Parse_State_Process_Data => 2

/-- One entry of `kSyncPatterns`. -/
structure SyncPatternDescriptor where
  id : SyncPatternId
  pattern : List Char

/-- The catalogue `kSyncPatterns`, in the order of the source. -/
def kSyncPatterns : List SyncPatternDescriptor :=
  [ ⟨SyncPatternId.DirectTs1Voice, "113111131333131311133333".toList⟩,
    ⟨SyncPatternId.DirectTs1Data, "331333313111313133311111".toList⟩,
    ⟨SyncPatternId.DirectTs2Voice, "133133333111331111311133".toList⟩,
    ⟨SyncPatternId.DirectTs2Data, "311311111333113333133311".toList⟩,
    ⟨SyncPatternId.BsVoice, "131111333113313313113313".toList⟩,
    ⟨SyncPatternId.BsData, "313131111133331113111133".toList⟩,
    ⟨SyncPatternId.MsVoice, "133313311131311113313331".toList⟩,
    ⟨SyncPatternId.MsData, "331333113133111133331111".toList⟩ ]

/-- Modelled from the spec: the message types `AMBEVoiceBurstMessage` and
`DMRRxStatsMessage` are declared in `message.hpp`, which is not part of the
sources.  A voice-burst event carries the 27 payload bytes and a fixed frame
count (the constant `kMaxFrames`, not recorded); a statistics event carries
the cumulative burst count, the symbol counter, the state, three signed
32-bit level fields and the overrun count, in the order of the constructor
arguments of `send_live_stats`. -/
inductive Message where
  | AMBEVoiceBurst (data : List Nat)
  | DMRRxStats (bursts symbol_counter parse_state : Nat)
      (min_ref center max_ref : Int) (execute_overruns : Nat)
  deriving DecidableEq, Repr

def MAX_BUFFER_SIZE : Nat := 512
def DMR_CACH_SYMBOLS : Nat := 12
def DMR_FRAME_SYMBOLS : Nat := 36
def DMR_FRAME2_HALF_SYMBOLS : Nat := 18
def DMR_SYNC_SYMBOLS : Nat := 24
def DIBIT_BUF_SIZE : Nat := 288 * 6
def kSyncHistorySize : Nat := 10240
def kCarrierLossSymbolLimit : Int := 1800
def kDmrNZeros : Nat := 60

/-- The data members of `DSDRxProcessor` that the symbol pipeline reads or
writes, with the two statics `execute_running` and `dmr_v`. -/
structure State where
  baseband_fs : Nat
  stat_update_threshold : Nat
  live_total_bursts_ : Nat
  configured : Bool
  parseState_ : Parse_State
  active_burst_index_ : Nat
  current_burst_start_absolute_ : Nat
  dibit_buf_ : Nat → Nat
  dibit_buf_index_ : Nat
  voice_dibits_ : Nat → Nat
  dibit_index_ : Nat
  sync_search_symbol_count_ : Nat
  carrier_present_ : Bool
  symbol_counter_ : Nat
  absolute_sample_index_ : Nat
  sync_history_ : Nat → Char
  sync_history_pos_ : Nat
  sync_history_count_ : Nat
  data_sync_hold_symbols_ : Int
  lbuf1_ : Nat → Int
  lbuf2_ : Nat → Int
  lbuf1_pos_ : Int
  lmin_ : Int
  lmax_ : Int
  symbol_samples_ : Nat → Int
  current_symbol_sum_ : Int
  current_symbol_count_ : Int
  jitter_ : Int
  jitter_enabled_ : Bool
  dmr_filter_enabled_ : Bool
  center_ : Int
  umid_ : Int
  lmid_ : Int
  max_sample_ : Int
  min_sample_ : Int
  max_ref_ : Int
  min_ref_ : Int
  last_filtered_sample_ : Int
  symbol_center_ : Int
  pending_samples_ : List Int
  stat_counter : Nat
  stats_drop_no_base_ : Nat
  stats_drop_midamble_ : Nat
  stats_drop_filtered_ : Nat
  stats_drop_slot_color_ : Nat
  stats_sync_hits_ts1_ : Nat
  execute_overrun_count_ : Nat
  execute_running : Bool
  dmr_v : Nat → Int
  pushed_ : List Message

/-- The member initialisers of the class declaration (`proc_dsd_rx.hpp`),
before the constructor body runs. -/
def State.declared : State where
  baseband_fs := 3072000
  stat_update_threshold := 200
  live_total_bursts_ := 0
  configured := false
  parseState_ := Parse_State_Search_Sync
  active_burst_index_ := 0
  current_burst_start_absolute_ := 0
  dibit_buf_ := fun _ => 0
  dibit_buf_index_ := 0
  voice_dibits_ := fun _ => 0
  dibit_index_ := 0
  sync_search_symbol_count_ := 0
  carrier_present_ := true
  symbol_counter_ := 0
  absolute_sample_index_ := 0
  sync_history_ := fun _ => Char.ofNat 0
  sync_history_pos_ := 0
  sync_history_count_ := 0
  data_sync_hold_symbols_ := 263
  lbuf1_ := fun _ => 0
  lbuf2_ := fun _ => 0
  lbuf1_pos_ := 0
  lmin_ := 0
  lmax_ := 0
  symbol_samples_ := fun _ => 0
  current_symbol_sum_ := 0
  current_symbol_count_ := 0
  jitter_ := -1
  jitter_enabled_ := false
  dmr_filter_enabled_ := false
  center_ := 0
  umid_ := 0
  lmid_ := 0
  max_sample_ := 15000
  min_sample_ := -15000
  max_ref_ := 12000
  min_ref_ := -12000
  last_filtered_sample_ := 0
  symbol_center_ := 4
  pending_samples_ := []
  stat_counter := 0
  stats_drop_no_base_ := 0
  stats_drop_midamble_ := 0
  stats_drop_filtered_ := 0
  stats_drop_slot_color_ := 0
  stats_sync_hits_ts1_ := 0
  execute_overrun_count_ := 0
  execute_running := false
  dmr_v := fun _ => 0
  pushed_ := []

/-- `DSDRxProcessor::resetToDefaultState` (proc_dsd_rx.cpp:172-218). -/
def resetToDefaultState (s : State) : State :=
  { s with
    dibit_buf_index_ := 0
    stat_counter := 0
    parseState_ := Parse_State_Search_Sync
    active_burst_index_ := 0
    current_burst_start_absolute_ := 0
    live_total_bursts_ := 0
    sync_search_symbol_count_ := 0
    carrier_present_ := true
    symbol_counter_ := 0
    absolute_sample_index_ := 0
    stats_drop_no_base_ := 0
    stats_drop_midamble_ := 0
    stats_drop_filtered_ := 0
    stats_drop_slot_color_ := 0
    symbol_samples_ := fun _ => 0
    current_symbol_sum_ := 0
    current_symbol_count_ := 0
    center_ := 0
    umid_ := 0
    lmid_ := 0
    max_sample_ := 15000
    min_sample_ := -15000
    max_ref_ := 12000
    min_ref_ := -12000
    last_filtered_sample_ := 0
    symbol_center_ := 4
    jitter_ := -1
    jitter_enabled_ := false
    dmr_filter_enabled_ := false
    lbuf1_pos_ := 0
    lmin_ := 0
    lmax_ := 0
    sync_history_ := fun _ => '0'
    sync_history_pos_ := 0
    sync_history_count_ := 0 }

/-- `DSDRxProcessor::send_live_stats` (proc_dsd_rx.cpp:433-444). -/
def send_live_stats (s : State) : State :=
  { s with
    pushed_ := s.pushed_ ++
      [Message.DMRRxStats s.live_total_bursts_ (s.symbol_counter_ % 2 ^ 32)
        s.parseState_.toNat s.min_ref_ s.center_ s.max_ref_ s.execute_overrun_count_] }

/-- `DSDRxProcessor::handle_external_voice` (proc_dsd_rx.cpp:515-528).  The
pointer argument is `none` for a null pointer, else the bytes it points at. -/
def handle_external_voice (s : State) (voice_bytes : Option (Nat → Nat)) : State :=
  match voice_bytes with
  | none => s
  | some bytes =>
    let s1 := { s with live_total_bursts_ := (s.live_total_bursts_ + 1) % 2 ^ 32 }
    let s2 := { s1 with
      pushed_ := s1.pushed_ ++ [Message.AMBEVoiceBurst ((List.range 27).map bytes)] }
    send_live_stats s2

/-- `DSDRxProcessor::handle_carrier_loss` (proc_dsd_rx.cpp:669-683). -/
def handle_carrier_loss (s : State) : State :=
  let s1 := { s with
    carrier_present_ := false
    jitter_ := -1
    center_ := 0
    sync_search_symbol_count_ := 0
    symbol_counter_ := 0
    parseState_ := Parse_State_Search_Sync
    active_burst_index_ := 0
    dibit_index_ := 0
    current_burst_start_absolute_ := 0 }
  { s1 with
    umid_ := Int.tdiv ((s1.max_sample_ - s1.center_) * 5) 8 + s1.center_
    lmid_ := Int.tdiv ((s1.min_sample_ - s1.center_) * 5) 8 + s1.center_
    max_ref_ := s1.max_sample_
    min_ref_ := s1.min_sample_ }

/-- `DSDRxProcessor::update_symbol_statistics` (proc_dsd_rx.cpp:685-688). -/
def update_symbol_statistics (s : State) (symbol_value : Int) : State :=
  { s with
    lbuf1_ := Function.update s.lbuf1_ s.lbuf1_pos_.toNat symbol_value
    lbuf1_pos_ := Int.tmod (s.lbuf1_pos_ + 1) 24 }

/-- `DSDRxProcessor::push_sync_char` (proc_dsd_rx.cpp:661-667). -/
def push_sync_char (s : State) (c : Char) : State :=
  { s with
    sync_history_ := Function.update s.sync_history_ s.sync_history_pos_ c
    sync_history_pos_ := (s.sync_history_pos_ + 1) % kSyncHistorySize
    sync_history_count_ :=
      if s.sync_history_count_ < kSyncHistorySize then s.sync_history_count_ + 1
      else s.sync_history_count_ }

/-- `DSDRxProcessor::build_sync_window` (proc_dsd_rx.cpp:645-659), for a
non-null `dest`: the content of `dest` after the call. -/
def build_sync_window (s : State) (dest : Nat → Char) : Nat → Char :=
  if s.sync_history_count_ < DMR_SYNC_SYMBOLS then
    fun i => if i < DMR_SYNC_SYMBOLS then '0' else dest i
  else
    let start := (s.sync_history_pos_ + kSyncHistorySize - DMR_SYNC_SYMBOLS) % kSyncHistorySize
    fun i =>
      if i < DMR_SYNC_SYMBOLS then s.sync_history_ ((start + i) % kSyncHistorySize)
      else dest i

/-- The lambda `matches` of `decode_sync_string`: the window equals the
pattern on the first `DMR_SYNC_SYMBOLS` characters; a null pattern never
matches.  A pattern is read as a C string, so the character after its last
one is the terminator. -/
def decode_sync_string.matches (sync_chars : Nat → Char) (pattern : Option (List Char)) : Bool :=
  match pattern with
  | none => false
  | some p => (List.range DMR_SYNC_SYMBOLS).all
      (fun i => decide (sync_chars i = p.getD i (Char.ofNat 0)))

/-- The lambda `get_pattern` of `decode_sync_string`. -/
def decode_sync_string.get_pattern (id : SyncPatternId) : Option (List Char) :=
  (kSyncPatterns.find? (fun desc => decide (desc.id = id))).map (fun desc => desc.pattern)

/-- `DSDRxProcessor::decode_sync_string` (proc_dsd_rx.cpp:446-513); `none` is
the null pointer. -/
def decode_sync_string (sync_chars : Option (Nat → Char)) : SyncPatternId :=
  match sync_chars with
  | none => SyncPatternId.Unknown
  | some w =>
    if decode_sync_string.matches w (decode_sync_string.get_pattern SyncPatternId.DirectTs1Voice) then
      SyncPatternId.DirectTs1Voice
    else if decode_sync_string.matches w (decode_sync_string.get_pattern SyncPatternId.DirectTs1Data) then
      SyncPatternId.DirectTs1Data
    else if decode_sync_string.matches w (decode_sync_string.get_pattern SyncPatternId.DirectTs2Voice) then
      SyncPatternId.DirectTs2Voice
    else if decode_sync_string.matches w (decode_sync_string.get_pattern SyncPatternId.DirectTs2Data) then
      SyncPatternId.DirectTs2Data
    else if decode_sync_string.matches w (decode_sync_string.get_pattern SyncPatternId.BsVoice) then
      SyncPatternId.BsVoice
    else if decode_sync_string.matches w (decode_sync_string.get_pattern SyncPatternId.BsData) then
      SyncPatternId.BsData
    else if decode_sync_string.matches w (decode_sync_string.get_pattern SyncPatternId.MsVoice) then
      SyncPatternId.MsVoice
    else if decode_sync_string.matches w (decode_sync_string.get_pattern SyncPatternId.MsData) then
      SyncPatternId.MsData
    else
      SyncPatternId.Unknown

/-- The lambda `wrap_index` of `process_decided_symbol`
(proc_dsd_rx.cpp:373-376). -/
def wrap_index (idx : Int) : Nat :=
  let mod := Int.tmod idx (DIBIT_BUF_SIZE : Int)
  (if mod < 0 then mod + (DIBIT_BUF_SIZE : Int) else mod).toNat

/-- The loop of the lambda `append_dibits`, from loop counter `i` with
`remaining = count - i` iterations left. -/
def append_dibits.loop (start : Int) : State → Nat → Nat → State
  | s, _, 0 => s
  | s, i, remaining + 1 =>
    if s.dibit_index_ < 108 then
      let buf_index := wrap_index (start + (i : Int))
      append_dibits.loop start
        { s with
          voice_dibits_ := Function.update s.voice_dibits_ s.dibit_index_ (s.dibit_buf_ buf_index)
          dibit_index_ := s.dibit_index_ + 1 }
        (i + 1) remaining
    else s

/-- The lambda `append_dibits` of `process_decided_symbol`
(proc_dsd_rx.cpp:378-383). -/
def append_dibits (s : State) (start : Int) (count : Nat) : State :=
  append_dibits.loop start s 0 count

/-- One iteration of the packing loop of `process_decided_symbol`
(proc_dsd_rx.cpp:404-411), on the local array `burst_bytes`. -/
def burst_bytes.step (voice_dibits : Nat → Nat) (bytes : Nat → Nat) (i : Nat) : Nat → Nat :=
  let temp := (voice_dibits i &&& 0x03) % 2 ^ 8
  let byte_index := i / 4
  let slot := i % 4
  let shift := 6 - slot * 2
  let cleared := if slot = 0 then Function.update bytes byte_index 0 else bytes
  Function.update cleared byte_index
    ((cleared byte_index ||| ((temp <<< shift) % 2 ^ 8)) % 2 ^ 8)

/-- The packing loop of `process_decided_symbol` (proc_dsd_rx.cpp:402-412):
the content of `burst_bytes` for a given content of `voice_dibits_`. -/
def burst_bytes (voice_dibits : Nat → Nat) : Nat → Nat :=
  (List.range 108).foldl (burst_bytes.step voice_dibits) (fun _ => 0)

/-- The local `offset` of the voice branch (proc_dsd_rx.cpp:371):
`static_cast<uint16_t>(symbol_counter_ - current_burst_start_absolute_)`. -/
def voice_offset (s : State) : Nat :=
  ((((s.symbol_counter_ : Int) - (s.current_burst_start_absolute_ : Int)) % 2 ^ 64) % 2 ^ 16).toNat

/-- The local `sync_window` and `match_id` of the search branch
(proc_dsd_rx.cpp:315-328). -/
def search_match_id (s : State) : SyncPatternId :=
  if DMR_SYNC_SYMBOLS ≤ s.sync_history_count_ then
    decode_sync_string (some (build_sync_window s (fun _ => Char.ofNat 0)))
  else SyncPatternId.Unknown

/-- The ring write that opens `process_decided_symbol`
(proc_dsd_rx.cpp:310-311). -/
def process_decided_symbol.store (s0 : State) (dibit : Nat) : State :=
  { s0 with
    dibit_buf_ := Function.update s0.dibit_buf_ s0.dibit_buf_index_ dibit
    dibit_buf_index_ := (s0.dibit_buf_index_ + 1) % DIBIT_BUF_SIZE }

/-- The last `append_dibits` of a burst (proc_dsd_rx.cpp:398-400): the state in
which `burst_bytes` is packed and `handle_external_voice` is called. -/
def process_decided_symbol.complete_frame (s : State) : State :=
  append_dibits s
    ((s.dibit_buf_index_ : Int) - ((DMR_FRAME_SYMBOLS : Nat) : Int))
    DMR_FRAME_SYMBOLS

/-- The search branch, proc_dsd_rx.cpp:317-321: the references follow the
tracked extremes once the history holds a window. -/
def process_decided_symbol.resync_refs (s : State) : State :=
  if DMR_SYNC_SYMBOLS ≤ s.sync_history_count_ ∧
      (s.max_ref_ ≠ s.max_sample_ ∨ s.min_ref_ ≠ s.min_sample_) then
    { s with max_ref_ := s.max_sample_, min_ref_ := s.min_sample_ }
  else s

/-- The search branch, proc_dsd_rx.cpp:331-349: what a `DirectTs1Voice` and a
`DirectTs1Data` match have in common.  `qsort` with `compare_int32` leaves
`lbuf2_` in ascending order. -/
def process_decided_symbol.level_refresh (s : State) : State :=
  let a := { s with carrier_present_ := true, sync_search_symbol_count_ := 0 }
  let sorted := List.insertionSort (fun x y : Int => x ≤ y) ((List.range 24).map a.lbuf1_)
  let b := { a with lbuf2_ := fun i => if i < 24 then sorted.getD i 0 else a.lbuf2_ i }
  let c := { b with lmin_ := Int.tdiv (b.lbuf2_ 1 + b.lbuf2_ 2 + b.lbuf2_ 3) 3 }
  let t_max := 24
  let d := { c with
    lmax_ := Int.tdiv (c.lbuf2_ (t_max - 3) + c.lbuf2_ (t_max - 2) + c.lbuf2_ (t_max - 1)) 3 }
  let e := { d with max_sample_ := Int.tdiv (d.max_sample_ + d.lmax_) 2 }
  let f := { e with min_sample_ := Int.tdiv (e.min_sample_ + e.lmin_) 2 }
  let g := { f with center_ := Int.tdiv (f.max_sample_ + f.min_sample_) 2 }
  { g with
    umid_ := Int.tdiv ((g.max_sample_ - g.center_) * 5) 8 + g.center_
    lmid_ := Int.tdiv ((g.min_sample_ - g.center_) * 5) 8 + g.center_
    max_ref_ := g.max_sample_
    min_ref_ := g.min_sample_
    jitter_enabled_ := true
    dmr_filter_enabled_ := true }

/-- The sums, differences and products that the level refresh forms on the
way (proc_dsd_rx.cpp:336-344), in the order of the source. -/
def process_decided_symbol.level_refresh_intermediates (s : State) : List Int :=
  let r := process_decided_symbol.level_refresh s
  [ r.lbuf2_ 1 + r.lbuf2_ 2,
    r.lbuf2_ 1 + r.lbuf2_ 2 + r.lbuf2_ 3,
    r.lbuf2_ 21 + r.lbuf2_ 22,
    r.lbuf2_ 21 + r.lbuf2_ 22 + r.lbuf2_ 23,
    s.max_sample_ + r.lmax_,
    s.min_sample_ + r.lmin_,
    r.max_sample_ + r.min_sample_,
    r.max_sample_ - r.center_,
    (r.max_sample_ - r.center_) * 5,
    Int.tdiv ((r.max_sample_ - r.center_) * 5) 8 + r.center_,
    r.min_sample_ - r.center_,
    (r.min_sample_ - r.center_) * 5,
    Int.tdiv ((r.min_sample_ - r.center_) * 5) 8 + r.center_ ]

/-- The search branch, proc_dsd_rx.cpp:351-363: the two ways out of a
`DirectTs1` match, and the hit counter. -/
def process_decided_symbol.leave_search (s : State) (match_id : SyncPatternId) : State :=
  let k :=
    if match_id = SyncPatternId.DirectTs1Voice then
      { s with
        current_burst_start_absolute_ :=
          if 90 ≤ s.symbol_counter_ then s.symbol_counter_ - 90 else 0
        active_burst_index_ := 0
        dibit_index_ := 0
        parseState_ := Parse_State_Process_Voice
        sync_search_symbol_count_ := 0 }
    else
      { s with
        parseState_ := Parse_State_Process_Data
        data_sync_hold_symbols_ := 263 }
  { k with stats_sync_hits_ts1_ := (k.stats_sync_hits_ts1_ + 1) % 2 ^ 32 }

/-- The branch `parseState_ == Parse_State_Search_Sync` of
`process_decided_symbol` (proc_dsd_rx.cpp:313-369). -/
def process_decided_symbol.search_sync (s : State) : State :=
  let s1 := { s with sync_search_symbol_count_ := (s.sync_search_symbol_count_ + 1) % 2 ^ 32 }
  let s2 := process_decided_symbol.resync_refs s1
  let match_id := search_match_id s2
  let s3 :=
    if match_id = SyncPatternId.DirectTs1Voice ∨ match_id = SyncPatternId.DirectTs1Data then
      process_decided_symbol.leave_search (process_decided_symbol.level_refresh s2) match_id
    else s2
  if kCarrierLossSymbolLimit.toNat % 2 ^ 32 ≤ s3.sync_search_symbol_count_ then
    handle_carrier_loss s3
  else s3

/-- The end of a burst, proc_dsd_rx.cpp:402-422: pack, emit, and move to the
next burst or out of the superframe. -/
def process_decided_symbol.emit_burst (a : State) : State :=
  let b := handle_external_voice a (some (burst_bytes a.voice_dibits_))
  if b.active_burst_index_ = 5 then
    { b with
      parseState_ := Parse_State_Process_Data
      data_sync_hold_symbols_ := 209
      sync_search_symbol_count_ := 0 }
  else
    { b with
      active_burst_index_ := (b.active_burst_index_ + 1) % 2 ^ 8
      dibit_index_ := 0 }

/-- The branch `parseState_ == Parse_State_Process_Voice` of
`process_decided_symbol` (proc_dsd_rx.cpp:370-423). -/
def process_decided_symbol.process_voice (s : State) : State :=
  let offset := voice_offset s
  let burst_offset : Int := (s.active_burst_index_ : Int) * 288
  if (offset : Int) = (91 + burst_offset) % 2 ^ 16 then
    let a := append_dibits s
      ((s.dibit_buf_index_ : Int) -
        ((DMR_FRAME_SYMBOLS + DMR_FRAME2_HALF_SYMBOLS + DMR_SYNC_SYMBOLS + 1 : Nat) : Int))
      DMR_FRAME_SYMBOLS
    append_dibits a
      ((a.dibit_buf_index_ : Int) - ((DMR_FRAME2_HALF_SYMBOLS + DMR_SYNC_SYMBOLS + 1 : Nat) : Int))
      DMR_FRAME2_HALF_SYMBOLS
  else if (offset : Int) = (108 + burst_offset) % 2 ^ 16 then
    append_dibits s
      ((s.dibit_buf_index_ : Int) - ((DMR_FRAME2_HALF_SYMBOLS : Nat) : Int))
      DMR_FRAME2_HALF_SYMBOLS
  else if (offset : Int) = (144 + burst_offset) % 2 ^ 16 then
    process_decided_symbol.emit_burst (process_decided_symbol.complete_frame s)
  else s

/-- The branch `parseState_ == Parse_State_Process_Data` of
`process_decided_symbol` (proc_dsd_rx.cpp:424-430). -/
def process_decided_symbol.process_data (s : State) : State :=
  let a := { s with data_sync_hold_symbols_ := s.data_sync_hold_symbols_ - 1 }
  if a.data_sync_hold_symbols_ ≤ 0 then
    { a with
      parseState_ := Parse_State_Search_Sync
      sync_search_symbol_count_ := 0 }
  else a

/-- `DSDRxProcessor::process_decided_symbol` (proc_dsd_rx.cpp:309-431). -/
def process_decided_symbol (s0 : State) (dibit : Nat) : State :=
  let s := process_decided_symbol.store s0 dibit
  match s.parseState_ with
  | Parse_State_Search_Sync => process_decided_symbol.search_sync s
  | Parse_State_Process_Voice => process_decided_symbol.process_voice s
  | Parse_State_Process_Data => process_decided_symbol.process_data s

/-- The table `dmr_coeffs_q23` (proc_dsd_rx.cpp:71-133). -/
def dmr_coeffs_q23 : List Int :=
  [37032, 33065, 19611, -1611, -26605, -49737, -64869, -66786, -52609, -22867,
   18080, 62446, 100273, 121365, 117566, 84935, 25326, -53007, -136037, -205827,
   -243380, -232032, -160770, -26851, 162827, 391930, 636544, 868433, 1059184,
   1184549, 1228249, 1184549, 1059184, 868433, 636544, 391930, 162827, -26851,
   -160770, -232032, -243380, -205827, -136037, -53007, 25326, 84935, 117566,
   121365, 100273, 62446, 18080, -22867, -52609, -66786, -64869, -49737, -26605,
   -1611, 19611, 33065, 37032]

def INT16_MAX : Int := 32767
def INT16_MIN : Int := -32768

/-- The function `saturate_to_i16` (proc_dsd_rx.cpp:138-143). -/
def saturate_to_i16 (x : Int) : Int :=
  if x > INT16_MAX then INT16_MAX
  else if x < INT16_MIN then INT16_MIN
  else Int.bmod x (2 ^ 16)

/-- The function `dmr_filter` (proc_dsd_rx.cpp:148-168): the state with the
shifted delay line, and the returned sample.  `acc >> 23` is the arithmetic
shift, the floor of the quotient by `2 ^ 23`; the cast to `int32_t` wraps. -/
def dmr_filter (s : State) (sample : Int) : State × Int :=
  let shifted : Nat → Int := fun i => if i < kDmrNZeros then s.dmr_v (i + 1) else s.dmr_v i
  let v := Function.update shifted kDmrNZeros sample
  let acc : Int :=
    (List.range (kDmrNZeros + 1)).foldl (fun acc i => acc + dmr_coeffs_q23.getD i 0 * v i) 0
  let y : Int := Int.bmod (acc / 2 ^ 23) (2 ^ 32)
  ({ s with dmr_v := v }, saturate_to_i16 y)

/-- The accumulation loop of `dmr_filter` (proc_dsd_rx.cpp:157-162) over the
first `n` taps in `int64_t` arithmetic: every product and every sum is
wrapped to 64 bits. -/
def dmr_filter.acc64 (v : Nat → Int) (n : Nat) : Int :=
  (List.range n).foldl
    (fun acc i => Int.bmod (acc + Int.bmod (dmr_coeffs_q23.getD i 0 * v i) (2 ^ 64)) (2 ^ 64)) 0

/-- What `getSymbolFromBuffer` leaves behind: the return value, the state and
the four reference parameters. -/
structure SymbolResult where
  ok : Bool
  s : State
  offset : Nat
  sum_out : Int
  count_out : Int
  symbol_out : Int

/-- The timing correction at the head of the loop body of
`getSymbolFromBuffer` (proc_dsd_rx.cpp:588-595): the loop counter and the
state it leaves. -/
def getSymbolFromBuffer.timing (s : State) (loop_i : Int) : Int × State :=
  if loop_i = 0 ∧ s.parseState_ = Parse_State_Search_Sync then
    let i1 :=
      if s.jitter_ ≥ s.symbol_center_ - 1 ∧ s.jitter_ ≤ s.symbol_center_ then loop_i - 1
      else if s.jitter_ ≥ s.symbol_center_ + 1 ∧ s.jitter_ ≤ s.symbol_center_ + 2 then
        loop_i + 1
      else loop_i
    (i1, { s with jitter_ := -1 })
  else (loop_i, s)

/-- One sample of the loop body of `getSymbolFromBuffer`
(proc_dsd_rx.cpp:601-628 and 636): the state it leaves and `filtered_int`. -/
def getSymbolFromBuffer.sample (s : State) (loop_i : Int) (pre_filter_sample : Int) :
    State × Int :=
  let s := { s with absolute_sample_index_ := (s.absolute_sample_index_ + 1) % 2 ^ 64 }
  let filtered : State × Int :=
    if s.dmr_filter_enabled_ then dmr_filter s pre_filter_sample
    else (s, pre_filter_sample)
  let s := filtered.1
  let filtered_int : Int := filtered.2
  let s :=
    if s.jitter_ < 0 then
      let maxref_scaled := Int.tdiv (s.max_ref_ * 5) 4
      let minref_scaled := Int.tdiv (s.min_ref_ * 5) 4
      let should_set : Bool :=
        if filtered_int > s.center_ then
          decide (filtered_int ≤ maxref_scaled ∧ s.last_filtered_sample_ < s.center_)
        else
          decide (filtered_int ≥ minref_scaled ∧ s.last_filtered_sample_ > s.center_)
      if should_set then { s with jitter_ := loop_i } else s
    else s
  ({ s with last_filtered_sample_ := filtered_int }, filtered_int)

/-- The `for` loop of `getSymbolFromBuffer` (proc_dsd_rx.cpp:587-637) and the
statements after it (639-642).  `rest` is `samples` from `offset` on, so
`offset >= samples.size()` is `rest = []`. -/
def getSymbolFromBuffer.loop (samples_per_symbol : Int) :
    List Int → Int → State → Nat → Int → Int → Int → SymbolResult
  | rest, loop_i, s, offset, sum_out, count_out, symbol_out =>
    if loop_i < samples_per_symbol then
      let corrected := getSymbolFromBuffer.timing s loop_i
      match rest with
      | [] => ⟨false, corrected.2, offset, sum_out, count_out, symbol_out⟩
      | pre_filter_sample :: rest1 =>
        let taken := getSymbolFromBuffer.sample corrected.2 corrected.1 pre_filter_sample
        let acc : Int × Int :=
          if corrected.1 = taken.1.symbol_center_ - 1 ∨
              corrected.1 = taken.1.symbol_center_ + 1 then
            (sum_out + taken.2, count_out + 1)
          else (sum_out, count_out)
        getSymbolFromBuffer.loop samples_per_symbol rest1 (corrected.1 + 1) taken.1
          (offset + 1) acc.1 acc.2 symbol_out
    else
      let divisor := if count_out > 0 then count_out else 1
      let symbol_out := Int.tdiv sum_out divisor
      let s := { s with symbol_counter_ := (s.symbol_counter_ + 1) % 2 ^ 64 }
      ⟨true, s, offset, sum_out, count_out, symbol_out⟩
termination_by structural rest _ _ _ _ _ _ => rest

/-- The crossing test of `getSymbolFromBuffer` (proc_dsd_rx.cpp:609-622), the
local `should_set`, for the sample value `filtered_int` in the state `s`. -/
def getSymbolFromBuffer.crossing (s : State) (filtered_int : Int) : Bool :=
  let maxref_scaled := Int.tdiv (s.max_ref_ * 5) 4
  let minref_scaled := Int.tdiv (s.min_ref_ * 5) 4
  if filtered_int > s.center_ then
    decide (filtered_int ≤ maxref_scaled ∧ s.last_filtered_sample_ < s.center_)
  else
    decide (filtered_int ≥ minref_scaled ∧ s.last_filtered_sample_ > s.center_)

/-- The `for` loop of `getSymbolFromBuffer` once more, recording for every
sample that it processes the loop counter at which the sample is processed
(after the timing correction), whether the sample meets the crossing test,
and `filtered_int`. -/
def getSymbolFromBuffer.steps (samples_per_symbol : Int) :
    List Int → Int → State → List (Int × Bool × Int)
  | rest, loop_i, s =>
    if loop_i < samples_per_symbol then
      let corrected := getSymbolFromBuffer.timing s loop_i
      match rest with
      | [] => []
      | pre_filter_sample :: rest1 =>
        let taken := getSymbolFromBuffer.sample corrected.2 corrected.1 pre_filter_sample
        (corrected.1, getSymbolFromBuffer.crossing corrected.2 taken.2, taken.2) ::
          getSymbolFromBuffer.steps samples_per_symbol rest1 (corrected.1 + 1) taken.1
    else []
termination_by structural rest _ _ => rest

/-- `DSDRxProcessor::getSymbolFromBuffer` (proc_dsd_rx.cpp:574-643).  The
reference parameters come in with the values of the caller and leave in the
result.  `size_t` is 32 bits wide on the target. -/
def getSymbolFromBuffer (s : State) (samples : List Int) (offset : Nat)
    (sum_out count_out symbol_out : Int) : SymbolResult :=
  let samples_per_symbol : Int := 10
  if ((samples.length : Int) - (offset : Int)) % 2 ^ 32 < samples_per_symbol % 2 ^ 32 then
    ⟨false, s, offset, sum_out, count_out, symbol_out⟩
  else
    getSymbolFromBuffer.loop samples_per_symbol (samples.drop offset) 0 s offset 0 0 symbol_out

/-- The body of the `while` loop of `process_demod_block` after a successful
`getSymbolFromBuffer` (proc_dsd_rx.cpp:554-564). -/
def process_demod_block.decide_symbol (s : State) (symbol : Int) : State :=
  let s := update_symbol_statistics s symbol
  let sign_char : Char := if symbol > s.center_ then '1' else '3'
  let s := push_sync_char s sign_char
  let dibit : Nat :=
    if symbol > s.center_ then (if symbol > s.umid_ then 0b01 else 0b00)
    else (if symbol < s.lmid_ then 0b11 else 0b10)
  process_decided_symbol s (dibit &&& 0x03)

/-- The `while` loop of `process_demod_block` (proc_dsd_rx.cpp:546-566);
`fuel` bounds the number of iterations.  The result is the state, `offset`
and `symbols_this_block`. -/
def process_demod_block.loop (samples : List Int) (min_samples : Nat) :
    Nat → State → Nat → Nat → State × Nat × Nat
  | 0, s, offset, symbols_this_block => (s, offset, symbols_this_block)
  | fuel + 1, s, offset, symbols_this_block =>
    if ((samples.length : Int) - (offset : Int)) % 2 ^ 32 ≥ (min_samples : Int) then
      let r := getSymbolFromBuffer s samples offset 0 0 0
      if r.ok then
        process_demod_block.loop samples min_samples fuel
          (process_demod_block.decide_symbol r.s r.symbol_out) r.offset
          ((symbols_this_block + 1) % 2 ^ 32)
      else (r.s, r.offset, symbols_this_block)
    else (s, offset, symbols_this_block)

/-- `DSDRxProcessor::process_demod_block` (proc_dsd_rx.cpp:530-572) on the
samples of the block `audio`.  Every iteration of the loop that does not
leave it consumes a sample, so `samples.length + 1` iterations are enough. -/
def process_demod_block (s : State) (block : List Int) : State :=
  let s := { s with stats_drop_filtered_ := block.length % 2 ^ 32 }
  let samples := s.pending_samples_ ++ block
  let s := { s with pending_samples_ := [] }
  let samples_per_symbol : Nat := 10
  let kSymbolMargin : Nat := 10
  let min_samples := samples_per_symbol + kSymbolMargin
  let r := process_demod_block.loop samples min_samples (samples.length + 1) s 0 0
  let s := { r.1 with stats_drop_slot_color_ := r.2.2 }
  { s with pending_samples_ := samples.drop r.2.1 }

/-- The `while` loop of `process_demod_block` once more, recording for every
successful `getSymbolFromBuffer` the value of `offset` before and after the
call: the samples `samples[before .. after)` are the ones that the symbol
decision has consumed. -/
def process_demod_block.spans (samples : List Int) (min_samples : Nat) :
    Nat → State → Nat → List (Nat × Nat)
  | 0, _, _ => []
  | fuel + 1, s, offset =>
    if ((samples.length : Int) - (offset : Int)) % 2 ^ 32 ≥ (min_samples : Int) then
      let r := getSymbolFromBuffer s samples offset 0 0 0
      if r.ok then
        (offset, r.offset) :: process_demod_block.spans samples min_samples fuel
          (process_demod_block.decide_symbol r.s r.symbol_out) r.offset
      else []
    else []

/-- The `while` loop of `process_demod_block` once more, recording the symbol
value of every symbol decision. -/
def process_demod_block.symbols (samples : List Int) (min_samples : Nat) :
    Nat → State → Nat → List Int
  | 0, _, _ => []
  | fuel + 1, s, offset =>
    if ((samples.length : Int) - (offset : Int)) % 2 ^ 32 ≥ (min_samples : Int) then
      let r := getSymbolFromBuffer s samples offset 0 0 0
      if r.ok then
        r.symbol_out :: process_demod_block.symbols samples min_samples fuel
          (process_demod_block.decide_symbol r.s r.symbol_out) r.offset
      else []
    else []

/-- The symbol values that one `process_demod_block` decides. -/
def process_demod_block.decided (s : State) (block : List Int) : List Int :=
  let s := { s with stats_drop_filtered_ := block.length % 2 ^ 32 }
  let samples := s.pending_samples_ ++ block
  let s := { s with pending_samples_ := [] }
  process_demod_block.symbols samples 20 (samples.length + 1) s 0

/-- The local `offset` of `process_demod_block` when the loop is left
(proc_dsd_rx.cpp:571). -/
def process_demod_block.consumed (s : State) (block : List Int) : Nat :=
  let s := { s with stats_drop_filtered_ := block.length % 2 ^ 32 }
  let samples := s.pending_samples_ ++ block
  let s := { s with pending_samples_ := [] }
  (process_demod_block.loop samples 20 (samples.length + 1) s 0 0).2.1

/-- The spans of the symbol decisions of one `process_demod_block`. -/
def process_demod_block.symbol_spans (s : State) (block : List Int) : List (Nat × Nat) :=
  let s := { s with stats_drop_filtered_ := block.length % 2 ^ 32 }
  let samples := s.pending_samples_ ++ block
  let s := { s with pending_samples_ := [] }
  process_demod_block.spans samples 20 (samples.length + 1) s 0

/-- The collaborators of `execute` that live outside this file, with `X`
their joint state: `decim_0.execute`, `decim_1.execute` and `demod.execute`
turn a baseband block into demodulated samples, `audio_output.write` takes
the samples. -/
structure FrontEnd (X : Type) where
  demodulate : X → List (Int × Int) → X × List Int
  audio_write : X → List Int → X

/-- `DSDRxProcessor::execute` (proc_dsd_rx.cpp:220-262), with
`DSD_AUDIO_TO_SD` and `DEBUG` both 0 as in `proc_dsd_rx.hpp`. -/
def execute {X : Type} (fe : FrontEnd X) (p : State × X) (buffer : List (Int × Int)) :
    State × X :=
  if p.1.configured = false then p
  else if p.1.execute_running then
    ({ p.1 with execute_overrun_count_ := (p.1.execute_overrun_count_ + 1) % 2 ^ 32 }, p.2)
  else
    let s := { p.1 with execute_running := true }
    let demod_out := fe.demodulate p.2 buffer
    let s := process_demod_block s demod_out.2
    let x := fe.audio_write demod_out.1 demod_out.2
    ({ s with execute_running := false }, x)

/-- The part of `DSDRxProcessor::configure_defaults` (proc_dsd_rx.cpp:287-307)
that writes members of the state. -/
def configure_defaults (s : State) : State :=
  let s := { s with baseband_fs := 3072000 }
  let s := { s with symbol_center_ := 4 }
  let s := resetToDefaultState s
  let s := { s with dibit_buf_ := fun _ => 0 }
  { s with configured := true }

/-- The processor as the constructor leaves it. -/
def State.constructed : State := configure_defaults State.declared

/-! ## Vocabulary of the statements -/

/-- The first `DMR_SYNC_SYMBOLS` characters behind a `const char*`, as a
list. -/
def window24 (w : Nat → Char) : List Char := (List.range DMR_SYNC_SYMBOLS).map w

/-- The 24 most recent polarity characters, oldest first, as
`build_sync_window` writes them into the zeroed local `sync_window` of
`process_decided_symbol`. -/
def sync_window (s : State) : List Char :=
  window24 (build_sync_window s (fun _ => Char.ofNat 0))

/-- The pattern that `kSyncPatterns` holds for an identity (the empty list
for an identity without entry). -/
def pattern_of (id : SyncPatternId) : List Char :=
  (decode_sync_string.get_pattern id).getD []

/-- A first-match-wins search of a window in a list of tagged patterns. -/
def first_match (W : List Char) : List (SyncPatternId × List Char) → SyncPatternId
  | [] => SyncPatternId.Unknown
  | (id, p) :: rest => if W = p then id else first_match W rest

/-- The state with another sync history in place of its own. -/
def with_sync_history (s : State) (h : Nat → Char) (pos count : Nat) : State :=
  { s with sync_history_ := h, sync_history_pos_ := pos, sync_history_count_ := count }

/-- The tests of `decode_sync_string` run in a given order of identities:
the first identity whose catalogue pattern matches the window wins. -/
def decode_in_order (w : Nat → Char) : List SyncPatternId → SyncPatternId
  | [] => SyncPatternId.Unknown
  | id :: rest =>
    if decode_sync_string.matches w (decode_sync_string.get_pattern id) then id
    else decode_in_order w rest

/-- The order in which `decode_sync_string` tests the identities
(proc_dsd_rx.cpp:472-510). -/
def decode_order : List SyncPatternId :=
  [SyncPatternId.DirectTs1Voice, SyncPatternId.DirectTs1Data, SyncPatternId.DirectTs2Voice,
   SyncPatternId.DirectTs2Data, SyncPatternId.BsVoice, SyncPatternId.BsData,
   SyncPatternId.MsVoice, SyncPatternId.MsData]

/-- Spans that follow one another without gap or overlap from `a` to `b`,
each 9, 10 or 11 samples long. -/
def tiles : Nat → List (Nat × Nat) → Nat → Prop
  | a, [], b => a = b
  | a, (x, y) :: rest, b => x = a ∧ (y = x + 9 ∨ y = x + 10 ∨ y = x + 11) ∧ tiles y rest b

/-- The loop counter of the first recorded sample, at a counter of 0 or more,
that meets the crossing test. -/
def first_crossing (tr : List (Int × Bool × Int)) : Option Int :=
  (tr.find? (fun e => e.2.1 && decide (0 ≤ e.1))).map (fun e => e.1)

/-- The values `filtered_int` of the recorded samples whose loop counter is
`center - 1` or `center + 1`. -/
def accumulated (tr : List (Int × Bool × Int)) (center : Int) : List Int :=
  (tr.filter (fun e => decide (e.1 = center - 1 ∨ e.1 = center + 1))).map (fun e => e.2.2)

/-- The range of `int16_t`. -/
def fits_int16 (x : Int) : Prop := -32768 ≤ x ∧ x ≤ 32767

/-- The range of `int32_t`. -/
def fits_int32 (x : Int) : Prop := -2 ^ 31 ≤ x ∧ x < 2 ^ 31

/-- The range of `int64_t`. -/
def fits_int64 (x : Int) : Prop := -2 ^ 63 ≤ x ∧ x < 2 ^ 63

/-- The tracked extremes are ordered and of `int16_t` size, and so are the
entries of the level window and the samples carried over. -/
def LevelsInv (s : State) : Prop :=
  fits_int16 s.min_sample_ ∧ s.min_sample_ ≤ s.max_sample_ ∧ fits_int16 s.max_sample_ ∧
  (∀ i, fits_int16 (s.lbuf1_ i)) ∧ ∀ x ∈ s.pending_samples_, fits_int16 x

/-- The state with other values in the three members that only
`process_demod_block` itself writes: the two block statistics and the
samples carried over. -/
def with_block_fields (s : State) (filtered slot_color : Nat) (pending : List Int) : State :=
  { s with
    stats_drop_filtered_ := filtered
    stats_drop_slot_color_ := slot_color
    pending_samples_ := pending }

/-- The byte that dibits `4 j .. 4 j + 3` pack into, the first dibit in the
two most significant bits. -/
def packed_byte (v : Nat → Nat) (j : Nat) : Nat :=
  ((v (4 * j) &&& 3) <<< 6) ||| ((v (4 * j + 1) &&& 3) <<< 4) |||
    ((v (4 * j + 2) &&& 3) <<< 2) ||| (v (4 * j + 3) &&& 3)

/-- The voice bursts among the messages handed to the queue. -/
def voice_bursts : List Message → List (List Nat)
  | [] => []
  | Message.AMBEVoiceBurst data :: rest => data :: voice_bursts rest
  | Message.DMRRxStats _ _ _ _ _ _ _ :: rest => voice_bursts rest

/-- The state `s1` in which `process_decided_symbol` is called, against the
state `s` that the previous call left.  In between `getSymbolFromBuffer` has
decided one symbol, so `symbol_counter_` is one higher, and
`getSymbolFromBuffer`, `update_symbol_statistics`, `push_sync_char`,
`process_demod_block` and `execute` may have written the members they own
(slicer, level window, sync history, pending samples, block statistics,
overrun guard).  Every other member is as the previous call left it. -/
def SymbolDecided (s s1 : State) : Prop :=
  s1 = { s with
    symbol_counter_ := (s.symbol_counter_ + 1) % 2 ^ 64
    absolute_sample_index_ := s1.absolute_sample_index_
    jitter_ := s1.jitter_
    last_filtered_sample_ := s1.last_filtered_sample_
    dmr_v := s1.dmr_v
    lbuf1_ := s1.lbuf1_
    lbuf1_pos_ := s1.lbuf1_pos_
    sync_history_ := s1.sync_history_
    sync_history_pos_ := s1.sync_history_pos_
    sync_history_count_ := s1.sync_history_count_
    stats_drop_filtered_ := s1.stats_drop_filtered_
    stats_drop_slot_color_ := s1.stats_drop_slot_color_
    pending_samples_ := s1.pending_samples_
    execute_running := s1.execute_running
    execute_overrun_count_ := s1.execute_overrun_count_ }

/-- A stream of decided symbols: `pre i` is the state in which
`process_decided_symbol` is called for symbol `i`, with dibit `d i`. -/
def DecidedStream (pre : Nat → State) (d : Nat → Nat) : Prop :=
  ∀ i, SymbolDecided (process_decided_symbol (pre i) (d i)) (pre (i + 1))

/-- The stream that feeds the dibits `d` from `s0` on and changes nothing
between two calls but `symbol_counter_`. -/
def feed (s0 : State) (d : Nat → Nat) : Nat → State
  | 0 => s0
  | i + 1 =>
    let s := process_decided_symbol (feed s0 d i) (d i)
    { s with symbol_counter_ := (s.symbol_counter_ + 1) % 2 ^ 64 }

/-- The state of the search branch once the counter and the references are
brought up to date (proc_dsd_rx.cpp:314-321). -/
def searched (s : State) : State :=
  process_decided_symbol.resync_refs
    { s with sync_search_symbol_count_ := (s.sync_search_symbol_count_ + 1) % 2 ^ 32 }

/-- The members that steer `process_decided_symbol`, apart from the voice
frame under construction. -/
def control (s : State) :
    Parse_State × Nat × Nat × Nat × Nat × List Message × Int × (Nat → Nat) × Nat × Nat :=
  (s.parseState_, s.active_burst_index_, s.current_burst_start_absolute_, s.symbol_counter_,
    s.live_total_bursts_, s.pushed_, s.data_sync_hold_symbols_, s.dibit_buf_,
    s.dibit_buf_index_, s.sync_search_symbol_count_)

/-- The difference `symbol_counter_ - current_burst_start_absolute_` in
`uint64_t` arithmetic, before the cast to `uint16_t` of `voice_offset`. -/
def burst_clock (s : State) : Int :=
  ((s.symbol_counter_ : Int) - (s.current_burst_start_absolute_ : Int)) % 2 ^ 64

/-- Control state of the voice branch `t` symbols after a match made at burst
clock `o`: `B` is the burst start, `L` and `V` are the burst counter and the
number of emitted bursts at the match. -/
def VoiceInv (o B L V : Nat) (s : State) (t : Nat) : Prop :=
  s.parseState_ = Parse_State_Process_Voice ∧
  s.current_burst_start_absolute_ = B ∧
  burst_clock s = ((o + t : Nat) : Int) ∧
  s.active_burst_index_ = (o + t + 143) / 288 ∧
  s.live_total_bursts_ % 2 ^ 32 = (L + (o + t + 143) / 288) % 2 ^ 32 ∧
  (voice_bursts s.pushed_).length = V + (o + t + 143) / 288

/-- The dibit passed on the symbol whose burst clock is `n`, for a match at
symbol `m` of the stream made at burst clock 90. -/
def clocked (d : Nat → Nat) (m n : Nat) : Nat := d (m + n - 90)

/-- Dibit `j` of the voice frame of burst `k`: the 54 dibits at
clocks `13 + 288 k ..`, then the 54 at clocks `91 + 288 k ..`. -/
def frame_dibit (d : Nat → Nat) (m k j : Nat) : Nat :=
  if j < 54 then clocked d m (13 + 288 * k + j) else clocked d m (91 + 288 * k + (j - 54))

/-- How many dibits of the current frame are collected once the symbol at
burst clock `x` of burst `k` is processed. -/
def frame_fill (k x : Nat) : Nat :=
  if x < 91 + 288 * k then 0 else if x < 108 + 288 * k then 54 else 72

/-- The voice frame under construction `t` symbols after a match at symbol
`m` made at burst clock 90. -/
def FrameInv (d : Nat → Nat) (m : Nat) (s : State) (t : Nat) : Prop :=
  s.dibit_index_ = frame_fill ((t + 233) / 288) (t + 89) ∧
  ∀ j, j < s.dibit_index_ → s.voice_dibits_ j = frame_dibit d m ((t + 233) / 288) j

/-- The members that `getSymbolFromBuffer` may write, `symbol_counter_`
apart. -/
def SlicerFrame (s r : State) : Prop :=
  r = { s with
    absolute_sample_index_ := r.absolute_sample_index_
    jitter_ := r.jitter_
    last_filtered_sample_ := r.last_filtered_sample_
    dmr_v := r.dmr_v }

/-! ## Example inputs -/

/-- A processor in `ProcessData` with 77 symbols of hold left, at symbol 13,
whose sync history ends in the `DirectTs1Voice` pattern. -/
def example_hold : State :=
  { State.constructed with
    sync_history_ := fun i => (pattern_of SyncPatternId.DirectTs1Voice).getD i '0'
    sync_history_pos_ := 24
    sync_history_count_ := 24
    symbol_counter_ := 13
    parseState_ := Parse_State_Process_Data
    data_sync_hold_symbols_ := 77 }

/-- A searching processor at symbol 100 whose sync history ends in the
`DirectTs1Data` pattern. -/
def example_data : State :=
  { State.constructed with
    sync_history_ := fun i => (pattern_of SyncPatternId.DirectTs1Data).getD i '0'
    sync_history_pos_ := 24
    sync_history_count_ := 24
    symbol_counter_ := 100 }

/-- The processor `example_data` with the `DirectTs1Voice` pattern in its
history instead. -/
def example_voice : State :=
  { example_data with
    sync_history_ := fun i => (pattern_of SyncPatternId.DirectTs1Voice).getD i '0' }

/-- A configured processor inside `execute`. -/
def example_busy : State := { State.constructed with execute_running := true }

/-- The dibits 0, 1, 2, 3, 0, 1, ... -/
def example_dibits : Nat → Nat := fun i => i % 4

/-- A front end that demodulates nothing. -/
def example_front_end : FrontEnd Unit :=
  { demodulate := fun x _ => (x, []), audio_write := fun x _ => x }

/-- A searching processor at symbol 100 whose sync history ends in the
`BsVoice` pattern. -/
def example_other : State :=
  { example_data with
    sync_history_ := fun i => (pattern_of SyncPatternId.BsVoice).getD i '0' }

/-- A processor about to process the last symbol of the sixth voice burst. -/
def example_sixth : State :=
  { State.constructed with
    parseState_ := Parse_State_Process_Voice
    active_burst_index_ := 5
    symbol_counter_ := 1584
    current_burst_start_absolute_ := 0
    dibit_index_ := 54 }

/-- The symbol values of 24 symbols along the `DirectTs1Voice` pattern, 3000
for `'1'` and -3000 for `'3'`, the last symbol, a `'3'`, at -9000. -/
def example_levels : List Int :=
  (((pattern_of SyncPatternId.DirectTs1Voice).take 23).map
    (fun c => if c = '1' then (3000 : Int) else -3000)) ++ [-9000]

/-- The processor after the loop body of `process_demod_block` has run on the
24 symbols of `example_levels`, from the constructor on. -/
def example_refreshed : State :=
  example_levels.foldl process_demod_block.decide_symbol State.constructed

/-- A block of 45 demodulated samples. -/
def example_block : List Int := (List.range 45).map (fun i => if i % 20 < 10 then 3000 else -3000)

/-- A processor in `ProcessVoice` that holds the jitter estimate 7 from an
earlier symbol; the last sample was below `center_`. -/
def example_locked : State :=
  { example_sixth with jitter_ := 7, last_filtered_sample_ := -100 }

/-- A searching processor that holds the jitter estimate 3; the last sample
was below `center_`. -/
def example_retard : State :=
  { State.constructed with jitter_ := 3, last_filtered_sample_ := -100 }

/-- Samples that cross `center_` upwards at the first sample and downwards at
the second. -/
def example_crossings : List Int := 1000 :: List.replicate 12 (-1000)

/-- A searching processor that has tracked a signal for a while: six bursts
and two overruns counted, levels halved by a refresh, filter and jitter
correction on, and 1799 symbols searched without a match. -/
def example_tracking : State :=
  { State.constructed with
    sync_search_symbol_count_ := 1799
    symbol_counter_ := 2000
    live_total_bursts_ := 6
    execute_overrun_count_ := 2
    max_sample_ := 7500
    min_sample_ := -7500
    max_ref_ := 7500
    min_ref_ := -7500
    umid_ := 4687
    lmid_ := -4687
    jitter_enabled_ := true
    dmr_filter_enabled_ := true
    dibit_buf_index_ := 5
    sync_history_ := fun _ => '1'
    sync_history_pos_ := 30
    sync_history_count_ := 30 }

/-- The characters of 10250 pushes, ten more than the sync history holds: 10226
times `'1'` and then the `DirectTs1Voice` pattern. -/
def example_wrap : List Char :=
  List.replicate 10226 '1' ++ pattern_of SyncPatternId.DirectTs1Voice

/-! ## The sync correlator -/

/-- C9. The reset routine is idempotent: a second run changes no field of
the state that the first run left. -/
theorem resetToDefaultState_idempotent (s : State) :
    resetToDefaultState (resetToDefaultState s) = resetToDefaultState s := rfl

/-- C8. On a configured processor whose busy flag is set, the entry point
returns the state it got with `execute_overrun_count_` one higher (in
`uint32_t`) and nothing else changed, the collaborators included: no sample
is consumed and the flag stays set. -/
theorem execute_rejects_when_busy {X : Type} (fe : FrontEnd X) (s : State) (x : X)
    (buffer : List (Int × Int)) (hconf : s.configured = true) (hbusy : s.execute_running = true) :
    execute fe (s, x) buffer =
      ({ s with execute_overrun_count_ := (s.execute_overrun_count_ + 1) % 2 ^ 32 }, x) := by
  simp [execute, hconf, hbusy]

theorem matches_iff (w : Nat → Char) (p : List Char) (hp : p.length = 24) :
    decode_sync_string.matches w (some p) = true ↔ window24 w = p := by
  simp only [decode_sync_string.matches, window24, List.all_eq_true, decide_eq_true_eq, List.mem_range]
  constructor
  · intro h
    apply List.ext_getElem
    · simp [hp, DMR_SYNC_SYMBOLS]
    · intro n h1 h2
      simp only [List.getElem_map, List.getElem_range]
      rw [h n (by simpa [DMR_SYNC_SYMBOLS] using h1)]
      simp [List.getD, h2]
  · intro h i hi
    rw [← h]
    simp [List.getD, DMR_SYNC_SYMBOLS] at hi ⊢
    simp [hi]

theorem decode_some_eq (w : Nat → Char) :
    decode_sync_string (some w) =
      if window24 w = "113111131333131311133333".toList then SyncPatternId.DirectTs1Voice
      else if window24 w = "331333313111313133311111".toList then SyncPatternId.DirectTs1Data
      else if window24 w = "133133333111331111311133".toList then SyncPatternId.DirectTs2Voice
      else if window24 w = "311311111333113333133311".toList then SyncPatternId.DirectTs2Data
      else if window24 w = "131111333113313313113313".toList then SyncPatternId.BsVoice
      else if window24 w = "313131111133331113111133".toList then SyncPatternId.BsData
      else if window24 w = "133313311131311113313331".toList then SyncPatternId.MsVoice
      else if window24 w = "331333113133111133331111".toList then SyncPatternId.MsData
      else SyncPatternId.Unknown := by
  have e1 : decode_sync_string.get_pattern SyncPatternId.DirectTs1Voice = some "113111131333131311133333".toList := rfl
  have e2 : decode_sync_string.get_pattern SyncPatternId.DirectTs1Data = some "331333313111313133311111".toList := rfl
  have e3 : decode_sync_string.get_pattern SyncPatternId.DirectTs2Voice = some "133133333111331111311133".toList := rfl
  have e4 : decode_sync_string.get_pattern SyncPatternId.DirectTs2Data = some "311311111333113333133311".toList := rfl
  have e5 : decode_sync_string.get_pattern SyncPatternId.BsVoice = some "131111333113313313113313".toList := rfl
  have e6 : decode_sync_string.get_pattern SyncPatternId.BsData = some "313131111133331113111133".toList := rfl
  have e7 : decode_sync_string.get_pattern SyncPatternId.MsVoice = some "133313311131311113313331".toList := rfl
  have e8 : decode_sync_string.get_pattern SyncPatternId.MsData = some "331333113133111133331111".toList := rfl
  simp only [decode_sync_string, e1, e2, e3, e4, e5, e6, e7, e8]
  simp only [matches_iff _ _ (by rfl : ("113111131333131311133333".toList).length = 24),
    matches_iff _ _ (by rfl : ("331333313111313133311111".toList).length = 24),
    matches_iff _ _ (by rfl : ("133133333111331111311133".toList).length = 24),
    matches_iff _ _ (by rfl : ("311311111333113333133311".toList).length = 24),
    matches_iff _ _ (by rfl : ("131111333113313313113313".toList).length = 24),
    matches_iff _ _ (by rfl : ("313131111133331113111133".toList).length = 24),
    matches_iff _ _ (by rfl : ("133313311131311113313331".toList).length = 24),
    matches_iff _ _ (by rfl : ("331333113133111133331111".toList).length = 24)]

theorem patterns_distinct :
    kSyncPatterns.Pairwise (fun a b => a.pattern ≠ b.pattern) := by
  decide

theorem first_match_eq_unknown (W : List Char) (l : List (SyncPatternId × List Char))
    (hid : ∀ e ∈ l, e.1 ≠ SyncPatternId.Unknown) :
    first_match W l = SyncPatternId.Unknown ↔ ∀ e ∈ l, W ≠ e.2 := by
  induction l with
  | nil => simp [first_match]
  | cons e rest ih =>
    obtain ⟨id, p⟩ := e
    simp only [first_match, List.mem_cons, forall_eq_or_imp]
    have h1 := hid (id, p) (by simp)
    have ih1 := ih (fun e he => hid e (by simp [he]))
    by_cases hW : W = p
    · simp [hW, h1]
    · simp [hW, ih1]

theorem first_match_eq_id (W : List Char) (l : List (SyncPatternId × List Char))
    (hid : l.Pairwise (fun a b => a.1 ≠ b.1)) (hp : l.Pairwise (fun a b => a.2 ≠ b.2))
    (hu : ∀ e ∈ l, e.1 ≠ SyncPatternId.Unknown) :
    ∀ e ∈ l, first_match W l = e.1 ↔ W = e.2 := by
  induction l with
  | nil => simp
  | cons e0 rest ih =>
    obtain ⟨id, p⟩ := e0
    rw [List.pairwise_cons] at hid hp
    have ih1 := ih hid.2 hp.2 (fun e he => hu e (by simp [he]))
    intro e he
    simp only [List.mem_cons] at he
    simp only [first_match]
    rcases he with rfl | he
    · by_cases hW : W = p
      · simp [hW]
      · simp only [hW, if_false, iff_false]
        intro hfm
        have hne : first_match W rest ≠ SyncPatternId.Unknown := by
          rw [hfm]; exact hu (id, p) (by simp)
        rw [Ne, first_match_eq_unknown W rest (fun e he => hu e (by simp [he]))] at hne
        push_neg at hne
        obtain ⟨e1, he1, hWe1⟩ := hne
        have := (ih1 e1 he1).2 hWe1
        exact hid.1 e1 he1 (hfm.symm.trans this)
    · by_cases hW : W = p
      · simp only [hW, if_true]
        constructor
        · intro h; exact absurd h (hid.1 e he)
        · intro h; exact absurd h (hp.1 e he)
      · simp only [hW, if_false]
        exact ih1 e he

theorem decode_eq_first_match (w : Nat → Char) :
    decode_sync_string (some w) =
      first_match (window24 w) (kSyncPatterns.map (fun desc => (desc.id, desc.pattern))) := by
  rw [decode_some_eq]
  rfl

/-- C4. For every window, the decoder returns the identity of a catalogue
entry exactly when the 24 characters of the window are those of its pattern,
for each of the eight entries; it returns `Unknown` exactly when the window
is none of the eight patterns, and for the null pointer. -/
theorem decode_sync_string_exact (w : Nat → Char) :
    (∀ desc ∈ kSyncPatterns,
      decode_sync_string (some w) = desc.id ↔ window24 w = desc.pattern) ∧
    (decode_sync_string (some w) = SyncPatternId.Unknown ↔
      ∀ desc ∈ kSyncPatterns, window24 w ≠ desc.pattern) ∧
    decode_sync_string none = SyncPatternId.Unknown := by
  have hids : (kSyncPatterns.map (fun desc => (desc.id, desc.pattern))).Pairwise
      (fun a b => a.1 ≠ b.1) := by decide
  have hpats : (kSyncPatterns.map (fun desc => (desc.id, desc.pattern))).Pairwise
      (fun a b => a.2 ≠ b.2) := by
    rw [List.pairwise_map]; exact patterns_distinct
  have hu : ∀ e ∈ kSyncPatterns.map (fun desc => (desc.id, desc.pattern)),
      e.1 ≠ SyncPatternId.Unknown := by decide
  refine ⟨?_, ?_, rfl⟩
  · intro desc hdesc
    rw [decode_eq_first_match]
    exact first_match_eq_id _ _ hids hpats hu (desc.id, desc.pattern)
      (List.mem_map.2 ⟨desc, hdesc, rfl⟩)
  · rw [decode_eq_first_match, first_match_eq_unknown _ _ hu]
    simp [List.mem_map]

/-! ## Packing -/

theorem burst_bytes_eq (v : Nat → Nat) :
    burst_bytes v = (List.range 108).foldl (burst_bytes.step v) (fun _ => 0) := rfl

theorem pack4 : ∀ a b c d : Fin 4,
    ((((((0 ||| (((a : Nat) % 2 ^ 8) <<< 6) % 2 ^ 8) % 2 ^ 8 ||| (((b : Nat) % 2 ^ 8) <<< 4) % 2 ^ 8) % 2 ^ 8 |||
      (((c : Nat) % 2 ^ 8) <<< 2) % 2 ^ 8) % 2 ^ 8 ||| (((d : Nat) % 2 ^ 8) <<< 0) % 2 ^ 8) % 2 ^ 8) : Nat) =
      ((a : Nat) <<< 6) ||| ((b : Nat) <<< 4) ||| ((c : Nat) <<< 2) ||| (d : Nat) := by
  decide

theorem and3_lt (x : Nat) : x &&& 3 < 4 := by
  have := @Nat.and_le_right x 3
  omega

theorem pack_group (v : Nat → Nat) (bytes : Nat → Nat) (j : Nat) :
    [4 * j, 4 * j + 1, 4 * j + 2, 4 * j + 3].foldl (burst_bytes.step v) bytes =
      Function.update bytes j
        (((v (4 * j) &&& 3) <<< 6) ||| ((v (4 * j + 1) &&& 3) <<< 4) |||
          ((v (4 * j + 2) &&& 3) <<< 2) ||| (v (4 * j + 3) &&& 3)) := by
  have h0 : (4 * j) / 4 = j := by omega
  have h1 : (4 * j + 1) / 4 = j := by omega
  have h2 : (4 * j + 2) / 4 = j := by omega
  have h3 : (4 * j + 3) / 4 = j := by omega
  have m0 : (4 * j) % 4 = 0 := by omega
  have m1 : (4 * j + 1) % 4 = 1 := by omega
  have m2 : (4 * j + 2) % 4 = 2 := by omega
  have m3 : (4 * j + 3) % 4 = 3 := by omega
  have key := pack4 ⟨v (4 * j) &&& 3, and3_lt _⟩ ⟨v (4 * j + 1) &&& 3, and3_lt _⟩
    ⟨v (4 * j + 2) &&& 3, and3_lt _⟩ ⟨v (4 * j + 3) &&& 3, and3_lt _⟩
  simp only [] at key
  simp only [List.foldl, burst_bytes.step, h0, h1, h2, h3, m0, m1, m2, m3, Function.update_same,
    Function.update_idem, if_true, if_false, one_ne_zero, OfNat.ofNat_ne_zero]
  norm_num
  norm_num at key
  rw [← key]

theorem pack_groups (v : Nat → Nat) (n : Nat) (bytes : Nat → Nat) :
    ((List.range n).flatMap (fun j => [4 * j, 4 * j + 1, 4 * j + 2, 4 * j + 3])).foldl
        (burst_bytes.step v) bytes =
      fun j => if j < n then packed_byte v j else bytes j := by
  induction n with
  | zero => simp
  | succ n ih =>
    rw [List.range_succ, List.flatMap_append, List.foldl_append, ih]
    simp only [List.flatMap_cons, List.flatMap_nil, List.append_nil]
    rw [pack_group]
    funext j
    by_cases hj : j = n
    · subst hj; simp [packed_byte]
    · rw [Function.update_noteq hj]
      by_cases h1 : j < n
      · simp [h1, Nat.lt_succ_of_lt h1]
      · have : ¬ j < n + 1 := by omega
        simp [h1, this]

theorem burst_bytes_get (v : Nat → Nat) (j : Nat) :
    burst_bytes v j = if j < 27 then packed_byte v j else 0 := by
  have h : List.range 108 =
      (List.range 27).flatMap (fun j => [4 * j, 4 * j + 1, 4 * j + 2, 4 * j + 3]) := by decide
  rw [burst_bytes_eq, h, pack_groups]

theorem unpack4 : ∀ a b c d : Fin 4,
    ((((a : Nat) <<< 6) ||| ((b : Nat) <<< 4) ||| ((c : Nat) <<< 2) ||| (d : Nat)) >>> 6) &&& 3 = a ∧
    ((((a : Nat) <<< 6) ||| ((b : Nat) <<< 4) ||| ((c : Nat) <<< 2) ||| (d : Nat)) >>> 4) &&& 3 = b ∧
    ((((a : Nat) <<< 6) ||| ((b : Nat) <<< 4) ||| ((c : Nat) <<< 2) ||| (d : Nat)) >>> 2) &&& 3 = c ∧
    ((((a : Nat) <<< 6) ||| ((b : Nat) <<< 4) ||| ((c : Nat) <<< 2) ||| (d : Nat)) >>> 0) &&& 3 = d := by
  decide

theorem and3_eq_mod (x : Nat) : x &&& 3 = x % 4 := by
  have := Nat.and_pow_two_sub_one_eq_mod x 2
  simpa using this

theorem packed_byte_unpack (v : Nat → Nat) (i : Nat) :
    (packed_byte v (i / 4) >>> (6 - 2 * (i % 4))) &&& 3 = v i &&& 3 := by
  have key := unpack4 ⟨v (4 * (i / 4)) &&& 3, and3_lt _⟩ ⟨v (4 * (i / 4) + 1) &&& 3, and3_lt _⟩
    ⟨v (4 * (i / 4) + 2) &&& 3, and3_lt _⟩ ⟨v (4 * (i / 4) + 3) &&& 3, and3_lt _⟩
  simp only [] at key
  obtain ⟨k0, k1, k2, k3⟩ := key
  have hcases : i % 4 = 0 ∨ i % 4 = 1 ∨ i % 4 = 2 ∨ i % 4 = 3 := by omega
  rcases hcases with h | h | h | h
  · have e : 4 * (i / 4) = i := by omega
    rw [h, packed_byte]; rw [e] at k0 ⊢; exact k0
  · have e : 4 * (i / 4) + 1 = i := by omega
    rw [h, packed_byte]; rw [e] at k1 ⊢; exact k1
  · have e : 4 * (i / 4) + 2 = i := by omega
    rw [h, packed_byte]; rw [e] at k2 ⊢; exact k2
  · have e : 4 * (i / 4) + 3 = i := by omega
    rw [h, packed_byte]; rw [e] at k3 ⊢; exact k3

/-- C3. Byte `j` of the packed burst is
`(v[4j] & 3) << 6 | (v[4j+1] & 3) << 4 | (v[4j+2] & 3) << 2 | (v[4j+3] & 3)`
for `j = 0..26`, and when every dibit is below 4 the pair of bits
`6 - 2 (i mod 4)` places up in byte `i / 4` is dibit `i`, for `i = 0..107`. -/
theorem burst_bytes_msb_first (v : Nat → Nat) :
    (∀ j, j < 27 →
      burst_bytes v j =
        (((v (4 * j) &&& 3) <<< 6) ||| ((v (4 * j + 1) &&& 3) <<< 4) |||
          ((v (4 * j + 2) &&& 3) <<< 2) ||| (v (4 * j + 3) &&& 3))) ∧
    ((∀ i, i < 108 → v i < 4) →
      ∀ i, i < 108 → (burst_bytes v (i / 4) >>> (6 - 2 * (i % 4))) &&& 3 = v i) := by
  constructor
  · intro j hj
    rw [burst_bytes_get, if_pos hj, packed_byte]
  · intro hv i hi
    have hj : i / 4 < 27 := by omega
    rw [burst_bytes_get, if_pos hj, packed_byte_unpack, and3_eq_mod]
    exact Nat.mod_eq_of_lt (hv i hi)

/-! ## Streams of decided symbols -/

theorem feed_decided (s0 : State) (d : Nat → Nat) : DecidedStream (feed s0 d) d := by
  intro i
  rfl

theorem SymbolDecided.symbol_counter {s s1 : State} (h : SymbolDecided s s1) :
    s1.symbol_counter_ = (s.symbol_counter_ + 1) % 2 ^ 64 := by
  rw [h]

theorem SymbolDecided.parseState {s s1 : State} (h : SymbolDecided s s1) :
    s1.parseState_ = s.parseState_ := by
  rw [h]

theorem SymbolDecided.ring {s s1 : State} (h : SymbolDecided s s1) :
    s1.dibit_buf_ = s.dibit_buf_ ∧ s1.dibit_buf_index_ = s.dibit_buf_index_ := by
  constructor <;> rw [h]

theorem SymbolDecided.voice {s s1 : State} (h : SymbolDecided s s1) :
    s1.active_burst_index_ = s.active_burst_index_ ∧
    s1.current_burst_start_absolute_ = s.current_burst_start_absolute_ ∧
    s1.live_total_bursts_ = s.live_total_bursts_ ∧
    s1.pushed_ = s.pushed_ ∧
    s1.voice_dibits_ = s.voice_dibits_ ∧
    s1.dibit_index_ = s.dibit_index_ ∧
    s1.data_sync_hold_symbols_ = s.data_sync_hold_symbols_ := by
  refine ⟨?_, ?_, ?_, ?_, ?_, ?_, ?_⟩ <;> rw [h]

theorem SymbolDecided.search {s s1 : State} (h : SymbolDecided s s1) :
    s1.sync_search_symbol_count_ = s.sync_search_symbol_count_ ∧
    s1.max_sample_ = s.max_sample_ ∧
    s1.min_sample_ = s.min_sample_ := by
  refine ⟨?_, ?_, ?_⟩ <;> rw [h]

/-! ## The dibit ring and `append_dibits` -/

theorem wrap_index_eq (idx : Int) :
    wrap_index idx = (idx % (DIBIT_BUF_SIZE : Int)).toNat := by
  have hsz : (DIBIT_BUF_SIZE : Int) = 1728 := by norm_num [DIBIT_BUF_SIZE]
  unfold wrap_index
  simp only [hsz]
  rcases Int.le_total 0 idx with h | h
  · rw [Int.tmod_eq_emod h (by norm_num)]
    have : ¬ idx % 1728 < 0 := by omega
    rw [if_neg this]
  · have h1 := Int.tmod_def idx 1728
    have h2 : idx.tdiv 1728 = -((-idx).tdiv 1728) := by
      rw [Int.neg_tdiv, neg_neg]
    have h3 : (-idx).tdiv 1728 = (-idx) / 1728 := Int.tdiv_eq_ediv (by omega) (by norm_num)
    rw [h2, h3] at h1
    rw [h1]
    split_ifs <;> omega

theorem wrap_index_lt (idx : Int) : wrap_index idx < DIBIT_BUF_SIZE := by
  rw [wrap_index_eq]
  have hsz : (DIBIT_BUF_SIZE : Int) = 1728 := by norm_num [DIBIT_BUF_SIZE]
  have h2 : DIBIT_BUF_SIZE = 1728 := by norm_num [DIBIT_BUF_SIZE]
  rw [hsz, h2]
  omega

theorem append_loop_frame (start : Int) (r : Nat) : ∀ (s : State) (i : Nat),
    append_dibits.loop start s i r =
      { s with
        voice_dibits_ := (append_dibits.loop start s i r).voice_dibits_
        dibit_index_ := (append_dibits.loop start s i r).dibit_index_ } := by
  induction r with
  | zero => intro s i; rfl
  | succ r ih =>
    intro s i
    unfold append_dibits.loop
    split_ifs with h
    · exact ih _ _
    · rfl

theorem append_dibits_frame (s : State) (start : Int) (count : Nat) :
    append_dibits s start count =
      { s with
        voice_dibits_ := (append_dibits s start count).voice_dibits_
        dibit_index_ := (append_dibits s start count).dibit_index_ } :=
  append_loop_frame start count s 0

theorem append_loop_room (start : Int) (r : Nat) : ∀ (s : State) (i : Nat),
    s.dibit_index_ + r ≤ 108 →
    (append_dibits.loop start s i r).dibit_index_ = s.dibit_index_ + r ∧
    ∀ j, (append_dibits.loop start s i r).voice_dibits_ j =
      if s.dibit_index_ ≤ j ∧ j < s.dibit_index_ + r then
        s.dibit_buf_ (wrap_index (start + ((i + (j - s.dibit_index_) : Nat) : Int)))
      else s.voice_dibits_ j := by
  induction r with
  | zero =>
    intro s i _
    refine ⟨rfl, fun j => ?_⟩
    have : ¬ (s.dibit_index_ ≤ j ∧ j < s.dibit_index_ + 0) := by omega
    rw [if_neg this]; rfl
  | succ r ih =>
    intro s i hroom
    unfold append_dibits.loop
    have hlt : s.dibit_index_ < 108 := by omega
    rw [if_pos hlt]
    obtain ⟨h1, h2⟩ := ih
      { s with
        voice_dibits_ := Function.update s.voice_dibits_ s.dibit_index_
          (s.dibit_buf_ (wrap_index (start + (i : Int))))
        dibit_index_ := s.dibit_index_ + 1 } (i + 1) (by show s.dibit_index_ + 1 + r ≤ 108; omega)
    refine ⟨?_, fun j => ?_⟩
    · rw [h1]; show s.dibit_index_ + 1 + r = _; omega
    · rw [h2]
      show (if s.dibit_index_ + 1 ≤ j ∧ j < s.dibit_index_ + 1 + r then
          s.dibit_buf_ (wrap_index (start + ((i + 1 + (j - (s.dibit_index_ + 1)) : Nat) : Int)))
        else Function.update s.voice_dibits_ s.dibit_index_
          (s.dibit_buf_ (wrap_index (start + (i : Int)))) j) = _
      by_cases hj : j = s.dibit_index_
      · subst hj
        have c1 : ¬ (s.dibit_index_ + 1 ≤ s.dibit_index_ ∧ s.dibit_index_ < s.dibit_index_ + 1 + r) := by omega
        have c2 : s.dibit_index_ ≤ s.dibit_index_ ∧ s.dibit_index_ < s.dibit_index_ + (r + 1) := by omega
        rw [if_neg c1, if_pos c2, Function.update_same]
        simp
      · rw [Function.update_noteq hj]
        by_cases hin : s.dibit_index_ + 1 ≤ j ∧ j < s.dibit_index_ + 1 + r
        · have c2 : s.dibit_index_ ≤ j ∧ j < s.dibit_index_ + (r + 1) := by omega
          rw [if_pos hin, if_pos c2]
          have : i + 1 + (j - (s.dibit_index_ + 1)) = i + (j - s.dibit_index_) := by omega
          rw [this]
        · have c2 : ¬ (s.dibit_index_ ≤ j ∧ j < s.dibit_index_ + (r + 1)) := by omega
          rw [if_neg hin, if_neg c2]

theorem append_dibits_room (s : State) (start : Int) (count : Nat)
    (hroom : s.dibit_index_ + count ≤ 108) :
    (append_dibits s start count).dibit_index_ = s.dibit_index_ + count ∧
    ∀ j, (append_dibits s start count).voice_dibits_ j =
      if s.dibit_index_ ≤ j ∧ j < s.dibit_index_ + count then
        s.dibit_buf_ (wrap_index (start + ((j - s.dibit_index_ : Nat) : Int)))
      else s.voice_dibits_ j := by
  have h := append_loop_room start count s 0 hroom
  simpa [append_dibits] using h

/-! ## The branches of `process_decided_symbol` -/

theorem pds_search (s : State) (dibit : Nat) (hs : s.parseState_ = Parse_State_Search_Sync) :
    process_decided_symbol s dibit =
      process_decided_symbol.search_sync (process_decided_symbol.store s dibit) := by
  have h : (process_decided_symbol.store s dibit).parseState_ = Parse_State_Search_Sync := hs
  simp only [process_decided_symbol, h]

theorem pds_voice (s : State) (dibit : Nat) (hs : s.parseState_ = Parse_State_Process_Voice) :
    process_decided_symbol s dibit =
      process_decided_symbol.process_voice (process_decided_symbol.store s dibit) := by
  have h : (process_decided_symbol.store s dibit).parseState_ = Parse_State_Process_Voice := hs
  simp only [process_decided_symbol, h]

theorem pds_data (s : State) (dibit : Nat) (hs : s.parseState_ = Parse_State_Process_Data) :
    process_decided_symbol s dibit =
      process_decided_symbol.process_data (process_decided_symbol.store s dibit) := by
  have h : (process_decided_symbol.store s dibit).parseState_ = Parse_State_Process_Data := hs
  simp only [process_decided_symbol, h]

theorem searched_cases (s : State) :
    searched s =
      { s with sync_search_symbol_count_ := (s.sync_search_symbol_count_ + 1) % 2 ^ 32 } ∨
    searched s =
      { s with
        sync_search_symbol_count_ := (s.sync_search_symbol_count_ + 1) % 2 ^ 32
        max_ref_ := s.max_sample_
        min_ref_ := s.min_sample_ } := by
  unfold searched process_decided_symbol.resync_refs
  split_ifs
  · right; rfl
  · left; rfl

theorem search_match_id_congr (s t : State) (h1 : t.sync_history_ = s.sync_history_)
    (h2 : t.sync_history_pos_ = s.sync_history_pos_)
    (h3 : t.sync_history_count_ = s.sync_history_count_) :
    search_match_id t = search_match_id s := by
  simp only [search_match_id, build_sync_window, h1, h2, h3]

theorem search_match_id_searched (s : State) :
    search_match_id (searched s) = search_match_id s := by
  apply search_match_id_congr <;> rcases searched_cases s with h | h <;> rw [h]

theorem search_match_id_store (s : State) (dibit : Nat) :
    search_match_id (process_decided_symbol.store s dibit) = search_match_id s :=
  search_match_id_congr _ _ rfl rfl rfl

theorem search_sync_voice (s : State)
    (hm : search_match_id s = SyncPatternId.DirectTs1Voice) :
    process_decided_symbol.search_sync s =
      process_decided_symbol.leave_search
        (process_decided_symbol.level_refresh (searched s)) SyncPatternId.DirectTs1Voice := by
  have hm2 := search_match_id_searched s
  rw [hm] at hm2
  unfold searched at hm2
  unfold process_decided_symbol.search_sync searched
  simp only [hm2, true_or, if_true]
  rw [if_neg]
  show ¬ ((1800 : Int).toNat % 2 ^ 32 ≤ 0)
  decide

theorem search_sync_data (s : State)
    (hm : search_match_id s = SyncPatternId.DirectTs1Data) :
    process_decided_symbol.search_sync s =
      process_decided_symbol.leave_search
        (process_decided_symbol.level_refresh (searched s)) SyncPatternId.DirectTs1Data := by
  have hm2 := search_match_id_searched s
  rw [hm] at hm2
  unfold searched at hm2
  unfold process_decided_symbol.search_sync searched
  simp only [hm2, or_true, if_true]
  rw [if_neg]
  show ¬ ((1800 : Int).toNat % 2 ^ 32 ≤ 0)
  decide

theorem search_sync_other (s : State)
    (hv : search_match_id s ≠ SyncPatternId.DirectTs1Voice)
    (hd : search_match_id s ≠ SyncPatternId.DirectTs1Data) :
    process_decided_symbol.search_sync s =
      if 1800 ≤ (searched s).sync_search_symbol_count_ then handle_carrier_loss (searched s)
      else searched s := by
  have hm2 := search_match_id_searched s
  unfold searched at hm2
  unfold process_decided_symbol.search_sync searched
  simp only [hm2, hv, hd, or_self, if_false]
  rfl

theorem searched_count (s : State) :
    (searched s).sync_search_symbol_count_ = (s.sync_search_symbol_count_ + 1) % 2 ^ 32 := by
  rcases searched_cases s with h | h <;> rw [h]

theorem search_sync_cases (s : State) :
    process_decided_symbol.search_sync s =
      process_decided_symbol.leave_search
        (process_decided_symbol.level_refresh (searched s)) SyncPatternId.DirectTs1Voice ∨
    process_decided_symbol.search_sync s =
      process_decided_symbol.leave_search
        (process_decided_symbol.level_refresh (searched s)) SyncPatternId.DirectTs1Data ∨
    process_decided_symbol.search_sync s = handle_carrier_loss (searched s) ∨
    process_decided_symbol.search_sync s = searched s := by
  by_cases hv : search_match_id s = SyncPatternId.DirectTs1Voice
  · left; exact search_sync_voice s hv
  · by_cases hd : search_match_id s = SyncPatternId.DirectTs1Data
    · right; left; exact search_sync_data s hd
    · rw [search_sync_other s hv hd]
      split_ifs
      · right; right; left; rfl
      · right; right; right; rfl

theorem emit_burst_cases (a : State) :
    process_decided_symbol.emit_burst a =
      { send_live_stats
          { a with
            live_total_bursts_ := (a.live_total_bursts_ + 1) % 2 ^ 32
            pushed_ := a.pushed_ ++
              [Message.AMBEVoiceBurst ((List.range 27).map (burst_bytes a.voice_dibits_))] } with
        parseState_ := Parse_State_Process_Data
        data_sync_hold_symbols_ := 209
        sync_search_symbol_count_ := 0 } ∧ a.active_burst_index_ = 5 ∨
    process_decided_symbol.emit_burst a =
      { send_live_stats
          { a with
            live_total_bursts_ := (a.live_total_bursts_ + 1) % 2 ^ 32
            pushed_ := a.pushed_ ++
              [Message.AMBEVoiceBurst ((List.range 27).map (burst_bytes a.voice_dibits_))] } with
        active_burst_index_ := (a.active_burst_index_ + 1) % 2 ^ 8
        dibit_index_ := 0 } ∧ a.active_burst_index_ ≠ 5 := by
  unfold process_decided_symbol.emit_burst
  by_cases h : a.active_burst_index_ = 5
  · left
    refine ⟨?_, h⟩
    have : (handle_external_voice a (some (burst_bytes a.voice_dibits_))).active_burst_index_ = 5 := h
    rw [if_pos this]
    rfl
  · right
    refine ⟨?_, h⟩
    have : ¬ (handle_external_voice a (some (burst_bytes a.voice_dibits_))).active_burst_index_ = 5 := h
    rw [if_neg this]
    rfl

theorem append_dibits_proj {α : Type} (f : State → α)
    (hf : ∀ (s : State) (v : Nat → Nat) (i : Nat),
      f { s with voice_dibits_ := v, dibit_index_ := i } = f s)
    (s : State) (start : Int) (count : Nat) :
    f (append_dibits s start count) = f s := by
  rw [append_dibits_frame]
  exact hf _ _ _

theorem append_dibits_control (s : State) (start : Int) (count : Nat) :
    control (append_dibits s start count) = control s :=
  append_dibits_proj control (fun _ _ _ => rfl) s start count

theorem append_dibits_ring_index (s : State) (start : Int) (count : Nat) :
    (append_dibits s start count).dibit_buf_index_ = s.dibit_buf_index_ :=
  append_dibits_proj State.dibit_buf_index_ (fun _ _ _ => rfl) s start count

theorem append_dibits_ring (s : State) (start : Int) (count : Nat) :
    (append_dibits s start count).dibit_buf_ = s.dibit_buf_ :=
  append_dibits_proj State.dibit_buf_ (fun _ _ _ => rfl) s start count

theorem process_voice_at_91 (s : State) (ha : s.active_burst_index_ ≤ 5)
    (hx : voice_offset s = 91 + 288 * s.active_burst_index_) :
    process_decided_symbol.process_voice s =
      append_dibits (append_dibits s ((s.dibit_buf_index_ : Int) - 79) 36)
        ((s.dibit_buf_index_ : Int) - 43) 18 := by
  unfold process_decided_symbol.process_voice
  have c : ((voice_offset s : Nat) : Int) = (91 + (s.active_burst_index_ : Int) * 288) % 2 ^ 16 := by
    rw [hx]; omega
  simp only [c, if_true]
  rw [append_dibits_ring_index]
  rfl

theorem process_voice_at_108 (s : State) (ha : s.active_burst_index_ ≤ 5)
    (hx : voice_offset s = 108 + 288 * s.active_burst_index_) :
    process_decided_symbol.process_voice s =
      append_dibits s ((s.dibit_buf_index_ : Int) - 18) 18 := by
  unfold process_decided_symbol.process_voice
  have c1 : ¬ ((voice_offset s : Nat) : Int) = (91 + (s.active_burst_index_ : Int) * 288) % 2 ^ 16 := by
    rw [hx]; omega
  have c : ((voice_offset s : Nat) : Int) = (108 + (s.active_burst_index_ : Int) * 288) % 2 ^ 16 := by
    rw [hx]; omega
  rw [if_neg c1, if_pos c]
  rfl

theorem process_voice_at_144 (s : State) (ha : s.active_burst_index_ ≤ 5)
    (hx : voice_offset s = 144 + 288 * s.active_burst_index_) :
    process_decided_symbol.process_voice s =
      process_decided_symbol.emit_burst (process_decided_symbol.complete_frame s) := by
  unfold process_decided_symbol.process_voice
  have c1 : ¬ ((voice_offset s : Nat) : Int) = (91 + (s.active_burst_index_ : Int) * 288) % 2 ^ 16 := by
    rw [hx]; omega
  have c2 : ¬ ((voice_offset s : Nat) : Int) = (108 + (s.active_burst_index_ : Int) * 288) % 2 ^ 16 := by
    rw [hx]; omega
  have c : ((voice_offset s : Nat) : Int) = (144 + (s.active_burst_index_ : Int) * 288) % 2 ^ 16 := by
    rw [hx]; omega
  rw [if_neg c1, if_neg c2, if_pos c]

theorem process_voice_idle (s : State) (ha : s.active_burst_index_ ≤ 5)
    (h91 : voice_offset s ≠ 91 + 288 * s.active_burst_index_)
    (h108 : voice_offset s ≠ 108 + 288 * s.active_burst_index_)
    (h144 : voice_offset s ≠ 144 + 288 * s.active_burst_index_) :
    process_decided_symbol.process_voice s = s := by
  unfold process_decided_symbol.process_voice
  have c1 : ¬ ((voice_offset s : Nat) : Int) = (91 + (s.active_burst_index_ : Int) * 288) % 2 ^ 16 := by
    omega
  have c2 : ¬ ((voice_offset s : Nat) : Int) = (108 + (s.active_burst_index_ : Int) * 288) % 2 ^ 16 := by
    omega
  have c : ¬ ((voice_offset s : Nat) : Int) = (144 + (s.active_burst_index_ : Int) * 288) % 2 ^ 16 := by
    omega
  rw [if_neg c1, if_neg c2, if_neg c]

theorem process_voice_control (s : State) (ha : s.active_burst_index_ ≤ 5)
    (h144 : voice_offset s ≠ 144 + 288 * s.active_burst_index_) :
    control (process_decided_symbol.process_voice s) = control s := by
  by_cases h91 : voice_offset s = 91 + 288 * s.active_burst_index_
  · rw [process_voice_at_91 s ha h91, append_dibits_control, append_dibits_control]
  · by_cases h108 : voice_offset s = 108 + 288 * s.active_burst_index_
    · rw [process_voice_at_108 s ha h108, append_dibits_control]
    · rw [process_voice_idle s ha h91 h108 h144]

theorem pds_ring (s : State) (dibit : Nat) :
    (process_decided_symbol s dibit).dibit_buf_ =
        Function.update s.dibit_buf_ s.dibit_buf_index_ dibit ∧
    (process_decided_symbol s dibit).dibit_buf_index_ =
        (s.dibit_buf_index_ + 1) % DIBIT_BUF_SIZE := by
  cases hs : s.parseState_ with
  | Parse_State_Search_Sync =>
    rw [pds_search s dibit hs]
    rcases search_sync_cases (process_decided_symbol.store s dibit) with h | h | h | h <;>
      rw [h] <;>
      rcases searched_cases (process_decided_symbol.store s dibit) with h2 | h2 <;>
      rw [h2] <;> exact ⟨rfl, rfl⟩
  | Parse_State_Process_Voice =>
    rw [pds_voice s dibit hs]
    unfold process_decided_symbol.process_voice
    dsimp only
    split_ifs
    · rw [append_dibits_ring, append_dibits_ring, append_dibits_ring_index,
        append_dibits_ring_index]
      exact ⟨rfl, rfl⟩
    · rw [append_dibits_ring, append_dibits_ring_index]
      exact ⟨rfl, rfl⟩
    · rcases emit_burst_cases (process_decided_symbol.complete_frame
          (process_decided_symbol.store s dibit)) with ⟨h, _⟩ | ⟨h, _⟩ <;> rw [h] <;>
        unfold process_decided_symbol.complete_frame <;>
        exact ⟨append_dibits_ring _ _ _, append_dibits_ring_index _ _ _⟩
    · exact ⟨rfl, rfl⟩
  | Parse_State_Process_Data =>
    rw [pds_data s dibit hs]
    unfold process_decided_symbol.process_data
    dsimp only
    split_ifs <;> exact ⟨rfl, rfl⟩

/-! ## The ring along a stream -/

theorem stream_ring_index (pre : Nat → State) (d : Nat → Nat) (hrun : DecidedStream pre d)
    (hidx : (pre 0).dibit_buf_index_ < DIBIT_BUF_SIZE) (n : Nat) :
    (pre n).dibit_buf_index_ = ((pre 0).dibit_buf_index_ + n) % DIBIT_BUF_SIZE := by
  have hsz : DIBIT_BUF_SIZE = 1728 := by norm_num [DIBIT_BUF_SIZE]
  rw [hsz] at hidx ⊢
  induction n with
  | zero => simp; omega
  | succ n ih =>
    rw [(hrun n).ring.2, (pds_ring (pre n) (d n)).2, ih, hsz]
    omega

theorem stream_ring_lookback (pre : Nat → State) (d : Nat → Nat) (hrun : DecidedStream pre d)
    (hidx : (pre 0).dibit_buf_index_ < DIBIT_BUF_SIZE) :
    ∀ (n k : Nat), 1 ≤ k → k ≤ DIBIT_BUF_SIZE → k ≤ n + 1 →
      (process_decided_symbol.store (pre n) (d n)).dibit_buf_
        (wrap_index (((process_decided_symbol.store (pre n) (d n)).dibit_buf_index_ : Int) - k)) =
        d (n + 1 - k) := by
  have hsz : DIBIT_BUF_SIZE = 1728 := by norm_num [DIBIT_BUF_SIZE]
  have hszi : (DIBIT_BUF_SIZE : Int) = 1728 := by norm_num [DIBIT_BUF_SIZE]
  intro n
  induction n with
  | zero =>
    intro k hk1 _ hk3
    have hk : k = 1 := by omega
    subst hk
    show Function.update (pre 0).dibit_buf_ (pre 0).dibit_buf_index_ (d 0)
      (wrap_index ((((pre 0).dibit_buf_index_ + 1) % DIBIT_BUF_SIZE : Nat) - (1 : Nat))) = d 0
    have : wrap_index ((((pre 0).dibit_buf_index_ + 1) % DIBIT_BUF_SIZE : Nat) - (1 : Nat)) =
        (pre 0).dibit_buf_index_ := by
      rw [wrap_index_eq, hszi, hsz]
      rw [hsz] at hidx
      omega
    rw [this, Function.update_same]
  | succ n ih =>
    intro k hk1 hk2 hk3
    have hi := stream_ring_index pre d hrun hidx (n + 1)
    have hi0 := stream_ring_index pre d hrun hidx n
    rw [hsz] at hi hi0 hk2 hidx
    show Function.update (pre (n + 1)).dibit_buf_ (pre (n + 1)).dibit_buf_index_ (d (n + 1))
      (wrap_index ((((pre (n + 1)).dibit_buf_index_ + 1) % DIBIT_BUF_SIZE : Nat) - (k : Int))) = _
    by_cases hk : k = 1
    · subst hk
      have : wrap_index ((((pre (n + 1)).dibit_buf_index_ + 1) % DIBIT_BUF_SIZE : Nat) - ((1 : Nat) : Int)) =
          (pre (n + 1)).dibit_buf_index_ := by
        rw [wrap_index_eq, hszi, hsz]
        omega
      rw [this, Function.update_same]
      rfl
    · have hne : wrap_index ((((pre (n + 1)).dibit_buf_index_ + 1) % DIBIT_BUF_SIZE : Nat) - (k : Int)) ≠
          (pre (n + 1)).dibit_buf_index_ := by
        rw [wrap_index_eq, hszi, hsz]
        omega
      rw [Function.update_noteq hne, (hrun n).ring.1, (pds_ring (pre n) (d n)).1]
      have h := ih (k - 1) (by omega) (by omega) (by omega)
      have e1 : (process_decided_symbol.store (pre n) (d n)).dibit_buf_ =
          Function.update (pre n).dibit_buf_ (pre n).dibit_buf_index_ (d n) := rfl
      have e2 : (process_decided_symbol.store (pre n) (d n)).dibit_buf_index_ =
          ((pre n).dibit_buf_index_ + 1) % DIBIT_BUF_SIZE := rfl
      rw [e1, e2] at h
      have e3 : wrap_index ((((pre (n + 1)).dibit_buf_index_ + 1) % DIBIT_BUF_SIZE : Nat) - (k : Int)) =
          wrap_index (((((pre n).dibit_buf_index_ + 1) % DIBIT_BUF_SIZE : Nat) : Int) - ((k - 1 : Nat) : Int)) := by
        rw [wrap_index_eq, wrap_index_eq, hszi, hsz]
        omega
      rw [e3, h]
      congr 1
      omega

theorem voice_offset_of_clock (s : State) (x : Nat) (h : burst_clock s = (x : Int))
    (hx : x < 2 ^ 16) : voice_offset s = x := by
  unfold voice_offset
  unfold burst_clock at h
  rw [h]
  omega

theorem burst_clock_next {s s1 : State} (x : Nat)
    (hsc : s1.symbol_counter_ = (s.symbol_counter_ + 1) % 2 ^ 64)
    (hb : s1.current_burst_start_absolute_ = s.current_burst_start_absolute_)
    (h : burst_clock s = (x : Int)) (hx : x + 1 < 2 ^ 64) :
    burst_clock s1 = ((x + 1 : Nat) : Int) := by
  unfold burst_clock at h ⊢
  rw [hsc, hb]
  omega

theorem voice_bursts_append (l1 l2 : List Message) :
    voice_bursts (l1 ++ l2) = voice_bursts l1 ++ voice_bursts l2 := by
  induction l1 with
  | nil => rfl
  | cons a l ih =>
    cases a with
    | AMBEVoiceBurst data => simp [voice_bursts, ih]
    | DMRRxStats _ _ _ _ _ _ _ => simp [voice_bursts, ih]

theorem control_eq {s t : State} (h : control s = control t) :
    s.parseState_ = t.parseState_ ∧ s.active_burst_index_ = t.active_burst_index_ ∧
    s.current_burst_start_absolute_ = t.current_burst_start_absolute_ ∧
    s.symbol_counter_ = t.symbol_counter_ ∧ s.live_total_bursts_ = t.live_total_bursts_ ∧
    s.pushed_ = t.pushed_ ∧ s.data_sync_hold_symbols_ = t.data_sync_hold_symbols_ ∧
    s.sync_search_symbol_count_ = t.sync_search_symbol_count_ := by
  simp only [control, Prod.mk.injEq] at h
  obtain ⟨h1, h2, h3, h4, h5, h6, h7, _, _, h10⟩ := h
  exact ⟨h1, h2, h3, h4, h5, h6, h7, h10⟩

/-- A symbol of the voice branch that is not the last of a burst leaves the
control state alone. -/
theorem voice_symbol_quiet (s : State) (dibit : Nat)
    (hs : s.parseState_ = Parse_State_Process_Voice) (ha : s.active_burst_index_ ≤ 5)
    (h144 : voice_offset s ≠ 144 + 288 * s.active_burst_index_) :
    control (process_decided_symbol s dibit) = control (process_decided_symbol.store s dibit) := by
  rw [pds_voice s dibit hs]
  exact process_voice_control _ ha h144

/-- The last symbol of a burst: the frame is completed, packed and emitted. -/
theorem voice_symbol_emits (s : State) (dibit : Nat)
    (hs : s.parseState_ = Parse_State_Process_Voice) (ha : s.active_burst_index_ ≤ 5)
    (h144 : voice_offset s = 144 + 288 * s.active_burst_index_) :
    process_decided_symbol s dibit =
      process_decided_symbol.emit_burst
        (process_decided_symbol.complete_frame (process_decided_symbol.store s dibit)) := by
  rw [pds_voice s dibit hs]
  exact process_voice_at_144 _ ha h144

theorem complete_frame_control (s : State) :
    control (process_decided_symbol.complete_frame s) = control s :=
  append_dibits_control _ _ _

/-- What an emission does to the control state. -/
theorem emit_burst_control (a : State) :
    (process_decided_symbol.emit_burst a).current_burst_start_absolute_ =
        a.current_burst_start_absolute_ ∧
    (process_decided_symbol.emit_burst a).symbol_counter_ = a.symbol_counter_ ∧
    (process_decided_symbol.emit_burst a).live_total_bursts_ = (a.live_total_bursts_ + 1) % 2 ^ 32 ∧
    (process_decided_symbol.emit_burst a).pushed_ = a.pushed_ ++
      [Message.AMBEVoiceBurst ((List.range 27).map (burst_bytes a.voice_dibits_)),
       Message.DMRRxStats ((a.live_total_bursts_ + 1) % 2 ^ 32) (a.symbol_counter_ % 2 ^ 32)
         a.parseState_.toNat a.min_ref_ a.center_ a.max_ref_ a.execute_overrun_count_] ∧
    (a.active_burst_index_ = 5 →
      (process_decided_symbol.emit_burst a).parseState_ = Parse_State_Process_Data ∧
      (process_decided_symbol.emit_burst a).data_sync_hold_symbols_ = 209 ∧
      (process_decided_symbol.emit_burst a).sync_search_symbol_count_ = 0 ∧
      (process_decided_symbol.emit_burst a).active_burst_index_ = 5 ∧
      (process_decided_symbol.emit_burst a).dibit_index_ = a.dibit_index_) ∧
    (a.active_burst_index_ ≠ 5 →
      (process_decided_symbol.emit_burst a).parseState_ = a.parseState_ ∧
      (process_decided_symbol.emit_burst a).active_burst_index_ =
        (a.active_burst_index_ + 1) % 2 ^ 8 ∧
      (process_decided_symbol.emit_burst a).dibit_index_ = 0) ∧
    (process_decided_symbol.emit_burst a).voice_dibits_ = a.voice_dibits_ := by
  rcases emit_burst_cases a with ⟨h, h5⟩ | ⟨h, h5⟩ <;> rw [h]
  · refine ⟨rfl, rfl, rfl, ?_, fun _ => ⟨rfl, rfl, rfl, h5, rfl⟩, fun hne => absurd h5 hne, rfl⟩
    simp [send_live_stats]
  · refine ⟨rfl, rfl, rfl, ?_, fun h => absurd h h5, fun _ => ⟨rfl, rfl, rfl⟩, rfl⟩
    simp [send_live_stats]

theorem store_control (s : State) (dibit : Nat) :
    (process_decided_symbol.store s dibit).parseState_ = s.parseState_ ∧
    (process_decided_symbol.store s dibit).active_burst_index_ = s.active_burst_index_ ∧
    (process_decided_symbol.store s dibit).current_burst_start_absolute_ =
      s.current_burst_start_absolute_ ∧
    (process_decided_symbol.store s dibit).symbol_counter_ = s.symbol_counter_ ∧
    (process_decided_symbol.store s dibit).live_total_bursts_ = s.live_total_bursts_ ∧
    (process_decided_symbol.store s dibit).pushed_ = s.pushed_ ∧
    (process_decided_symbol.store s dibit).data_sync_hold_symbols_ = s.data_sync_hold_symbols_ ∧
    (process_decided_symbol.store s dibit).sync_search_symbol_count_ =
      s.sync_search_symbol_count_ :=
  ⟨rfl, rfl, rfl, rfl, rfl, rfl, rfl, rfl⟩

/-- One symbol of the voice branch before the end of the superframe keeps the
invariant. -/
theorem voiceInv_step {o B L V : Nat} {s s1 : State} {t : Nat} (dibit : Nat)
    (h : VoiceInv o B L V s t) (ht : 1 ≤ t) (hlt : o + t < 1584)
    (hnext : SymbolDecided (process_decided_symbol s dibit) s1) :
    VoiceInv o B L V s1 (t + 1) := by
  obtain ⟨hs, hb, hclk, hact, hlive, hpush⟩ := h
  have ha : s.active_burst_index_ ≤ 5 := by rw [hact]; omega
  have hoff : voice_offset s = o + t := voice_offset_of_clock s _ hclk (by omega)
  obtain ⟨n1, n2, n3, n4, _, _, _⟩ := hnext.voice
  have nsc := hnext.symbol_counter
  have nps := hnext.parseState
  by_cases h144 : o + t = 144 + 288 * s.active_burst_index_
  · have hpds := voice_symbol_emits s dibit hs ha (by rw [hoff]; exact h144)
    obtain ⟨e1, e2, e3, e4, _, e6, _⟩ := emit_burst_control
      (process_decided_symbol.complete_frame (process_decided_symbol.store s dibit))
    obtain ⟨c1, c2, c3, c4, c5, c6, _, _⟩ := control_eq
      (complete_frame_control (process_decided_symbol.store s dibit))
    have hne : (process_decided_symbol.complete_frame
        (process_decided_symbol.store s dibit)).active_burst_index_ ≠ 5 := by
      rw [c2]; show s.active_burst_index_ ≠ 5; omega
    obtain ⟨f1, f2, _⟩ := e6 hne
    rw [← hpds] at e1 e2 e3 e4 f1 f2
    refine ⟨?_, ?_, ?_, ?_, ?_, ?_⟩
    · rw [nps, f1, c1]; exact hs
    · rw [n2, e1, c3]; exact hb
    · apply burst_clock_next (o + t) nsc n2 _ (by omega)
      unfold burst_clock at hclk ⊢
      rw [e1, e2, c3, c4]; exact hclk
    · rw [n1, f2, c2]
      show (s.active_burst_index_ + 1) % 2 ^ 8 = _
      omega
    · rw [n3, e3, c5]
      show (s.live_total_bursts_ + 1) % 2 ^ 32 % 2 ^ 32 = _
      have : (o + (t + 1) + 143) / 288 = (o + t + 143) / 288 + 1 := by omega
      rw [this]
      omega
    · rw [n4, e4, voice_bursts_append, c6]
      show (voice_bursts s.pushed_ ++ _).length = _
      rw [List.length_append, hpush]
      simp only [voice_bursts, List.length_cons, List.length_nil]
      omega
  · have hq := voice_symbol_quiet s dibit hs ha (by rw [hoff]; exact h144)
    obtain ⟨c1, c2, c3, c4, c5, c6, _, _⟩ := control_eq hq
    obtain ⟨d1, d2, d3, d4, d5, d6, _, _⟩ := store_control s dibit
    refine ⟨?_, ?_, ?_, ?_, ?_, ?_⟩
    · rw [nps, c1, d1]; exact hs
    · rw [n2, c3, d3]; exact hb
    · apply burst_clock_next (o + t) nsc n2 _ (by omega)
      unfold burst_clock at hclk ⊢
      rw [c3, c4, d3, d4]; exact hclk
    · rw [n1, c2, d2, hact]; omega
    · rw [n3, c5, d5, hlive]
      have : (o + (t + 1) + 143) / 288 = (o + t + 143) / 288 := by omega
      rw [this]
    · rw [n4, c6, d6, hpush]
      omega

theorem voiceInv_run {o B L V : Nat} (pre : Nat → State) (d : Nat → Nat) (m : Nat)
    (hrun : DecidedStream pre d) (h1 : VoiceInv o B L V (pre (m + 1)) 1) :
    ∀ t, 1 ≤ t → o + t ≤ 1584 → VoiceInv o B L V (pre (m + t)) t := by
  intro t
  induction t with
  | zero => intro h; omega
  | succ t ih =>
    intro _ hle
    by_cases ht : t = 0
    · subst ht; exact h1
    · have := ih (by omega) (by omega)
      exact voiceInv_step (d (m + t)) this (by omega) (by omega) (hrun (m + t))

/-! ## Sync matches -/

theorem search_match_id_of_window (s : State) (id : SyncPatternId)
    (hid : id = SyncPatternId.DirectTs1Voice ∨ id = SyncPatternId.DirectTs1Data)
    (hc : DMR_SYNC_SYMBOLS ≤ s.sync_history_count_)
    (hw : sync_window s = pattern_of id) :
    search_match_id s = id := by
  rw [search_match_id, if_pos hc, decode_eq_first_match]
  rw [sync_window] at hw
  rw [hw]
  rcases hid with h | h <;> subst h <;> decide

theorem pds_voice_match (s : State) (dibit : Nat)
    (hs : s.parseState_ = Parse_State_Search_Sync)
    (hm : search_match_id s = SyncPatternId.DirectTs1Voice) :
    process_decided_symbol s dibit =
      process_decided_symbol.leave_search
        (process_decided_symbol.level_refresh (searched (process_decided_symbol.store s dibit)))
        SyncPatternId.DirectTs1Voice := by
  rw [pds_search s dibit hs, search_sync_voice _ (by rw [search_match_id_store]; exact hm)]

theorem pds_data_match (s : State) (dibit : Nat)
    (hs : s.parseState_ = Parse_State_Search_Sync)
    (hm : search_match_id s = SyncPatternId.DirectTs1Data) :
    process_decided_symbol s dibit =
      process_decided_symbol.leave_search
        (process_decided_symbol.level_refresh (searched (process_decided_symbol.store s dibit)))
        SyncPatternId.DirectTs1Data := by
  rw [pds_search s dibit hs, search_sync_data _ (by rw [search_match_id_store]; exact hm)]

/-- The control state that a `DirectTs1Voice` match leaves. -/
theorem voice_match_control (s : State) (dibit : Nat)
    (hs : s.parseState_ = Parse_State_Search_Sync)
    (hm : search_match_id s = SyncPatternId.DirectTs1Voice) :
    (process_decided_symbol s dibit).parseState_ = Parse_State_Process_Voice ∧
    (process_decided_symbol s dibit).active_burst_index_ = 0 ∧
    (process_decided_symbol s dibit).dibit_index_ = 0 ∧
    (process_decided_symbol s dibit).current_burst_start_absolute_ =
      (if 90 ≤ s.symbol_counter_ then s.symbol_counter_ - 90 else 0) ∧
    (process_decided_symbol s dibit).symbol_counter_ = s.symbol_counter_ ∧
    (process_decided_symbol s dibit).live_total_bursts_ = s.live_total_bursts_ ∧
    (process_decided_symbol s dibit).pushed_ = s.pushed_ := by
  rw [pds_voice_match s dibit hs hm]
  rcases searched_cases (process_decided_symbol.store s dibit) with h | h <;> rw [h] <;>
    exact ⟨rfl, rfl, rfl, rfl, rfl, rfl, rfl⟩

/-- The first symbol after a `DirectTs1Voice` match. -/
theorem voiceInv_first (pre : Nat → State) (d : Nat → Nat) (m : Nat)
    (hrun : DecidedStream pre d)
    (hs : (pre m).parseState_ = Parse_State_Search_Sync)
    (hm : search_match_id (pre m) = SyncPatternId.DirectTs1Voice) :
    VoiceInv (min (pre m).symbol_counter_ 90) ((pre m).symbol_counter_ - min (pre m).symbol_counter_ 90)
      (pre m).live_total_bursts_ (voice_bursts (pre m).pushed_).length (pre (m + 1)) 1 := by
  obtain ⟨v1, v2, _, v4, v5, v6, v7⟩ := voice_match_control (pre m) (d m) hs hm
  obtain ⟨n1, n2, n3, n4, _, _, _⟩ := (hrun m).voice
  have nsc := (hrun m).symbol_counter
  have nps := (hrun m).parseState
  refine ⟨?_, ?_, ?_, ?_, ?_, ?_⟩
  · rw [nps, v1]
  · rw [n2, v4]; split_ifs <;> omega
  · unfold burst_clock
    rw [nsc, n2, v4, v5]
    split_ifs <;> omega
  · rw [n1, v2]; omega
  · rw [n3, v6]
    have : (min (pre m).symbol_counter_ 90 + 1 + 143) / 288 = 0 := by omega
    rw [this]
    rfl
  · rw [n4, v7]; omega

/-- C1. After a `DirectTs1Voice` match at symbol `m`, made at burst clock
`o = min symbol_counter_ 90`, the symbol `t` places later runs in
`ProcessVoice` at burst clock `o + t` for every `t` up to clock 1584; the
symbol at clock `144 + 288 k` (`k = 0..5`) is processed with
`active_burst_index_ = k` and emits one voice burst, no other symbol emits,
and the symbol at clock 1584 leaves `ProcessData` with a hold of 209, six
bursts emitted and `live_total_bursts_` six higher (in `uint32_t`). -/
theorem six_voice_bursts (pre : Nat → State) (d : Nat → Nat) (m o : Nat)
    (hrun : DecidedStream pre d)
    (hs : (pre m).parseState_ = Parse_State_Search_Sync)
    (hc : DMR_SYNC_SYMBOLS ≤ (pre m).sync_history_count_)
    (hw : sync_window (pre m) = pattern_of SyncPatternId.DirectTs1Voice)
    (ho : o = min (pre m).symbol_counter_ 90) :
    (∀ t, 1 ≤ t → o + t ≤ 1584 →
      (pre (m + t)).parseState_ = Parse_State_Process_Voice ∧
      burst_clock (pre (m + t)) = ((o + t : Nat) : Int) ∧
      voice_offset (pre (m + t)) = o + t) ∧
    (∀ k t, k < 6 → o + t = 144 + 288 * k →
      (pre (m + t)).active_burst_index_ = k ∧
      voice_bursts (process_decided_symbol (pre (m + t)) (d (m + t))).pushed_ =
        voice_bursts (pre (m + t)).pushed_ ++
          [(List.range 27).map (burst_bytes (process_decided_symbol.complete_frame
            (process_decided_symbol.store (pre (m + t)) (d (m + t)))).voice_dibits_)] ∧
      (process_decided_symbol (pre (m + t)) (d (m + t))).live_total_bursts_ =
        ((pre (m + t)).live_total_bursts_ + 1) % 2 ^ 32) ∧
    (∀ t, 1 ≤ t → o + t ≤ 1584 → (∀ k, k < 6 → o + t ≠ 144 + 288 * k) →
      (process_decided_symbol (pre (m + t)) (d (m + t))).pushed_ = (pre (m + t)).pushed_ ∧
      (process_decided_symbol (pre (m + t)) (d (m + t))).live_total_bursts_ =
        (pre (m + t)).live_total_bursts_) ∧
    (process_decided_symbol (pre (m + (1584 - o))) (d (m + (1584 - o)))).parseState_ =
      Parse_State_Process_Data ∧
    (process_decided_symbol (pre (m + (1584 - o))) (d (m + (1584 - o)))).data_sync_hold_symbols_ =
      209 ∧
    (process_decided_symbol (pre (m + (1584 - o))) (d (m + (1584 - o)))).live_total_bursts_ =
      ((pre m).live_total_bursts_ + 6) % 2 ^ 32 ∧
    (voice_bursts
        (process_decided_symbol (pre (m + (1584 - o))) (d (m + (1584 - o)))).pushed_).length =
      (voice_bursts (pre m).pushed_).length + 6 := by
  have hm := search_match_id_of_window (pre m) _ (Or.inl rfl) hc hw
  have hinv := voiceInv_run pre d m hrun (voiceInv_first pre d m hrun hs hm)
  rw [← ho] at hinv
  have ho90 : o ≤ 90 := by rw [ho]; exact Nat.min_le_right _ _
  -- what an emitting symbol does
  have hemit : ∀ t, 1 ≤ t → o + t ≤ 1584 →
      o + t = 144 + 288 * (pre (m + t)).active_burst_index_ →
      process_decided_symbol (pre (m + t)) (d (m + t)) =
        process_decided_symbol.emit_burst (process_decided_symbol.complete_frame
          (process_decided_symbol.store (pre (m + t)) (d (m + t)))) := by
    intro t ht hle h144
    obtain ⟨i1, _, i3, i4, _, _⟩ := hinv t ht hle
    have hoff := voice_offset_of_clock _ _ i3 (by omega)
    exact voice_symbol_emits _ _ i1 (by rw [i4]; omega) (by rw [hoff]; exact h144)
  refine ⟨?_, ?_, ?_, ?_, ?_, ?_, ?_⟩
  · intro t ht hle
    obtain ⟨i1, _, i3, _, _, _⟩ := hinv t ht hle
    exact ⟨i1, i3, voice_offset_of_clock _ _ i3 (by omega)⟩
  · intro k t hk hkt
    obtain ⟨i1, _, i3, i4, _, _⟩ := hinv t (by omega) (by omega)
    have hact : (pre (m + t)).active_burst_index_ = k := by rw [i4]; omega
    have hpds := hemit t (by omega) (by omega) (by rw [hact]; exact hkt)
    obtain ⟨_, _, e3, e4, _, _, _⟩ := emit_burst_control
      (process_decided_symbol.complete_frame (process_decided_symbol.store (pre (m + t)) (d (m + t))))
    obtain ⟨_, _, _, _, c5, c6, _, _⟩ := control_eq
      (complete_frame_control (process_decided_symbol.store (pre (m + t)) (d (m + t))))
    rw [← hpds] at e3 e4
    refine ⟨hact, ?_, ?_⟩
    · rw [e4, voice_bursts_append, c6]
      rfl
    · rw [e3, c5]
      rfl
  · intro t ht hle hno
    obtain ⟨i1, _, i3, i4, _, _⟩ := hinv t ht hle
    have hoff := voice_offset_of_clock _ _ i3 (by omega)
    have hq := voice_symbol_quiet (pre (m + t)) (d (m + t)) i1 (by rw [i4]; omega)
      (by rw [hoff, i4]; have := hno ((o + t + 143) / 288) (by omega); omega)
    obtain ⟨_, _, _, _, c5, c6, _, _⟩ := control_eq hq
    exact ⟨c6, c5⟩
  all_goals
    obtain ⟨i1, _, i3, i4, i5, i6⟩ := hinv (1584 - o) (by omega) (by omega)
    have hact : (pre (m + (1584 - o))).active_burst_index_ = 5 := by rw [i4]; omega
    have hpds := hemit (1584 - o) (by omega) (by omega) (by rw [hact]; omega)
    obtain ⟨_, _, e3, e4, e5, _, _⟩ := emit_burst_control
      (process_decided_symbol.complete_frame
        (process_decided_symbol.store (pre (m + (1584 - o))) (d (m + (1584 - o)))))
    obtain ⟨_, c2, _, _, c5, c6, _, _⟩ := control_eq
      (complete_frame_control
        (process_decided_symbol.store (pre (m + (1584 - o))) (d (m + (1584 - o)))))
    obtain ⟨f1, f2, _, _, _⟩ := e5 (by rw [c2]; exact hact)
    rw [← hpds] at e3 e4 f1 f2
  · exact f1
  · exact f2
  · rw [e3, c5]
    show ((pre (m + (1584 - o))).live_total_bursts_ + 1) % 2 ^ 32 = _
    have : (o + (1584 - o) + 143) / 288 = 5 := by omega
    rw [this] at i5
    omega
  · rw [e4, voice_bursts_append, c6, List.length_append]
    show (voice_bursts (pre (m + (1584 - o))).pushed_).length + _ = _
    rw [i6]
    simp only [voice_bursts, List.length_cons, List.length_nil]
    omega

/-- Reading a run of `count` dibits that starts `back` places behind the
write cursor, in any state `a` that shares the ring of the current symbol. -/
theorem stream_append (pre : Nat → State) (d : Nat → Nat) (hrun : DecidedStream pre d)
    (hidx : (pre 0).dibit_buf_index_ < DIBIT_BUF_SIZE) (n back count : Nat) (a : State)
    (hring : a.dibit_buf_ = (process_decided_symbol.store (pre n) (d n)).dibit_buf_)
    (hcb : count ≤ back) (hb1 : back ≤ DIBIT_BUF_SIZE) (hb2 : back ≤ n + 1)
    (hroom : a.dibit_index_ + count ≤ 108) :
    (append_dibits a
        (((process_decided_symbol.store (pre n) (d n)).dibit_buf_index_ : Int) - (back : Int))
        count).dibit_index_ = a.dibit_index_ + count ∧
    ∀ j, (append_dibits a
        (((process_decided_symbol.store (pre n) (d n)).dibit_buf_index_ : Int) - (back : Int))
        count).voice_dibits_ j =
      if a.dibit_index_ ≤ j ∧ j < a.dibit_index_ + count then
        d (n + 1 - back + (j - a.dibit_index_))
      else a.voice_dibits_ j := by
  obtain ⟨h1, h2⟩ := append_dibits_room a
    (((process_decided_symbol.store (pre n) (d n)).dibit_buf_index_ : Int) - (back : Int))
    count hroom
  refine ⟨h1, fun j => ?_⟩
  rw [h2 j]
  by_cases hj : a.dibit_index_ ≤ j ∧ j < a.dibit_index_ + count
  · rw [if_pos hj, if_pos hj, hring]
    have e : ((process_decided_symbol.store (pre n) (d n)).dibit_buf_index_ : Int) - (back : Int) +
        ((j - a.dibit_index_ : Nat) : Int) =
        ((process_decided_symbol.store (pre n) (d n)).dibit_buf_index_ : Int) -
          ((back - (j - a.dibit_index_) : Nat) : Int) := by
      omega
    rw [e, stream_ring_lookback pre d hrun hidx n (back - (j - a.dibit_index_))
      (by omega) (by omega) (by omega)]
    congr 1
    omega
  · rw [if_neg hj, if_neg hj]

theorem store_frame (s : State) (dibit : Nat) :
    (process_decided_symbol.store s dibit).dibit_index_ = s.dibit_index_ ∧
    (process_decided_symbol.store s dibit).voice_dibits_ = s.voice_dibits_ :=
  ⟨rfl, rfl⟩

/-- The frame in the state in which a burst is emitted. -/
theorem frameInv_complete {d : Nat → Nat} {m t k : Nat} (pre : Nat → State)
    (hrun : DecidedStream pre d) (hidx : (pre 0).dibit_buf_index_ < DIBIT_BUF_SIZE)
    (hm : 77 ≤ m) (ht : t = 54 + 288 * k)
    (hf : FrameInv d m (pre (m + t)) t) :
    (process_decided_symbol.complete_frame
      (process_decided_symbol.store (pre (m + t)) (d (m + t)))).dibit_index_ = 108 ∧
    ∀ j, j < 108 →
      (process_decided_symbol.complete_frame
        (process_decided_symbol.store (pre (m + t)) (d (m + t)))).voice_dibits_ j =
        frame_dibit d m k j := by
  obtain ⟨f1, f2⟩ := hf
  have hk : (t + 233) / 288 = k := by omega
  rw [hk] at f1 f2
  have hfill : frame_fill k (t + 89) = 72 := by
    unfold frame_fill
    rw [if_neg (by omega), if_neg (by omega)]
  rw [hfill] at f1
  obtain ⟨a1, a2⟩ := stream_append pre d hrun hidx (m + t) 36 36
    (process_decided_symbol.store (pre (m + t)) (d (m + t))) rfl (le_refl _)
    (by norm_num [DIBIT_BUF_SIZE]) (by omega)
    (by show (pre (m + t)).dibit_index_ + 36 ≤ 108; omega)
  have e : process_decided_symbol.complete_frame
      (process_decided_symbol.store (pre (m + t)) (d (m + t))) =
      append_dibits (process_decided_symbol.store (pre (m + t)) (d (m + t)))
        (((process_decided_symbol.store (pre (m + t)) (d (m + t))).dibit_buf_index_ : Int) -
          ((36 : Nat) : Int)) 36 := rfl
  rw [e]
  refine ⟨?_, fun j hj => ?_⟩
  · rw [a1]; show (pre (m + t)).dibit_index_ + 36 = 108; omega
  · rw [a2 j]
    have hdi : (process_decided_symbol.store (pre (m + t)) (d (m + t))).dibit_index_ = 72 := f1
    rw [hdi]
    by_cases hj2 : 72 ≤ j ∧ j < 72 + 36
    · rw [if_pos hj2]
      unfold frame_dibit clocked
      rw [if_neg (by omega)]
      exact congrArg d (by omega)
    · rw [if_neg hj2]
      exact f2 j (by rw [f1]; omega)

theorem store_voice_offset (s : State) (dibit : Nat) :
    voice_offset (process_decided_symbol.store s dibit) = voice_offset s ∧
    (process_decided_symbol.store s dibit).active_burst_index_ = s.active_burst_index_ :=
  ⟨rfl, rfl⟩

/-- One symbol of the voice branch keeps the frame invariant. -/
theorem frameInv_step {d : Nat → Nat} {m t B L V : Nat} (pre : Nat → State)
    (hrun : DecidedStream pre d) (hidx : (pre 0).dibit_buf_index_ < DIBIT_BUF_SIZE)
    (hm : 77 ≤ m) (ht : 1 ≤ t) (hlt : 90 + t < 1584)
    (hv : VoiceInv 90 B L V (pre (m + t)) t)
    (hf : FrameInv d m (pre (m + t)) t) :
    FrameInv d m (pre (m + t + 1)) (t + 1) := by
  obtain ⟨hs, _, hclk, hact, _, _⟩ := hv
  obtain ⟨f1, f2⟩ := hf
  have hoff : voice_offset (pre (m + t)) = 90 + t := voice_offset_of_clock _ _ hclk (by omega)
  have ha : (pre (m + t)).active_burst_index_ ≤ 5 := by rw [hact]; omega
  obtain ⟨_, _, _, _, n5, n6, _⟩ := (hrun (m + t)).voice
  obtain ⟨so, sa⟩ := store_voice_offset (pre (m + t)) (d (m + t))
  have hsz : DIBIT_BUF_SIZE = 1728 := by norm_num [DIBIT_BUF_SIZE]
  have hpv := pds_voice (pre (m + t)) (d (m + t)) hs
  generalize hk : (t + 233) / 288 = k at f1 f2
  have hactk : (pre (m + t)).active_burst_index_ = k := by rw [hact, ← hk]; omega
  unfold FrameInv
  rw [n5, n6]
  by_cases h91 : t = 1 + 288 * k
  · -- clock 91 + 288 k: the two runs before the sync field
    have hk' : (t + 1 + 233) / 288 = k := by omega
    have hfill : frame_fill k (t + 89) = 0 := by
      unfold frame_fill; rw [if_pos (by omega)]
    have hfill' : frame_fill k (t + 1 + 89) = 54 := by
      unfold frame_fill; rw [if_neg (by omega), if_pos (by omega)]
    rw [hfill] at f1
    rw [hk', hfill', hpv,
      process_voice_at_91 _ (by rw [sa]; exact ha) (by rw [so, sa, hoff, hactk]; omega)]
    obtain ⟨a1, a2⟩ := stream_append pre d hrun hidx (m + t) 79 36
      (process_decided_symbol.store (pre (m + t)) (d (m + t))) rfl (by omega) (by omega)
      (by omega) (by show (pre (m + t)).dibit_index_ + 36 ≤ 108; omega)
    have hdi : (process_decided_symbol.store (pre (m + t)) (d (m + t))).dibit_index_ = 0 := f1
    rw [hdi] at a1 a2
    obtain ⟨b1, b2⟩ := stream_append pre d hrun hidx (m + t) 43 18
      (append_dibits (process_decided_symbol.store (pre (m + t)) (d (m + t)))
        (((process_decided_symbol.store (pre (m + t)) (d (m + t))).dibit_buf_index_ : Int) -
          ((79 : Nat) : Int)) 36)
      (append_dibits_ring _ _ _) (by omega) (by omega) (by omega) (by rw [a1]; omega)
    rw [a1] at b1 b2
    simp only [Nat.cast_ofNat] at a1 a2 b1 b2
    refine ⟨b1, fun j hj => ?_⟩
    rw [b1] at hj
    have hb := b2 j
    have hfd : frame_dibit d m k j = d (m + 288 * k + j - 77) := by
      unfold frame_dibit clocked
      rw [if_pos (by omega)]
      exact congrArg d (by omega)
    rw [hfd]
    by_cases hj2 : 0 + 36 ≤ j ∧ j < 0 + 36 + 18
    · rw [if_pos hj2] at hb
      exact hb.trans (congrArg d (by omega))
    · rw [if_neg hj2, a2 j, if_pos (by omega)] at hb
      exact hb.trans (congrArg d (by omega))
  · by_cases h108 : t = 18 + 288 * k
    · -- clock 108 + 288 k: the first run after the sync field
      have hk' : (t + 1 + 233) / 288 = k := by omega
      have hfill : frame_fill k (t + 89) = 54 := by
        unfold frame_fill; rw [if_neg (by omega), if_pos (by omega)]
      have hfill' : frame_fill k (t + 1 + 89) = 72 := by
        unfold frame_fill; rw [if_neg (by omega), if_neg (by omega)]
      rw [hfill] at f1
      rw [hk', hfill', hpv,
        process_voice_at_108 _ (by rw [sa]; exact ha) (by rw [so, sa, hoff, hactk]; omega)]
      obtain ⟨a1, a2⟩ := stream_append pre d hrun hidx (m + t) 18 18
        (process_decided_symbol.store (pre (m + t)) (d (m + t))) rfl (by omega) (by omega)
        (by omega) (by show (pre (m + t)).dibit_index_ + 18 ≤ 108; omega)
      have hdi : (process_decided_symbol.store (pre (m + t)) (d (m + t))).dibit_index_ = 54 := f1
      rw [hdi] at a1 a2
      simp only [Nat.cast_ofNat] at a1 a2
      refine ⟨a1, fun j hj => ?_⟩
      rw [a1] at hj
      have hb := a2 j
      by_cases hj2 : 54 ≤ j ∧ j < 54 + 18
      · rw [if_pos hj2] at hb
        have hfd : frame_dibit d m k j = d (m + 288 * k + 1 + (j - 54)) := by
          unfold frame_dibit clocked
          rw [if_neg (by omega)]
          exact congrArg d (by omega)
        rw [hfd]
        exact hb.trans (congrArg d (by omega))
      · rw [if_neg hj2] at hb
        rw [hb]
        exact f2 j (by rw [f1]; omega)
    · by_cases h144 : t = 54 + 288 * k
      · -- clock 144 + 288 k: the burst is emitted and the cursor cleared
        have hk' : (t + 1 + 233) / 288 = k + 1 := by omega
        have hfill' : frame_fill (k + 1) (t + 1 + 89) = 0 := by
          unfold frame_fill; rw [if_pos (by omega)]
        rw [hk', hfill', hpv,
          process_voice_at_144 _ (by rw [sa]; exact ha) (by rw [so, sa, hoff, hactk]; omega)]
        obtain ⟨_, _, _, _, _, e6, _⟩ := emit_burst_control
          (process_decided_symbol.complete_frame
            (process_decided_symbol.store (pre (m + t)) (d (m + t))))
        obtain ⟨_, c2, _⟩ := control_eq
          (complete_frame_control (process_decided_symbol.store (pre (m + t)) (d (m + t))))
        obtain ⟨_, _, g3⟩ := e6 (by rw [c2, sa, hactk]; omega)
        refine ⟨g3, fun j hj => ?_⟩
        rw [g3] at hj
        omega
      · -- any other clock
        have hk' : (t + 1 + 233) / 288 = k := by omega
        have hfill' : frame_fill k (t + 1 + 89) = frame_fill k (t + 89) := by
          unfold frame_fill
          split_ifs <;> omega
        rw [hk', hfill', hpv,
          process_voice_idle _ (by rw [sa]; exact ha) (by rw [so, sa, hoff, hactk]; omega)
            (by rw [so, sa, hoff, hactk]; omega) (by rw [so, sa, hoff, hactk]; omega)]
        exact ⟨f1, f2⟩

theorem frameInv_first (d : Nat → Nat) (m : Nat) (pre : Nat → State)
    (hrun : DecidedStream pre d)
    (hs : (pre m).parseState_ = Parse_State_Search_Sync)
    (hmatch : search_match_id (pre m) = SyncPatternId.DirectTs1Voice) :
    FrameInv d m (pre (m + 1)) 1 := by
  obtain ⟨_, _, v3, _⟩ := voice_match_control (pre m) (d m) hs hmatch
  obtain ⟨_, _, _, _, _, n6, _⟩ := (hrun m).voice
  have hfill : frame_fill ((1 + 233) / 288) (1 + 89) = 0 := by decide
  refine ⟨by rw [n6, v3, hfill], fun j hj => ?_⟩
  rw [n6, v3] at hj
  omega

theorem frameInv_run {d : Nat → Nat} {m B L V : Nat} (pre : Nat → State)
    (hrun : DecidedStream pre d) (hidx : (pre 0).dibit_buf_index_ < DIBIT_BUF_SIZE)
    (hm : 77 ≤ m)
    (hv : ∀ t, 1 ≤ t → 90 + t ≤ 1584 → VoiceInv 90 B L V (pre (m + t)) t)
    (h1 : FrameInv d m (pre (m + 1)) 1) :
    ∀ t, 1 ≤ t → 90 + t ≤ 1584 → FrameInv d m (pre (m + t)) t := by
  intro t
  induction t with
  | zero => intro h; omega
  | succ t ih =>
    intro _ hle
    by_cases ht : t = 0
    · subst ht; exact h1
    · exact frameInv_step pre hrun hidx hm (by omega) (by omega)
        (hv t (by omega) (by omega)) (ih (by omega) (by omega))

/-- A call leaves `symbol_counter_` alone or, on carrier loss, zeroes it. -/
theorem pds_symbol_counter (s : State) (dibit : Nat) :
    (process_decided_symbol s dibit).symbol_counter_ = s.symbol_counter_ ∨
    (process_decided_symbol s dibit).symbol_counter_ = 0 := by
  cases hs : s.parseState_ with
  | Parse_State_Search_Sync =>
    rw [pds_search s dibit hs]
    rcases search_sync_cases (process_decided_symbol.store s dibit) with h | h | h | h <;>
      rw [h] <;>
      rcases searched_cases (process_decided_symbol.store s dibit) with h2 | h2 <;>
      rw [h2] <;> first | exact Or.inl rfl | exact Or.inr rfl
  | Parse_State_Process_Voice =>
    rw [pds_voice s dibit hs]
    left
    unfold process_decided_symbol.process_voice
    dsimp only
    split_ifs
    · exact ((control_eq (append_dibits_control _ _ _)).2.2.2.1).trans
        (control_eq (append_dibits_control _ _ _)).2.2.2.1
    · exact (control_eq (append_dibits_control _ _ _)).2.2.2.1
    · exact ((emit_burst_control _).2.1).trans (control_eq (complete_frame_control _)).2.2.2.1
    · rfl
  | Parse_State_Process_Data =>
    rw [pds_data s dibit hs]
    left
    unfold process_decided_symbol.process_data
    dsimp only
    split_ifs <;> rfl

/-- Before a match made at `symbol_counter_ >= 90` the counter ran without a
reset for at least 77 symbols. -/
theorem counter_before_match (pre : Nat → State) (d : Nat → Nat) (m : Nat)
    (hrun : DecidedStream pre d) (hm : 77 ≤ m) (hsc : 90 ≤ (pre m).symbol_counter_) :
    ∀ j, j ≤ 77 → (pre (m - j)).symbol_counter_ % 2 ^ 64 = (pre m).symbol_counter_ - j := by
  intro j
  induction j with
  | zero =>
    intro _
    have h := (hrun (m - 1)).symbol_counter
    rw [show m - 1 + 1 = m by omega] at h
    show (pre m).symbol_counter_ % 2 ^ 64 = (pre m).symbol_counter_
    omega
  | succ j ih =>
    intro hj
    have h := (hrun (m - (j + 1))).symbol_counter
    rw [show m - (j + 1) + 1 = m - j by omega] at h
    have ih1 := ih (by omega)
    rcases pds_symbol_counter (pre (m - (j + 1))) (d (m - (j + 1))) with h0 | h0
    · rw [h0] at h
      omega
    · rw [h0] at h
      omega

theorem map_range_eq_of {n : Nat} (f g : Nat → Nat) (h : ∀ j, j < n → f j = g j) :
    (List.range n).map f = (List.range n).map g := by
  apply List.map_congr_left
  intro j hj
  exact h j (List.mem_range.1 hj)

theorem range_108_split (f : Nat → Nat) :
    (List.range 108).map f =
      (List.range 54).map f ++ (List.range 54).map (fun j => f (54 + j)) := by
  have : List.range 108 = List.range 54 ++ (List.range 54).map (fun j => 54 + j) := by decide
  rw [this, List.map_append, List.map_map]
  rfl

/-- C2. For a `DirectTs1Voice` match at symbol `m` of a stream, made with
`symbol_counter_ >= 90` and at least 77 symbols into the stream: the symbol at
position `m + n - 90` is the one whose burst clock
`symbol_counter_ - current_burst_start_absolute_` is `n`, and for every burst
`k = 0..5` the frame in `voice_dibits_` when the burst is emitted holds, in
order, the dibits of clocks `13 + 288 k .. 66 + 288 k` and then those of
clocks `91 + 288 k .. 144 + 288 k`, with `dibit_index_ = 108`. -/
theorem voice_frame_dibits (pre : Nat → State) (d : Nat → Nat) (m : Nat)
    (hrun : DecidedStream pre d)
    (hidx : (pre 0).dibit_buf_index_ < DIBIT_BUF_SIZE)
    (hm : 77 ≤ m)
    (hs : (pre m).parseState_ = Parse_State_Search_Sync)
    (hc : DMR_SYNC_SYMBOLS ≤ (pre m).sync_history_count_)
    (hw : sync_window (pre m) = pattern_of SyncPatternId.DirectTs1Voice)
    (hsc : 90 ≤ (pre m).symbol_counter_) :
    (∀ n, 13 ≤ n → n ≤ 1584 →
      (((pre (m + n - 90)).symbol_counter_ : Int) -
        (((pre m).symbol_counter_ : Int) - 90)) % 2 ^ 64 = (n : Int)) ∧
    (∀ n, 91 ≤ n → n ≤ 1584 →
      (pre (m + n - 90)).parseState_ = Parse_State_Process_Voice ∧
      (pre (m + n - 90)).current_burst_start_absolute_ = (pre m).symbol_counter_ - 90) ∧
    ∀ k, k < 6 →
      (pre (m + 54 + 288 * k)).active_burst_index_ = k ∧
      process_decided_symbol (pre (m + 54 + 288 * k)) (d (m + 54 + 288 * k)) =
        process_decided_symbol.emit_burst (process_decided_symbol.complete_frame
          (process_decided_symbol.store (pre (m + 54 + 288 * k)) (d (m + 54 + 288 * k)))) ∧
      (process_decided_symbol.complete_frame
        (process_decided_symbol.store (pre (m + 54 + 288 * k))
          (d (m + 54 + 288 * k)))).dibit_index_ = 108 ∧
      (List.range 108).map (process_decided_symbol.complete_frame
        (process_decided_symbol.store (pre (m + 54 + 288 * k))
          (d (m + 54 + 288 * k)))).voice_dibits_ =
        (List.range 54).map (fun j => clocked d m (13 + 288 * k + j)) ++
        (List.range 54).map (fun j => clocked d m (91 + 288 * k + j)) := by
  have hmatch := search_match_id_of_window (pre m) _ (Or.inl rfl) hc hw
  have hinv := voiceInv_run pre d m hrun (voiceInv_first pre d m hrun hs hmatch)
  have hmin : min (pre m).symbol_counter_ 90 = 90 := Nat.min_eq_right hsc
  rw [hmin] at hinv
  have hfr := frameInv_run pre hrun hidx hm hinv (frameInv_first d m pre hrun hs hmatch)
  refine ⟨?_, ?_, ?_⟩
  · intro n hn1 hn2
    by_cases hn : n ≤ 90
    · have h := counter_before_match pre d m hrun hm hsc (90 - n) (by omega)
      rw [show m - (90 - n) = m + n - 90 by omega] at h
      omega
    · obtain ⟨_, i2, i3, _⟩ := hinv (n - 90) (by omega) (by omega)
      rw [show m + (n - 90) = m + n - 90 by omega] at i2 i3
      unfold burst_clock at i3
      rw [i2] at i3
      rw [show ((90 + (n - 90) : Nat) : Int) = (n : Int) by omega] at i3
      rw [← i3]
      congr 1
      omega
  · intro n hn1 hn2
    obtain ⟨i1, i2, _⟩ := hinv (n - 90) (by omega) (by omega)
    rw [show m + (n - 90) = m + n - 90 by omega] at i1 i2
    exact ⟨i1, i2⟩
  · intro k hk
    have e : m + 54 + 288 * k = m + (54 + 288 * k) := by omega
    rw [e]
    obtain ⟨i1, _, i3, i4, _, _⟩ := hinv (54 + 288 * k) (by omega) (by omega)
    have hact : (pre (m + (54 + 288 * k))).active_burst_index_ = k := by rw [i4]; omega
    have hoff := voice_offset_of_clock _ _ i3 (by omega)
    obtain ⟨g1, g2⟩ := frameInv_complete pre hrun hidx hm rfl
      (hfr (54 + 288 * k) (by omega) (by omega))
    refine ⟨hact, ?_, g1, ?_⟩
    · exact voice_symbol_emits _ _ i1 (by rw [hact]; omega) (by rw [hoff, hact]; omega)
    · rw [range_108_split]
      congr 1
      · apply map_range_eq_of
        intro j hj
        rw [g2 j (by omega)]
        unfold frame_dibit
        rw [if_pos hj]
      · apply map_range_eq_of
        intro j hj
        rw [g2 (54 + j) (by omega)]
        unfold frame_dibit
        rw [if_neg (by omega)]
        rw [show 54 + j - 54 = j by omega]

/-- C5. In `SearchSync` with at least 24 history entries whose most recent 24
characters are the `DirectTs1Voice` pattern, `process_decided_symbol` leaves
`ProcessVoice` with the search counter, the burst index and the dibit cursor
at 0, carrier, jitter correction and filter switched on, and the burst start
at `symbol_counter_ - 90`, clamped at 0. -/
theorem ts1_voice_match (s : State) (dibit : Nat)
    (hs : s.parseState_ = Parse_State_Search_Sync)
    (hc : DMR_SYNC_SYMBOLS ≤ s.sync_history_count_)
    (hw : sync_window s = pattern_of SyncPatternId.DirectTs1Voice) :
    (process_decided_symbol s dibit).parseState_ = Parse_State_Process_Voice ∧
    (process_decided_symbol s dibit).sync_search_symbol_count_ = 0 ∧
    (process_decided_symbol s dibit).active_burst_index_ = 0 ∧
    (process_decided_symbol s dibit).dibit_index_ = 0 ∧
    (process_decided_symbol s dibit).carrier_present_ = true ∧
    (process_decided_symbol s dibit).jitter_enabled_ = true ∧
    (process_decided_symbol s dibit).dmr_filter_enabled_ = true ∧
    (process_decided_symbol s dibit).current_burst_start_absolute_ =
      (if 90 ≤ s.symbol_counter_ then s.symbol_counter_ - 90 else 0) := by
  have hm := search_match_id_of_window s _ (Or.inl rfl) hc hw
  rw [pds_voice_match s dibit hs hm]
  rcases searched_cases (process_decided_symbol.store s dibit) with h | h <;> rw [h] <;>
    exact ⟨rfl, rfl, rfl, rfl, rfl, rfl, rfl, rfl⟩

/-- The level fields after either `DirectTs1` match are those of the level
refresh run on the state of the call. -/
theorem match_levels (s : State) (dibit : Nat) (id : SyncPatternId)
    (hid : id = SyncPatternId.DirectTs1Voice ∨ id = SyncPatternId.DirectTs1Data)
    (hs : s.parseState_ = Parse_State_Search_Sync)
    (hm : search_match_id s = id) :
    (process_decided_symbol s dibit).max_sample_ =
      (process_decided_symbol.level_refresh s).max_sample_ ∧
    (process_decided_symbol s dibit).min_sample_ =
      (process_decided_symbol.level_refresh s).min_sample_ ∧
    (process_decided_symbol s dibit).center_ =
      (process_decided_symbol.level_refresh s).center_ ∧
    (process_decided_symbol s dibit).umid_ =
      (process_decided_symbol.level_refresh s).umid_ ∧
    (process_decided_symbol s dibit).lmid_ =
      (process_decided_symbol.level_refresh s).lmid_ ∧
    (process_decided_symbol s dibit).max_ref_ =
      (process_decided_symbol.level_refresh s).max_ref_ ∧
    (process_decided_symbol s dibit).min_ref_ =
      (process_decided_symbol.level_refresh s).min_ref_ := by
  rcases hid with h | h <;> subst h
  · rw [pds_voice_match s dibit hs hm]
    rcases searched_cases (process_decided_symbol.store s dibit) with h | h <;> rw [h] <;>
      exact ⟨rfl, rfl, rfl, rfl, rfl, rfl, rfl⟩
  · rw [pds_data_match s dibit hs hm]
    rcases searched_cases (process_decided_symbol.store s dibit) with h | h <;> rw [h] <;>
      exact ⟨rfl, rfl, rfl, rfl, rfl, rfl, rfl⟩

theorem level_refresh_congr (s t : State) (h1 : t.lbuf1_ = s.lbuf1_)
    (h2 : t.max_sample_ = s.max_sample_) (h3 : t.min_sample_ = s.min_sample_) :
    (process_decided_symbol.level_refresh t).max_sample_ =
      (process_decided_symbol.level_refresh s).max_sample_ ∧
    (process_decided_symbol.level_refresh t).min_sample_ =
      (process_decided_symbol.level_refresh s).min_sample_ ∧
    (process_decided_symbol.level_refresh t).center_ =
      (process_decided_symbol.level_refresh s).center_ ∧
    (process_decided_symbol.level_refresh t).umid_ =
      (process_decided_symbol.level_refresh s).umid_ ∧
    (process_decided_symbol.level_refresh t).lmid_ =
      (process_decided_symbol.level_refresh s).lmid_ ∧
    (process_decided_symbol.level_refresh t).max_ref_ =
      (process_decided_symbol.level_refresh s).max_ref_ ∧
    (process_decided_symbol.level_refresh t).min_ref_ =
      (process_decided_symbol.level_refresh s).min_ref_ := by
  cases s
  cases t
  dsimp only at h1 h2 h3
  subst h1 h2 h3
  exact ⟨rfl, rfl, rfl, rfl, rfl, rfl, rfl⟩

/-- C10. In `SearchSync` with at least 24 history entries whose most recent 24
characters are the `DirectTs1Data` pattern, `process_decided_symbol` leaves
`ProcessData` with a hold of 263 and the search counter at 0; the seven level
fields get the values that a `DirectTs1Voice` match gives them from the same
prior state (`sv` is `s` with another sync history), and the burst index, the
dibit cursor and the burst start keep their values. -/
theorem ts1_data_match (s sv : State) (dibit : Nat)
    (hs : s.parseState_ = Parse_State_Search_Sync)
    (hc : DMR_SYNC_SYMBOLS ≤ s.sync_history_count_)
    (hw : sync_window s = pattern_of SyncPatternId.DirectTs1Data)
    (hsv : sv = { s with
      sync_history_ := sv.sync_history_
      sync_history_pos_ := sv.sync_history_pos_
      sync_history_count_ := sv.sync_history_count_ })
    (hcv : DMR_SYNC_SYMBOLS ≤ sv.sync_history_count_)
    (hwv : sync_window sv = pattern_of SyncPatternId.DirectTs1Voice) :
    (process_decided_symbol s dibit).parseState_ = Parse_State_Process_Data ∧
    (process_decided_symbol s dibit).data_sync_hold_symbols_ = 263 ∧
    (process_decided_symbol s dibit).sync_search_symbol_count_ = 0 ∧
    (process_decided_symbol s dibit).max_sample_ = (process_decided_symbol sv dibit).max_sample_ ∧
    (process_decided_symbol s dibit).min_sample_ = (process_decided_symbol sv dibit).min_sample_ ∧
    (process_decided_symbol s dibit).center_ = (process_decided_symbol sv dibit).center_ ∧
    (process_decided_symbol s dibit).umid_ = (process_decided_symbol sv dibit).umid_ ∧
    (process_decided_symbol s dibit).lmid_ = (process_decided_symbol sv dibit).lmid_ ∧
    (process_decided_symbol s dibit).max_ref_ = (process_decided_symbol sv dibit).max_ref_ ∧
    (process_decided_symbol s dibit).min_ref_ = (process_decided_symbol sv dibit).min_ref_ ∧
    (process_decided_symbol s dibit).active_burst_index_ = s.active_burst_index_ ∧
    (process_decided_symbol s dibit).dibit_index_ = s.dibit_index_ ∧
    (process_decided_symbol s dibit).current_burst_start_absolute_ =
      s.current_burst_start_absolute_ := by
  have hm := search_match_id_of_window s _ (Or.inr rfl) hc hw
  have hmv := search_match_id_of_window sv _ (Or.inl rfl) hcv hwv
  have hsvs : sv.parseState_ = Parse_State_Search_Sync := by rw [hsv]; exact hs
  obtain ⟨a1, a2, a3, a4, a5, a6, a7⟩ := match_levels s dibit _ (Or.inr rfl) hs hm
  obtain ⟨b1, b2, b3, b4, b5, b6, b7⟩ := match_levels sv dibit _ (Or.inl rfl) hsvs hmv
  obtain ⟨l1, l2, l3, l4, l5, l6, l7⟩ := level_refresh_congr s sv
    (by rw [hsv]) (by rw [hsv]) (by rw [hsv])
  rw [a1, a2, a3, a4, a5, a6, a7, b1, b2, b3, b4, b5, b6, b7, l1, l2, l3, l4, l5, l6, l7]
  refine ⟨?_, ?_, ?_, rfl, rfl, rfl, rfl, rfl, rfl, rfl, ?_, ?_, ?_⟩ <;>
    rw [pds_data_match s dibit hs hm] <;>
    rcases searched_cases (process_decided_symbol.store s dibit) with h | h <;> rw [h] <;> rfl

/-- C7. Along any stream that starts with the write cursor inside the ring:
in the state in which the voice branch reads the ring for symbol `n`, the read
at `wrap_index (dibit_buf_index_ - k)` returns the dibit of the `k`-th most
recent call (`k = 1` is the dibit just written), for `1 <= k <= 1728`; and
`append_dibits` started `k` places back copies `count <= k` of them in the
order in which they were written, wherever the cursor stands. -/
theorem ring_lookback (pre : Nat → State) (d : Nat → Nat) (n k : Nat)
    (hrun : DecidedStream pre d)
    (hidx : (pre 0).dibit_buf_index_ < DIBIT_BUF_SIZE)
    (hk1 : 1 ≤ k) (hk2 : k ≤ DIBIT_BUF_SIZE) (hk3 : k ≤ n + 1) :
    (process_decided_symbol.store (pre n) (d n)).dibit_buf_index_ < DIBIT_BUF_SIZE ∧
    wrap_index (((process_decided_symbol.store (pre n) (d n)).dibit_buf_index_ : Int) - (k : Int)) =
      ((process_decided_symbol.store (pre n) (d n)).dibit_buf_index_ + DIBIT_BUF_SIZE - k) %
        DIBIT_BUF_SIZE ∧
    (process_decided_symbol.store (pre n) (d n)).dibit_buf_
        (wrap_index (((process_decided_symbol.store (pre n) (d n)).dibit_buf_index_ : Int) -
          (k : Int))) = d (n + 1 - k) ∧
    ∀ count, count ≤ k →
      (process_decided_symbol.store (pre n) (d n)).dibit_index_ + count ≤ 108 →
      (append_dibits (process_decided_symbol.store (pre n) (d n))
        (((process_decided_symbol.store (pre n) (d n)).dibit_buf_index_ : Int) - (k : Int))
        count).dibit_index_ =
          (process_decided_symbol.store (pre n) (d n)).dibit_index_ + count ∧
      ∀ j, j < count →
        (append_dibits (process_decided_symbol.store (pre n) (d n))
          (((process_decided_symbol.store (pre n) (d n)).dibit_buf_index_ : Int) - (k : Int))
          count).voice_dibits_
            ((process_decided_symbol.store (pre n) (d n)).dibit_index_ + j) =
          d (n + 1 - k + j) := by
  have hsz : DIBIT_BUF_SIZE = 1728 := by norm_num [DIBIT_BUF_SIZE]
  have hszi : (DIBIT_BUF_SIZE : Int) = 1728 := by norm_num [DIBIT_BUF_SIZE]
  have hlt : (process_decided_symbol.store (pre n) (d n)).dibit_buf_index_ < DIBIT_BUF_SIZE := by
    show ((pre n).dibit_buf_index_ + 1) % DIBIT_BUF_SIZE < DIBIT_BUF_SIZE
    rw [hsz]; omega
  refine ⟨hlt, ?_, stream_ring_lookback pre d hrun hidx n k hk1 hk2 hk3, ?_⟩
  · rw [wrap_index_eq, hszi, hsz]
    rw [hsz] at hlt hk2
    omega
  · intro count hck hroom
    obtain ⟨a1, a2⟩ := stream_append pre d hrun hidx n k count
      (process_decided_symbol.store (pre n) (d n)) rfl hck hk2 hk3 hroom
    refine ⟨a1, fun j hj => ?_⟩
    rw [a2, if_pos (by omega)]
    exact congrArg d (by omega)

/-- A symbol of the search branch without `DirectTs1` match. -/
theorem pds_no_match (s : State) (dibit : Nat)
    (hs : s.parseState_ = Parse_State_Search_Sync)
    (hv : search_match_id s ≠ SyncPatternId.DirectTs1Voice)
    (hd : search_match_id s ≠ SyncPatternId.DirectTs1Data) :
    process_decided_symbol s dibit =
      if 1800 ≤ (s.sync_search_symbol_count_ + 1) % 2 ^ 32 then
        handle_carrier_loss (searched (process_decided_symbol.store s dibit))
      else searched (process_decided_symbol.store s dibit) := by
  rw [pds_search s dibit hs,
    search_sync_other _ (by rw [search_match_id_store]; exact hv)
      (by rw [search_match_id_store]; exact hd), searched_count]
  rfl

/-- What the search branch does when it neither matches nor resets. -/
theorem searched_fields (s : State) (dibit : Nat) :
    (searched (process_decided_symbol.store s dibit)).parseState_ = s.parseState_ ∧
    (searched (process_decided_symbol.store s dibit)).sync_search_symbol_count_ =
      (s.sync_search_symbol_count_ + 1) % 2 ^ 32 ∧
    (searched (process_decided_symbol.store s dibit)).symbol_counter_ = s.symbol_counter_ ∧
    (searched (process_decided_symbol.store s dibit)).carrier_present_ = s.carrier_present_ ∧
    (searched (process_decided_symbol.store s dibit)).center_ = s.center_ ∧
    (searched (process_decided_symbol.store s dibit)).jitter_ = s.jitter_ ∧
    (searched (process_decided_symbol.store s dibit)).umid_ = s.umid_ ∧
    (searched (process_decided_symbol.store s dibit)).lmid_ = s.lmid_ ∧
    (searched (process_decided_symbol.store s dibit)).active_burst_index_ =
      s.active_burst_index_ ∧
    (searched (process_decided_symbol.store s dibit)).dibit_index_ = s.dibit_index_ ∧
    (searched (process_decided_symbol.store s dibit)).current_burst_start_absolute_ =
      s.current_burst_start_absolute_ ∧
    (searched (process_decided_symbol.store s dibit)).max_sample_ = s.max_sample_ ∧
    (searched (process_decided_symbol.store s dibit)).min_sample_ = s.min_sample_ := by
  rcases searched_cases (process_decided_symbol.store s dibit) with h | h <;> rw [h] <;>
    exact ⟨rfl, rfl, rfl, rfl, rfl, rfl, rfl, rfl, rfl, rfl, rfl, rfl, rfl⟩

/-- C6. From `SearchSync` with the search counter at 0, if none of the next
1800 symbols matches `DirectTs1Voice` or `DirectTs1Data`: each of the first
1799 raises the counter by one and leaves every field of the reset alone,
and the 1800th performs the carrier-loss reset, which keeps `max_sample_`
and `min_sample_` and derives `umid_`, `lmid_`, `max_ref_`, `min_ref_` from
them. -/
theorem carrier_loss_after_1800 (pre : Nat → State) (d : Nat → Nat)
    (hrun : DecidedStream pre d)
    (hs : (pre 0).parseState_ = Parse_State_Search_Sync)
    (h0 : (pre 0).sync_search_symbol_count_ = 0)
    (hno : ∀ i, i < 1800 →
      search_match_id (pre i) ≠ SyncPatternId.DirectTs1Voice ∧
      search_match_id (pre i) ≠ SyncPatternId.DirectTs1Data) :
    (∀ i, i < 1799 →
      (pre i).parseState_ = Parse_State_Search_Sync ∧
      (process_decided_symbol (pre i) (d i)).parseState_ = Parse_State_Search_Sync ∧
      (process_decided_symbol (pre i) (d i)).sync_search_symbol_count_ = i + 1 ∧
      (process_decided_symbol (pre i) (d i)).symbol_counter_ = (pre i).symbol_counter_ ∧
      (process_decided_symbol (pre i) (d i)).carrier_present_ = (pre i).carrier_present_ ∧
      (process_decided_symbol (pre i) (d i)).center_ = (pre i).center_ ∧
      (process_decided_symbol (pre i) (d i)).jitter_ = (pre i).jitter_ ∧
      (process_decided_symbol (pre i) (d i)).umid_ = (pre i).umid_ ∧
      (process_decided_symbol (pre i) (d i)).lmid_ = (pre i).lmid_ ∧
      (process_decided_symbol (pre i) (d i)).active_burst_index_ = (pre i).active_burst_index_ ∧
      (process_decided_symbol (pre i) (d i)).dibit_index_ = (pre i).dibit_index_ ∧
      (process_decided_symbol (pre i) (d i)).current_burst_start_absolute_ =
        (pre i).current_burst_start_absolute_ ∧
      (process_decided_symbol (pre i) (d i)).max_sample_ = (pre 0).max_sample_ ∧
      (process_decided_symbol (pre i) (d i)).min_sample_ = (pre 0).min_sample_) ∧
    (pre 1799).parseState_ = Parse_State_Search_Sync ∧
    (pre 1799).max_sample_ = (pre 0).max_sample_ ∧
    (pre 1799).min_sample_ = (pre 0).min_sample_ ∧
    process_decided_symbol (pre 1799) (d 1799) =
      handle_carrier_loss (searched (process_decided_symbol.store (pre 1799) (d 1799))) ∧
    (process_decided_symbol (pre 1799) (d 1799)).parseState_ = Parse_State_Search_Sync ∧
    (process_decided_symbol (pre 1799) (d 1799)).symbol_counter_ = 0 ∧
    (process_decided_symbol (pre 1799) (d 1799)).center_ = 0 ∧
    (process_decided_symbol (pre 1799) (d 1799)).jitter_ = -1 ∧
    (process_decided_symbol (pre 1799) (d 1799)).carrier_present_ = false ∧
    (process_decided_symbol (pre 1799) (d 1799)).sync_search_symbol_count_ = 0 ∧
    (process_decided_symbol (pre 1799) (d 1799)).active_burst_index_ = 0 ∧
    (process_decided_symbol (pre 1799) (d 1799)).dibit_index_ = 0 ∧
    (process_decided_symbol (pre 1799) (d 1799)).current_burst_start_absolute_ = 0 ∧
    (process_decided_symbol (pre 1799) (d 1799)).umid_ =
      Int.tdiv ((pre 0).max_sample_ * 5) 8 ∧
    (process_decided_symbol (pre 1799) (d 1799)).lmid_ =
      Int.tdiv ((pre 0).min_sample_ * 5) 8 ∧
    (process_decided_symbol (pre 1799) (d 1799)).max_ref_ = (pre 0).max_sample_ ∧
    (process_decided_symbol (pre 1799) (d 1799)).min_ref_ = (pre 0).min_sample_ ∧
    (process_decided_symbol (pre 1799) (d 1799)).max_sample_ = (pre 0).max_sample_ ∧
    (process_decided_symbol (pre 1799) (d 1799)).min_sample_ = (pre 0).min_sample_ := by
  have hinv : ∀ i, i ≤ 1799 →
      (pre i).parseState_ = Parse_State_Search_Sync ∧
      (pre i).sync_search_symbol_count_ = i ∧
      (pre i).max_sample_ = (pre 0).max_sample_ ∧
      (pre i).min_sample_ = (pre 0).min_sample_ := by
    intro i
    induction i with
    | zero => intro _; exact ⟨hs, h0, rfl, rfl⟩
    | succ i ih =>
      intro hi
      obtain ⟨i1, i2, i3, i4⟩ := ih (by omega)
      obtain ⟨hv, hd⟩ := hno i (by omega)
      have hp := pds_no_match (pre i) (d i) i1 hv hd
      rw [i2, if_neg (by omega)] at hp
      obtain ⟨f1, f2, _, _, _, _, _, _, _, _, _, f12, f13⟩ := searched_fields (pre i) (d i)
      rw [← hp] at f1 f2 f12 f13
      obtain ⟨n1, n2, n3⟩ := (hrun i).search
      refine ⟨?_, ?_, ?_, ?_⟩
      · rw [(hrun i).parseState, f1, i1]
      · rw [n1, f2, i2]; omega
      · rw [n2, f12, i3]
      · rw [n3, f13, i4]
  refine ⟨?_, (hinv 1799 (le_refl _)).1, (hinv 1799 (le_refl _)).2.2.1,
    (hinv 1799 (le_refl _)).2.2.2, ?_⟩
  · intro i hi
    obtain ⟨i1, i2, i3, i4⟩ := hinv i (by omega)
    obtain ⟨hv, hd⟩ := hno i (by omega)
    have hp := pds_no_match (pre i) (d i) i1 hv hd
    rw [i2, if_neg (by omega)] at hp
    obtain ⟨f1, f2, f3, f4, f5, f6, f7, f8, f9, f10, f11, f12, f13⟩ :=
      searched_fields (pre i) (d i)
    rw [← hp] at f1 f2 f3 f4 f5 f6 f7 f8 f9 f10 f11 f12 f13
    refine ⟨i1, by rw [f1, i1], ?_, f3, f4, f5, f6, f7, f8, f9, f10, f11, by rw [f12, i3],
      by rw [f13, i4]⟩
    rw [f2, i2]; omega
  · obtain ⟨i1, i2, i3, i4⟩ := hinv 1799 (le_refl _)
    obtain ⟨hv, hd⟩ := hno 1799 (by omega)
    have hp := pds_no_match (pre 1799) (d 1799) i1 hv hd
    rw [i2, if_pos (by omega)] at hp
    refine ⟨hp, ?_⟩
    rw [hp, ← i3, ← i4]
    rcases searched_cases (process_decided_symbol.store (pre 1799) (d 1799)) with h | h <;>
      rw [h]
    · refine ⟨rfl, rfl, rfl, rfl, rfl, rfl, rfl, rfl, rfl, ?_, ?_, rfl, rfl, rfl, rfl⟩
      · show Int.tdiv (((pre 1799).max_sample_ - 0) * 5) 8 + 0 = _
        simp
      · show Int.tdiv (((pre 1799).min_sample_ - 0) * 5) 8 + 0 = _
        simp
    · refine ⟨rfl, rfl, rfl, rfl, rfl, rfl, rfl, rfl, rfl, ?_, ?_, rfl, rfl, rfl, rfl⟩
      · show Int.tdiv (((pre 1799).max_sample_ - 0) * 5) 8 + 0 = _
        simp
      · show Int.tdiv (((pre 1799).min_sample_ - 0) * 5) 8 + 0 = _
        simp

/-! ## The slicer between two calls -/

theorem SlicerFrame.trans {a b c : State} (h1 : SlicerFrame a b) (h2 : SlicerFrame b c) :
    SlicerFrame a c := by
  unfold SlicerFrame at *
  rw [h2, h1]

theorem timing_frame (s : State) (loop_i : Int) :
    SlicerFrame s (getSymbolFromBuffer.timing s loop_i).2 := by
  unfold getSymbolFromBuffer.timing
  split_ifs <;> rfl

theorem sample_frame (s : State) (loop_i x : Int) :
    SlicerFrame s (getSymbolFromBuffer.sample s loop_i x).1 := by
  unfold getSymbolFromBuffer.sample
  dsimp only
  split_ifs <;> rfl

theorem slicer_loop_frame (sps : Int) (rest : List Int) :
    ∀ (loop_i : Int) (s : State) (offset : Nat) (sum_out count_out symbol_out : Int),
      (getSymbolFromBuffer.loop sps rest loop_i s offset sum_out count_out symbol_out).ok = true →
      SlicerFrame s
        { (getSymbolFromBuffer.loop sps rest loop_i s offset sum_out count_out symbol_out).s with
          symbol_counter_ := s.symbol_counter_ } ∧
      (getSymbolFromBuffer.loop sps rest loop_i s offset sum_out count_out
        symbol_out).s.symbol_counter_ = (s.symbol_counter_ + 1) % 2 ^ 64 := by
  induction rest with
  | nil =>
    intro loop_i s offset sum_out count_out symbol_out
    unfold getSymbolFromBuffer.loop
    by_cases hlt : loop_i < sps
    · rw [if_pos hlt]
      intro h; exact absurd h (by simp)
    · rw [if_neg hlt]
      intro _; exact ⟨rfl, rfl⟩
  | cons x rest ih =>
    intro loop_i s offset sum_out count_out symbol_out
    unfold getSymbolFromBuffer.loop
    by_cases hlt : loop_i < sps
    · rw [if_pos hlt]
      dsimp only
      intro hok
      obtain ⟨h1, h2⟩ := ih _ _ _ _ _ _ hok
      have f1 := timing_frame s loop_i
      have f2 := sample_frame (getSymbolFromBuffer.timing s loop_i).2
        (getSymbolFromBuffer.timing s loop_i).1 x
      have f12 := SlicerFrame.trans f1 f2
      have hsc : (getSymbolFromBuffer.sample (getSymbolFromBuffer.timing s loop_i).2
          (getSymbolFromBuffer.timing s loop_i).1 x).1.symbol_counter_ = s.symbol_counter_ := by
        rw [f12]
      rw [hsc] at h1 h2
      exact ⟨SlicerFrame.trans f12 h1, h2⟩
    · rw [if_neg hlt]
      intro _; exact ⟨rfl, rfl⟩

/-- The state in which `process_demod_block` calls `process_decided_symbol`
after a successful `getSymbolFromBuffer` is a `SymbolDecided` successor of the
state before `getSymbolFromBuffer`. -/
theorem slicer_symbol_decided (s : State) (samples : List Int) (offset : Nat)
    (sum_out count_out symbol_out : Int)
    (hok : (getSymbolFromBuffer s samples offset sum_out count_out symbol_out).ok = true) :
    ∃ s1 dibit,
      SymbolDecided s s1 ∧
      process_demod_block.decide_symbol
          (getSymbolFromBuffer s samples offset sum_out count_out symbol_out).s
          (getSymbolFromBuffer s samples offset sum_out count_out symbol_out).symbol_out =
        process_decided_symbol s1 dibit := by
  unfold getSymbolFromBuffer at hok ⊢
  dsimp only at hok ⊢
  by_cases hlt : ((samples.length : Int) - (offset : Int)) % 2 ^ 32 < 10 % 2 ^ 32
  · rw [if_pos hlt] at hok
    exact absurd hok (by simp)
  · rw [if_neg hlt] at hok ⊢
    obtain ⟨h1, h2⟩ := slicer_loop_frame 10 (samples.drop offset) 0 s offset 0 0 symbol_out hok
    refine ⟨_, _, ?_, rfl⟩
    unfold SymbolDecided
    generalize (getSymbolFromBuffer.loop 10 (List.drop offset samples) 0 s offset 0 0
      symbol_out) = r at h1 h2
    unfold SlicerFrame at h1
    have e : r.s = { s with
        symbol_counter_ := (s.symbol_counter_ + 1) % 2 ^ 64
        absolute_sample_index_ := r.s.absolute_sample_index_
        jitter_ := r.s.jitter_
        last_filtered_sample_ := r.s.last_filtered_sample_
        dmr_v := r.s.dmr_v } := by
      rw [← h2]
      have := congrArg (fun t : State => { t with symbol_counter_ := r.s.symbol_counter_ }) h1
      exact this
    rw [e]
    rfl

/-! ## The statements on example inputs -/

theorem pds_sync_history (s : State) (dibit : Nat) :
    (process_decided_symbol s dibit).sync_history_ = s.sync_history_ ∧
    (process_decided_symbol s dibit).sync_history_pos_ = s.sync_history_pos_ ∧
    (process_decided_symbol s dibit).sync_history_count_ = s.sync_history_count_ := by
  cases hs : s.parseState_ with
  | Parse_State_Search_Sync =>
    rw [pds_search s dibit hs]
    rcases search_sync_cases (process_decided_symbol.store s dibit) with h | h | h | h <;>
      rw [h] <;>
      rcases searched_cases (process_decided_symbol.store s dibit) with h2 | h2 <;>
      rw [h2] <;> exact ⟨rfl, rfl, rfl⟩
  | Parse_State_Process_Voice =>
    rw [pds_voice s dibit hs]
    unfold process_decided_symbol.process_voice
    dsimp only
    split_ifs
    · rw [append_dibits_frame, append_dibits_frame (process_decided_symbol.store s dibit)]
      exact ⟨rfl, rfl, rfl⟩
    · rw [append_dibits_frame]
      exact ⟨rfl, rfl, rfl⟩
    · rcases emit_burst_cases (process_decided_symbol.complete_frame
          (process_decided_symbol.store s dibit)) with ⟨h, _⟩ | ⟨h, _⟩ <;> rw [h] <;>
        unfold process_decided_symbol.complete_frame <;>
        rw [append_dibits_frame] <;> exact ⟨rfl, rfl, rfl⟩
    · exact ⟨rfl, rfl, rfl⟩
  | Parse_State_Process_Data =>
    rw [pds_data s dibit hs]
    unfold process_decided_symbol.process_data
    dsimp only
    split_ifs <;> exact ⟨rfl, rfl, rfl⟩

theorem feed_search_match_id (s0 : State) (d : Nat → Nat) (i : Nat) :
    search_match_id (feed s0 d i) = search_match_id s0 := by
  induction i with
  | zero => rfl
  | succ i ih =>
    rw [← ih]
    obtain ⟨h1, h2, h3⟩ := pds_sync_history (feed s0 d i) (d i)
    exact search_match_id_congr _ _ h1 h2 h3

set_option maxRecDepth 100000 in
theorem example_hold_match :
    (feed example_hold example_dibits 77).parseState_ = Parse_State_Search_Sync ∧
    DMR_SYNC_SYMBOLS ≤ (feed example_hold example_dibits 77).sync_history_count_ ∧
    sync_window (feed example_hold example_dibits 77) =
      pattern_of SyncPatternId.DirectTs1Voice ∧
    (feed example_hold example_dibits 77).symbol_counter_ = 90 ∧
    (feed example_hold example_dibits 0).dibit_buf_index_ < DIBIT_BUF_SIZE := by
  decide

theorem six_voice_bursts_witness :
    DecidedStream (feed example_hold example_dibits) example_dibits ∧
    (feed example_hold example_dibits 77).parseState_ = Parse_State_Search_Sync ∧
    DMR_SYNC_SYMBOLS ≤ (feed example_hold example_dibits 77).sync_history_count_ ∧
    sync_window (feed example_hold example_dibits 77) =
      pattern_of SyncPatternId.DirectTs1Voice ∧
    90 = min (feed example_hold example_dibits 77).symbol_counter_ 90 ∧
    (process_decided_symbol (feed example_hold example_dibits (77 + (1584 - 90)))
      (example_dibits (77 + (1584 - 90)))).parseState_ = Parse_State_Process_Data ∧
    (process_decided_symbol (feed example_hold example_dibits (77 + (1584 - 90)))
      (example_dibits (77 + (1584 - 90)))).data_sync_hold_symbols_ = 209 ∧
    (process_decided_symbol (feed example_hold example_dibits (77 + (1584 - 90)))
      (example_dibits (77 + (1584 - 90)))).live_total_bursts_ =
        ((feed example_hold example_dibits 77).live_total_bursts_ + 6) % 2 ^ 32 ∧
    (voice_bursts (process_decided_symbol (feed example_hold example_dibits (77 + (1584 - 90)))
      (example_dibits (77 + (1584 - 90)))).pushed_).length =
        (voice_bursts (feed example_hold example_dibits 77).pushed_).length + 6 :=
  ⟨feed_decided _ _, example_hold_match.1, example_hold_match.2.1, example_hold_match.2.2.1,
    by rw [example_hold_match.2.2.2.1]; rfl,
    (six_voice_bursts (feed example_hold example_dibits) example_dibits 77 90
      (feed_decided _ _) example_hold_match.1 example_hold_match.2.1
      example_hold_match.2.2.1 (by rw [example_hold_match.2.2.2.1]; rfl)).2.2.2⟩

theorem voice_frame_dibits_witness :
    DecidedStream (feed example_hold example_dibits) example_dibits ∧
    (feed example_hold example_dibits 0).dibit_buf_index_ < DIBIT_BUF_SIZE ∧
    77 ≤ 77 ∧
    (feed example_hold example_dibits 77).parseState_ = Parse_State_Search_Sync ∧
    DMR_SYNC_SYMBOLS ≤ (feed example_hold example_dibits 77).sync_history_count_ ∧
    sync_window (feed example_hold example_dibits 77) =
      pattern_of SyncPatternId.DirectTs1Voice ∧
    90 ≤ (feed example_hold example_dibits 77).symbol_counter_ ∧
    (process_decided_symbol.complete_frame
      (process_decided_symbol.store (feed example_hold example_dibits (77 + 54 + 288 * 2))
        (example_dibits (77 + 54 + 288 * 2)))).dibit_index_ = 108 ∧
    (List.range 108).map (process_decided_symbol.complete_frame
      (process_decided_symbol.store (feed example_hold example_dibits (77 + 54 + 288 * 2))
        (example_dibits (77 + 54 + 288 * 2)))).voice_dibits_ =
      (List.range 54).map (fun j => clocked example_dibits 77 (13 + 288 * 2 + j)) ++
      (List.range 54).map (fun j => clocked example_dibits 77 (91 + 288 * 2 + j)) :=
  ⟨feed_decided _ _, example_hold_match.2.2.2.2, le_refl _, example_hold_match.1,
    example_hold_match.2.1, example_hold_match.2.2.1,
    by rw [example_hold_match.2.2.2.1],
    ((voice_frame_dibits (feed example_hold example_dibits) example_dibits 77
      (feed_decided _ _) example_hold_match.2.2.2.2 (le_refl _) example_hold_match.1
      example_hold_match.2.1 example_hold_match.2.2.1
      (by rw [example_hold_match.2.2.2.1])).2.2 2 (by decide)).2.2⟩

theorem burst_bytes_msb_first_witness :
    (0 < 27 ∧
      burst_bytes example_dibits 0 =
        (((example_dibits (4 * 0) &&& 3) <<< 6) ||| ((example_dibits (4 * 0 + 1) &&& 3) <<< 4) |||
          ((example_dibits (4 * 0 + 2) &&& 3) <<< 2) ||| (example_dibits (4 * 0 + 3) &&& 3))) ∧
    ((∀ i, i < 108 → example_dibits i < 4) ∧ 5 < 108 ∧
      (burst_bytes example_dibits (5 / 4) >>> (6 - 2 * (5 % 4))) &&& 3 = example_dibits 5) :=
  ⟨⟨by decide, (burst_bytes_msb_first example_dibits).1 0 (by decide)⟩,
    ⟨fun i _ => Nat.mod_lt i (by decide), by decide,
      (burst_bytes_msb_first example_dibits).2 (fun i _ => Nat.mod_lt i (by decide)) 5
        (by decide)⟩⟩

theorem decode_sync_string_exact_witness :
    (⟨SyncPatternId.MsData, "331333113133111133331111".toList⟩ : SyncPatternDescriptor) ∈
      kSyncPatterns ∧
    (decode_sync_string (some example_data.sync_history_) = SyncPatternId.MsData ↔
      window24 example_data.sync_history_ = "331333113133111133331111".toList) :=
  ⟨by simp [kSyncPatterns],
    (decode_sync_string_exact example_data.sync_history_).1
      ⟨SyncPatternId.MsData, "331333113133111133331111".toList⟩ (by simp [kSyncPatterns])⟩

theorem ts1_voice_match_witness :
    example_voice.parseState_ = Parse_State_Search_Sync ∧
    DMR_SYNC_SYMBOLS ≤ example_voice.sync_history_count_ ∧
    sync_window example_voice = pattern_of SyncPatternId.DirectTs1Voice ∧
    (process_decided_symbol example_voice 2).parseState_ = Parse_State_Process_Voice ∧
    (process_decided_symbol example_voice 2).sync_search_symbol_count_ = 0 ∧
    (process_decided_symbol example_voice 2).active_burst_index_ = 0 ∧
    (process_decided_symbol example_voice 2).dibit_index_ = 0 ∧
    (process_decided_symbol example_voice 2).carrier_present_ = true ∧
    (process_decided_symbol example_voice 2).jitter_enabled_ = true ∧
    (process_decided_symbol example_voice 2).dmr_filter_enabled_ = true ∧
    (process_decided_symbol example_voice 2).current_burst_start_absolute_ =
      (if 90 ≤ example_voice.symbol_counter_ then example_voice.symbol_counter_ - 90 else 0) :=
  ⟨rfl, by decide, by decide,
    ts1_voice_match example_voice 2 rfl (by decide) (by decide)⟩

theorem carrier_loss_after_1800_witness :
    DecidedStream (feed State.constructed example_dibits) example_dibits ∧
    (feed State.constructed example_dibits 0).parseState_ = Parse_State_Search_Sync ∧
    (feed State.constructed example_dibits 0).sync_search_symbol_count_ = 0 ∧
    (∀ i, i < 1800 →
      search_match_id (feed State.constructed example_dibits i) ≠
        SyncPatternId.DirectTs1Voice ∧
      search_match_id (feed State.constructed example_dibits i) ≠
        SyncPatternId.DirectTs1Data) ∧
    process_decided_symbol (feed State.constructed example_dibits 1799) (example_dibits 1799) =
      handle_carrier_loss (searched (process_decided_symbol.store
        (feed State.constructed example_dibits 1799) (example_dibits 1799))) ∧
    (process_decided_symbol (feed State.constructed example_dibits 1799)
      (example_dibits 1799)).symbol_counter_ = 0 ∧
    (process_decided_symbol (feed State.constructed example_dibits 1799)
      (example_dibits 1799)).max_sample_ =
        (feed State.constructed example_dibits 0).max_sample_ :=
  have hno : ∀ i, i < 1800 →
      search_match_id (feed State.constructed example_dibits i) ≠
        SyncPatternId.DirectTs1Voice ∧
      search_match_id (feed State.constructed example_dibits i) ≠
        SyncPatternId.DirectTs1Data := fun i _ => by
    rw [feed_search_match_id]
    decide
  have h := carrier_loss_after_1800 (feed State.constructed example_dibits) example_dibits
    (feed_decided _ _) rfl rfl hno
  ⟨feed_decided _ _, rfl, rfl, hno, h.2.2.2.2.1, h.2.2.2.2.2.2.1,
    h.2.2.2.2.2.2.2.2.2.2.2.2.2.2.2.2.2.2.1⟩

theorem ring_lookback_witness :
    DecidedStream (feed State.constructed example_dibits) example_dibits ∧
    (feed State.constructed example_dibits 0).dibit_buf_index_ < DIBIT_BUF_SIZE ∧
    1 ≤ 1728 ∧ 1728 ≤ DIBIT_BUF_SIZE ∧ 1728 ≤ 2000 + 1 ∧
    (process_decided_symbol.store (feed State.constructed example_dibits 2000)
      (example_dibits 2000)).dibit_buf_
        (wrap_index (((process_decided_symbol.store (feed State.constructed example_dibits 2000)
          (example_dibits 2000)).dibit_buf_index_ : Int) - ((1728 : Nat) : Int))) =
      example_dibits (2000 + 1 - 1728) :=
  ⟨feed_decided _ _, by decide, by decide, by decide, by decide,
    (ring_lookback (feed State.constructed example_dibits) example_dibits 2000 1728
      (feed_decided _ _) (by decide) (by decide) (by decide) (by decide)).2.2.1⟩

theorem execute_rejects_when_busy_witness :
    example_busy.configured = true ∧ example_busy.execute_running = true ∧
    execute example_front_end (example_busy, ()) [(1, -1)] =
      ({ example_busy with
        execute_overrun_count_ := (example_busy.execute_overrun_count_ + 1) % 2 ^ 32 }, ()) :=
  ⟨rfl, rfl, execute_rejects_when_busy example_front_end example_busy () [(1, -1)] rfl rfl⟩

theorem ts1_data_match_witness :
    example_data.parseState_ = Parse_State_Search_Sync ∧
    DMR_SYNC_SYMBOLS ≤ example_data.sync_history_count_ ∧
    sync_window example_data = pattern_of SyncPatternId.DirectTs1Data ∧
    DMR_SYNC_SYMBOLS ≤ example_voice.sync_history_count_ ∧
    sync_window example_voice = pattern_of SyncPatternId.DirectTs1Voice ∧
    (process_decided_symbol example_data 1).parseState_ = Parse_State_Process_Data ∧
    (process_decided_symbol example_data 1).data_sync_hold_symbols_ = 263 ∧
    (process_decided_symbol example_data 1).sync_search_symbol_count_ = 0 ∧
    (process_decided_symbol example_data 1).max_sample_ =
      (process_decided_symbol example_voice 1).max_sample_ :=
  have h := ts1_data_match example_data example_voice 1 rfl (by decide) (by decide) rfl
    (by decide) (by decide)
  ⟨rfl, by decide, by decide, by decide, by decide, h.1, h.2.1, h.2.2.1, h.2.2.2.1⟩

/-! ## Resets and level refresh -/

/-- C13. In `ProcessVoice` and in `ProcessData` a call leaves the carrier
flag, the symbol counter, the three thresholds, the two references and the
two tracked extremes as they were: the carrier-loss reset is not run. -/
theorem no_reset_outside_search (s : State) (dibit : Nat)
    (hs : s.parseState_ = Parse_State_Process_Voice ∨
      s.parseState_ = Parse_State_Process_Data) :
    (process_decided_symbol s dibit).carrier_present_ = s.carrier_present_ ∧
    (process_decided_symbol s dibit).symbol_counter_ = s.symbol_counter_ ∧
    (process_decided_symbol s dibit).center_ = s.center_ ∧
    (process_decided_symbol s dibit).umid_ = s.umid_ ∧
    (process_decided_symbol s dibit).lmid_ = s.lmid_ ∧
    (process_decided_symbol s dibit).max_ref_ = s.max_ref_ ∧
    (process_decided_symbol s dibit).min_ref_ = s.min_ref_ ∧
    (process_decided_symbol s dibit).max_sample_ = s.max_sample_ ∧
    (process_decided_symbol s dibit).min_sample_ = s.min_sample_ := by
  rcases hs with hs | hs
  · rw [pds_voice s dibit hs]
    unfold process_decided_symbol.process_voice
    dsimp only
    split_ifs
    · rw [append_dibits_frame, append_dibits_frame (process_decided_symbol.store s dibit)]
      exact ⟨rfl, rfl, rfl, rfl, rfl, rfl, rfl, rfl, rfl⟩
    · rw [append_dibits_frame]
      exact ⟨rfl, rfl, rfl, rfl, rfl, rfl, rfl, rfl, rfl⟩
    · rcases emit_burst_cases (process_decided_symbol.complete_frame
          (process_decided_symbol.store s dibit)) with ⟨h, _⟩ | ⟨h, _⟩ <;> rw [h] <;>
        unfold process_decided_symbol.complete_frame <;>
        rw [append_dibits_frame] <;> exact ⟨rfl, rfl, rfl, rfl, rfl, rfl, rfl, rfl, rfl⟩
    · exact ⟨rfl, rfl, rfl, rfl, rfl, rfl, rfl, rfl, rfl⟩
  · rw [pds_data s dibit hs]
    unfold process_decided_symbol.process_data
    dsimp only
    split_ifs <;> exact ⟨rfl, rfl, rfl, rfl, rfl, rfl, rfl, rfl, rfl⟩

theorem tdiv_sub_zero_add_zero (a : Int) : Int.tdiv ((a - 0) * 5) 8 + 0 = Int.tdiv (a * 5) 8 := by
  simp

/-- C14, as amended. The carrier-loss reset writes the protocol and timing
state only: carrier flag off, jitter estimate cleared, `center_`, the two
counters and the burst cursors zeroed, state `SearchSync`, and `umid_`,
`lmid_`, `max_ref_`, `min_ref_` derived from the tracked extremes, which it
keeps together with every other member.  It agrees with the general reset
on `parseState_`, `active_burst_index_`, `current_burst_start_absolute_`,
`sync_search_symbol_count_`, `symbol_counter_`, `center_` and `jitter_`. -/
theorem carrier_loss_resets_protocol_state (s : State) :
    handle_carrier_loss s =
      { s with
        carrier_present_ := false
        jitter_ := -1
        center_ := 0
        sync_search_symbol_count_ := 0
        symbol_counter_ := 0
        parseState_ := Parse_State_Search_Sync
        active_burst_index_ := 0
        dibit_index_ := 0
        current_burst_start_absolute_ := 0
        umid_ := Int.tdiv (s.max_sample_ * 5) 8
        lmid_ := Int.tdiv (s.min_sample_ * 5) 8
        max_ref_ := s.max_sample_
        min_ref_ := s.min_sample_ } ∧
    (handle_carrier_loss s).parseState_ = (resetToDefaultState s).parseState_ ∧
    (handle_carrier_loss s).active_burst_index_ = (resetToDefaultState s).active_burst_index_ ∧
    (handle_carrier_loss s).current_burst_start_absolute_ =
      (resetToDefaultState s).current_burst_start_absolute_ ∧
    (handle_carrier_loss s).sync_search_symbol_count_ =
      (resetToDefaultState s).sync_search_symbol_count_ ∧
    (handle_carrier_loss s).symbol_counter_ = (resetToDefaultState s).symbol_counter_ ∧
    (handle_carrier_loss s).center_ = (resetToDefaultState s).center_ ∧
    (handle_carrier_loss s).jitter_ = (resetToDefaultState s).jitter_ := by
  refine ⟨?_, rfl, rfl, rfl, rfl, rfl, rfl, rfl⟩
  unfold handle_carrier_loss
  dsimp only
  rw [tdiv_sub_zero_add_zero, tdiv_sub_zero_add_zero]

/-- C15, as amended. The carrier-loss reset changes neither the overrun
counter nor the cumulative burst counter; the general reset leaves the
overrun counter alone and sets the cumulative burst counter to 0. -/
theorem resets_and_lifetime_counters (s : State) :
    (handle_carrier_loss s).execute_overrun_count_ = s.execute_overrun_count_ ∧
    (handle_carrier_loss s).live_total_bursts_ = s.live_total_bursts_ ∧
    (resetToDefaultState s).execute_overrun_count_ = s.execute_overrun_count_ ∧
    (resetToDefaultState s).live_total_bursts_ = 0 :=
  ⟨rfl, rfl, rfl, rfl⟩

/-- C14 as stated fails: after the carrier-loss reset of a processor that has
tracked a signal, twelve of the members that the general reset assigns hold
other values than the general reset gives them. -/
theorem carrier_loss_differs_from_reset :
    (handle_carrier_loss example_tracking).carrier_present_ ≠
      (resetToDefaultState example_tracking).carrier_present_ ∧
    (handle_carrier_loss example_tracking).umid_ ≠
      (resetToDefaultState example_tracking).umid_ ∧
    (handle_carrier_loss example_tracking).lmid_ ≠
      (resetToDefaultState example_tracking).lmid_ ∧
    (handle_carrier_loss example_tracking).max_ref_ ≠
      (resetToDefaultState example_tracking).max_ref_ ∧
    (handle_carrier_loss example_tracking).min_ref_ ≠
      (resetToDefaultState example_tracking).min_ref_ ∧
    (handle_carrier_loss example_tracking).max_sample_ ≠
      (resetToDefaultState example_tracking).max_sample_ ∧
    (handle_carrier_loss example_tracking).min_sample_ ≠
      (resetToDefaultState example_tracking).min_sample_ ∧
    (handle_carrier_loss example_tracking).dibit_buf_index_ ≠
      (resetToDefaultState example_tracking).dibit_buf_index_ ∧
    (handle_carrier_loss example_tracking).sync_history_pos_ ≠
      (resetToDefaultState example_tracking).sync_history_pos_ ∧
    (handle_carrier_loss example_tracking).sync_history_count_ ≠
      (resetToDefaultState example_tracking).sync_history_count_ ∧
    (handle_carrier_loss example_tracking).jitter_enabled_ ≠
      (resetToDefaultState example_tracking).jitter_enabled_ ∧
    (handle_carrier_loss example_tracking).dmr_filter_enabled_ ≠
      (resetToDefaultState example_tracking).dmr_filter_enabled_ ∧
    (process_decided_symbol example_tracking 0).carrier_present_ = false ∧
    (process_decided_symbol example_tracking 0).max_sample_ = 7500 := by
  decide

/-- C15 as stated fails: the general reset zeroes a cumulative burst counter
that stood at 6. -/
theorem reset_zeroes_burst_counter :
    example_tracking.live_total_bursts_ = 6 ∧
    (resetToDefaultState example_tracking).live_total_bursts_ = 0 ∧
    (resetToDefaultState example_tracking).live_total_bursts_ ≠
      example_tracking.live_total_bursts_ := by
  decide

theorem search_match_id_of_pattern (s : State) (id : SyncPatternId)
    (hid : ∃ desc ∈ kSyncPatterns, desc.id = id)
    (hc : DMR_SYNC_SYMBOLS ≤ s.sync_history_count_)
    (hw : sync_window s = pattern_of id) :
    search_match_id s = id := by
  rw [search_match_id, if_pos hc, decode_eq_first_match]
  rw [sync_window] at hw
  rw [hw]
  obtain ⟨desc, hmem, hd⟩ := hid
  subst hd
  simp only [kSyncPatterns, List.mem_cons, List.mem_singleton, List.not_mem_nil, or_false] at hmem
  rcases hmem with h | h | h | h | h | h | h | h <;> subst h <;> decide

theorem leave_search_trim (k : State) (id : SyncPatternId) :
    (process_decided_symbol.leave_search k id).lmin_ = k.lmin_ ∧
    (process_decided_symbol.leave_search k id).lmax_ = k.lmax_ ∧
    (process_decided_symbol.leave_search k id).lbuf2_ = k.lbuf2_ := by
  unfold process_decided_symbol.leave_search
  dsimp only
  split_ifs <;> exact ⟨rfl, rfl, rfl⟩

theorem level_refresh_trim_congr (s t : State) (h1 : t.lbuf1_ = s.lbuf1_)
    (h2 : t.lbuf2_ = s.lbuf2_) :
    (process_decided_symbol.level_refresh t).lmin_ =
      (process_decided_symbol.level_refresh s).lmin_ ∧
    (process_decided_symbol.level_refresh t).lmax_ =
      (process_decided_symbol.level_refresh s).lmax_ ∧
    (process_decided_symbol.level_refresh t).lbuf2_ =
      (process_decided_symbol.level_refresh s).lbuf2_ := by
  cases s
  cases t
  dsimp only at h1 h2
  subst h1 h2
  exact ⟨rfl, rfl, rfl⟩

theorem level_refresh_values (s : State) :
    (process_decided_symbol.level_refresh s).max_sample_ =
      Int.tdiv (s.max_sample_ + (process_decided_symbol.level_refresh s).lmax_) 2 ∧
    (process_decided_symbol.level_refresh s).min_sample_ =
      Int.tdiv (s.min_sample_ + (process_decided_symbol.level_refresh s).lmin_) 2 ∧
    (process_decided_symbol.level_refresh s).center_ =
      Int.tdiv ((process_decided_symbol.level_refresh s).max_sample_ +
        (process_decided_symbol.level_refresh s).min_sample_) 2 ∧
    (process_decided_symbol.level_refresh s).umid_ =
      Int.tdiv (((process_decided_symbol.level_refresh s).max_sample_ -
          (process_decided_symbol.level_refresh s).center_) * 5) 8 +
        (process_decided_symbol.level_refresh s).center_ ∧
    (process_decided_symbol.level_refresh s).lmid_ =
      Int.tdiv (((process_decided_symbol.level_refresh s).min_sample_ -
          (process_decided_symbol.level_refresh s).center_) * 5) 8 +
        (process_decided_symbol.level_refresh s).center_ ∧
    (process_decided_symbol.level_refresh s).max_ref_ =
      (process_decided_symbol.level_refresh s).max_sample_ ∧
    (process_decided_symbol.level_refresh s).min_ref_ =
      (process_decided_symbol.level_refresh s).min_sample_ := by
  unfold process_decided_symbol.level_refresh
  dsimp only
  exact ⟨rfl, rfl, rfl, rfl, rfl, rfl, rfl⟩

theorem searched_store_lbuf (s : State) (dibit : Nat) :
    (searched (process_decided_symbol.store s dibit)).lbuf1_ = s.lbuf1_ ∧
    (searched (process_decided_symbol.store s dibit)).lbuf2_ = s.lbuf2_ := by
  rcases searched_cases (process_decided_symbol.store s dibit) with h | h <;> rw [h] <;>
    exact ⟨rfl, rfl⟩

/-- The trimmed means after either `DirectTs1` match are those of the level
refresh run on the state of the call. -/
theorem match_trimmed (s : State) (dibit : Nat) (id : SyncPatternId)
    (hid : id = SyncPatternId.DirectTs1Voice ∨ id = SyncPatternId.DirectTs1Data)
    (hs : s.parseState_ = Parse_State_Search_Sync)
    (hm : search_match_id s = id) :
    (process_decided_symbol s dibit).lmin_ = (process_decided_symbol.level_refresh s).lmin_ ∧
    (process_decided_symbol s dibit).lmax_ = (process_decided_symbol.level_refresh s).lmax_ ∧
    (process_decided_symbol s dibit).lbuf2_ = (process_decided_symbol.level_refresh s).lbuf2_ := by
  obtain ⟨h1, h2⟩ := searched_store_lbuf s dibit
  have hc := level_refresh_trim_congr s _ h1 h2
  rcases hid with h | h <;> subst h
  · rw [pds_voice_match s dibit hs hm]
    obtain ⟨l1, l2, l3⟩ := leave_search_trim
      (process_decided_symbol.level_refresh (searched (process_decided_symbol.store s dibit)))
      SyncPatternId.DirectTs1Voice
    rw [l1, l2, l3]
    exact hc
  · rw [pds_data_match s dibit hs hm]
    obtain ⟨l1, l2, l3⟩ := leave_search_trim
      (process_decided_symbol.level_refresh (searched (process_decided_symbol.store s dibit)))
      SyncPatternId.DirectTs1Data
    rw [l1, l2, l3]
    exact hc

/-- C19. On a `DirectTs1Voice` or `DirectTs1Data` match, with truncating
division: the tracked maximum becomes `(max_sample_ + lmax_) / 2` and the
minimum `(min_sample_ + lmin_) / 2` with the freshly computed `lmax_` and
`lmin_`, `center_` is the half sum of the two new extremes, `umid_` and
`lmid_` lie five eighths of the way from `center_` to them, and the two
references equal the new extremes. -/
theorem level_refresh_formulas (s : State) (dibit : Nat) (id : SyncPatternId)
    (hid : id = SyncPatternId.DirectTs1Voice ∨ id = SyncPatternId.DirectTs1Data)
    (hs : s.parseState_ = Parse_State_Search_Sync)
    (hc : DMR_SYNC_SYMBOLS ≤ s.sync_history_count_)
    (hw : sync_window s = pattern_of id) :
    (process_decided_symbol s dibit).max_sample_ =
      Int.tdiv (s.max_sample_ + (process_decided_symbol s dibit).lmax_) 2 ∧
    (process_decided_symbol s dibit).min_sample_ =
      Int.tdiv (s.min_sample_ + (process_decided_symbol s dibit).lmin_) 2 ∧
    (process_decided_symbol s dibit).center_ =
      Int.tdiv ((process_decided_symbol s dibit).max_sample_ +
        (process_decided_symbol s dibit).min_sample_) 2 ∧
    (process_decided_symbol s dibit).umid_ =
      (process_decided_symbol s dibit).center_ +
        Int.tdiv (((process_decided_symbol s dibit).max_sample_ -
          (process_decided_symbol s dibit).center_) * 5) 8 ∧
    (process_decided_symbol s dibit).lmid_ =
      (process_decided_symbol s dibit).center_ +
        Int.tdiv (((process_decided_symbol s dibit).min_sample_ -
          (process_decided_symbol s dibit).center_) * 5) 8 ∧
    (process_decided_symbol s dibit).max_ref_ = (process_decided_symbol s dibit).max_sample_ ∧
    (process_decided_symbol s dibit).min_ref_ = (process_decided_symbol s dibit).min_sample_ := by
  have hm := search_match_id_of_window s id hid hc hw
  obtain ⟨a1, a2, a3, a4, a5, a6, a7⟩ := match_levels s dibit id hid hs hm
  obtain ⟨b1, b2, _⟩ := match_trimmed s dibit id hid hs hm
  obtain ⟨v1, v2, v3, v4, v5, v6, v7⟩ := level_refresh_values s
  rw [a1, a2, a3, a4, a5, a6, a7, b1, b2]
  generalize (process_decided_symbol.level_refresh s).max_sample_ = x1 at *
  generalize (process_decided_symbol.level_refresh s).min_sample_ = x2 at *
  generalize (process_decided_symbol.level_refresh s).center_ = x3 at *
  generalize (process_decided_symbol.level_refresh s).umid_ = x4 at *
  generalize (process_decided_symbol.level_refresh s).lmid_ = x5 at *
  generalize (process_decided_symbol.level_refresh s).max_ref_ = x6 at *
  generalize (process_decided_symbol.level_refresh s).min_ref_ = x7 at *
  generalize (process_decided_symbol.level_refresh s).lmax_ = x8 at *
  generalize (process_decided_symbol.level_refresh s).lmin_ = x9 at *
  refine ⟨v1, v2, v3, ?_, ?_, v6, v7⟩
  · rw [v4, Int.add_comm]
  · rw [v5, Int.add_comm]

/-- The slicer leaves the thresholds alone, whether it succeeds or not. -/
theorem slicer_loop_thresholds (sps : Int) (rest : List Int) :
    ∀ (loop_i : Int) (s : State) (offset : Nat) (sum_out count_out symbol_out : Int),
      SlicerFrame s
        { (getSymbolFromBuffer.loop sps rest loop_i s offset sum_out count_out symbol_out).s with
          symbol_counter_ := s.symbol_counter_ } := by
  induction rest with
  | nil =>
    intro loop_i s offset sum_out count_out symbol_out
    unfold getSymbolFromBuffer.loop
    by_cases hlt : loop_i < sps
    · rw [if_pos hlt]
      have f1 := timing_frame s loop_i
      unfold SlicerFrame at f1 ⊢
      dsimp only
      rw [f1]
    · rw [if_neg hlt]
      rfl
  | cons x rest ih =>
    intro loop_i s offset sum_out count_out symbol_out
    unfold getSymbolFromBuffer.loop
    by_cases hlt : loop_i < sps
    · rw [if_pos hlt]
      dsimp only
      have h1 := ih ((getSymbolFromBuffer.timing s loop_i).1 + 1)
        (getSymbolFromBuffer.sample (getSymbolFromBuffer.timing s loop_i).2
          (getSymbolFromBuffer.timing s loop_i).1 x).1 (offset + 1)
        (if (getSymbolFromBuffer.timing s loop_i).1 =
              (getSymbolFromBuffer.sample (getSymbolFromBuffer.timing s loop_i).2
                (getSymbolFromBuffer.timing s loop_i).1 x).1.symbol_center_ - 1 ∨
            (getSymbolFromBuffer.timing s loop_i).1 =
              (getSymbolFromBuffer.sample (getSymbolFromBuffer.timing s loop_i).2
                (getSymbolFromBuffer.timing s loop_i).1 x).1.symbol_center_ + 1 then
          (sum_out + (getSymbolFromBuffer.sample (getSymbolFromBuffer.timing s loop_i).2
            (getSymbolFromBuffer.timing s loop_i).1 x).2, count_out + 1)
          else (sum_out, count_out)).1
        (if (getSymbolFromBuffer.timing s loop_i).1 =
              (getSymbolFromBuffer.sample (getSymbolFromBuffer.timing s loop_i).2
                (getSymbolFromBuffer.timing s loop_i).1 x).1.symbol_center_ - 1 ∨
            (getSymbolFromBuffer.timing s loop_i).1 =
              (getSymbolFromBuffer.sample (getSymbolFromBuffer.timing s loop_i).2
                (getSymbolFromBuffer.timing s loop_i).1 x).1.symbol_center_ + 1 then
          (sum_out + (getSymbolFromBuffer.sample (getSymbolFromBuffer.timing s loop_i).2
            (getSymbolFromBuffer.timing s loop_i).1 x).2, count_out + 1)
          else (sum_out, count_out)).2
        symbol_out
      have f1 := timing_frame s loop_i
      have f2 := sample_frame (getSymbolFromBuffer.timing s loop_i).2
        (getSymbolFromBuffer.timing s loop_i).1 x
      have f12 := SlicerFrame.trans f1 f2
      have hsc : (getSymbolFromBuffer.sample (getSymbolFromBuffer.timing s loop_i).2
          (getSymbolFromBuffer.timing s loop_i).1 x).1.symbol_counter_ = s.symbol_counter_ := by
        rw [f12]
      rw [hsc] at h1
      exact SlicerFrame.trans f12 h1
    · rw [if_neg hlt]
      rfl

theorem slicer_thresholds (s : State) (samples : List Int) (offset : Nat)
    (sum_out count_out symbol_out : Int) :
    (getSymbolFromBuffer s samples offset sum_out count_out symbol_out).s.center_ = s.center_ ∧
    (getSymbolFromBuffer s samples offset sum_out count_out symbol_out).s.umid_ = s.umid_ ∧
    (getSymbolFromBuffer s samples offset sum_out count_out symbol_out).s.lmid_ = s.lmid_ := by
  unfold getSymbolFromBuffer
  dsimp only
  by_cases hlt : ((samples.length : Int) - (offset : Int)) % 2 ^ 32 < 10 % 2 ^ 32
  · rw [if_pos hlt]
    exact ⟨rfl, rfl, rfl⟩
  · rw [if_neg hlt]
    have h := slicer_loop_thresholds 10 (samples.drop offset) 0 s offset 0 0 symbol_out
    generalize (getSymbolFromBuffer.loop 10 (List.drop offset samples) 0 s offset 0 0
      symbol_out) = r at h
    unfold SlicerFrame at h
    have e1 := congrArg State.center_ h
    have e2 := congrArg State.umid_ h
    have e3 := congrArg State.lmid_ h
    exact ⟨e1, e2, e3⟩

/-- C20. The loop body of the block routine hands to the state machine the
dibit 01 for a symbol above `center_` and above `umid_`, 00 for one above
`center_` and not above `umid_`, 11 for one not above `center_` and below
`lmid_`, 10 for one not above `center_` and not below `lmid_`, judged by
the thresholds of the state before the symbol (the slicer does not touch
them); the character pushed to the sync history is `'1'` with the dibits 00
and 01, whose high bit is 0, and `'3'` with 10 and 11. -/
theorem symbol_classification (s : State) (symbol : Int) :
    (symbol > s.center_ ∧ symbol > s.umid_ →
      process_demod_block.decide_symbol s symbol =
        process_decided_symbol (push_sync_char (update_symbol_statistics s symbol) '1') 0b01) ∧
    (symbol > s.center_ ∧ symbol ≤ s.umid_ →
      process_demod_block.decide_symbol s symbol =
        process_decided_symbol (push_sync_char (update_symbol_statistics s symbol) '1') 0b00) ∧
    (symbol ≤ s.center_ ∧ symbol < s.lmid_ →
      process_demod_block.decide_symbol s symbol =
        process_decided_symbol (push_sync_char (update_symbol_statistics s symbol) '3') 0b11) ∧
    (symbol ≤ s.center_ ∧ symbol ≥ s.lmid_ →
      process_demod_block.decide_symbol s symbol =
        process_decided_symbol (push_sync_char (update_symbol_statistics s symbol) '3') 0b10) ∧
    (∀ c, (push_sync_char (update_symbol_statistics s symbol) c).sync_history_
      s.sync_history_pos_ = c) ∧
    (0b01 / 2 = 0 ∧ 0b00 / 2 = 0 ∧ 0b11 / 2 = 1 ∧ 0b10 / 2 = 1) ∧
    ∀ (s0 : State) (samples : List Int) (offset : Nat) (sum_out count_out symbol_out : Int),
      s = (getSymbolFromBuffer s0 samples offset sum_out count_out symbol_out).s →
      s.center_ = s0.center_ ∧ s.umid_ = s0.umid_ ∧ s.lmid_ = s0.lmid_ := by
  refine ⟨?_, ?_, ?_, ?_, ?_, ⟨rfl, rfl, rfl, rfl⟩, ?_⟩
  · rintro ⟨h1, h2⟩
    unfold process_demod_block.decide_symbol
    have c1 : symbol > (update_symbol_statistics s symbol).center_ := h1
    have c2 : symbol > (push_sync_char (update_symbol_statistics s symbol) '1').center_ := h1
    have c3 : symbol > (push_sync_char (update_symbol_statistics s symbol) '1').umid_ := h2
    simp only [c1, c2, c3, if_true]
    rfl
  · rintro ⟨h1, h2⟩
    unfold process_demod_block.decide_symbol
    have c1 : symbol > (update_symbol_statistics s symbol).center_ := h1
    have c2 : symbol > (push_sync_char (update_symbol_statistics s symbol) '1').center_ := h1
    have c3 : ¬ symbol > (push_sync_char (update_symbol_statistics s symbol) '1').umid_ :=
      not_lt.2 h2
    simp only [c1, c2, c3, if_true, if_false]
    rfl
  · rintro ⟨h1, h2⟩
    unfold process_demod_block.decide_symbol
    have c1 : ¬ symbol > (update_symbol_statistics s symbol).center_ := not_lt.2 h1
    have c2 : ¬ symbol > (push_sync_char (update_symbol_statistics s symbol) '3').center_ :=
      not_lt.2 h1
    have c3 : symbol < (push_sync_char (update_symbol_statistics s symbol) '3').lmid_ := h2
    simp only [c1, c2, c3, if_true, if_false]
    rfl
  · rintro ⟨h1, h2⟩
    unfold process_demod_block.decide_symbol
    have c1 : ¬ symbol > (update_symbol_statistics s symbol).center_ := not_lt.2 h1
    have c2 : ¬ symbol > (push_sync_char (update_symbol_statistics s symbol) '3').center_ :=
      not_lt.2 h1
    have c3 : ¬ symbol < (push_sync_char (update_symbol_statistics s symbol) '3').lmid_ :=
      not_lt.2 h2
    simp only [c1, c2, c3, if_true, if_false]
    rfl
  · intro c
    show Function.update s.sync_history_ s.sync_history_pos_ c s.sync_history_pos_ = c
    rw [Function.update_same]
  · intro s0 samples offset sum_out count_out symbol_out hs
    rw [hs]
    exact slicer_thresholds s0 samples offset sum_out count_out symbol_out

/-! ## The patterns that the processor does not act on -/

theorem searched_with_history (s : State) (h : Nat → Char) (pos count : Nat)
    (h1 : DMR_SYNC_SYMBOLS ≤ s.sync_history_count_) (h2 : DMR_SYNC_SYMBOLS ≤ count) :
    searched (with_sync_history s h pos count) =
      with_sync_history (searched s) h pos count := by
  unfold searched process_decided_symbol.resync_refs with_sync_history
  dsimp only
  by_cases hr : s.max_ref_ ≠ s.max_sample_ ∨ s.min_ref_ ≠ s.min_sample_
  · rw [if_pos ⟨h2, hr⟩, if_pos ⟨h1, hr⟩]
  · rw [if_neg (fun hx => hr hx.2), if_neg (fun hx => hr hx.2)]

theorem with_sync_history_restore (x : State) (h : Nat → Char) (pos count : Nat) :
    with_sync_history (with_sync_history x h pos count)
      x.sync_history_ x.sync_history_pos_ x.sync_history_count_ = x := by
  cases x
  rfl

theorem search_match_id_unknown (s : State)
    (hno : ∀ desc ∈ kSyncPatterns, sync_window s ≠ desc.pattern) :
    search_match_id s = SyncPatternId.Unknown := by
  unfold search_match_id
  split_ifs
  · rw [decode_eq_first_match, first_match_eq_unknown _ _ (by decide)]
    intro e he
    obtain ⟨desc, hdesc, rfl⟩ := List.mem_map.1 he
    exact hno desc hdesc
  · rfl

/-- C12. In `SearchSync`, with a window that equals the pattern of
`DirectTs2Voice`, `DirectTs2Data`, `BsVoice`, `BsData`, `MsVoice` or `MsData`:
the decoder recognises the identity, and the call yields the state that it
yields from the same processor holding a window of no catalogue pattern,
the sync history itself apart; the parse state stays `SearchSync`; below the
carrier-loss limit the search counter is raised by one and the carrier flag,
the tracked extremes, the thresholds and the trimmed means are unchanged; at
the limit the call ends in the carrier-loss reset. -/
theorem unused_patterns_are_no_match (s : State) (dibit : Nat) (id : SyncPatternId)
    (hid : id = SyncPatternId.DirectTs2Voice ∨ id = SyncPatternId.DirectTs2Data ∨
      id = SyncPatternId.BsVoice ∨ id = SyncPatternId.BsData ∨
      id = SyncPatternId.MsVoice ∨ id = SyncPatternId.MsData)
    (hs : s.parseState_ = Parse_State_Search_Sync)
    (hc : DMR_SYNC_SYMBOLS ≤ s.sync_history_count_)
    (hw : sync_window s = pattern_of id) :
    search_match_id s = id ∧
    (∀ (h : Nat → Char) (pos count : Nat), DMR_SYNC_SYMBOLS ≤ count →
      (∀ desc ∈ kSyncPatterns, sync_window (with_sync_history s h pos count) ≠ desc.pattern) →
      process_decided_symbol s dibit =
        with_sync_history (process_decided_symbol (with_sync_history s h pos count) dibit)
          s.sync_history_ s.sync_history_pos_ s.sync_history_count_) ∧
    (process_decided_symbol s dibit).parseState_ = Parse_State_Search_Sync ∧
    ((s.sync_search_symbol_count_ + 1) % 2 ^ 32 < 1800 →
      (process_decided_symbol s dibit).sync_search_symbol_count_ =
        (s.sync_search_symbol_count_ + 1) % 2 ^ 32 ∧
      (process_decided_symbol s dibit).carrier_present_ = s.carrier_present_ ∧
      (process_decided_symbol s dibit).max_sample_ = s.max_sample_ ∧
      (process_decided_symbol s dibit).min_sample_ = s.min_sample_ ∧
      (process_decided_symbol s dibit).center_ = s.center_ ∧
      (process_decided_symbol s dibit).umid_ = s.umid_ ∧
      (process_decided_symbol s dibit).lmid_ = s.lmid_ ∧
      (process_decided_symbol s dibit).lmin_ = s.lmin_ ∧
      (process_decided_symbol s dibit).lmax_ = s.lmax_) ∧
    (1800 ≤ (s.sync_search_symbol_count_ + 1) % 2 ^ 32 →
      process_decided_symbol s dibit =
        handle_carrier_loss (searched (process_decided_symbol.store s dibit))) := by
  have hmem : ∃ desc ∈ kSyncPatterns, desc.id = id := by
    rcases hid with h | h | h | h | h | h <;> subst h <;> decide
  have hm := search_match_id_of_pattern s id hmem hc hw
  have hv : search_match_id s ≠ SyncPatternId.DirectTs1Voice := by
    rw [hm]; rcases hid with h | h | h | h | h | h <;> subst h <;> decide
  have hd : search_match_id s ≠ SyncPatternId.DirectTs1Data := by
    rw [hm]; rcases hid with h | h | h | h | h | h <;> subst h <;> decide
  have hp := pds_no_match s dibit hs hv hd
  refine ⟨hm, ?_, ?_, ?_, ?_⟩
  · intro h pos count hcount hno
    have hmu := search_match_id_unknown _ hno
    have hpu := pds_no_match (with_sync_history s h pos count) dibit hs
      (by rw [hmu]; decide) (by rw [hmu]; decide)
    have hst : process_decided_symbol.store (with_sync_history s h pos count) dibit =
        with_sync_history (process_decided_symbol.store s dibit) h pos count := rfl
    have hse := searched_with_history (process_decided_symbol.store s dibit) h pos count hc hcount
    have hcnt : (with_sync_history s h pos count).sync_search_symbol_count_ =
        s.sync_search_symbol_count_ := rfl
    have hA : (searched (process_decided_symbol.store s dibit)).sync_history_ = s.sync_history_ ∧
        (searched (process_decided_symbol.store s dibit)).sync_history_pos_ =
          s.sync_history_pos_ ∧
        (searched (process_decided_symbol.store s dibit)).sync_history_count_ =
          s.sync_history_count_ := by
      rcases searched_cases (process_decided_symbol.store s dibit) with h | h <;> rw [h] <;>
        exact ⟨rfl, rfl, rfl⟩
    rw [hpu, hp, hst, hse, hcnt]
    generalize searched (process_decided_symbol.store s dibit) = A at hA ⊢
    obtain ⟨a1, a2, a3⟩ := hA
    rw [← a1, ← a2, ← a3]
    by_cases hl : 1800 ≤ (s.sync_search_symbol_count_ + 1) % 2 ^ 32
    · rw [if_pos hl, if_pos hl]
      exact (with_sync_history_restore (handle_carrier_loss A) h pos count).symm
    · rw [if_neg hl, if_neg hl]
      exact (with_sync_history_restore A h pos count).symm
  · rw [hp]
    have hf := (searched_fields s dibit).1
    by_cases hl : 1800 ≤ (s.sync_search_symbol_count_ + 1) % 2 ^ 32
    · rw [if_pos hl]
      rfl
    · rw [if_neg hl, hf, hs]
  · intro hl
    rw [hp, if_neg (not_le.2 hl)]
    rcases searched_cases (process_decided_symbol.store s dibit) with h | h <;> rw [h] <;>
      exact ⟨rfl, rfl, rfl, rfl, rfl, rfl, rfl, rfl, rfl⟩
  · intro hl
    rw [hp, if_pos hl]

theorem unused_patterns_are_no_match_witness :
    example_other.parseState_ = Parse_State_Search_Sync ∧
    DMR_SYNC_SYMBOLS ≤ example_other.sync_history_count_ ∧
    sync_window example_other = pattern_of SyncPatternId.BsVoice ∧
    search_match_id example_other = SyncPatternId.BsVoice ∧
    (process_decided_symbol example_other 2).parseState_ = Parse_State_Search_Sync :=
  ⟨by decide, by decide, by decide,
    (unused_patterns_are_no_match example_other 2 SyncPatternId.BsVoice
      (Or.inr (Or.inr (Or.inl rfl))) (by decide) (by decide) (by decide)).1,
    (unused_patterns_are_no_match example_other 2 SyncPatternId.BsVoice
      (Or.inr (Or.inr (Or.inl rfl))) (by decide) (by decide) (by decide)).2.2.1⟩

/-! ## The order of the tests -/

theorem get_pattern_of_mem (id : SyncPatternId) (hid : id ∈ decode_order) :
    ∃ p, decode_sync_string.get_pattern id = some p ∧ p.length = 24 ∧ pattern_of id = p := by
  simp only [decode_order, List.mem_cons, List.mem_singleton, List.not_mem_nil, or_false] at hid
  rcases hid with h | h | h | h | h | h | h | h <;> subst h <;> exact ⟨_, rfl, rfl, rfl⟩

theorem matches_iff_pattern_of (w : Nat → Char) (id : SyncPatternId) (hid : id ∈ decode_order) :
    decode_sync_string.matches w (decode_sync_string.get_pattern id) = true ↔
      window24 w = pattern_of id := by
  obtain ⟨p, h1, h2, h3⟩ := get_pattern_of_mem id hid
  rw [h1, h3]
  exact matches_iff w p h2

theorem pattern_of_injective (a b : SyncPatternId) (ha : a ∈ decode_order)
    (hb : b ∈ decode_order) (h : pattern_of a = pattern_of b) : a = b := by
  simp only [decode_order, List.mem_cons, List.mem_singleton, List.not_mem_nil, or_false]
    at ha hb
  rcases ha with h1 | h1 | h1 | h1 | h1 | h1 | h1 | h1 <;> subst h1 <;>
    rcases hb with h2 | h2 | h2 | h2 | h2 | h2 | h2 | h2 <;> subst h2 <;>
    first
    | rfl
    | exact absurd h (by decide)

theorem decode_in_order_unknown (w : Nat → Char) (order : List SyncPatternId)
    (hsub : ∀ id ∈ order, id ∈ decode_order)
    (hno : ∀ id ∈ decode_order, window24 w ≠ pattern_of id) :
    decode_in_order w order = SyncPatternId.Unknown := by
  induction order with
  | nil => rfl
  | cons a rest ih =>
    have ha := hsub a (List.mem_cons_self _ _)
    have hn : ¬ decode_sync_string.matches w (decode_sync_string.get_pattern a) = true := by
      rw [matches_iff_pattern_of w a ha]
      exact hno a ha
    rw [decode_in_order, if_neg hn]
    exact ih (fun id hid => hsub id (List.mem_cons_of_mem _ hid))

theorem decode_in_order_id (w : Nat → Char) (id : SyncPatternId) (hid : id ∈ decode_order)
    (hw : window24 w = pattern_of id) (order : List SyncPatternId)
    (hsub : ∀ a ∈ order, a ∈ decode_order) (hmem : id ∈ order) :
    decode_in_order w order = id := by
  induction order with
  | nil => exact absurd hmem (List.not_mem_nil _)
  | cons a rest ih =>
    have ha := hsub a (List.mem_cons_self _ _)
    rw [decode_in_order]
    by_cases hm : decode_sync_string.matches w (decode_sync_string.get_pattern a) = true
    · rw [if_pos hm]
      rw [matches_iff_pattern_of w a ha, hw] at hm
      exact (pattern_of_injective id a hid ha hm).symm
    · rw [if_neg hm]
      rcases List.mem_cons.1 hmem with h | h
      · subst h
        rw [matches_iff_pattern_of w id ha] at hm
        exact absurd hw hm
      · exact ih (fun b hb => hsub b (List.mem_cons_of_mem _ hb)) h

/-- C17. The eight catalogue patterns are pairwise distinct, each is 24
characters long and holds only `'1'` and `'3'`; for every window at most one
identity has a matching pattern; and in whatever order the eight identities
are tested, the first match is the result of `decode_sync_string`, whose own
order is one of them. -/
theorem decode_order_irrelevant :
    kSyncPatterns.Pairwise (fun a b => a.pattern ≠ b.pattern) ∧
    (∀ desc ∈ kSyncPatterns,
      desc.pattern.length = DMR_SYNC_SYMBOLS ∧ ∀ c ∈ desc.pattern, c = '1' ∨ c = '3') ∧
    kSyncPatterns.map (fun desc => desc.id) = decode_order ∧
    (∀ (w : Nat → Char) (a b : SyncPatternId), a ∈ decode_order → b ∈ decode_order →
      decode_sync_string.matches w (decode_sync_string.get_pattern a) = true →
      decode_sync_string.matches w (decode_sync_string.get_pattern b) = true → a = b) ∧
    (∀ w : Nat → Char, decode_sync_string (some w) = decode_in_order w decode_order) ∧
    (∀ (w : Nat → Char) (order : List SyncPatternId), order.Perm decode_order →
      decode_in_order w order = decode_sync_string (some w)) := by
  refine ⟨patterns_distinct, by decide, rfl, ?_, fun w => rfl, ?_⟩
  · intro w a b ha hb hma hmb
    rw [matches_iff_pattern_of w a ha] at hma
    rw [matches_iff_pattern_of w b hb] at hmb
    exact pattern_of_injective a b ha hb (hma.symm.trans hmb)
  · intro w order hperm
    have hsub : ∀ a ∈ order, a ∈ decode_order := fun a ha => hperm.subset ha
    have hcode : decode_sync_string (some w) = decode_in_order w decode_order := rfl
    by_cases hex : ∃ id ∈ decode_order, window24 w = pattern_of id
    · obtain ⟨id, hid, hw⟩ := hex
      rw [hcode, decode_in_order_id w id hid hw order hsub (hperm.symm.subset hid),
        decode_in_order_id w id hid hw decode_order (fun a ha => ha) hid]
    · have hno : ∀ id ∈ decode_order, window24 w ≠ pattern_of id :=
        fun id hid hw => hex ⟨id, hid, hw⟩
      rw [hcode, decode_in_order_unknown w order hsub hno,
        decode_in_order_unknown w decode_order (fun a ha => ha) hno]

theorem decode_order_irrelevant_witness :
    decode_order.reverse.Perm decode_order ∧
    decode_in_order (fun i => (pattern_of SyncPatternId.BsData).getD i '0') decode_order.reverse =
      decode_sync_string (some (fun i => (pattern_of SyncPatternId.BsData).getD i '0')) :=
  ⟨List.reverse_perm _,
    decode_order_irrelevant.2.2.2.2.2 _ _ (List.reverse_perm _)⟩

/-! ## The hold after a data sync and after a superframe -/

theorem pds_data_hold (s : State) (dibit : Nat) (hs : s.parseState_ = Parse_State_Process_Data) :
    (process_decided_symbol s dibit).data_sync_hold_symbols_ = s.data_sync_hold_symbols_ - 1 ∧
    (s.data_sync_hold_symbols_ - 1 ≤ 0 →
      (process_decided_symbol s dibit).parseState_ = Parse_State_Search_Sync ∧
      (process_decided_symbol s dibit).sync_search_symbol_count_ = 0) ∧
    (0 < s.data_sync_hold_symbols_ - 1 →
      (process_decided_symbol s dibit).parseState_ = Parse_State_Process_Data) := by
  rw [pds_data s dibit hs]
  unfold process_decided_symbol.process_data
  dsimp only
  have hh : (process_decided_symbol.store s dibit).data_sync_hold_symbols_ =
      s.data_sync_hold_symbols_ := rfl
  rw [hh]
  by_cases hle : s.data_sync_hold_symbols_ - 1 ≤ 0
  · rw [if_pos hle]
    exact ⟨rfl, fun _ => ⟨rfl, rfl⟩, fun hlt => absurd hle (not_le.2 hlt)⟩
  · rw [if_neg hle]
    exact ⟨rfl, fun hx => absurd hx hle, fun _ => hs⟩

theorem hold_run (pre : Nat → State) (d : Nat → Nat) (m h : Nat)
    (hrun : DecidedStream pre d)
    (hs : (pre m).parseState_ = Parse_State_Process_Data)
    (hh : (pre m).data_sync_hold_symbols_ = (h : Int)) :
    ∀ i, i < h →
      (pre (m + i)).parseState_ = Parse_State_Process_Data ∧
      (pre (m + i)).data_sync_hold_symbols_ = (h : Int) - (i : Int) := by
  intro i
  induction i with
  | zero =>
    intro _
    exact ⟨hs, by show (pre m).data_sync_hold_symbols_ = _; rw [hh]; simp⟩
  | succ i ih =>
    intro hi
    obtain ⟨i1, i2⟩ := ih (by omega)
    obtain ⟨p1, _, p3⟩ := pds_data_hold (pre (m + i)) (d (m + i)) i1
    have hstep := hrun (m + i)
    have hv := (SymbolDecided.voice hstep).2.2.2.2.2.2
    have hp := SymbolDecided.parseState hstep
    refine ⟨?_, ?_⟩
    · show (pre (m + i + 1)).parseState_ = _
      rw [hp]
      exact p3 (by rw [i2]; omega)
    · show (pre (m + i + 1)).data_sync_hold_symbols_ = _
      rw [hv, p1, i2]
      push_cast
      omega

theorem hold_end (pre : Nat → State) (d : Nat → Nat) (m h : Nat)
    (hrun : DecidedStream pre d)
    (hs : (pre m).parseState_ = Parse_State_Process_Data)
    (hh : (pre m).data_sync_hold_symbols_ = (h : Int)) (h1 : 1 ≤ h) :
    (∀ i, i < h - 1 →
      (process_decided_symbol (pre (m + i)) (d (m + i))).parseState_ =
        Parse_State_Process_Data) ∧
    (process_decided_symbol (pre (m + (h - 1))) (d (m + (h - 1)))).parseState_ =
      Parse_State_Search_Sync ∧
    (process_decided_symbol (pre (m + (h - 1))) (d (m + (h - 1)))).sync_search_symbol_count_ =
      0 := by
  have hr := hold_run pre d m h hrun hs hh
  refine ⟨?_, ?_⟩
  · intro i hi
    obtain ⟨i1, i2⟩ := hr i (by omega)
    exact (pds_data_hold (pre (m + i)) (d (m + i)) i1).2.2 (by rw [i2]; omega)
  · obtain ⟨i1, i2⟩ := hr (h - 1) (by omega)
    exact (pds_data_hold (pre (m + (h - 1))) (d (m + (h - 1))) i1).2.1 (by rw [i2]; omega)

/-- C11. Along any stream of decided symbols: from `ProcessData` with a hold
of `h >= 1`, each of the next `h - 1` symbols leaves `ProcessData` and the
`h`-th leaves `SearchSync` with the search counter at 0, so that the symbol
after it is processed in `SearchSync`; after a symbol that matched
`DirectTs1Data` the 263rd symbol is the one that returns to `SearchSync`, and
after the symbol that emitted the sixth voice burst the 209th is. -/
theorem data_hold_countdown (pre : Nat → State) (d : Nat → Nat) (hrun : DecidedStream pre d) :
    (∀ m h : Nat, (pre m).parseState_ = Parse_State_Process_Data →
      (pre m).data_sync_hold_symbols_ = (h : Int) → 1 ≤ h →
      (∀ i, i < h - 1 →
        (process_decided_symbol (pre (m + i)) (d (m + i))).parseState_ =
          Parse_State_Process_Data ∧
        (pre (m + i + 1)).parseState_ = Parse_State_Process_Data) ∧
      (process_decided_symbol (pre (m + (h - 1))) (d (m + (h - 1)))).parseState_ =
        Parse_State_Search_Sync ∧
      (process_decided_symbol (pre (m + (h - 1))) (d (m + (h - 1)))).sync_search_symbol_count_ =
        0 ∧
      (pre (m + h)).parseState_ = Parse_State_Search_Sync ∧
      (pre (m + h)).sync_search_symbol_count_ = 0) ∧
    (∀ m : Nat, (pre m).parseState_ = Parse_State_Search_Sync →
      DMR_SYNC_SYMBOLS ≤ (pre m).sync_history_count_ →
      sync_window (pre m) = pattern_of SyncPatternId.DirectTs1Data →
      (∀ i, 1 ≤ i → i < 263 →
        (process_decided_symbol (pre (m + i)) (d (m + i))).parseState_ =
          Parse_State_Process_Data) ∧
      (process_decided_symbol (pre (m + 263)) (d (m + 263))).parseState_ =
        Parse_State_Search_Sync ∧
      (process_decided_symbol (pre (m + 263)) (d (m + 263))).sync_search_symbol_count_ = 0) ∧
    (∀ m : Nat, (pre m).parseState_ = Parse_State_Process_Voice →
      (pre m).active_burst_index_ = 5 → voice_offset (pre m) = 1584 →
      (∀ i, 1 ≤ i → i < 209 →
        (process_decided_symbol (pre (m + i)) (d (m + i))).parseState_ =
          Parse_State_Process_Data) ∧
      (process_decided_symbol (pre (m + 209)) (d (m + 209))).parseState_ =
        Parse_State_Search_Sync ∧
      (process_decided_symbol (pre (m + 209)) (d (m + 209))).sync_search_symbol_count_ = 0) := by
  refine ⟨?_, ?_, ?_⟩
  · intro m h hs hh h1
    obtain ⟨e1, e2, e3⟩ := hold_end pre d m h hrun hs hh h1
    have hstep := hrun (m + (h - 1))
    have hidx : m + (h - 1) + 1 = m + h := by omega
    rw [hidx] at hstep
    refine ⟨fun i hi => ⟨e1 i hi, ?_⟩, e2, e3, ?_, ?_⟩
    · rw [SymbolDecided.parseState (hrun (m + i))]
      exact e1 i hi
    · rw [SymbolDecided.parseState hstep]
      exact e2
    · rw [(SymbolDecided.search hstep).1]
      exact e3
  · intro m hs hc hw
    have hm := search_match_id_of_window (pre m) _ (Or.inr rfl) hc hw
    have hpd : (process_decided_symbol (pre m) (d m)).parseState_ = Parse_State_Process_Data ∧
        (process_decided_symbol (pre m) (d m)).data_sync_hold_symbols_ = 263 := by
      rw [pds_data_match (pre m) (d m) hs hm]
      exact ⟨rfl, rfl⟩
    have hstep := hrun m
    have hs1 : (pre (m + 1)).parseState_ = Parse_State_Process_Data := by
      rw [SymbolDecided.parseState hstep]; exact hpd.1
    have hh1 : (pre (m + 1)).data_sync_hold_symbols_ = ((263 : Nat) : Int) := by
      rw [(SymbolDecided.voice hstep).2.2.2.2.2.2]; exact hpd.2
    obtain ⟨e1, e2, e3⟩ := hold_end pre d (m + 1) 263 hrun hs1 hh1 (by omega)
    have hidx : m + 1 + (263 - 1) = m + 263 := by omega
    rw [hidx] at e2 e3
    refine ⟨fun i hi1 hi2 => ?_, e2, e3⟩
    have := e1 (i - 1) (by omega)
    have hidx2 : m + 1 + (i - 1) = m + i := by omega
    rw [hidx2] at this
    exact this
  · intro m hs ha ho
    have hemit := voice_symbol_emits (pre m) (d m) hs (by omega) (by rw [ho, ha])
    have ha2 : (process_decided_symbol.complete_frame
        (process_decided_symbol.store (pre m) (d m))).active_burst_index_ = 5 := by
      have hcf := (control_eq (complete_frame_control
        (process_decided_symbol.store (pre m) (d m)))).2.1
      rw [hcf]
      exact ha
    have hpd := (emit_burst_control (process_decided_symbol.complete_frame
      (process_decided_symbol.store (pre m) (d m)))).2.2.2.2.1 ha2
    rw [← hemit] at hpd
    have hstep := hrun m
    have hs1 : (pre (m + 1)).parseState_ = Parse_State_Process_Data := by
      rw [SymbolDecided.parseState hstep]; exact hpd.1
    have hh1 : (pre (m + 1)).data_sync_hold_symbols_ = ((209 : Nat) : Int) := by
      rw [(SymbolDecided.voice hstep).2.2.2.2.2.2]; exact hpd.2.1
    obtain ⟨e1, e2, e3⟩ := hold_end pre d (m + 1) 209 hrun hs1 hh1 (by omega)
    have hidx : m + 1 + (209 - 1) = m + 209 := by omega
    rw [hidx] at e2 e3
    refine ⟨fun i hi1 hi2 => ?_, e2, e3⟩
    have := e1 (i - 1) (by omega)
    have hidx2 : m + 1 + (i - 1) = m + i := by omega
    rw [hidx2] at this
    exact this

/-! ## The samples that a block consumes -/

theorem offsets_step (r : SymbolResult) (offset n : Nat)
    (h : offset + 1 ≤ r.offset ∧ r.offset ≤ offset + 1 + n ∧
      (r.ok = false → r.offset = offset + 1 + n)) :
    offset ≤ r.offset ∧ r.offset ≤ offset + (n + 1) ∧
      (r.ok = false → r.offset = offset + (n + 1)) := by
  obtain ⟨h1, h2, h3⟩ := h
  refine ⟨by omega, by omega, fun hf => ?_⟩
  rw [h3 hf]
  omega

theorem offsets_progress (r : SymbolResult) (offset n : Nat)
    (h : offset + 1 ≤ r.offset ∧ r.offset ≤ offset + 1 + n ∧
      (r.ok = false → r.offset = offset + 1 + n)) :
    offset < r.offset := by
  omega

/-- The slicer never moves `offset` back or past the end; when it fails it
has used up the samples. -/
theorem slicer_loop_offsets (sps : Int) (rest : List Int) :
    ∀ (loop_i : Int) (s : State) (offset : Nat) (sum_out count_out symbol_out : Int),
      offset ≤ (getSymbolFromBuffer.loop sps rest loop_i s offset sum_out count_out
        symbol_out).offset ∧
      (getSymbolFromBuffer.loop sps rest loop_i s offset sum_out count_out
        symbol_out).offset ≤ offset + rest.length ∧
      ((getSymbolFromBuffer.loop sps rest loop_i s offset sum_out count_out
        symbol_out).ok = false →
        (getSymbolFromBuffer.loop sps rest loop_i s offset sum_out count_out
          symbol_out).offset = offset + rest.length) := by
  induction rest with
  | nil =>
    intro loop_i s offset sum_out count_out symbol_out
    unfold getSymbolFromBuffer.loop
    by_cases hlt : loop_i < sps
    · rw [if_pos hlt]
      exact ⟨Nat.le_refl _, Nat.le_refl _, fun _ => rfl⟩
    · rw [if_neg hlt]
      exact ⟨Nat.le_refl _, Nat.le_refl _, fun _ => rfl⟩
  | cons x rest ih =>
    intro loop_i s offset sum_out count_out symbol_out
    unfold getSymbolFromBuffer.loop
    by_cases hlt : loop_i < sps
    · rw [if_pos hlt]
      dsimp only
      exact offsets_step _ offset rest.length (ih _ _ (offset + 1) _ _ _)
    · rw [if_neg hlt]
      exact ⟨Nat.le_refl _, Nat.le_add_right _ _, fun h => absurd h (by simp)⟩

theorem slicer_loop_progress (sps : Int) (rest : List Int)
    (loop_i : Int) (s : State) (offset : Nat) (sum_out count_out symbol_out : Int)
    (hlt : loop_i < sps)
    (hok : (getSymbolFromBuffer.loop sps rest loop_i s offset sum_out count_out
      symbol_out).ok = true) :
    offset < (getSymbolFromBuffer.loop sps rest loop_i s offset sum_out count_out
      symbol_out).offset := by
  cases rest with
  | nil =>
    unfold getSymbolFromBuffer.loop at hok
    rw [if_pos hlt] at hok
    exact absurd hok (by simp)
  | cons x rest =>
    unfold getSymbolFromBuffer.loop
    rw [if_pos hlt]
    dsimp only
    exact offsets_progress _ offset rest.length
      (slicer_loop_offsets sps rest _ _ (offset + 1) _ _ _)

theorem slicer_offsets (s : State) (samples : List Int) (offset : Nat)
    (hoff : offset + 10 ≤ samples.length) (hlen : samples.length < 2 ^ 32) :
    (getSymbolFromBuffer s samples offset 0 0 0).offset ≤ samples.length ∧
    ((getSymbolFromBuffer s samples offset 0 0 0).ok = false →
      (getSymbolFromBuffer s samples offset 0 0 0).offset = samples.length) ∧
    ((getSymbolFromBuffer s samples offset 0 0 0).ok = true →
      offset < (getSymbolFromBuffer s samples offset 0 0 0).offset) := by
  unfold getSymbolFromBuffer
  dsimp only
  have hn : ¬ ((samples.length : Int) - (offset : Int)) % 2 ^ 32 < 10 % 2 ^ 32 := by omega
  rw [if_neg hn]
  obtain ⟨h1, h2, h3⟩ := slicer_loop_offsets 10 (samples.drop offset) 0 s offset 0 0 0
  have hl : (samples.drop offset).length = samples.length - offset := List.length_drop _ _
  rw [hl] at h2 h3
  refine ⟨by omega, fun hf => ?_, fun hok => ?_⟩
  · rw [h3 hf]; omega
  · exact slicer_loop_progress 10 _ 0 s offset 0 0 0 (by decide) hok

/-- The loop of `process_demod_block` ends with fewer than 20 samples left. -/
theorem block_loop_offsets (samples : List Int) (hlen : samples.length < 2 ^ 32) :
    ∀ (fuel : Nat) (s : State) (offset n : Nat),
      offset ≤ samples.length → samples.length < fuel + offset →
      offset ≤ (process_demod_block.loop samples 20 fuel s offset n).2.1 ∧
      (process_demod_block.loop samples 20 fuel s offset n).2.1 ≤ samples.length ∧
      samples.length - (process_demod_block.loop samples 20 fuel s offset n).2.1 < 20 := by
  intro fuel
  induction fuel with
  | zero =>
    intro s offset n h1 h2
    omega
  | succ fuel ih =>
    intro s offset n h1 h2
    rw [process_demod_block.loop]
    by_cases hc : ((samples.length : Int) - (offset : Int)) % 2 ^ 32 ≥ ((20 : Nat) : Int)
    · rw [if_pos hc]
      dsimp only
      have h20 : offset + 20 ≤ samples.length := by omega
      obtain ⟨s1, s2, s3⟩ := slicer_offsets s samples offset (by omega) hlen
      by_cases hok : (getSymbolFromBuffer s samples offset 0 0 0).ok = true
      · rw [if_pos hok]
        have hp := s3 hok
        obtain ⟨i1, i2, i3⟩ := ih
          (process_demod_block.decide_symbol (getSymbolFromBuffer s samples offset 0 0 0).s
            (getSymbolFromBuffer s samples offset 0 0 0).symbol_out)
          (getSymbolFromBuffer s samples offset 0 0 0).offset ((n + 1) % 2 ^ 32) s1 (by omega)
        exact ⟨by omega, i2, i3⟩
      · rw [if_neg hok]
        have hf := s2 (by simpa using hok)
        show offset ≤ (getSymbolFromBuffer s samples offset 0 0 0).offset ∧
          (getSymbolFromBuffer s samples offset 0 0 0).offset ≤ samples.length ∧
          samples.length - (getSymbolFromBuffer s samples offset 0 0 0).offset < 20
        rw [hf]
        omega
    · rw [if_neg hc]
      show offset ≤ offset ∧ offset ≤ samples.length ∧ samples.length - offset < 20
      omega

/-! ## The samples of one symbol -/

theorem timing_nonzero (s : State) (loop_i : Int) (h : loop_i ≠ 0) :
    getSymbolFromBuffer.timing s loop_i = (loop_i, s) := by
  unfold getSymbolFromBuffer.timing
  rw [if_neg (fun hx => h hx.1)]

theorem timing_zero (s : State) :
    getSymbolFromBuffer.timing s 0 = (0, s) ∨
    getSymbolFromBuffer.timing s 0 = (0, { s with jitter_ := -1 }) ∨
    (getSymbolFromBuffer.timing s 0 = (1, { s with jitter_ := -1 })) ∨
    (getSymbolFromBuffer.timing s 0 = (-1, { s with jitter_ := -1 }) ∧
      s.parseState_ = Parse_State_Search_Sync) := by
  unfold getSymbolFromBuffer.timing
  by_cases hS : s.parseState_ = Parse_State_Search_Sync
  · rw [if_pos ⟨rfl, hS⟩]
    dsimp only
    by_cases h1 : s.jitter_ ≥ s.symbol_center_ - 1 ∧ s.jitter_ ≤ s.symbol_center_
    · rw [if_pos h1]
      right; right; right
      exact ⟨rfl, hS⟩
    · rw [if_neg h1]
      by_cases h2 : s.jitter_ ≥ s.symbol_center_ + 1 ∧ s.jitter_ ≤ s.symbol_center_ + 2
      · rw [if_pos h2]
        right; right; left
        rfl
      · rw [if_neg h2]
        right; left
        rfl
  · rw [if_neg (fun hx => hS hx.2)]
    left
    rfl

theorem timing_zero_settled (s : State) (h4 : s.symbol_center_ = 4) (hj : s.jitter_ = -1) :
    getSymbolFromBuffer.timing s 0 = (0, s) ∨
    getSymbolFromBuffer.timing s 0 = (0, { s with jitter_ := -1 }) := by
  unfold getSymbolFromBuffer.timing
  by_cases hS : s.parseState_ = Parse_State_Search_Sync
  · rw [if_pos ⟨rfl, hS⟩]
    dsimp only
    rw [h4, hj]
    rw [if_neg (by decide), if_neg (by decide)]
    right
    rfl
  · rw [if_neg (fun hx => hS hx.2)]
    left
    rfl

theorem sample_jitter (s : State) (x : Int) (hj : s.jitter_ = -1) :
    (getSymbolFromBuffer.sample s (-1) x).1.jitter_ = -1 := by
  unfold getSymbolFromBuffer.sample
  dsimp only
  split_ifs <;> first
    | exact hj
    | rfl

theorem sample_symbol_center (s : State) (loop_i x : Int) :
    (getSymbolFromBuffer.sample s loop_i x).1.symbol_center_ = s.symbol_center_ := by
  have h := sample_frame s loop_i x
  unfold SlicerFrame at h
  rw [h]

theorem ok_offset_step (r : SymbolResult) (offset n : Nat)
    (h : r.ok = true ∧ r.offset = offset + 1 + n) :
    r.ok = true ∧ r.offset = offset + (n + 1) := by
  refine ⟨h.1, ?_⟩
  rw [h.2]
  omega

/-- From a loop counter of at least 1 the slicer takes the remaining
`10 - loop_i` samples and succeeds. -/
theorem slicer_loop_tail :
    ∀ (n : Nat) (rest : List Int) (loop_i : Int) (s : State) (offset : Nat)
      (sum_out count_out symbol_out : Int),
      loop_i + (n : Int) = 10 → 1 ≤ loop_i → n ≤ rest.length →
      (getSymbolFromBuffer.loop 10 rest loop_i s offset sum_out count_out symbol_out).ok = true ∧
      (getSymbolFromBuffer.loop 10 rest loop_i s offset sum_out count_out symbol_out).offset =
        offset + n := by
  intro n
  induction n with
  | zero =>
    intro rest loop_i s offset sum_out count_out symbol_out h10 h1 hlen
    have hn : ¬ loop_i < 10 := by omega
    cases rest with
    | nil =>
      unfold getSymbolFromBuffer.loop
      rw [if_neg hn]
      exact ⟨rfl, rfl⟩
    | cons x rest =>
      unfold getSymbolFromBuffer.loop
      rw [if_neg hn]
      exact ⟨rfl, rfl⟩
  | succ n ih =>
    intro rest loop_i s offset sum_out count_out symbol_out h10 h1 hlen
    have hlt : loop_i < 10 := by omega
    cases rest with
    | nil => exact absurd hlen (by simp)
    | cons x rest =>
      unfold getSymbolFromBuffer.loop
      rw [if_pos hlt, timing_nonzero s loop_i (by omega)]
      dsimp only
      exact ok_offset_step _ offset n
        (ih rest (loop_i + 1) _ (offset + 1) _ _ _ (by omega) (by omega)
          (by simpa using hlen))

theorem slicer_loop_from (c : Int) (s1 : State) (rest : List Int) (x : Int) (s : State)
    (offset : Nat) (sum_out count_out symbol_out : Int)
    (ht : getSymbolFromBuffer.timing s 0 = (c, s1)) :
    getSymbolFromBuffer.loop 10 (x :: rest) 0 s offset sum_out count_out symbol_out =
      getSymbolFromBuffer.loop 10 rest (c + 1) (getSymbolFromBuffer.sample s1 c x).1 (offset + 1)
        (if c = (getSymbolFromBuffer.sample s1 c x).1.symbol_center_ - 1 ∨
            c = (getSymbolFromBuffer.sample s1 c x).1.symbol_center_ + 1 then
          (sum_out + (getSymbolFromBuffer.sample s1 c x).2, count_out + 1)
          else (sum_out, count_out)).1
        (if c = (getSymbolFromBuffer.sample s1 c x).1.symbol_center_ - 1 ∨
            c = (getSymbolFromBuffer.sample s1 c x).1.symbol_center_ + 1 then
          (sum_out + (getSymbolFromBuffer.sample s1 c x).2, count_out + 1)
          else (sum_out, count_out)).2
        symbol_out := by
  rw [getSymbolFromBuffer.loop, if_pos (by decide), ht]

theorem ok_offset_ten (r : SymbolResult) (offset : Nat)
    (h : r.ok = true ∧ r.offset = offset + 1 + 9) :
    r.ok = true ∧ r.offset = offset + 10 := h

/-- With the jitter estimate cleared the slicer takes exactly 10 samples. -/
theorem slicer_loop_settled (rest : List Int) (s : State) (offset : Nat)
    (sum_out count_out symbol_out : Int)
    (h4 : s.symbol_center_ = 4) (hj : s.jitter_ = -1) (hlen : 10 ≤ rest.length) :
    (getSymbolFromBuffer.loop 10 rest 0 s offset sum_out count_out symbol_out).ok = true ∧
    (getSymbolFromBuffer.loop 10 rest 0 s offset sum_out count_out symbol_out).offset =
      offset + 10 := by
  cases rest with
  | nil => exact absurd hlen (by simp)
  | cons x rest =>
    have hl : 9 ≤ rest.length := by simpa using hlen
    rcases timing_zero_settled s h4 hj with ht | ht <;>
      rw [slicer_loop_from _ _ rest x s offset sum_out count_out symbol_out ht] <;>
      exact ok_offset_ten _ offset
        (slicer_loop_tail 9 rest (0 + 1) _ (offset + 1) _ _ _ (by decide) (by decide) hl)

/-- With `symbol_center_ = 4` and 11 samples at hand the slicer succeeds and
takes 9, 10 or 11 of them. -/
theorem slicer_loop_symbol (rest : List Int) (s : State) (offset : Nat)
    (sum_out count_out symbol_out : Int)
    (h4 : s.symbol_center_ = 4) (hlen : 11 ≤ rest.length) :
    (getSymbolFromBuffer.loop 10 rest 0 s offset sum_out count_out symbol_out).ok = true ∧
    ((getSymbolFromBuffer.loop 10 rest 0 s offset sum_out count_out symbol_out).offset =
        offset + 9 ∨
      (getSymbolFromBuffer.loop 10 rest 0 s offset sum_out count_out symbol_out).offset =
        offset + 10 ∨
      (getSymbolFromBuffer.loop 10 rest 0 s offset sum_out count_out symbol_out).offset =
        offset + 11) := by
  cases rest with
  | nil => exact absurd hlen (by simp)
  | cons x rest =>
    have hl : 10 ≤ rest.length := by simpa using hlen
    rcases timing_zero s with ht | ht | ht | ⟨ht, _⟩ <;>
      rw [slicer_loop_from _ _ rest x s offset sum_out count_out symbol_out ht]
    · have h := slicer_loop_tail 9 rest (0 + 1) (getSymbolFromBuffer.sample s 0 x).1 (offset + 1)
        (if (0 : Int) = (getSymbolFromBuffer.sample s 0 x).1.symbol_center_ - 1 ∨
            (0 : Int) = (getSymbolFromBuffer.sample s 0 x).1.symbol_center_ + 1 then
          (sum_out + (getSymbolFromBuffer.sample s 0 x).2, count_out + 1)
          else (sum_out, count_out)).1
        (if (0 : Int) = (getSymbolFromBuffer.sample s 0 x).1.symbol_center_ - 1 ∨
            (0 : Int) = (getSymbolFromBuffer.sample s 0 x).1.symbol_center_ + 1 then
          (sum_out + (getSymbolFromBuffer.sample s 0 x).2, count_out + 1)
          else (sum_out, count_out)).2
        symbol_out (by decide) (by decide) (by omega)
      exact ⟨h.1, Or.inr (Or.inl h.2)⟩
    · have h := slicer_loop_tail 9 rest (0 + 1)
        (getSymbolFromBuffer.sample { s with jitter_ := -1 } 0 x).1 (offset + 1)
        (if (0 : Int) = (getSymbolFromBuffer.sample { s with jitter_ := -1 } 0 x).1.symbol_center_ - 1 ∨
            (0 : Int) = (getSymbolFromBuffer.sample { s with jitter_ := -1 } 0 x).1.symbol_center_ + 1 then
          (sum_out + (getSymbolFromBuffer.sample { s with jitter_ := -1 } 0 x).2, count_out + 1)
          else (sum_out, count_out)).1
        (if (0 : Int) = (getSymbolFromBuffer.sample { s with jitter_ := -1 } 0 x).1.symbol_center_ - 1 ∨
            (0 : Int) = (getSymbolFromBuffer.sample { s with jitter_ := -1 } 0 x).1.symbol_center_ + 1 then
          (sum_out + (getSymbolFromBuffer.sample { s with jitter_ := -1 } 0 x).2, count_out + 1)
          else (sum_out, count_out)).2
        symbol_out (by decide) (by decide) (by omega)
      exact ⟨h.1, Or.inr (Or.inl h.2)⟩
    · have h := slicer_loop_tail 8 rest (1 + 1)
        (getSymbolFromBuffer.sample { s with jitter_ := -1 } 1 x).1 (offset + 1)
        (if (1 : Int) = (getSymbolFromBuffer.sample { s with jitter_ := -1 } 1 x).1.symbol_center_ - 1 ∨
            (1 : Int) = (getSymbolFromBuffer.sample { s with jitter_ := -1 } 1 x).1.symbol_center_ + 1 then
          (sum_out + (getSymbolFromBuffer.sample { s with jitter_ := -1 } 1 x).2, count_out + 1)
          else (sum_out, count_out)).1
        (if (1 : Int) = (getSymbolFromBuffer.sample { s with jitter_ := -1 } 1 x).1.symbol_center_ - 1 ∨
            (1 : Int) = (getSymbolFromBuffer.sample { s with jitter_ := -1 } 1 x).1.symbol_center_ + 1 then
          (sum_out + (getSymbolFromBuffer.sample { s with jitter_ := -1 } 1 x).2, count_out + 1)
          else (sum_out, count_out)).2
        symbol_out (by decide) (by decide) (by omega)
      exact ⟨h.1, Or.inl h.2⟩
    · have hj := sample_jitter { s with jitter_ := -1 } x rfl
      have hc : (getSymbolFromBuffer.sample { s with jitter_ := -1 } (-1) x).1.symbol_center_ = 4 := by
        rw [sample_symbol_center]
        exact h4
      have h := slicer_loop_settled rest
        (getSymbolFromBuffer.sample { s with jitter_ := -1 } (-1) x).1 (offset + 1)
        (if (-1 : Int) = (getSymbolFromBuffer.sample { s with jitter_ := -1 } (-1) x).1.symbol_center_ - 1 ∨
            (-1 : Int) = (getSymbolFromBuffer.sample { s with jitter_ := -1 } (-1) x).1.symbol_center_ + 1 then
          (sum_out + (getSymbolFromBuffer.sample { s with jitter_ := -1 } (-1) x).2, count_out + 1)
          else (sum_out, count_out)).1
        (if (-1 : Int) = (getSymbolFromBuffer.sample { s with jitter_ := -1 } (-1) x).1.symbol_center_ - 1 ∨
            (-1 : Int) = (getSymbolFromBuffer.sample { s with jitter_ := -1 } (-1) x).1.symbol_center_ + 1 then
          (sum_out + (getSymbolFromBuffer.sample { s with jitter_ := -1 } (-1) x).2, count_out + 1)
          else (sum_out, count_out)).2
        symbol_out hc hj hl
      exact ⟨h.1, Or.inr (Or.inr h.2)⟩

theorem pds_symbol_center (s : State) (dibit : Nat) :
    (process_decided_symbol s dibit).symbol_center_ = s.symbol_center_ := by
  cases hs : s.parseState_ with
  | Parse_State_Search_Sync =>
    rw [pds_search s dibit hs]
    rcases search_sync_cases (process_decided_symbol.store s dibit) with h | h | h | h <;>
      rw [h] <;>
      rcases searched_cases (process_decided_symbol.store s dibit) with h2 | h2 <;>
      rw [h2] <;> rfl
  | Parse_State_Process_Voice =>
    rw [pds_voice s dibit hs]
    unfold process_decided_symbol.process_voice
    dsimp only
    split_ifs
    · rw [append_dibits_frame, append_dibits_frame (process_decided_symbol.store s dibit)]
      rfl
    · rw [append_dibits_frame]
      rfl
    · rcases emit_burst_cases (process_decided_symbol.complete_frame
          (process_decided_symbol.store s dibit)) with ⟨h, _⟩ | ⟨h, _⟩ <;> rw [h] <;>
        unfold process_decided_symbol.complete_frame <;>
        rw [append_dibits_frame] <;> rfl
    · rfl
  | Parse_State_Process_Data =>
    rw [pds_data s dibit hs]
    unfold process_decided_symbol.process_data
    dsimp only
    split_ifs <;> rfl

theorem decide_symbol_symbol_center (s : State) (symbol : Int) :
    (process_demod_block.decide_symbol s symbol).symbol_center_ = s.symbol_center_ := by
  unfold process_demod_block.decide_symbol
  dsimp only
  rw [pds_symbol_center]
  rfl

theorem slicer_symbol (s : State) (samples : List Int) (offset : Nat)
    (h4 : s.symbol_center_ = 4)
    (hoff : offset + 11 ≤ samples.length) (hlen : samples.length < 2 ^ 32) :
    (getSymbolFromBuffer s samples offset 0 0 0).ok = true ∧
    ((getSymbolFromBuffer s samples offset 0 0 0).offset = offset + 9 ∨
      (getSymbolFromBuffer s samples offset 0 0 0).offset = offset + 10 ∨
      (getSymbolFromBuffer s samples offset 0 0 0).offset = offset + 11) ∧
    (getSymbolFromBuffer s samples offset 0 0 0).s.symbol_center_ = 4 := by
  unfold getSymbolFromBuffer
  dsimp only
  have hn : ¬ ((samples.length : Int) - (offset : Int)) % 2 ^ 32 < 10 % 2 ^ 32 := by omega
  rw [if_neg hn]
  have hl : 11 ≤ (samples.drop offset).length := by
    rw [List.length_drop]; omega
  obtain ⟨h1, h2⟩ := slicer_loop_symbol (samples.drop offset) s offset 0 0 0 h4 hl
  refine ⟨h1, h2, ?_⟩
  have h := slicer_loop_thresholds 10 (samples.drop offset) 0 s offset 0 0 0
  generalize (getSymbolFromBuffer.loop 10 (List.drop offset samples) 0 s offset 0 0 0) = r at h
  unfold SlicerFrame at h
  have e := congrArg State.symbol_center_ h
  exact e.trans h4

/-- With `symbol_center_ = 4` the symbol decisions of a block consume spans of
9, 10 or 11 samples that follow one another up to the final `offset`. -/
theorem block_loop_spans (samples : List Int) (hlen : samples.length < 2 ^ 32) :
    ∀ (fuel : Nat) (s : State) (offset n : Nat),
      s.symbol_center_ = 4 → offset ≤ samples.length → samples.length < fuel + offset →
      tiles offset (process_demod_block.spans samples 20 fuel s offset)
        (process_demod_block.loop samples 20 fuel s offset n).2.1 ∧
      (process_demod_block.loop samples 20 fuel s offset n).1.symbol_center_ = 4 := by
  intro fuel
  induction fuel with
  | zero =>
    intro s offset n _ h1 h2
    omega
  | succ fuel ih =>
    intro s offset n h4 h1 h2
    rw [process_demod_block.loop, process_demod_block.spans]
    by_cases hc : ((samples.length : Int) - (offset : Int)) % 2 ^ 32 ≥ ((20 : Nat) : Int)
    · rw [if_pos hc, if_pos hc]
      dsimp only
      have h20 : offset + 20 ≤ samples.length := by omega
      obtain ⟨hok, hoff, hcen⟩ := slicer_symbol s samples offset h4 (by omega) hlen
      rw [if_pos hok, if_pos hok]
      obtain ⟨i1, i2⟩ := ih
        (process_demod_block.decide_symbol (getSymbolFromBuffer s samples offset 0 0 0).s
          (getSymbolFromBuffer s samples offset 0 0 0).symbol_out)
        (getSymbolFromBuffer s samples offset 0 0 0).offset ((n + 1) % 2 ^ 32)
        (by rw [decide_symbol_symbol_center]; exact hcen) (by omega) (by omega)
      exact ⟨⟨rfl, hoff, i1⟩, i2⟩
    · rw [if_neg hc, if_neg hc]
      exact ⟨rfl, h4⟩

/-- C16. After `process_demod_block`, for a sample vector that `size_t` can
index: `pending_samples_` is the previous `pending_samples_` followed by the
block, without its first `offset` samples, `offset` being where the loop
stopped; it holds fewer than 20 samples; the consumed samples followed by it
are the previous `pending_samples_` followed by the block; and, with
`symbol_center_ = 4` as the constructor sets it, the symbol decisions of the
block have consumed spans of 9, 10 or 11 samples that follow one another
without gap or overlap from sample 0 to `offset`, and `symbol_center_` is
still 4. -/
theorem pending_is_unconsumed_suffix (s : State) (block : List Int)
    (hlen : (s.pending_samples_ ++ block).length < 2 ^ 32) :
    (process_demod_block s block).pending_samples_ =
      (s.pending_samples_ ++ block).drop (process_demod_block.consumed s block) ∧
    process_demod_block.consumed s block ≤ (s.pending_samples_ ++ block).length ∧
    (process_demod_block s block).pending_samples_.length < 20 ∧
    (s.pending_samples_ ++ block).take (process_demod_block.consumed s block) ++
      (process_demod_block s block).pending_samples_ = s.pending_samples_ ++ block ∧
    (s.symbol_center_ = 4 →
      tiles 0 (process_demod_block.symbol_spans s block)
        (process_demod_block.consumed s block) ∧
      (process_demod_block s block).symbol_center_ = 4) := by
  have hp : (process_demod_block s block).pending_samples_ =
      (s.pending_samples_ ++ block).drop (process_demod_block.consumed s block) := rfl
  obtain ⟨_, b2, b3⟩ := block_loop_offsets (s.pending_samples_ ++ block) hlen
    ((s.pending_samples_ ++ block).length + 1)
    { s with stats_drop_filtered_ := block.length % 2 ^ 32, pending_samples_ := [] } 0 0
    (Nat.zero_le _) (by omega)
  have hk : process_demod_block.consumed s block =
      (process_demod_block.loop (s.pending_samples_ ++ block) 20
        ((s.pending_samples_ ++ block).length + 1)
        { s with stats_drop_filtered_ := block.length % 2 ^ 32, pending_samples_ := [] }
        0 0).2.1 := rfl
  rw [← hk] at b2 b3
  refine ⟨hp, b2, ?_, ?_, ?_⟩
  · rw [hp, List.length_drop]
    exact b3
  · rw [hp]
    exact List.take_append_drop _ _
  · intro h4
    obtain ⟨t1, t2⟩ := block_loop_spans (s.pending_samples_ ++ block) hlen
      ((s.pending_samples_ ++ block).length + 1)
      { s with stats_drop_filtered_ := block.length % 2 ^ 32, pending_samples_ := [] } 0 0
      h4 (Nat.zero_le _) (by omega)
    exact ⟨t1, t2⟩

/-! ## The trimmed means -/

/-- What the level refresh computes from the sorted window: `lmin_` from the
entries 1, 2 and 3, `lmax_` from the entries 21, 22 and 23. -/
theorem level_refresh_trimmed (s : State) :
    (process_decided_symbol.level_refresh s).lmin_ =
      Int.tdiv
        ((List.insertionSort (fun x y : Int => x ≤ y) ((List.range 24).map s.lbuf1_)).getD 1 0 +
         (List.insertionSort (fun x y : Int => x ≤ y) ((List.range 24).map s.lbuf1_)).getD 2 0 +
         (List.insertionSort (fun x y : Int => x ≤ y) ((List.range 24).map s.lbuf1_)).getD 3 0)
        3 ∧
    (process_decided_symbol.level_refresh s).lmax_ =
      Int.tdiv
        ((List.insertionSort (fun x y : Int => x ≤ y) ((List.range 24).map s.lbuf1_)).getD 21 0 +
         (List.insertionSort (fun x y : Int => x ≤ y) ((List.range 24).map s.lbuf1_)).getD 22 0 +
         (List.insertionSort (fun x y : Int => x ≤ y) ((List.range 24).map s.lbuf1_)).getD 23 0)
        3 := by
  unfold process_decided_symbol.level_refresh
  dsimp only
  exact ⟨rfl, rfl⟩

set_option maxRecDepth 100000 in
/-- C18 does not hold of the code. After the 24 symbols of `example_levels`
the processor has matched `DirectTs1Voice`; the window holds the 24 values,
the sorted copy is -9000, eleven times -3000 and twelve times 3000; `lmax_`
is 3000, the average of the three highest values, but `lmin_` is -3000, the
average of the second, third and fourth lowest, where the three lowest
average to -5000. -/
theorem lmin_skips_lowest :
    example_refreshed.parseState_ = Parse_State_Process_Voice ∧
    (List.range 24).map example_refreshed.lbuf1_ = example_levels ∧
    (List.range 24).map example_refreshed.lbuf2_ =
      [-9000, -3000, -3000, -3000, -3000, -3000, -3000, -3000, -3000, -3000, -3000, -3000,
       3000, 3000, 3000, 3000, 3000, 3000, 3000, 3000, 3000, 3000, 3000, 3000] ∧
    example_refreshed.lmin_ = -3000 ∧
    example_refreshed.lmin_ = Int.tdiv (example_refreshed.lbuf2_ 1 + example_refreshed.lbuf2_ 2 +
      example_refreshed.lbuf2_ 3) 3 ∧
    Int.tdiv (example_refreshed.lbuf2_ 0 + example_refreshed.lbuf2_ 1 +
      example_refreshed.lbuf2_ 2) 3 = -5000 ∧
    example_refreshed.lmax_ = 3000 ∧
    Int.tdiv (example_refreshed.lbuf2_ 21 + example_refreshed.lbuf2_ 22 +
      example_refreshed.lbuf2_ 23) 3 = 3000 := by
  decide

/-! ## The statements of this part on example inputs -/

theorem data_hold_countdown_witness :
    DecidedStream (feed example_hold example_dibits) example_dibits ∧
    (feed example_hold example_dibits 0).parseState_ = Parse_State_Process_Data ∧
    (feed example_hold example_dibits 0).data_sync_hold_symbols_ = ((77 : Nat) : Int) ∧
    (process_decided_symbol (feed example_hold example_dibits (0 + (77 - 1)))
      (example_dibits (0 + (77 - 1)))).parseState_ = Parse_State_Search_Sync ∧
    (process_decided_symbol (feed example_data example_dibits (0 + 263))
      (example_dibits (0 + 263))).parseState_ = Parse_State_Search_Sync ∧
    (process_decided_symbol (feed example_sixth example_dibits (0 + 209))
      (example_dibits (0 + 209))).parseState_ = Parse_State_Search_Sync :=
  ⟨feed_decided _ _, by decide, by decide,
    ((data_hold_countdown (feed example_hold example_dibits) example_dibits
      (feed_decided _ _)).1 0 77 (by decide) (by decide) (by decide)).2.1,
    ((data_hold_countdown (feed example_data example_dibits) example_dibits
      (feed_decided _ _)).2.1 0 (by decide) (by decide) (by decide)).2.1,
    ((data_hold_countdown (feed example_sixth example_dibits) example_dibits
      (feed_decided _ _)).2.2 0 (by decide) (by decide) (by decide)).2.1⟩

theorem no_reset_outside_search_witness :
    example_sixth.parseState_ = Parse_State_Process_Voice ∧
    (process_decided_symbol example_sixth 1).carrier_present_ = example_sixth.carrier_present_ ∧
    (process_decided_symbol example_sixth 1).symbol_counter_ = example_sixth.symbol_counter_ :=
  ⟨by decide,
    (no_reset_outside_search example_sixth 1 (Or.inl (by decide))).1,
    (no_reset_outside_search example_sixth 1 (Or.inl (by decide))).2.1⟩

theorem level_refresh_formulas_witness :
    example_data.parseState_ = Parse_State_Search_Sync ∧
    DMR_SYNC_SYMBOLS ≤ example_data.sync_history_count_ ∧
    sync_window example_data = pattern_of SyncPatternId.DirectTs1Data ∧
    (process_decided_symbol example_data 0).max_sample_ =
      Int.tdiv (example_data.max_sample_ + (process_decided_symbol example_data 0).lmax_) 2 ∧
    (process_decided_symbol example_data 0).umid_ =
      (process_decided_symbol example_data 0).center_ +
        Int.tdiv (((process_decided_symbol example_data 0).max_sample_ -
          (process_decided_symbol example_data 0).center_) * 5) 8 :=
  ⟨by decide, by decide, by decide,
    (level_refresh_formulas example_data 0 SyncPatternId.DirectTs1Data (Or.inr rfl)
      (by decide) (by decide) (by decide)).1,
    (level_refresh_formulas example_data 0 SyncPatternId.DirectTs1Data (Or.inr rfl)
      (by decide) (by decide) (by decide)).2.2.2.1⟩

theorem symbol_classification_witness :
    ((12000 : Int) > State.constructed.center_ ∧ (12000 : Int) > State.constructed.umid_) ∧
    process_demod_block.decide_symbol State.constructed 12000 =
      process_decided_symbol
        (push_sync_char (update_symbol_statistics State.constructed 12000) '1') 0b01 ∧
    (((-12000 : Int) ≤ State.constructed.center_ ∧ (-12000 : Int) < State.constructed.lmid_)) ∧
    process_demod_block.decide_symbol State.constructed (-12000) =
      process_decided_symbol
        (push_sync_char (update_symbol_statistics State.constructed (-12000)) '3') 0b11 :=
  ⟨by decide,
    (symbol_classification State.constructed 12000).1 (by decide),
    by decide,
    (symbol_classification State.constructed (-12000)).2.2.1 (by decide)⟩

theorem pending_is_unconsumed_suffix_witness :
    (State.constructed.pending_samples_ ++ example_block).length < 2 ^ 32 ∧
    State.constructed.symbol_center_ = 4 ∧
    (process_demod_block State.constructed example_block).pending_samples_.length < 20 ∧
    (State.constructed.pending_samples_ ++ example_block).take
        (process_demod_block.consumed State.constructed example_block) ++
      (process_demod_block State.constructed example_block).pending_samples_ =
        State.constructed.pending_samples_ ++ example_block ∧
    tiles 0 (process_demod_block.symbol_spans State.constructed example_block)
      (process_demod_block.consumed State.constructed example_block) ∧
    (process_demod_block State.constructed example_block).symbol_center_ = 4 :=
  ⟨by decide, by decide,
    (pending_is_unconsumed_suffix State.constructed example_block (by decide)).2.2.1,
    (pending_is_unconsumed_suffix State.constructed example_block (by decide)).2.2.2.1,
    (pending_is_unconsumed_suffix State.constructed example_block (by decide)).2.2.2.2
      (by decide)⟩

/-! ## The number of samples of one symbol -/

theorem timing_zero_retard (s : State) (hS : s.parseState_ = Parse_State_Search_Sync)
    (hj : s.symbol_center_ - 1 ≤ s.jitter_ ∧ s.jitter_ ≤ s.symbol_center_) :
    getSymbolFromBuffer.timing s 0 = (-1, { s with jitter_ := -1 }) := by
  unfold getSymbolFromBuffer.timing
  rw [if_pos ⟨rfl, hS⟩]
  dsimp only
  rw [if_pos hj]
  rfl

theorem timing_zero_advance (s : State) (hS : s.parseState_ = Parse_State_Search_Sync)
    (hn : ¬ (s.symbol_center_ - 1 ≤ s.jitter_ ∧ s.jitter_ ≤ s.symbol_center_))
    (hj : s.symbol_center_ + 1 ≤ s.jitter_ ∧ s.jitter_ ≤ s.symbol_center_ + 2) :
    getSymbolFromBuffer.timing s 0 = (1, { s with jitter_ := -1 }) := by
  unfold getSymbolFromBuffer.timing
  rw [if_pos ⟨rfl, hS⟩]
  dsimp only
  rw [if_neg hn, if_pos hj]
  rfl

theorem timing_zero_none (s : State) (hS : s.parseState_ = Parse_State_Search_Sync)
    (hn : ¬ (s.symbol_center_ - 1 ≤ s.jitter_ ∧ s.jitter_ ≤ s.symbol_center_))
    (hj : ¬ (s.symbol_center_ + 1 ≤ s.jitter_ ∧ s.jitter_ ≤ s.symbol_center_ + 2)) :
    getSymbolFromBuffer.timing s 0 = (0, { s with jitter_ := -1 }) := by
  unfold getSymbolFromBuffer.timing
  rw [if_pos ⟨rfl, hS⟩]
  dsimp only
  rw [if_neg hn, if_neg hj]

theorem timing_zero_locked (s : State) (hS : s.parseState_ ≠ Parse_State_Search_Sync) :
    getSymbolFromBuffer.timing s 0 = (0, s) := by
  unfold getSymbolFromBuffer.timing
  rw [if_neg (fun hx => hS hx.2)]

theorem slicer_loop_nil (s : State) (offset : Nat) (loop_i sum_out count_out symbol_out : Int)
    (hlt : loop_i < 10) :
    (getSymbolFromBuffer.loop 10 [] loop_i s offset sum_out count_out symbol_out).ok = false := by
  unfold getSymbolFromBuffer.loop
  rw [if_pos hlt]

/-- A successful run of the slicer from a loop counter of at least 1 has
taken the remaining `10 - loop_i` samples. -/
theorem slicer_loop_tail_ok :
    ∀ (n : Nat) (rest : List Int) (loop_i : Int) (s : State) (offset : Nat)
      (sum_out count_out symbol_out : Int),
      loop_i + (n : Int) = 10 → 1 ≤ loop_i →
      (getSymbolFromBuffer.loop 10 rest loop_i s offset sum_out count_out symbol_out).ok = true →
      n ≤ rest.length := by
  intro n
  induction n with
  | zero =>
    intro rest loop_i s offset sum_out count_out symbol_out _ _ _
    exact Nat.zero_le _
  | succ n ih =>
    intro rest loop_i s offset sum_out count_out symbol_out h10 h1 hok
    have hlt : loop_i < 10 := by omega
    cases rest with
    | nil =>
      rw [slicer_loop_nil s offset loop_i sum_out count_out symbol_out hlt] at hok
      exact absurd hok (by simp)
    | cons x rest =>
      unfold getSymbolFromBuffer.loop at hok
      rw [if_pos hlt, timing_nonzero s loop_i (by omega)] at hok
      dsimp only at hok
      have := ih rest (loop_i + 1) _ (offset + 1) _ _ _ (by omega) (by omega) hok
      simpa using this

theorem slicer_loop_tail_exact (n : Nat) (rest : List Int) (loop_i : Int) (s : State)
    (offset : Nat) (sum_out count_out symbol_out : Int)
    (h10 : loop_i + (n : Int) = 10) (h1 : 1 ≤ loop_i)
    (hok : (getSymbolFromBuffer.loop 10 rest loop_i s offset sum_out count_out
      symbol_out).ok = true) :
    (getSymbolFromBuffer.loop 10 rest loop_i s offset sum_out count_out symbol_out).offset =
      offset + n :=
  (slicer_loop_tail n rest loop_i s offset sum_out count_out symbol_out h10 h1
    (slicer_loop_tail_ok n rest loop_i s offset sum_out count_out symbol_out h10 h1 hok)).2

theorem offset_eq_step (r : SymbolResult) (offset a b : Nat) (h : r.offset = offset + 1 + a)
    (hb : 1 + a = b) : r.offset = offset + b := by
  rw [h, ← hb, Nat.add_assoc]

/-- A successful run from a cleared jitter estimate has taken 10 samples. -/
theorem slicer_loop_settled_ok (rest : List Int) (s : State) (offset : Nat)
    (sum_out count_out symbol_out : Int)
    (h4 : s.symbol_center_ = 4) (hj : s.jitter_ = -1)
    (hok : (getSymbolFromBuffer.loop 10 rest 0 s offset sum_out count_out symbol_out).ok = true) :
    (getSymbolFromBuffer.loop 10 rest 0 s offset sum_out count_out symbol_out).offset =
      offset + 10 := by
  cases rest with
  | nil =>
    rw [slicer_loop_nil s offset 0 sum_out count_out symbol_out (by decide)] at hok
    exact absurd hok (by simp)
  | cons x rest =>
    rcases timing_zero_settled s h4 hj with ht | ht <;>
      rw [slicer_loop_from _ _ rest x s offset sum_out count_out symbol_out ht] at hok ⊢ <;>
      exact offset_eq_step _ offset 9 10
        (slicer_loop_tail_exact 9 rest (0 + 1) _ (offset + 1) _ _ _ (by decide) (by decide) hok)
        rfl

/-- The number of samples of a successful run of the loop, by the timing
correction at its head. -/
theorem slicer_loop_count (rest : List Int) (s : State) (offset : Nat)
    (sum_out count_out symbol_out : Int) (h4 : s.symbol_center_ = 4)
    (hok : (getSymbolFromBuffer.loop 10 rest 0 s offset sum_out count_out symbol_out).ok = true) :
    ((getSymbolFromBuffer.timing s 0).1 = -1 →
      (getSymbolFromBuffer.loop 10 rest 0 s offset sum_out count_out symbol_out).offset =
        offset + 11) ∧
    ((getSymbolFromBuffer.timing s 0).1 = 1 →
      (getSymbolFromBuffer.loop 10 rest 0 s offset sum_out count_out symbol_out).offset =
        offset + 9) ∧
    ((getSymbolFromBuffer.timing s 0).1 = 0 →
      (getSymbolFromBuffer.loop 10 rest 0 s offset sum_out count_out symbol_out).offset =
        offset + 10) := by
  cases rest with
  | nil =>
    rw [slicer_loop_nil s offset 0 sum_out count_out symbol_out (by decide)] at hok
    exact absurd hok (by simp)
  | cons x rest =>
    rcases timing_zero s with ht | ht | ht | ⟨ht, _⟩ <;>
      rw [slicer_loop_from _ _ rest x s offset sum_out count_out symbol_out ht] at hok ⊢ <;>
      rw [ht] <;> dsimp only <;>
      refine ⟨fun h => ?_, fun h => ?_, fun h => ?_⟩ <;>
      first
        | exact absurd h (by decide)
        | exact offset_eq_step _ offset 9 10
            (slicer_loop_tail_exact 9 rest (0 + 1) _ (offset + 1) _ _ _ (by decide) (by decide)
              hok) rfl
        | exact offset_eq_step _ offset 8 9
            (slicer_loop_tail_exact 8 rest (1 + 1) _ (offset + 1) _ _ _ (by decide) (by decide)
              hok) rfl
        | exact offset_eq_step _ offset 10 11
            (slicer_loop_settled_ok rest _ (offset + 1) _ _ _
              ((sample_symbol_center _ _ _).trans h4) (sample_jitter _ x rfl) hok) rfl

theorem slicer_ok_loop (s : State) (samples : List Int) (offset : Nat)
    (sum_out count_out symbol_out : Int)
    (hok : (getSymbolFromBuffer s samples offset sum_out count_out symbol_out).ok = true) :
    getSymbolFromBuffer s samples offset sum_out count_out symbol_out =
      getSymbolFromBuffer.loop 10 (samples.drop offset) 0 s offset 0 0 symbol_out := by
  unfold getSymbolFromBuffer at hok ⊢
  dsimp only at hok ⊢
  by_cases hlt : ((samples.length : Int) - (offset : Int)) % 2 ^ 32 < 10 % 2 ^ 32
  · rw [if_pos hlt] at hok
    exact absurd hok (by simp)
  · rw [if_neg hlt]

theorem slicer_enough_loop (s : State) (samples : List Int) (offset : Nat)
    (sum_out count_out symbol_out : Int)
    (hoff : offset + 10 ≤ samples.length) (hlen : samples.length < 2 ^ 32) :
    getSymbolFromBuffer s samples offset sum_out count_out symbol_out =
      getSymbolFromBuffer.loop 10 (samples.drop offset) 0 s offset 0 0 symbol_out := by
  unfold getSymbolFromBuffer
  dsimp only
  have hn : ¬ ((samples.length : Int) - (offset : Int)) % 2 ^ 32 < 10 % 2 ^ 32 := by omega
  rw [if_neg hn]

/-- C22. With `symbol_center_ = 4`, a successful `getSymbolFromBuffer` has
advanced `offset` by 11 when the state is `SearchSync` and the incoming
`jitter_` lies in `[symbol_center_ - 1, symbol_center_]`, by 9 when the state
is `SearchSync` and `jitter_` lies in `[symbol_center_ + 1, symbol_center_ + 2]`,
and by 10 in every other case, so by 10 in `ProcessVoice` and `ProcessData`
whatever `jitter_` is; and with 11 samples at hand the call is successful. -/
theorem samples_per_symbol_decision (s : State) (samples : List Int) (offset : Nat)
    (sum_out count_out symbol_out : Int) (h4 : s.symbol_center_ = 4) :
    ((getSymbolFromBuffer s samples offset sum_out count_out symbol_out).ok = true →
      (s.parseState_ = Parse_State_Search_Sync ∧
          s.symbol_center_ - 1 ≤ s.jitter_ ∧ s.jitter_ ≤ s.symbol_center_ →
        (getSymbolFromBuffer s samples offset sum_out count_out symbol_out).offset =
          offset + 11) ∧
      (s.parseState_ = Parse_State_Search_Sync ∧
          s.symbol_center_ + 1 ≤ s.jitter_ ∧ s.jitter_ ≤ s.symbol_center_ + 2 →
        (getSymbolFromBuffer s samples offset sum_out count_out symbol_out).offset =
          offset + 9) ∧
      (¬ (s.parseState_ = Parse_State_Search_Sync ∧
          s.symbol_center_ - 1 ≤ s.jitter_ ∧ s.jitter_ ≤ s.symbol_center_ + 2) →
        (getSymbolFromBuffer s samples offset sum_out count_out symbol_out).offset =
          offset + 10) ∧
      (s.parseState_ ≠ Parse_State_Search_Sync →
        (getSymbolFromBuffer s samples offset sum_out count_out symbol_out).offset =
          offset + 10)) ∧
    (offset + 11 ≤ samples.length → samples.length < 2 ^ 32 →
      (getSymbolFromBuffer s samples offset sum_out count_out symbol_out).ok = true) := by
  refine ⟨fun hok => ?_, fun hoff hlen => ?_⟩
  · have he := slicer_ok_loop s samples offset sum_out count_out symbol_out hok
    rw [he] at hok ⊢
    obtain ⟨c1, c2, c3⟩ := slicer_loop_count (samples.drop offset) s offset 0 0 symbol_out h4 hok
    refine ⟨fun h => c1 ?_, fun h => c2 ?_, fun h => c3 ?_, fun h => c3 ?_⟩
    · rw [timing_zero_retard s h.1 h.2]
    · rw [timing_zero_advance s h.1 (by omega) h.2]
    · by_cases hS : s.parseState_ = Parse_State_Search_Sync
      · rw [timing_zero_none s hS (fun hx => h ⟨hS, by omega⟩) (fun hx => h ⟨hS, by omega⟩)]
      · rw [timing_zero_locked s hS]
    · rw [timing_zero_locked s h]
  · rw [slicer_enough_loop s samples offset sum_out count_out symbol_out (by omega) hlen]
    exact (slicer_loop_symbol (samples.drop offset) s offset 0 0 symbol_out h4
      (by rw [List.length_drop]; omega)).1

/-! ## The loop of a block ends -/

/-- Enough fuel is as good as more fuel. -/
theorem block_loop_fuel (samples : List Int) (hlen : samples.length < 2 ^ 32) :
    ∀ (f1 f2 : Nat) (s : State) (offset n : Nat),
      offset ≤ samples.length → samples.length < f1 + offset → samples.length < f2 + offset →
      process_demod_block.loop samples 20 f1 s offset n =
        process_demod_block.loop samples 20 f2 s offset n := by
  intro f1
  induction f1 with
  | zero =>
    intro f2 s offset n h1 h2 _
    omega
  | succ f1 ih =>
    intro f2 s offset n h1 h2 h3
    cases f2 with
    | zero => omega
    | succ f2 =>
      rw [process_demod_block.loop, process_demod_block.loop]
      by_cases hc : ((samples.length : Int) - (offset : Int)) % 2 ^ 32 ≥ ((20 : Nat) : Int)
      · rw [if_pos hc, if_pos hc]
        dsimp only
        have h20 : offset + 20 ≤ samples.length := by omega
        obtain ⟨s1, _, s3⟩ := slicer_offsets s samples offset (by omega) hlen
        by_cases hok : (getSymbolFromBuffer s samples offset 0 0 0).ok = true
        · rw [if_pos hok, if_pos hok]
          have hp := s3 hok
          exact ih f2 _ _ _ s1 (by omega) (by omega)
        · rw [if_neg hok, if_neg hok]
      · rw [if_neg hc, if_neg hc]

/-- C30. With `symbol_center_ = 4`, whenever at least 20 samples remain past
`offset`, `getSymbolFromBuffer` returns true in every parse state and for
every `jitter_`, leaves `offset` 9, 10 or 11 higher and not past the end of
the samples, and `symbol_counter_` one higher (in `uint64_t`); in the loop of
`process_demod_block` the symbol decisions therefore follow one another until
fewer than 20 samples remain, and the loop has ended after at most as many
iterations as there are samples: more iterations change nothing. -/
theorem slicer_never_fails_in_block :
    (∀ (s : State) (samples : List Int) (offset : Nat),
      s.symbol_center_ = 4 → offset + 20 ≤ samples.length → samples.length < 2 ^ 32 →
      (getSymbolFromBuffer s samples offset 0 0 0).ok = true ∧
      ((getSymbolFromBuffer s samples offset 0 0 0).offset = offset + 9 ∨
        (getSymbolFromBuffer s samples offset 0 0 0).offset = offset + 10 ∨
        (getSymbolFromBuffer s samples offset 0 0 0).offset = offset + 11) ∧
      (getSymbolFromBuffer s samples offset 0 0 0).offset ≤ samples.length ∧
      (getSymbolFromBuffer s samples offset 0 0 0).s.symbol_counter_ =
        (s.symbol_counter_ + 1) % 2 ^ 64 ∧
      (getSymbolFromBuffer s samples offset 0 0 0).s.symbol_center_ = 4) ∧
    (∀ (s : State) (samples : List Int) (fuel : Nat),
      s.symbol_center_ = 4 → samples.length < 2 ^ 32 → samples.length < fuel →
      process_demod_block.loop samples 20 fuel s 0 0 =
        process_demod_block.loop samples 20 (samples.length + 1) s 0 0 ∧
      (process_demod_block.loop samples 20 fuel s 0 0).2.1 ≤ samples.length ∧
      samples.length - (process_demod_block.loop samples 20 fuel s 0 0).2.1 < 20 ∧
      tiles 0 (process_demod_block.spans samples 20 fuel s 0)
        (process_demod_block.loop samples 20 fuel s 0 0).2.1) := by
  refine ⟨?_, ?_⟩
  · intro s samples offset h4 hoff hlen
    obtain ⟨hok, hcnt, hcen⟩ := slicer_symbol s samples offset h4 (by omega) hlen
    refine ⟨hok, hcnt, by omega, ?_, hcen⟩
    have he := slicer_ok_loop s samples offset 0 0 0 hok
    rw [he] at hok ⊢
    exact (slicer_loop_frame 10 (samples.drop offset) 0 s offset 0 0 0 hok).2
  · intro s samples fuel h4 hlen hfuel
    obtain ⟨_, b2, b3⟩ := block_loop_offsets samples hlen fuel s 0 0 (Nat.zero_le _) (by omega)
    exact ⟨block_loop_fuel samples hlen fuel (samples.length + 1) s 0 0 (Nat.zero_le _)
        (by omega) (by omega), b2, b3,
      (block_loop_spans samples hlen fuel s 0 0 h4 (Nat.zero_le _) (by omega)).1⟩

/-! ## The sync history -/

/-- After `n` pushes from an empty history: the write position, the count,
and the place of each of the last 10240 characters. -/
theorem push_history (s : State) (hp : s.sync_history_pos_ = 0) (hc : s.sync_history_count_ = 0)
    (cs : List Char) :
    (cs.foldl push_sync_char s).sync_history_pos_ = cs.length % 10240 ∧
    (cs.foldl push_sync_char s).sync_history_count_ = min cs.length 10240 ∧
    ∀ k, 1 ≤ k → k ≤ cs.length → k ≤ 10240 →
      some ((cs.foldl push_sync_char s).sync_history_ ((cs.length - k) % 10240)) =
        cs[cs.length - k]? := by
  induction cs using List.reverseRecOn with
  | nil =>
    refine ⟨hp, hc, ?_⟩
    intro k h1 h2 _
    simp at h2
    omega
  | append_singleton cs c ih =>
    obtain ⟨i1, i2, i3⟩ := ih
    rw [List.foldl_append]
    simp only [List.foldl_cons, List.foldl_nil, List.length_append, List.length_singleton]
    generalize List.foldl push_sync_char s cs = t at i1 i2 i3
    refine ⟨?_, ?_, ?_⟩
    · show (t.sync_history_pos_ + 1) % kSyncHistorySize = _
      rw [i1]
      unfold kSyncHistorySize
      omega
    · show (if t.sync_history_count_ < kSyncHistorySize then t.sync_history_count_ + 1
        else t.sync_history_count_) = _
      rw [i2]
      unfold kSyncHistorySize
      split_ifs <;> omega
    · intro k h1 h2 h3
      show some (Function.update t.sync_history_ t.sync_history_pos_ c
        ((cs.length + 1 - k) % 10240)) = _
      rw [i1]
      by_cases hk : k = 1
      · subst hk
        have e : cs.length + 1 - 1 = cs.length := by omega
        rw [e, Function.update_same]
        simp
      · have hne : (cs.length + 1 - k) % 10240 ≠ cs.length % 10240 := by omega
        rw [Function.update_noteq hne]
        have e : cs.length + 1 - k = cs.length - (k - 1) := by omega
        rw [e, i3 (k - 1) (by omega) (by omega) (by omega)]
        rw [List.getElem?_append_left (by omega)]

/-- C24. After any sequence of pushes that follows a reset, `sync_history_pos_`
is below 10240 (it is the number of pushes modulo 10240) and
`sync_history_count_` is the number of pushes, capped at 10240; once there
have been 24 pushes, `build_sync_window` writes the last 24 pushed characters,
oldest first, wherever the write position stands. -/
theorem sync_window_is_last_24 (s0 : State) (cs : List Char) :
    (cs.foldl push_sync_char (resetToDefaultState s0)).sync_history_pos_ < kSyncHistorySize ∧
    (cs.foldl push_sync_char (resetToDefaultState s0)).sync_history_pos_ =
      cs.length % kSyncHistorySize ∧
    (cs.foldl push_sync_char (resetToDefaultState s0)).sync_history_count_ =
      min cs.length kSyncHistorySize ∧
    (DMR_SYNC_SYMBOLS ≤ cs.length → ∀ dest : Nat → Char,
      window24 (build_sync_window (cs.foldl push_sync_char (resetToDefaultState s0)) dest) =
        cs.drop (cs.length - DMR_SYNC_SYMBOLS)) := by
  obtain ⟨i1, i2, i3⟩ := push_history (resetToDefaultState s0) rfl rfl cs
  generalize List.foldl push_sync_char (resetToDefaultState s0) cs = t at i1 i2 i3
  unfold kSyncHistorySize DMR_SYNC_SYMBOLS
  refine ⟨by omega, i1, i2, ?_⟩
  intro hn dest
  unfold window24 build_sync_window
  have hcount : ¬ t.sync_history_count_ < DMR_SYNC_SYMBOLS := by
    rw [i2]; unfold DMR_SYNC_SYMBOLS; omega
  rw [if_neg hcount]
  unfold kSyncHistorySize DMR_SYNC_SYMBOLS
  apply List.ext_getElem?
  intro i
  by_cases hi : i < 24
  · rw [List.getElem?_map, List.getElem?_range hi, List.getElem?_drop]
    dsimp only [Option.map]
    rw [if_pos hi, i1]
    have hidx : ((cs.length % 10240 + 10240 - 24) % 10240 + i) % 10240 =
        (cs.length - (24 - i)) % 10240 := by omega
    rw [hidx, i3 (24 - i) (by omega) (by omega) (by omega)]
    congr 1
    omega
  · rw [List.getElem?_eq_none (by simp; omega), List.getElem?_eq_none (by simp; omega)]

/-! ## Truncating division -/

theorem tdiv_cases (x k : Int) (hk : 0 < k) :
    (0 ≤ x ∧ Int.tdiv x k = x / k) ∨ (x < 0 ∧ Int.tdiv x k = -((-x) / k)) := by
  by_cases hx : 0 ≤ x
  · left
    exact ⟨hx, Int.tdiv_eq_ediv hx (le_of_lt hk)⟩
  · right
    refine ⟨by omega, ?_⟩
    have h1 : Int.tdiv (-(-x)) k = -(Int.tdiv (-x) k) := Int.neg_tdiv _ _
    rw [neg_neg] at h1
    rw [h1, Int.tdiv_eq_ediv (by omega) (le_of_lt hk)]

theorem tdiv3_mono (a b : Int) (h : a ≤ b) : Int.tdiv a 3 ≤ Int.tdiv b 3 := by
  rcases tdiv_cases a 3 (by decide) with ⟨ha, ea⟩ | ⟨ha, ea⟩ <;>
    rcases tdiv_cases b 3 (by decide) with ⟨hb, eb⟩ | ⟨hb, eb⟩ <;>
    rw [ea, eb] <;> omega

theorem tdiv2_mono (a b : Int) (h : a ≤ b) : Int.tdiv a 2 ≤ Int.tdiv b 2 := by
  rcases tdiv_cases a 2 (by decide) with ⟨ha, ea⟩ | ⟨ha, ea⟩ <;>
    rcases tdiv_cases b 2 (by decide) with ⟨hb, eb⟩ | ⟨hb, eb⟩ <;>
    rw [ea, eb] <;> omega

theorem tdiv2_between (m M : Int) (h : m ≤ M) :
    m ≤ Int.tdiv (M + m) 2 ∧ Int.tdiv (M + m) 2 ≤ M := by
  rcases tdiv_cases (M + m) 2 (by decide) with ⟨ha, ea⟩ | ⟨ha, ea⟩ <;> rw [ea] <;> omega

theorem five_eighths_up (d : Int) (h : 0 ≤ d) :
    0 ≤ Int.tdiv (d * 5) 8 ∧ Int.tdiv (d * 5) 8 ≤ d := by
  rcases tdiv_cases (d * 5) 8 (by decide) with ⟨ha, ea⟩ | ⟨ha, ea⟩ <;> rw [ea] <;> omega

theorem five_eighths_down (d : Int) (h : d ≤ 0) :
    d ≤ Int.tdiv (d * 5) 8 ∧ Int.tdiv (d * 5) 8 ≤ 0 := by
  rcases tdiv_cases (d * 5) 8 (by decide) with ⟨ha, ea⟩ | ⟨ha, ea⟩ <;> rw [ea] <;> omega

/-! ## The sorted window -/

theorem sorted_window_length (f : Nat → Int) :
    (List.insertionSort (fun x y : Int => x ≤ y) ((List.range 24).map f)).length = 24 := by
  rw [List.length_insertionSort]
  simp

theorem sorted_window_getD (f : Nat → Int) (i : Nat) (hi : i < 24) :
    ∃ h : i < (List.insertionSort (fun x y : Int => x ≤ y) ((List.range 24).map f)).length,
      (List.insertionSort (fun x y : Int => x ≤ y) ((List.range 24).map f)).getD i 0 =
        (List.insertionSort (fun x y : Int => x ≤ y) ((List.range 24).map f))[i] := by
  have hl := sorted_window_length f
  refine ⟨by omega, ?_⟩
  rw [List.getD_eq_getElem?_getD, List.getElem?_eq_getElem (by omega)]
  rfl

theorem sorted_window_le (f : Nat → Int) (i j : Nat) (hij : i ≤ j) (hj : j < 24) :
    (List.insertionSort (fun x y : Int => x ≤ y) ((List.range 24).map f)).getD i 0 ≤
      (List.insertionSort (fun x y : Int => x ≤ y) ((List.range 24).map f)).getD j 0 := by
  obtain ⟨hi1, ei⟩ := sorted_window_getD f i (by omega)
  obtain ⟨hj1, ej⟩ := sorted_window_getD f j hj
  rw [ei, ej]
  have hs : List.Sorted (fun x y : Int => x ≤ y)
      (List.insertionSort (fun x y : Int => x ≤ y) ((List.range 24).map f)) :=
    List.sorted_insertionSort _ _
  rcases Nat.eq_or_lt_of_le hij with h | h
  · subst h
    exact le_refl _
  · exact (List.pairwise_iff_getElem.1 hs) i j hi1 hj1 h

theorem sorted_window_mem (f : Nat → Int) (P : Int → Prop) (hf : ∀ i, P (f i)) (i : Nat)
    (hi : i < 24) :
    P ((List.insertionSort (fun x y : Int => x ≤ y) ((List.range 24).map f)).getD i 0) := by
  obtain ⟨hi1, ei⟩ := sorted_window_getD f i hi
  rw [ei]
  have hm : (List.insertionSort (fun x y : Int => x ≤ y) ((List.range 24).map f))[i] ∈
      List.insertionSort (fun x y : Int => x ≤ y) ((List.range 24).map f) :=
    List.getElem_mem _
  rw [(List.perm_insertionSort _ _).mem_iff] at hm
  obtain ⟨k, _, hk⟩ := List.mem_map.1 hm
  rw [← hk]
  exact hf k

/-! ## The order of the thresholds -/

theorem level_refresh_trimmed_le (s : State) :
    (process_decided_symbol.level_refresh s).lmin_ ≤
      (process_decided_symbol.level_refresh s).lmax_ := by
  obtain ⟨e1, e2⟩ := level_refresh_trimmed s
  rw [e1, e2]
  apply tdiv3_mono
  have h1 := sorted_window_le s.lbuf1_ 1 21 (by decide) (by decide)
  have h2 := sorted_window_le s.lbuf1_ 2 22 (by decide) (by decide)
  have h3 := sorted_window_le s.lbuf1_ 3 23 (by decide) (by decide)
  omega

theorem level_refresh_ordered (s : State) (h : s.min_sample_ ≤ s.max_sample_) :
    (process_decided_symbol.level_refresh s).min_sample_ ≤
      (process_decided_symbol.level_refresh s).lmid_ ∧
    (process_decided_symbol.level_refresh s).lmid_ ≤
      (process_decided_symbol.level_refresh s).center_ ∧
    (process_decided_symbol.level_refresh s).center_ ≤
      (process_decided_symbol.level_refresh s).umid_ ∧
    (process_decided_symbol.level_refresh s).umid_ ≤
      (process_decided_symbol.level_refresh s).max_sample_ ∧
    (process_decided_symbol.level_refresh s).min_sample_ ≤
      (process_decided_symbol.level_refresh s).max_sample_ := by
  have hl := level_refresh_trimmed_le s
  obtain ⟨v1, v2, v3, v4, v5, _, _⟩ := level_refresh_values s
  generalize (process_decided_symbol.level_refresh s).max_sample_ = M at *
  generalize (process_decided_symbol.level_refresh s).min_sample_ = m at *
  generalize (process_decided_symbol.level_refresh s).center_ = c at *
  generalize (process_decided_symbol.level_refresh s).umid_ = u at *
  generalize (process_decided_symbol.level_refresh s).lmid_ = l at *
  generalize (process_decided_symbol.level_refresh s).lmax_ = lmax at *
  generalize (process_decided_symbol.level_refresh s).lmin_ = lmin at *
  have hmM : m ≤ M := by
    rw [v1, v2]
    exact tdiv2_mono _ _ (by omega)
  obtain ⟨c1, c2⟩ := tdiv2_between m M hmM
  rw [← v3] at c1 c2
  obtain ⟨u1, u2⟩ := five_eighths_up (M - c) (by omega)
  obtain ⟨l1, l2⟩ := five_eighths_down (m - c) (by omega)
  rw [v4, v5]
  refine ⟨by omega, by omega, by omega, by omega, hmM⟩

/-- C29. After a `DirectTs1Voice` or `DirectTs1Data` match from a state with
`min_sample_ <= max_sample_`, whatever the level window holds:
`min_sample_ <= lmid_ <= center_ <= umid_ <= max_sample_` in the state the
call leaves. -/
theorem thresholds_ordered_after_match (s : State) (dibit : Nat) (id : SyncPatternId)
    (hid : id = SyncPatternId.DirectTs1Voice ∨ id = SyncPatternId.DirectTs1Data)
    (hs : s.parseState_ = Parse_State_Search_Sync)
    (hc : DMR_SYNC_SYMBOLS ≤ s.sync_history_count_)
    (hw : sync_window s = pattern_of id)
    (hm : s.min_sample_ ≤ s.max_sample_) :
    (process_decided_symbol s dibit).min_sample_ ≤ (process_decided_symbol s dibit).lmid_ ∧
    (process_decided_symbol s dibit).lmid_ ≤ (process_decided_symbol s dibit).center_ ∧
    (process_decided_symbol s dibit).center_ ≤ (process_decided_symbol s dibit).umid_ ∧
    (process_decided_symbol s dibit).umid_ ≤ (process_decided_symbol s dibit).max_sample_ := by
  have hmatch := search_match_id_of_window s id hid hc hw
  obtain ⟨a1, a2, a3, a4, a5, _, _⟩ := match_levels s dibit id hid hs hmatch
  obtain ⟨o1, o2, o3, o4, _⟩ := level_refresh_ordered s hm
  rw [a1, a2, a3, a4, a5]
  exact ⟨o1, o2, o3, o4⟩

/-! ## The filter -/

theorem bmod64_fits (x : Int) (h : fits_int64 x) : Int.bmod x (2 ^ 64) = x := by
  unfold fits_int64 at h
  simp only [Int.bmod]
  split_ifs <;> omega

theorem bmod32_fits (x : Int) (h : fits_int32 x) : Int.bmod x (2 ^ 32) = x := by
  unfold fits_int32 at h
  simp only [Int.bmod]
  split_ifs <;> omega

theorem bmod16_fits (x : Int) (h : fits_int16 x) : Int.bmod x (2 ^ 16) = x := by
  unfold fits_int16 at h
  simp only [Int.bmod]
  split_ifs <;> omega

theorem foldl_range_sum (f : Nat → Int) (n : Nat) :
    (List.range n).foldl (fun acc i => acc + f i) 0 = Finset.sum (Finset.range n) f := by
  induction n with
  | zero => rfl
  | succ n ih =>
    rw [List.range_succ, List.foldl_append, ih, Finset.sum_range_succ]
    rfl

theorem coeffs_abs_sum :
    Finset.sum (Finset.range 61) (fun i => |dmr_coeffs_q23.getD i 0|) = 13760557 := by
  decide

theorem tap_bound (c v : Int) (hv : fits_int16 v) : |c * v| ≤ |c| * 32768 := by
  rw [abs_mul]
  apply mul_le_mul_of_nonneg_left _ (abs_nonneg c)
  unfold fits_int16 at hv
  rw [abs_le]
  omega

theorem taps_bound (v : Nat → Int) (hv : ∀ i, i ≤ 60 → fits_int16 (v i)) (n : Nat)
    (hn : n ≤ 61) :
    |Finset.sum (Finset.range n) (fun i => dmr_coeffs_q23.getD i 0 * v i)| ≤
      13760557 * 32768 := by
  calc |Finset.sum (Finset.range n) (fun i => dmr_coeffs_q23.getD i 0 * v i)|
      ≤ Finset.sum (Finset.range n) (fun i => |dmr_coeffs_q23.getD i 0 * v i|) :=
        Finset.abs_sum_le_sum_abs _ _
    _ ≤ Finset.sum (Finset.range n) (fun i => |dmr_coeffs_q23.getD i 0| * 32768) := by
        apply Finset.sum_le_sum
        intro i hi
        exact tap_bound _ _ (hv i (by have := Finset.mem_range.1 hi; omega))
    _ ≤ Finset.sum (Finset.range 61) (fun i => |dmr_coeffs_q23.getD i 0| * 32768) := by
        apply Finset.sum_le_sum_of_subset_of_nonneg
        · exact Finset.range_mono hn
        · intro i _ _
          exact mul_nonneg (abs_nonneg _) (by decide)
    _ = 13760557 * 32768 := by
        rw [← Finset.sum_mul, coeffs_abs_sum]

theorem one_tap_fits (i : Nat) (v : Int) (hv : fits_int16 v) :
    fits_int64 (dmr_coeffs_q23.getD i 0 * v) := by
  have h := tap_bound (dmr_coeffs_q23.getD i 0) v hv
  have hc : |dmr_coeffs_q23.getD i 0| ≤ 13760557 := by
    by_cases hi : i < 61
    · have := Finset.single_le_sum (f := fun i => |dmr_coeffs_q23.getD i 0|)
        (fun j _ => abs_nonneg _) (Finset.mem_range.2 hi)
      rw [coeffs_abs_sum] at this
      exact this
    · rw [List.getD_eq_default _ _ (by simp [dmr_coeffs_q23]; omega)]
      decide
  unfold fits_int64
  rw [abs_le] at h
  constructor <;> nlinarith [abs_nonneg (dmr_coeffs_q23.getD i 0)]

/-- The 64-bit accumulator holds the sum over the integers. -/
theorem acc64_exact (v : Nat → Int) (hv : ∀ i, i ≤ 60 → fits_int16 (v i)) (n : Nat)
    (hn : n ≤ 61) :
    dmr_filter.acc64 v n =
      Finset.sum (Finset.range n) (fun i => dmr_coeffs_q23.getD i 0 * v i) := by
  induction n with
  | zero => rfl
  | succ n ih =>
    have ih1 := ih (by omega)
    unfold dmr_filter.acc64 at ih1 ⊢
    rw [List.range_succ, List.foldl_append, ih1, Finset.sum_range_succ]
    show Int.bmod (_ + Int.bmod (dmr_coeffs_q23.getD n 0 * v n) (2 ^ 64)) (2 ^ 64) = _
    rw [bmod64_fits _ (one_tap_fits n (v n) (hv n (by omega)))]
    apply bmod64_fits
    have hb := taps_bound v hv (n + 1) hn
    rw [Finset.sum_range_succ, abs_le] at hb
    unfold fits_int64
    omega

theorem dmr_filter_line (s : State) (sample : Int) :
    (∀ i, i < 60 → (dmr_filter s sample).1.dmr_v i = s.dmr_v (i + 1)) ∧
    (dmr_filter s sample).1.dmr_v 60 = sample ∧
    (dmr_filter s sample).1 = { s with dmr_v := (dmr_filter s sample).1.dmr_v } := by
  unfold dmr_filter
  dsimp only
  unfold kDmrNZeros
  refine ⟨fun i hi => ?_, ?_, rfl⟩
  · rw [Function.update_noteq (by omega), if_pos hi]
  · rw [Function.update_same]

theorem dmr_filter_value (s : State) (sample : Int) :
    (dmr_filter s sample).2 =
      saturate_to_i16 (Int.bmod
        (Finset.sum (Finset.range 61)
          (fun i => dmr_coeffs_q23.getD i 0 * (dmr_filter s sample).1.dmr_v i) / 2 ^ 23)
        (2 ^ 32)) := by
  rw [← foldl_range_sum]
  rfl

theorem saturate_clamps (y : Int) :
    saturate_to_i16 y = max (-32768) (min 32767 y) ∧ fits_int16 (saturate_to_i16 y) := by
  unfold saturate_to_i16 INT16_MAX INT16_MIN
  by_cases h1 : y > 32767
  · rw [if_pos h1]
    unfold fits_int16
    omega
  · rw [if_neg h1]
    by_cases h2 : y < -32768
    · rw [if_pos h2]
      unfold fits_int16
      omega
    · rw [if_neg h2, bmod16_fits y (by unfold fits_int16; omega)]
      unfold fits_int16
      omega

/-- C23. For a delay line and a sample of `int16_t` values, `dmr_filter`
moves every entry of the 61-entry delay line one place down, dropping entry 0
and putting the sample in entry 60, changes nothing else, and returns the
floor of `(sum over i = 0..60 of dmr_coeffs_q23[i] * v[i]) / 2^23`, computed
over the integers on the new delay line `v`, clamped to `[-32768, 32767]`;
every product and every partial sum of the accumulation fits 64 bits, so the
`int64_t` accumulator holds the sum, and the shifted sum fits 32 bits.  The
quotient `x / 2^23` is the floor: `2^23 * (x / 2^23) <= x < 2^23 * (x / 2^23 + 1)`. -/
theorem dmr_filter_exact (s : State) (sample : Int)
    (hv : ∀ i, i ≤ 60 → fits_int16 (s.dmr_v i)) (hs : fits_int16 sample) :
    (∀ i, i < 60 → (dmr_filter s sample).1.dmr_v i = s.dmr_v (i + 1)) ∧
    (dmr_filter s sample).1.dmr_v 60 = sample ∧
    (dmr_filter s sample).1 = { s with dmr_v := (dmr_filter s sample).1.dmr_v } ∧
    (dmr_filter s sample).2 =
      max (-32768) (min 32767
        (Finset.sum (Finset.range 61)
          (fun i => dmr_coeffs_q23.getD i 0 * (dmr_filter s sample).1.dmr_v i) / 2 ^ 23)) ∧
    (∀ i, fits_int64 (dmr_coeffs_q23.getD i 0 * (dmr_filter s sample).1.dmr_v i)) ∧
    (∀ n, n ≤ 61 →
      dmr_filter.acc64 (dmr_filter s sample).1.dmr_v n =
        Finset.sum (Finset.range n)
          (fun i => dmr_coeffs_q23.getD i 0 * (dmr_filter s sample).1.dmr_v i) ∧
      fits_int64 (dmr_filter.acc64 (dmr_filter s sample).1.dmr_v n)) ∧
    fits_int32 (Finset.sum (Finset.range 61)
      (fun i => dmr_coeffs_q23.getD i 0 * (dmr_filter s sample).1.dmr_v i) / 2 ^ 23) ∧
    fits_int16 (dmr_filter s sample).2 ∧
    (∀ i, i ≤ 60 → fits_int16 ((dmr_filter s sample).1.dmr_v i)) ∧
    ∀ x : Int, 2 ^ 23 * (x / 2 ^ 23) ≤ x ∧ x < 2 ^ 23 * (x / 2 ^ 23 + 1) := by
  obtain ⟨l1, l2, l3⟩ := dmr_filter_line s sample
  have hval := dmr_filter_value s sample
  have hv1 : ∀ i, i ≤ 60 → fits_int16 ((dmr_filter s sample).1.dmr_v i) := by
    intro i hi
    by_cases h60 : i < 60
    · rw [l1 i h60]
      exact hv (i + 1) (by omega)
    · have e : i = 60 := by omega
      rw [e, l2]
      exact hs
  generalize (dmr_filter s sample).1.dmr_v = v at *
  have hb := taps_bound v hv1 61 (le_refl _)
  rw [abs_le] at hb
  have h32 : fits_int32 (Finset.sum (Finset.range 61)
      (fun i => dmr_coeffs_q23.getD i 0 * v i) / 2 ^ 23) := by
    unfold fits_int32
    omega
  rw [bmod32_fits _ h32] at hval
  refine ⟨l1, l2, l3, ?_, ?_, ?_, h32, ?_, hv1, fun x => by omega⟩
  · rw [hval]
    exact (saturate_clamps _).1
  · intro i
    by_cases hi : i ≤ 60
    · exact one_tap_fits i (v i) (hv1 i hi)
    · rw [List.getD_eq_default _ _ (by simp [dmr_coeffs_q23]; omega)]
      unfold fits_int64
      simp
  · intro n hn
    have e := acc64_exact v hv1 n hn
    refine ⟨e, ?_⟩
    rw [e]
    have hbn := taps_bound v hv1 n hn
    rw [abs_le] at hbn
    unfold fits_int64
    omega
  · rw [hval]
    exact (saturate_clamps _).2

/-! ## The samples of a symbol, one by one -/

theorem dmr_filter_frame (s : State) (x : Int) :
    (dmr_filter s x).1 = { s with dmr_v := (dmr_filter s x).1.dmr_v } :=
  (dmr_filter_line s x).2.2

/-- What one sample does to the jitter estimate: it is written, with the loop
counter, when none is held and the sample meets the crossing test. -/
theorem sample_jitter_eq (s : State) (loop_i x : Int) :
    (getSymbolFromBuffer.sample s loop_i x).1.jitter_ =
      if s.jitter_ < 0 ∧
          getSymbolFromBuffer.crossing s (getSymbolFromBuffer.sample s loop_i x).2 = true then
        loop_i
      else s.jitter_ := by
  unfold getSymbolFromBuffer.sample getSymbolFromBuffer.crossing
  dsimp only
  by_cases hf : s.dmr_filter_enabled_ = true
  · rw [if_pos hf]
    have hfr := dmr_filter_frame
      { s with absolute_sample_index_ := (s.absolute_sample_index_ + 1) % 2 ^ 64 } x
    generalize dmr_filter
      { s with absolute_sample_index_ := (s.absolute_sample_index_ + 1) % 2 ^ 64 } x = fl at hfr ⊢
    obtain ⟨t, f⟩ := fl
    dsimp only at hfr ⊢
    rw [hfr]
    dsimp only
    split_ifs <;> first | rfl | (exfalso; simp_all)
  · rw [if_neg hf]
    dsimp only
    split_ifs <;> first | rfl | (exfalso; simp_all)

theorem slicer_loop_step (loop_i c : Int) (s1 : State) (rest : List Int) (x : Int) (s : State)
    (offset : Nat) (sum_out count_out symbol_out : Int) (hlt : loop_i < 10)
    (ht : getSymbolFromBuffer.timing s loop_i = (c, s1)) :
    getSymbolFromBuffer.loop 10 (x :: rest) loop_i s offset sum_out count_out symbol_out =
      getSymbolFromBuffer.loop 10 rest (c + 1) (getSymbolFromBuffer.sample s1 c x).1 (offset + 1)
        (if c = (getSymbolFromBuffer.sample s1 c x).1.symbol_center_ - 1 ∨
            c = (getSymbolFromBuffer.sample s1 c x).1.symbol_center_ + 1 then
          (sum_out + (getSymbolFromBuffer.sample s1 c x).2, count_out + 1)
          else (sum_out, count_out)).1
        (if c = (getSymbolFromBuffer.sample s1 c x).1.symbol_center_ - 1 ∨
            c = (getSymbolFromBuffer.sample s1 c x).1.symbol_center_ + 1 then
          (sum_out + (getSymbolFromBuffer.sample s1 c x).2, count_out + 1)
          else (sum_out, count_out)).2
        symbol_out := by
  rw [getSymbolFromBuffer.loop, if_pos hlt, ht]

theorem slicer_loop_stuck (loop_i : Int) (s : State) (offset : Nat)
    (sum_out count_out symbol_out : Int) (hlt : loop_i < 10) :
    getSymbolFromBuffer.loop 10 [] loop_i s offset sum_out count_out symbol_out =
      ⟨false, (getSymbolFromBuffer.timing s loop_i).2, offset, sum_out, count_out, symbol_out⟩ := by
  rw [getSymbolFromBuffer.loop, if_pos hlt]

theorem slicer_loop_done (rest : List Int) (loop_i : Int) (s : State) (offset : Nat)
    (sum_out count_out symbol_out : Int) (hge : ¬ loop_i < 10) :
    getSymbolFromBuffer.loop 10 rest loop_i s offset sum_out count_out symbol_out =
      ⟨true, { s with symbol_counter_ := (s.symbol_counter_ + 1) % 2 ^ 64 }, offset, sum_out,
        count_out, Int.tdiv sum_out (if count_out > 0 then count_out else 1)⟩ := by
  cases rest <;> rw [getSymbolFromBuffer.loop, if_neg hge]

theorem steps_step (loop_i c : Int) (s1 : State) (rest : List Int) (x : Int) (s : State)
    (hlt : loop_i < 10) (ht : getSymbolFromBuffer.timing s loop_i = (c, s1)) :
    getSymbolFromBuffer.steps 10 (x :: rest) loop_i s =
      (c, getSymbolFromBuffer.crossing s1 (getSymbolFromBuffer.sample s1 c x).2,
          (getSymbolFromBuffer.sample s1 c x).2) ::
        getSymbolFromBuffer.steps 10 rest (c + 1) (getSymbolFromBuffer.sample s1 c x).1 := by
  rw [getSymbolFromBuffer.steps, if_pos hlt, ht]

theorem steps_stuck (loop_i : Int) (s : State) :
    getSymbolFromBuffer.steps 10 [] loop_i s = [] := by
  rw [getSymbolFromBuffer.steps]
  split_ifs <;> rfl

theorem steps_done (rest : List Int) (loop_i : Int) (s : State) (hge : ¬ loop_i < 10) :
    getSymbolFromBuffer.steps 10 rest loop_i s = [] := by
  cases rest <;> rw [getSymbolFromBuffer.steps, if_neg hge]

theorem first_crossing_cons (i : Int) (c : Bool) (f : Int) (tr : List (Int × Bool × Int)) :
    first_crossing ((i, c, f) :: tr) =
      if c = true ∧ 0 ≤ i then some i else first_crossing tr := by
  unfold first_crossing
  rw [List.find?_cons]
  by_cases h : c = true ∧ 0 ≤ i
  · rw [if_pos h]
    have : (c && decide (0 ≤ i)) = true := by simp [h.1, h.2]
    simp only [this]
    rfl
  · rw [if_neg h]
    have : (c && decide (0 ≤ i)) = false := by
      rcases Bool.eq_false_or_eq_true c with hc | hc
      · have hi : ¬ 0 ≤ i := fun hi => h ⟨hc, hi⟩
        simp [hc, hi]
      · simp [hc]
    simp only [this]

theorem accumulated_cons (i : Int) (c : Bool) (f : Int) (tr : List (Int × Bool × Int))
    (center : Int) :
    accumulated ((i, c, f) :: tr) center =
      if i = center - 1 ∨ i = center + 1 then f :: accumulated tr center
      else accumulated tr center := by
  unfold accumulated
  by_cases h : i = center - 1 ∨ i = center + 1
  · rw [if_pos h, List.filter_cons_of_pos (by simpa using h)]
    rfl
  · rw [if_neg h, List.filter_cons_of_neg (by simpa using h)]

theorem jitter_combine (j0 c f final j1 : Int) (cr : Bool) (tr : List (Int × Bool × Int))
    (hc : 0 ≤ c)
    (hj1 : j1 = if j0 < 0 ∧ cr = true then c else j0)
    (hfinal : final = if 0 ≤ j1 then j1 else (first_crossing tr).getD j1) :
    final = if 0 ≤ j0 then j0 else (first_crossing ((c, cr, f) :: tr)).getD j0 := by
  rw [first_crossing_cons]
  by_cases h0 : 0 ≤ j0
  · have e : j1 = j0 := by
      rw [hj1, if_neg (fun hx => absurd hx.1 (by omega))]
    rw [e, if_pos h0] at hfinal
    rw [if_pos h0]
    exact hfinal
  · rw [if_neg h0]
    by_cases hcr : cr = true
    · have e : j1 = c := by
        rw [hj1, if_pos ⟨by omega, hcr⟩]
      rw [e, if_pos hc] at hfinal
      rw [if_pos ⟨hcr, hc⟩]
      exact hfinal
    · have e : j1 = j0 := by
        rw [hj1, if_neg (fun hx => hcr hx.2)]
      rw [e, if_neg h0] at hfinal
      rw [if_neg (fun hx => hcr hx.1)]
      exact hfinal

/-- From a loop counter of at least 1: an estimate that is held stays, and
otherwise the first sample that meets the crossing test writes it. -/
theorem slicer_tail_jitter (rest : List Int) :
    ∀ (loop_i : Int) (s : State) (offset : Nat) (sum_out count_out symbol_out : Int),
      1 ≤ loop_i →
      (getSymbolFromBuffer.loop 10 rest loop_i s offset sum_out count_out symbol_out).s.jitter_ =
        if 0 ≤ s.jitter_ then s.jitter_
        else (first_crossing (getSymbolFromBuffer.steps 10 rest loop_i s)).getD s.jitter_ := by
  induction rest with
  | nil =>
    intro loop_i s offset sum_out count_out symbol_out h1
    rw [steps_stuck]
    by_cases hlt : loop_i < 10
    · rw [slicer_loop_stuck loop_i s offset sum_out count_out symbol_out hlt,
        timing_nonzero s loop_i (by omega)]
      show s.jitter_ = _
      split_ifs <;> rfl
    · rw [slicer_loop_done [] loop_i s offset sum_out count_out symbol_out hlt]
      show s.jitter_ = _
      split_ifs <;> rfl
  | cons x rest ih =>
    intro loop_i s offset sum_out count_out symbol_out h1
    by_cases hlt : loop_i < 10
    · rw [slicer_loop_step loop_i loop_i s rest x s offset sum_out count_out symbol_out hlt
          (timing_nonzero s loop_i (by omega)),
        steps_step loop_i loop_i s rest x s hlt (timing_nonzero s loop_i (by omega))]
      exact jitter_combine s.jitter_ loop_i _ _ _ _ _ (by omega)
        (sample_jitter_eq s loop_i x) (ih _ _ _ _ _ _ (by omega))
    · rw [slicer_loop_done _ loop_i s offset sum_out count_out symbol_out hlt,
        steps_done _ loop_i s hlt]
      show s.jitter_ = _
      split_ifs <;> rfl

theorem sums_combine (c f sc sum_out count_out : Int) (r : SymbolResult)
    (tr : List (Int × Bool × Int)) (cr : Bool)
    (h : r.sum_out =
        (if c = sc - 1 ∨ c = sc + 1 then (sum_out + f, count_out + 1)
          else (sum_out, count_out)).1 + (accumulated tr sc).sum ∧
      r.count_out =
        (if c = sc - 1 ∨ c = sc + 1 then (sum_out + f, count_out + 1)
          else (sum_out, count_out)).2 + ((accumulated tr sc).length : Int)) :
    r.sum_out = sum_out + (accumulated ((c, cr, f) :: tr) sc).sum ∧
    r.count_out = count_out + ((accumulated ((c, cr, f) :: tr) sc).length : Int) := by
  rw [accumulated_cons]
  by_cases hc : c = sc - 1 ∨ c = sc + 1
  · rw [if_pos hc] at h ⊢
    dsimp only at h
    rw [h.1, h.2, List.sum_cons, List.length_cons]
    push_cast
    constructor <;> ring
  · rw [if_neg hc] at h ⊢
    exact h

/-- From a loop counter of at least 1: the sum and the count grow by the
samples at the counters `symbol_center_ - 1` and `symbol_center_ + 1`. -/
theorem slicer_tail_sums (rest : List Int) :
    ∀ (loop_i : Int) (s : State) (offset : Nat) (sum_out count_out symbol_out : Int),
      1 ≤ loop_i →
      (getSymbolFromBuffer.loop 10 rest loop_i s offset sum_out count_out symbol_out).sum_out =
        sum_out +
          (accumulated (getSymbolFromBuffer.steps 10 rest loop_i s) s.symbol_center_).sum ∧
      (getSymbolFromBuffer.loop 10 rest loop_i s offset sum_out count_out symbol_out).count_out =
        count_out +
          ((accumulated (getSymbolFromBuffer.steps 10 rest loop_i s) s.symbol_center_).length :
            Int) := by
  induction rest with
  | nil =>
    intro loop_i s offset sum_out count_out symbol_out h1
    rw [steps_stuck]
    by_cases hlt : loop_i < 10
    · rw [slicer_loop_stuck loop_i s offset sum_out count_out symbol_out hlt]
      simp [accumulated]
    · rw [slicer_loop_done [] loop_i s offset sum_out count_out symbol_out hlt]
      simp [accumulated]
  | cons x rest ih =>
    intro loop_i s offset sum_out count_out symbol_out h1
    by_cases hlt : loop_i < 10
    · rw [slicer_loop_step loop_i loop_i s rest x s offset sum_out count_out symbol_out hlt
          (timing_nonzero s loop_i (by omega)),
        steps_step loop_i loop_i s rest x s hlt (timing_nonzero s loop_i (by omega))]
      have hsc := sample_symbol_center s loop_i x
      have hi := ih (loop_i + 1) (getSymbolFromBuffer.sample s loop_i x).1 (offset + 1)
        (if loop_i = (getSymbolFromBuffer.sample s loop_i x).1.symbol_center_ - 1 ∨
            loop_i = (getSymbolFromBuffer.sample s loop_i x).1.symbol_center_ + 1 then
          (sum_out + (getSymbolFromBuffer.sample s loop_i x).2, count_out + 1)
          else (sum_out, count_out)).1
        (if loop_i = (getSymbolFromBuffer.sample s loop_i x).1.symbol_center_ - 1 ∨
            loop_i = (getSymbolFromBuffer.sample s loop_i x).1.symbol_center_ + 1 then
          (sum_out + (getSymbolFromBuffer.sample s loop_i x).2, count_out + 1)
          else (sum_out, count_out)).2
        symbol_out (by omega)
      rw [hsc] at hi ⊢
      exact sums_combine loop_i _ s.symbol_center_ sum_out count_out _ _ _ hi
    · rw [slicer_loop_done _ loop_i s offset sum_out count_out symbol_out hlt,
        steps_done _ loop_i s hlt]
      simp [accumulated]

/-- From a loop counter of at least 1 with the samples at hand: the loop
counters at which the samples are processed. -/
theorem slicer_tail_indices :
    ∀ (n : Nat) (rest : List Int) (loop_i : Int) (s : State),
      loop_i + (n : Int) = 10 → 1 ≤ loop_i → n ≤ rest.length →
      (getSymbolFromBuffer.steps 10 rest loop_i s).map (fun e => e.1) =
        (List.range n).map (fun (k : Nat) => loop_i + (k : Int)) := by
  intro n
  induction n with
  | zero =>
    intro rest loop_i s h10 h1 _
    rw [steps_done rest loop_i s (by omega)]
    rfl
  | succ n ih =>
    intro rest loop_i s h10 h1 hlen
    cases rest with
    | nil => exact absurd hlen (by simp)
    | cons x rest =>
      rw [steps_step loop_i loop_i s rest x s (by omega) (timing_nonzero s loop_i (by omega)),
        List.map_cons, ih rest (loop_i + 1) _ (by omega) (by omega) (by simpa using hlen),
        List.range_succ_eq_map, List.map_cons, List.map_map]
      congr 1
      · simp
      · apply List.map_congr_left
        intro k _
        simp only [Function.comp]
        push_cast
        ring

/-- A successful run ends with the truncated quotient of the sum by the
count, or by 1 when the count is 0. -/
theorem slicer_loop_quotient (rest : List Int) :
    ∀ (loop_i : Int) (s : State) (offset : Nat) (sum_out count_out symbol_out : Int),
      (getSymbolFromBuffer.loop 10 rest loop_i s offset sum_out count_out symbol_out).ok = true →
      (getSymbolFromBuffer.loop 10 rest loop_i s offset sum_out count_out symbol_out).symbol_out =
        Int.tdiv
          (getSymbolFromBuffer.loop 10 rest loop_i s offset sum_out count_out symbol_out).sum_out
          (if (getSymbolFromBuffer.loop 10 rest loop_i s offset sum_out count_out
              symbol_out).count_out > 0 then
            (getSymbolFromBuffer.loop 10 rest loop_i s offset sum_out count_out
              symbol_out).count_out
          else 1) := by
  induction rest with
  | nil =>
    intro loop_i s offset sum_out count_out symbol_out hok
    by_cases hlt : loop_i < 10
    · rw [slicer_loop_stuck loop_i s offset sum_out count_out symbol_out hlt] at hok
      exact absurd hok (by simp)
    · rw [slicer_loop_done [] loop_i s offset sum_out count_out symbol_out hlt]
  | cons x rest ih =>
    intro loop_i s offset sum_out count_out symbol_out hok
    by_cases hlt : loop_i < 10
    · rw [slicer_loop_step loop_i _ _ rest x s offset sum_out count_out symbol_out hlt rfl]
        at hok ⊢
      exact ih _ _ _ _ _ _ hok
    · rw [slicer_loop_done _ loop_i s offset sum_out count_out symbol_out hlt]

/-! ## A whole symbol -/

theorem slicer_head_jitter (rest : List Int) (s : State) (offset : Nat)
    (sum_out count_out symbol_out c : Int) (s1 : State)
    (ht : getSymbolFromBuffer.timing s 0 = (c, s1)) (hc : 0 ≤ c) :
    (getSymbolFromBuffer.loop 10 rest 0 s offset sum_out count_out symbol_out).s.jitter_ =
      if 0 ≤ s1.jitter_ then s1.jitter_
      else (first_crossing (getSymbolFromBuffer.steps 10 rest 0 s)).getD s1.jitter_ := by
  cases rest with
  | nil =>
    rw [slicer_loop_stuck 0 s offset sum_out count_out symbol_out (by decide), steps_stuck, ht]
    show s1.jitter_ = _
    split_ifs <;> rfl
  | cons x rest =>
    rw [slicer_loop_step 0 c s1 rest x s offset sum_out count_out symbol_out (by decide) ht,
      steps_step 0 c s1 rest x s (by decide) ht]
    exact jitter_combine s1.jitter_ c _ _ _ _ _ hc (sample_jitter_eq s1 c x)
      (slicer_tail_jitter rest _ _ _ _ _ _ (by omega))

theorem first_crossing_skip (f : Int) (cr : Bool) (tr : List (Int × Bool × Int)) :
    first_crossing ((-1, cr, f) :: tr) = first_crossing tr := by
  rw [first_crossing_cons, if_neg (fun hx => absurd hx.2 (by decide))]

/-- The jitter estimate after the loop, with `symbol_center_ = 4`: the
estimate held when the first sample is processed if there is one, and
otherwise the loop counter of the first sample at a counter of 0 or more that
meets the crossing test. -/
theorem slicer_loop_jitter (rest : List Int) (s : State) (offset : Nat)
    (sum_out count_out symbol_out : Int) (h4 : s.symbol_center_ = 4) :
    (getSymbolFromBuffer.loop 10 rest 0 s offset sum_out count_out symbol_out).s.jitter_ =
      if 0 ≤ (getSymbolFromBuffer.timing s 0).2.jitter_ then
        (getSymbolFromBuffer.timing s 0).2.jitter_
      else (first_crossing (getSymbolFromBuffer.steps 10 rest 0 s)).getD
        (getSymbolFromBuffer.timing s 0).2.jitter_ := by
  rcases timing_zero s with ht | ht | ht | ⟨ht, _⟩
  · rw [slicer_head_jitter rest s offset sum_out count_out symbol_out 0 s ht (by decide), ht]
  · rw [slicer_head_jitter rest s offset sum_out count_out symbol_out 0 _ ht (by decide), ht]
  · rw [slicer_head_jitter rest s offset sum_out count_out symbol_out 1 _ ht (by decide), ht]
  · rw [ht]
    show _ = (first_crossing (getSymbolFromBuffer.steps 10 rest 0 s)).getD (-1)
    cases rest with
    | nil =>
      rw [slicer_loop_stuck 0 s offset sum_out count_out symbol_out (by decide), steps_stuck, ht]
      rfl
    | cons x rest =>
      rw [slicer_loop_step 0 (-1) _ rest x s offset sum_out count_out symbol_out (by decide) ht,
        steps_step 0 (-1) _ rest x s (by decide) ht, first_crossing_skip]
      have hj := sample_jitter { s with jitter_ := -1 } x rfl
      have hc : (getSymbolFromBuffer.sample { s with jitter_ := -1 } (-1) x).1.symbol_center_ =
          4 := (sample_symbol_center _ _ _).trans h4
      show (getSymbolFromBuffer.loop 10 rest 0 _ _ _ _ _).s.jitter_ =
        (first_crossing (getSymbolFromBuffer.steps 10 rest 0 _)).getD (-1)
      rcases timing_zero_settled _ hc hj with ht2 | ht2
      · rw [slicer_head_jitter rest _ _ _ _ _ 0 _ ht2 (by decide), hj]
        rfl
      · rw [slicer_head_jitter rest _ _ _ _ _ 0 _ ht2 (by decide)]
        rfl

theorem timing_symbol_center (s : State) (loop_i : Int) :
    (getSymbolFromBuffer.timing s loop_i).2.symbol_center_ = s.symbol_center_ := by
  have h := timing_frame s loop_i
  unfold SlicerFrame at h
  rw [h]

theorem slicer_head_sums (rest : List Int) (s : State) (offset : Nat)
    (sum_out count_out symbol_out c : Int) (s1 : State)
    (ht : getSymbolFromBuffer.timing s 0 = (c, s1)) (hc : 0 ≤ c) :
    (getSymbolFromBuffer.loop 10 rest 0 s offset sum_out count_out symbol_out).sum_out =
      sum_out + (accumulated (getSymbolFromBuffer.steps 10 rest 0 s) s.symbol_center_).sum ∧
    (getSymbolFromBuffer.loop 10 rest 0 s offset sum_out count_out symbol_out).count_out =
      count_out +
        ((accumulated (getSymbolFromBuffer.steps 10 rest 0 s) s.symbol_center_).length : Int) := by
  have hs1 : s1.symbol_center_ = s.symbol_center_ := by
    have := timing_symbol_center s 0
    rw [ht] at this
    exact this
  cases rest with
  | nil =>
    rw [slicer_loop_stuck 0 s offset sum_out count_out symbol_out (by decide), steps_stuck]
    simp [accumulated]
  | cons x rest =>
    rw [slicer_loop_step 0 c s1 rest x s offset sum_out count_out symbol_out (by decide) ht,
      steps_step 0 c s1 rest x s (by decide) ht]
    have hsc : (getSymbolFromBuffer.sample s1 c x).1.symbol_center_ = s.symbol_center_ :=
      (sample_symbol_center s1 c x).trans hs1
    have hi := slicer_tail_sums rest (c + 1) (getSymbolFromBuffer.sample s1 c x).1 (offset + 1)
      (if c = (getSymbolFromBuffer.sample s1 c x).1.symbol_center_ - 1 ∨
          c = (getSymbolFromBuffer.sample s1 c x).1.symbol_center_ + 1 then
        (sum_out + (getSymbolFromBuffer.sample s1 c x).2, count_out + 1)
        else (sum_out, count_out)).1
      (if c = (getSymbolFromBuffer.sample s1 c x).1.symbol_center_ - 1 ∨
          c = (getSymbolFromBuffer.sample s1 c x).1.symbol_center_ + 1 then
        (sum_out + (getSymbolFromBuffer.sample s1 c x).2, count_out + 1)
        else (sum_out, count_out)).2
      symbol_out (by omega)
    rw [hsc] at hi ⊢
    exact sums_combine c _ s.symbol_center_ sum_out count_out _ _ _ hi

theorem accumulated_skip (f : Int) (cr : Bool) (tr : List (Int × Bool × Int)) :
    accumulated ((-1, cr, f) :: tr) 4 = accumulated tr 4 := by
  rw [accumulated_cons, if_neg (by decide)]

/-- The sum and the count after the loop, with `symbol_center_ = 4`. -/
theorem slicer_loop_sums (rest : List Int) (s : State) (offset : Nat)
    (sum_out count_out symbol_out : Int) (h4 : s.symbol_center_ = 4) :
    (getSymbolFromBuffer.loop 10 rest 0 s offset sum_out count_out symbol_out).sum_out =
      sum_out + (accumulated (getSymbolFromBuffer.steps 10 rest 0 s) 4).sum ∧
    (getSymbolFromBuffer.loop 10 rest 0 s offset sum_out count_out symbol_out).count_out =
      count_out + ((accumulated (getSymbolFromBuffer.steps 10 rest 0 s) 4).length : Int) := by
  rcases timing_zero s with ht | ht | ht | ⟨ht, _⟩
  · have h := slicer_head_sums rest s offset sum_out count_out symbol_out 0 s ht (by decide)
    rw [h4] at h
    exact h
  · have h := slicer_head_sums rest s offset sum_out count_out symbol_out 0 _ ht (by decide)
    rw [h4] at h
    exact h
  · have h := slicer_head_sums rest s offset sum_out count_out symbol_out 1 _ ht (by decide)
    rw [h4] at h
    exact h
  · cases rest with
    | nil =>
      rw [slicer_loop_stuck 0 s offset sum_out count_out symbol_out (by decide), steps_stuck]
      simp [accumulated]
    | cons x rest =>
      rw [slicer_loop_step 0 (-1) _ rest x s offset sum_out count_out symbol_out (by decide) ht,
        steps_step 0 (-1) _ rest x s (by decide) ht, accumulated_skip]
      have hj := sample_jitter { s with jitter_ := -1 } x rfl
      have hc : (getSymbolFromBuffer.sample { s with jitter_ := -1 } (-1) x).1.symbol_center_ =
          4 := (sample_symbol_center _ _ _).trans h4
      rw [hc, if_neg (by decide)]
      show (getSymbolFromBuffer.loop 10 rest 0 _ _ _ _ _).sum_out = _ ∧
        (getSymbolFromBuffer.loop 10 rest 0 _ _ _ _ _).count_out = _
      rcases timing_zero_settled _ hc hj with ht2 | ht2
      · have h := slicer_head_sums rest _ (offset + 1) sum_out count_out symbol_out 0 _ ht2
          (by decide)
        rw [hc] at h
        exact h
      · have h := slicer_head_sums rest _ (offset + 1) sum_out count_out symbol_out 0 _ ht2
          (by decide)
        rw [hc] at h
        exact h

theorem slicer_head_indices (rest : List Int) (s : State) (offset : Nat)
    (sum_out count_out symbol_out c : Int) (s1 : State) (n : Nat)
    (ht : getSymbolFromBuffer.timing s 0 = (c, s1)) (hc : 0 ≤ c) (hn : c + 1 + (n : Int) = 10)
    (hok : (getSymbolFromBuffer.loop 10 rest 0 s offset sum_out count_out symbol_out).ok = true) :
    (getSymbolFromBuffer.steps 10 rest 0 s).map (fun e => e.1) =
      c :: (List.range n).map (fun (k : Nat) => c + 1 + (k : Int)) := by
  cases rest with
  | nil =>
    rw [slicer_loop_stuck 0 s offset sum_out count_out symbol_out (by decide)] at hok
    exact absurd hok (by simp)
  | cons x rest =>
    rw [slicer_loop_step 0 c s1 rest x s offset sum_out count_out symbol_out (by decide) ht]
      at hok
    rw [steps_step 0 c s1 rest x s (by decide) ht, List.map_cons,
      slicer_tail_indices n rest (c + 1) _ hn (by omega)
        (slicer_loop_tail_ok n rest (c + 1) _ _ _ _ _ hn (by omega) hok)]

/-- The loop counters of a successful run, with `symbol_center_ = 4`: 0 to 9,
or 1 to 9 after an advance, or -1 and then 0 to 9 after a retard. -/
theorem slicer_loop_indices (rest : List Int) (s : State) (offset : Nat)
    (sum_out count_out symbol_out : Int) (h4 : s.symbol_center_ = 4)
    (hok : (getSymbolFromBuffer.loop 10 rest 0 s offset sum_out count_out symbol_out).ok = true) :
    ((getSymbolFromBuffer.timing s 0).1 = 0 ∧
      (getSymbolFromBuffer.steps 10 rest 0 s).map (fun e => e.1) =
        [0, 1, 2, 3, 4, 5, 6, 7, 8, 9]) ∨
    ((getSymbolFromBuffer.timing s 0).1 = 1 ∧
      (getSymbolFromBuffer.steps 10 rest 0 s).map (fun e => e.1) =
        [1, 2, 3, 4, 5, 6, 7, 8, 9]) ∨
    ((getSymbolFromBuffer.timing s 0).1 = -1 ∧
      (getSymbolFromBuffer.steps 10 rest 0 s).map (fun e => e.1) =
        [-1, 0, 1, 2, 3, 4, 5, 6, 7, 8, 9]) := by
  rcases timing_zero s with ht | ht | ht | ⟨ht, _⟩
  · left
    rw [slicer_head_indices rest s offset sum_out count_out symbol_out 0 s 9 ht (by decide)
      (by decide) hok, ht]
    exact ⟨rfl, by decide⟩
  · left
    rw [slicer_head_indices rest s offset sum_out count_out symbol_out 0 _ 9 ht (by decide)
      (by decide) hok, ht]
    exact ⟨rfl, by decide⟩
  · right; left
    rw [slicer_head_indices rest s offset sum_out count_out symbol_out 1 _ 8 ht (by decide)
      (by decide) hok, ht]
    exact ⟨rfl, by decide⟩
  · right; right
    rw [ht]
    refine ⟨rfl, ?_⟩
    cases rest with
    | nil =>
      rw [slicer_loop_stuck 0 s offset sum_out count_out symbol_out (by decide)] at hok
      exact absurd hok (by simp)
    | cons x rest =>
      rw [slicer_loop_step 0 (-1) _ rest x s offset sum_out count_out symbol_out (by decide) ht]
        at hok
      rw [steps_step 0 (-1) _ rest x s (by decide) ht, List.map_cons]
      have hj := sample_jitter { s with jitter_ := -1 } x rfl
      have hc : (getSymbolFromBuffer.sample { s with jitter_ := -1 } (-1) x).1.symbol_center_ =
          4 := (sample_symbol_center _ _ _).trans h4
      show (-1 : Int) :: (getSymbolFromBuffer.steps 10 rest 0 _).map (fun e => e.1) = _
      have hok2 : (getSymbolFromBuffer.loop 10 rest 0
          (getSymbolFromBuffer.sample { s with jitter_ := -1 } (-1) x).1 (offset + 1)
          (if (-1 : Int) =
                (getSymbolFromBuffer.sample { s with jitter_ := -1 } (-1) x).1.symbol_center_ - 1 ∨
              (-1 : Int) =
                (getSymbolFromBuffer.sample { s with jitter_ := -1 } (-1) x).1.symbol_center_ + 1
            then (sum_out + (getSymbolFromBuffer.sample { s with jitter_ := -1 } (-1) x).2,
              count_out + 1)
            else (sum_out, count_out)).1
          (if (-1 : Int) =
                (getSymbolFromBuffer.sample { s with jitter_ := -1 } (-1) x).1.symbol_center_ - 1 ∨
              (-1 : Int) =
                (getSymbolFromBuffer.sample { s with jitter_ := -1 } (-1) x).1.symbol_center_ + 1
            then (sum_out + (getSymbolFromBuffer.sample { s with jitter_ := -1 } (-1) x).2,
              count_out + 1)
            else (sum_out, count_out)).2
          symbol_out).ok = true := hok
      rcases timing_zero_settled _ hc hj with ht2 | ht2
      · rw [slicer_head_indices rest _ _ _ _ _ 0 _ 9 ht2 (by decide) (by decide) hok2]
        decide
      · rw [slicer_head_indices rest _ _ _ _ _ 0 _ 9 ht2 (by decide) (by decide) hok2]
        decide

/-! ## The symbol value and the jitter estimate -/

theorem accumulated_indices (tr : List (Int × Bool × Int)) (center : Int) :
    (tr.filter (fun e => decide (e.1 = center - 1 ∨ e.1 = center + 1))).map (fun e => e.1) =
      (tr.map (fun e => e.1)).filter (fun i => decide (i = center - 1 ∨ i = center + 1)) := by
  rw [List.filter_map]
  rfl

theorem accumulated_length (tr : List (Int × Bool × Int)) (center : Int) :
    (accumulated tr center).length =
      ((tr.map (fun e => e.1)).filter
        (fun i => decide (i = center - 1 ∨ i = center + 1))).length := by
  rw [← accumulated_indices, List.length_map]
  unfold accumulated
  rw [List.length_map]

/-- C21. With `symbol_center_ = 4`, in every successful `getSymbolFromBuffer`,
whichever timing correction was applied: of the samples processed, exactly
two are accumulated, the one processed at the loop counter
`symbol_center_ - 1` and the one at `symbol_center_ + 1`; `sum_out` is their
sum, `count_out` is 2, so that the divisor is `count_out` and not the guard
value 1, and `symbol_out` is the sum divided by 2 with truncation toward
zero. -/
theorem two_samples_per_symbol (s : State) (samples : List Int) (offset : Nat)
    (sum_in count_in symbol_in : Int) (h4 : s.symbol_center_ = 4)
    (hok : (getSymbolFromBuffer s samples offset sum_in count_in symbol_in).ok = true) :
    ((getSymbolFromBuffer.steps 10 (samples.drop offset) 0 s).filter
        (fun e => decide (e.1 = s.symbol_center_ - 1 ∨ e.1 = s.symbol_center_ + 1))).map
      (fun e => e.1) = [s.symbol_center_ - 1, s.symbol_center_ + 1] ∧
    (∃ a b,
      accumulated (getSymbolFromBuffer.steps 10 (samples.drop offset) 0 s) s.symbol_center_ =
        [a, b] ∧
      (getSymbolFromBuffer s samples offset sum_in count_in symbol_in).sum_out = a + b ∧
      (getSymbolFromBuffer s samples offset sum_in count_in symbol_in).symbol_out =
        Int.tdiv (a + b) 2) ∧
    (getSymbolFromBuffer s samples offset sum_in count_in symbol_in).count_out = 2 ∧
    (getSymbolFromBuffer s samples offset sum_in count_in symbol_in).symbol_out =
      Int.tdiv (getSymbolFromBuffer s samples offset sum_in count_in symbol_in).sum_out
        (getSymbolFromBuffer s samples offset sum_in count_in symbol_in).count_out := by
  have he := slicer_ok_loop s samples offset sum_in count_in symbol_in hok
  rw [he] at hok ⊢
  obtain ⟨hsum, hcount⟩ := slicer_loop_sums (samples.drop offset) s offset 0 0 symbol_in h4
  have hq := slicer_loop_quotient (samples.drop offset) 0 s offset 0 0 symbol_in hok
  have hidx := slicer_loop_indices (samples.drop offset) s offset 0 0 symbol_in h4 hok
  rw [h4]
  have hfil : ((getSymbolFromBuffer.steps 10 (samples.drop offset) 0 s).map
      (fun e => e.1)).filter (fun i => decide (i = (4 : Int) - 1 ∨ i = (4 : Int) + 1)) =
      [(4 : Int) - 1, (4 : Int) + 1] := by
    rcases hidx with ⟨_, h⟩ | ⟨_, h⟩ | ⟨_, h⟩ <;> rw [h] <;> decide
  have hlen := accumulated_length (getSymbolFromBuffer.steps 10 (samples.drop offset) 0 s) 4
  rw [hfil] at hlen
  have hc2 : (getSymbolFromBuffer.loop 10 (samples.drop offset) 0 s offset 0 0
      symbol_in).count_out = 2 := by
    rw [hcount, hlen]
    rfl
  rw [hc2] at hq
  rw [if_pos (by decide)] at hq
  refine ⟨?_, ?_, hc2, ?_⟩
  · rw [accumulated_indices]
    exact hfil
  · generalize accumulated (getSymbolFromBuffer.steps 10 (samples.drop offset) 0 s) 4 = acc
      at hsum hlen
    match acc, hlen with
    | [a, b], _ =>
      refine ⟨a, b, rfl, ?_, ?_⟩
      · rw [hsum]
        simp
      · rw [hq, hsum]
        simp
  · rw [hq, hc2]

/-- C25, as amended. With `symbol_center_ = 4`, for a successful
`getSymbolFromBuffer`: in `SearchSync` the jitter estimate is cleared before
the first sample, and the estimate after the call is the loop counter of the
first of the symbol's own samples, at a counter of 0 or more, that meets the
crossing test, or -1 when there is none; in `ProcessVoice` and `ProcessData`
the estimate is not cleared: one that is held (0 or more) is still held after
the call, and only when none is held does the first crossing of the symbol
write one. -/
theorem jitter_cleared_in_search_only (s : State) (samples : List Int) (offset : Nat)
    (sum_in count_in symbol_in : Int) (h4 : s.symbol_center_ = 4)
    (hok : (getSymbolFromBuffer s samples offset sum_in count_in symbol_in).ok = true) :
    (s.parseState_ = Parse_State_Search_Sync →
      (getSymbolFromBuffer.timing s 0).2.jitter_ = -1 ∧
      (getSymbolFromBuffer s samples offset sum_in count_in symbol_in).s.jitter_ =
        (first_crossing (getSymbolFromBuffer.steps 10 (samples.drop offset) 0 s)).getD (-1)) ∧
    (s.parseState_ ≠ Parse_State_Search_Sync →
      (getSymbolFromBuffer.timing s 0).2.jitter_ = s.jitter_ ∧
      (0 ≤ s.jitter_ →
        (getSymbolFromBuffer s samples offset sum_in count_in symbol_in).s.jitter_ =
          s.jitter_) ∧
      (s.jitter_ < 0 →
        (getSymbolFromBuffer s samples offset sum_in count_in symbol_in).s.jitter_ =
          (first_crossing (getSymbolFromBuffer.steps 10 (samples.drop offset) 0 s)).getD
            s.jitter_)) := by
  have he := slicer_ok_loop s samples offset sum_in count_in symbol_in hok
  rw [he]
  have hj := slicer_loop_jitter (samples.drop offset) s offset 0 0 symbol_in h4
  refine ⟨fun hS => ?_, fun hS => ?_⟩
  · have hc : (getSymbolFromBuffer.timing s 0).2.jitter_ = -1 := by
      rcases timing_zero s with ht | ht | ht | ⟨ht, _⟩
      · unfold getSymbolFromBuffer.timing
        rw [if_pos ⟨rfl, hS⟩]
      · rw [ht]
      · rw [ht]
      · rw [ht]
    refine ⟨hc, ?_⟩
    rw [hj, hc, if_neg (by decide)]
  · have hc : (getSymbolFromBuffer.timing s 0).2.jitter_ = s.jitter_ := by
      rw [timing_zero_locked s hS]
    refine ⟨hc, fun h0 => ?_, fun h0 => ?_⟩
    · rw [hj, hc, if_pos h0]
    · rw [hj, hc, if_neg (by omega)]

set_option maxRecDepth 100000 in
/-- C25 as stated fails: in `ProcessVoice` a successful call leaves the
estimate 7 of an earlier symbol in place, although the first sample of the
symbol meets the crossing test at the loop counter 0. -/
theorem stale_jitter_outside_search :
    example_locked.parseState_ = Parse_State_Process_Voice ∧
    example_locked.jitter_ = 7 ∧
    (getSymbolFromBuffer example_locked example_block 0 0 0 0).ok = true ∧
    (getSymbolFromBuffer.timing example_locked 0).2.jitter_ = 7 ∧
    first_crossing (getSymbolFromBuffer.steps 10 (example_block.drop 0) 0 example_locked) =
      some 0 ∧
    (getSymbolFromBuffer example_locked example_block 0 0 0 0).s.jitter_ = 7 := by
  decide!

/-- C26, as amended. A sample writes the jitter estimate, with its loop
counter, exactly when no estimate is held (`jitter_ < 0`) and the sample meets
the crossing test; otherwise it leaves the estimate as it is.  So, with
`symbol_center_ = 4`, after a successful `getSymbolFromBuffer` the estimate is
the one held when the first sample is processed, if one is held, and
otherwise the loop counter of the first sample at a counter of 0 or more that
meets the crossing test: later crossings do not change it, while a crossing
of the extra sample of a retarded symbol, at the counter -1, writes -1, which
is no estimate, and leaves the next crossing to be recorded. -/
theorem first_crossing_wins (s : State) (samples : List Int) (offset : Nat)
    (sum_in count_in symbol_in : Int) (h4 : s.symbol_center_ = 4)
    (hok : (getSymbolFromBuffer s samples offset sum_in count_in symbol_in).ok = true) :
    (∀ (t : State) (loop_i x : Int),
      (getSymbolFromBuffer.sample t loop_i x).1.jitter_ =
        if t.jitter_ < 0 ∧
            getSymbolFromBuffer.crossing t (getSymbolFromBuffer.sample t loop_i x).2 = true then
          loop_i
        else t.jitter_) ∧
    (getSymbolFromBuffer s samples offset sum_in count_in symbol_in).s.jitter_ =
      (if 0 ≤ (getSymbolFromBuffer.timing s 0).2.jitter_ then
        (getSymbolFromBuffer.timing s 0).2.jitter_
      else (first_crossing (getSymbolFromBuffer.steps 10 (samples.drop offset) 0 s)).getD
        (getSymbolFromBuffer.timing s 0).2.jitter_) ∧
    (∀ (i : Int) (cr : Bool) (f : Int) (tr : List (Int × Bool × Int)),
      first_crossing ((i, cr, f) :: tr) =
        if cr = true ∧ 0 ≤ i then some i else first_crossing tr) := by
  have he := slicer_ok_loop s samples offset sum_in count_in symbol_in hok
  rw [he]
  exact ⟨sample_jitter_eq, slicer_loop_jitter (samples.drop offset) s offset 0 0 symbol_in h4,
    first_crossing_cons⟩

set_option maxRecDepth 100000 in
/-- C26 as stated fails: in a retarded symbol whose first sample, at the loop
counter -1, and second sample, at the counter 0, both meet the crossing test,
the estimate after the call is 0, the counter of the second. -/
theorem second_crossing_recorded :
    example_retard.parseState_ = Parse_State_Search_Sync ∧
    example_retard.jitter_ = 3 ∧
    (getSymbolFromBuffer example_retard example_crossings 0 0 0 0).ok = true ∧
    (getSymbolFromBuffer example_retard example_crossings 0 0 0 0).offset = 11 ∧
    (getSymbolFromBuffer.steps 10 (example_crossings.drop 0) 0 example_retard).take 3 =
      [(-1, true, 1000), (0, true, -1000), (1, false, -1000)] ∧
    (getSymbolFromBuffer example_retard example_crossings 0 0 0 0).s.jitter_ = 0 := by
  decide!

/-! ## The range of the levels -/

theorem LevelsInv.congr {s t : State} (h : LevelsInv s)
    (h1 : t.max_sample_ = s.max_sample_) (h2 : t.min_sample_ = s.min_sample_)
    (h3 : t.lbuf1_ = s.lbuf1_) (h4 : t.pending_samples_ = s.pending_samples_) :
    LevelsInv t := by
  unfold LevelsInv at *
  rw [h1, h2, h3, h4]
  exact h

/-- Outside the level refresh a call leaves the extremes, the level window
and the carried samples alone. -/
theorem pds_levels_frame (s : State) (dibit : Nat) :
    (process_decided_symbol s dibit).lbuf1_ = s.lbuf1_ ∧
    (process_decided_symbol s dibit).pending_samples_ = s.pending_samples_ ∧
    (s.parseState_ ≠ Parse_State_Search_Sync →
      (process_decided_symbol s dibit).max_sample_ = s.max_sample_ ∧
      (process_decided_symbol s dibit).min_sample_ = s.min_sample_) := by
  cases hs : s.parseState_ with
  | Parse_State_Search_Sync =>
    rw [pds_search s dibit hs]
    refine ⟨?_, ?_, fun h => absurd rfl h⟩ <;>
      rcases search_sync_cases (process_decided_symbol.store s dibit) with h | h | h | h <;>
      rw [h] <;>
      rcases searched_cases (process_decided_symbol.store s dibit) with h2 | h2 <;>
      rw [h2] <;> rfl
  | Parse_State_Process_Voice =>
    rw [pds_voice s dibit hs]
    unfold process_decided_symbol.process_voice
    dsimp only
    split_ifs
    · rw [append_dibits_frame, append_dibits_frame (process_decided_symbol.store s dibit)]
      exact ⟨rfl, rfl, fun _ => ⟨rfl, rfl⟩⟩
    · rw [append_dibits_frame]
      exact ⟨rfl, rfl, fun _ => ⟨rfl, rfl⟩⟩
    · rcases emit_burst_cases (process_decided_symbol.complete_frame
          (process_decided_symbol.store s dibit)) with ⟨h, _⟩ | ⟨h, _⟩ <;> rw [h] <;>
        unfold process_decided_symbol.complete_frame <;>
        rw [append_dibits_frame] <;> exact ⟨rfl, rfl, fun _ => ⟨rfl, rfl⟩⟩
    · exact ⟨rfl, rfl, fun _ => ⟨rfl, rfl⟩⟩
  | Parse_State_Process_Data =>
    rw [pds_data s dibit hs]
    unfold process_decided_symbol.process_data
    dsimp only
    split_ifs <;> exact ⟨rfl, rfl, fun _ => ⟨rfl, rfl⟩⟩

theorem tdiv_avg_fits (sum count : Int) (hc : 0 ≤ count)
    (h1 : -32768 * count ≤ sum) (h2 : sum ≤ 32767 * count) :
    fits_int16 (Int.tdiv sum (if count > 0 then count else 1)) := by
  unfold fits_int16
  by_cases hpos : count > 0
  · rw [if_pos hpos]
    rcases tdiv_cases sum count hpos with ⟨hs, e⟩ | ⟨hs, e⟩
    · rw [e]
      have hq1 : 0 ≤ sum / count := Int.ediv_nonneg hs hc
      have hq2 : sum / count ≤ 32767 := Int.ediv_le_of_le_mul hpos h2
      omega
    · rw [e]
      have hq1 : 0 ≤ (-sum) / count := Int.ediv_nonneg (by omega) hc
      have hq2 : (-sum) / count ≤ 32768 := Int.ediv_le_of_le_mul hpos (by omega)
      omega
  · rw [if_neg hpos]
    have h0 : count = 0 := by omega
    rw [h0] at h1 h2
    have hs : sum = 0 := by omega
    rw [hs]
    decide

theorem sample_value_fits (s : State) (loop_i x : Int) (hx : fits_int16 x) :
    fits_int16 (getSymbolFromBuffer.sample s loop_i x).2 := by
  unfold getSymbolFromBuffer.sample
  dsimp only
  by_cases hf : s.dmr_filter_enabled_ = true
  · rw [if_pos hf]
    rw [dmr_filter_value]
    exact (saturate_clamps _).2
  · rw [if_neg hf]
    exact hx

theorem acc_step_fits (c sc sum_out count_out f : Int) (hf : fits_int16 f) (hc : 0 ≤ count_out)
    (h1 : -32768 * count_out ≤ sum_out) (h2 : sum_out ≤ 32767 * count_out) :
    0 ≤ (if c = sc - 1 ∨ c = sc + 1 then (sum_out + f, count_out + 1)
        else (sum_out, count_out)).2 ∧
    -32768 * (if c = sc - 1 ∨ c = sc + 1 then (sum_out + f, count_out + 1)
        else (sum_out, count_out)).2 ≤
      (if c = sc - 1 ∨ c = sc + 1 then (sum_out + f, count_out + 1)
        else (sum_out, count_out)).1 ∧
    (if c = sc - 1 ∨ c = sc + 1 then (sum_out + f, count_out + 1)
        else (sum_out, count_out)).1 ≤
      32767 * (if c = sc - 1 ∨ c = sc + 1 then (sum_out + f, count_out + 1)
        else (sum_out, count_out)).2 := by
  unfold fits_int16 at hf
  split_ifs
  · dsimp only
    omega
  · dsimp only
    omega

/-- The symbol value of a successful run is of `int16_t` size when the
samples are. -/
theorem slicer_loop_symbol_fits (rest : List Int) :
    ∀ (loop_i : Int) (s : State) (offset : Nat) (sum_out count_out symbol_out : Int),
      (∀ x ∈ rest, fits_int16 x) → 0 ≤ count_out →
      -32768 * count_out ≤ sum_out → sum_out ≤ 32767 * count_out →
      (getSymbolFromBuffer.loop 10 rest loop_i s offset sum_out count_out symbol_out).ok = true →
      fits_int16
        (getSymbolFromBuffer.loop 10 rest loop_i s offset sum_out count_out
          symbol_out).symbol_out := by
  induction rest with
  | nil =>
    intro loop_i s offset sum_out count_out symbol_out _ hc h1 h2 hok
    by_cases hlt : loop_i < 10
    · rw [slicer_loop_stuck loop_i s offset sum_out count_out symbol_out hlt] at hok
      exact absurd hok (by simp)
    · rw [slicer_loop_done [] loop_i s offset sum_out count_out symbol_out hlt]
      exact tdiv_avg_fits sum_out count_out hc h1 h2
  | cons x rest ih =>
    intro loop_i s offset sum_out count_out symbol_out hr hc h1 h2 hok
    by_cases hlt : loop_i < 10
    · rw [slicer_loop_step loop_i _ _ rest x s offset sum_out count_out symbol_out hlt rfl]
        at hok ⊢
      have hf := sample_value_fits (getSymbolFromBuffer.timing s loop_i).2
        (getSymbolFromBuffer.timing s loop_i).1 x (hr x (List.mem_cons_self _ _))
      obtain ⟨a1, a2, a3⟩ := acc_step_fits (getSymbolFromBuffer.timing s loop_i).1
        (getSymbolFromBuffer.sample (getSymbolFromBuffer.timing s loop_i).2
          (getSymbolFromBuffer.timing s loop_i).1 x).1.symbol_center_
        sum_out count_out _ hf hc h1 h2
      exact ih _ _ _ _ _ _ (fun y hy => hr y (List.mem_cons_of_mem _ hy)) a1 a2 a3 hok
    · rw [slicer_loop_done _ loop_i s offset sum_out count_out symbol_out hlt]
      exact tdiv_avg_fits sum_out count_out hc h1 h2

theorem slicer_symbol_fits (s : State) (samples : List Int) (offset : Nat)
    (hs : ∀ x ∈ samples, fits_int16 x)
    (hok : (getSymbolFromBuffer s samples offset 0 0 0).ok = true) :
    fits_int16 (getSymbolFromBuffer s samples offset 0 0 0).symbol_out := by
  have he := slicer_ok_loop s samples offset 0 0 0 hok
  rw [he] at hok ⊢
  exact slicer_loop_symbol_fits (samples.drop offset) 0 s offset 0 0 0
    (fun x hx => hs x (List.mem_of_mem_drop hx)) (le_refl _) (by decide) (by decide) hok

theorem slicer_levels (s : State) (samples : List Int) (offset : Nat)
    (sum_out count_out symbol_out : Int) (h : LevelsInv s) :
    LevelsInv (getSymbolFromBuffer s samples offset sum_out count_out symbol_out).s := by
  unfold getSymbolFromBuffer
  dsimp only
  by_cases hlt : ((samples.length : Int) - (offset : Int)) % 2 ^ 32 < 10 % 2 ^ 32
  · rw [if_pos hlt]
    exact h
  · rw [if_neg hlt]
    have hf := slicer_loop_thresholds 10 (samples.drop offset) 0 s offset 0 0 symbol_out
    generalize (getSymbolFromBuffer.loop 10 (List.drop offset samples) 0 s offset 0 0
      symbol_out) = r at hf
    unfold SlicerFrame at hf
    have e1 := congrArg State.max_sample_ hf
    have e2 := congrArg State.min_sample_ hf
    have e3 := congrArg State.lbuf1_ hf
    have e4 := congrArg State.pending_samples_ hf
    exact LevelsInv.congr h e1 e2 e3 e4

theorem level_refresh_keeps (s : State) :
    (process_decided_symbol.level_refresh s).lbuf1_ = s.lbuf1_ ∧
    (process_decided_symbol.level_refresh s).pending_samples_ = s.pending_samples_ := by
  unfold process_decided_symbol.level_refresh
  dsimp only
  exact ⟨rfl, rfl⟩

theorem level_refresh_sorted (s : State) (i : Nat) (hi : i < 24) :
    (process_decided_symbol.level_refresh s).lbuf2_ i =
      (List.insertionSort (fun x y : Int => x ≤ y) ((List.range 24).map s.lbuf1_)).getD i 0 := by
  unfold process_decided_symbol.level_refresh
  dsimp only
  rw [if_pos hi]

theorem tdiv3_fits (a b c : Int) (ha : fits_int16 a) (hb : fits_int16 b) (hc : fits_int16 c) :
    fits_int16 (Int.tdiv (a + b + c) 3) := by
  unfold fits_int16 at *
  rcases tdiv_cases (a + b + c) 3 (by decide) with ⟨_, e⟩ | ⟨_, e⟩ <;> rw [e] <;> omega

theorem tdiv2_fits (a b : Int) (ha : fits_int16 a) (hb : fits_int16 b) :
    fits_int16 (Int.tdiv (a + b) 2) := by
  unfold fits_int16 at *
  rcases tdiv_cases (a + b) 2 (by decide) with ⟨_, e⟩ | ⟨_, e⟩ <;> rw [e] <;> omega

/-- The level refresh keeps the extremes ordered and of `int16_t` size, and
none of the values it forms on the way leaves the range of `int32_t`. -/
theorem level_refresh_levels (s : State) (h : LevelsInv s) :
    LevelsInv (process_decided_symbol.level_refresh s) ∧
    ∀ x ∈ process_decided_symbol.level_refresh_intermediates s, fits_int32 x := by
  obtain ⟨hm, hmM, hM, hl, hp⟩ := h
  obtain ⟨k1, k2⟩ := level_refresh_keeps s
  obtain ⟨t1, t2⟩ := level_refresh_trimmed s
  obtain ⟨v1, v2, v3, v4, v5, _, _⟩ := level_refresh_values s
  obtain ⟨o1, o2, o3, o4, o5⟩ := level_refresh_ordered s hmM
  have f1 := sorted_window_mem s.lbuf1_ fits_int16 hl 1 (by decide)
  have f2 := sorted_window_mem s.lbuf1_ fits_int16 hl 2 (by decide)
  have f3 := sorted_window_mem s.lbuf1_ fits_int16 hl 3 (by decide)
  have f21 := sorted_window_mem s.lbuf1_ fits_int16 hl 21 (by decide)
  have f22 := sorted_window_mem s.lbuf1_ fits_int16 hl 22 (by decide)
  have f23 := sorted_window_mem s.lbuf1_ fits_int16 hl 23 (by decide)
  rw [← level_refresh_sorted s 1 (by decide)] at f1 t1
  rw [← level_refresh_sorted s 2 (by decide)] at f2 t1
  rw [← level_refresh_sorted s 3 (by decide)] at f3 t1
  rw [← level_refresh_sorted s 21 (by decide)] at f21 t2
  rw [← level_refresh_sorted s 22 (by decide)] at f22 t2
  rw [← level_refresh_sorted s 23 (by decide)] at f23 t2
  have hlmin := tdiv3_fits _ _ _ f1 f2 f3
  have hlmax := tdiv3_fits _ _ _ f21 f22 f23
  rw [← t1] at hlmin
  rw [← t2] at hlmax
  have hM1 := tdiv2_fits _ _ hM hlmax
  have hm1 := tdiv2_fits _ _ hm hlmin
  rw [← v1] at hM1
  rw [← v2] at hm1
  refine ⟨⟨hm1, o5, hM1, by rw [k1]; exact hl, by rw [k2]; exact hp⟩, ?_⟩
  intro x hx
  unfold process_decided_symbol.level_refresh_intermediates at hx
  dsimp only at hx
  rw [← v4, ← v5] at hx
  generalize (process_decided_symbol.level_refresh s).max_sample_ = M at *
  generalize (process_decided_symbol.level_refresh s).min_sample_ = m at *
  generalize (process_decided_symbol.level_refresh s).center_ = c at *
  generalize (process_decided_symbol.level_refresh s).umid_ = u at *
  generalize (process_decided_symbol.level_refresh s).lmid_ = l at *
  generalize (process_decided_symbol.level_refresh s).lmax_ = lmax at *
  generalize (process_decided_symbol.level_refresh s).lmin_ = lmin at *
  generalize (process_decided_symbol.level_refresh s).lbuf2_ = b at *
  unfold fits_int16 at *
  unfold fits_int32
  simp only [List.mem_cons, List.mem_singleton, List.not_mem_nil, or_false] at hx
  rcases hx with e | e | e | e | e | e | e | e | e | e | e | e | e <;> rw [e] <;> omega

theorem searched_store_levels (s : State) (dibit : Nat) :
    (searched (process_decided_symbol.store s dibit)).max_sample_ = s.max_sample_ ∧
    (searched (process_decided_symbol.store s dibit)).min_sample_ = s.min_sample_ ∧
    (searched (process_decided_symbol.store s dibit)).lbuf1_ = s.lbuf1_ ∧
    (searched (process_decided_symbol.store s dibit)).pending_samples_ = s.pending_samples_ := by
  rcases searched_cases (process_decided_symbol.store s dibit) with h | h <;> rw [h] <;>
    exact ⟨rfl, rfl, rfl, rfl⟩

theorem leave_search_levels (k : State) (id : SyncPatternId) :
    (process_decided_symbol.leave_search k id).max_sample_ = k.max_sample_ ∧
    (process_decided_symbol.leave_search k id).min_sample_ = k.min_sample_ ∧
    (process_decided_symbol.leave_search k id).lbuf1_ = k.lbuf1_ ∧
    (process_decided_symbol.leave_search k id).pending_samples_ = k.pending_samples_ := by
  unfold process_decided_symbol.leave_search
  dsimp only
  split_ifs <;> exact ⟨rfl, rfl, rfl, rfl⟩

/-- A call of `process_decided_symbol` keeps the extremes ordered and of
`int16_t` size. -/
theorem pds_levels (s : State) (dibit : Nat) (h : LevelsInv s) :
    LevelsInv (process_decided_symbol s dibit) := by
  by_cases hs : s.parseState_ = Parse_State_Search_Sync
  · obtain ⟨q1, q2, q3, q4⟩ := searched_store_levels s dibit
    have hq : LevelsInv (searched (process_decided_symbol.store s dibit)) :=
      h.congr q1 q2 q3 q4
    rw [pds_search s dibit hs]
    rcases search_sync_cases (process_decided_symbol.store s dibit) with e | e | e | e <;>
      rw [e]
    · obtain ⟨l1, l2, l3, l4⟩ := leave_search_levels
        (process_decided_symbol.level_refresh (searched (process_decided_symbol.store s dibit)))
        SyncPatternId.DirectTs1Voice
      exact (level_refresh_levels _ hq).1.congr l1 l2 l3 l4
    · obtain ⟨l1, l2, l3, l4⟩ := leave_search_levels
        (process_decided_symbol.level_refresh (searched (process_decided_symbol.store s dibit)))
        SyncPatternId.DirectTs1Data
      exact (level_refresh_levels _ hq).1.congr l1 l2 l3 l4
    · exact hq.congr rfl rfl rfl rfl
    · exact hq
  · obtain ⟨f1, f2, f3⟩ := pds_levels_frame s dibit
    exact h.congr (f3 hs).1 (f3 hs).2 f1 f2

theorem decide_symbol_levels (s : State) (symbol : Int) (h : LevelsInv s)
    (hsym : fits_int16 symbol) :
    LevelsInv (process_demod_block.decide_symbol s symbol) := by
  unfold process_demod_block.decide_symbol
  dsimp only
  apply pds_levels
  obtain ⟨hm, hmM, hM, hl, hp⟩ := h
  refine ⟨hm, hmM, hM, ?_, hp⟩
  intro i
  show fits_int16 (Function.update s.lbuf1_ s.lbuf1_pos_.toNat symbol i)
  by_cases hi : i = s.lbuf1_pos_.toNat
  · rw [hi, Function.update_same]
    exact hsym
  · rw [Function.update_noteq hi]
    exact hl i

/-- The loop of a block keeps the extremes ordered and of `int16_t` size,
after any number of iterations. -/
theorem block_loop_levels (samples : List Int) (hs : ∀ x ∈ samples, fits_int16 x) :
    ∀ (fuel : Nat) (s : State) (offset n : Nat), LevelsInv s →
      LevelsInv (process_demod_block.loop samples 20 fuel s offset n).1 := by
  intro fuel
  induction fuel with
  | zero =>
    intro s offset n h
    exact h
  | succ fuel ih =>
    intro s offset n h
    rw [process_demod_block.loop]
    by_cases hc : ((samples.length : Int) - (offset : Int)) % 2 ^ 32 ≥ ((20 : Nat) : Int)
    · rw [if_pos hc]
      dsimp only
      by_cases hok : (getSymbolFromBuffer s samples offset 0 0 0).ok = true
      · rw [if_pos hok]
        exact ih _ _ _ (decide_symbol_levels _ _ (slicer_levels s samples offset 0 0 0 h)
          (slicer_symbol_fits s samples offset hs hok))
      · rw [if_neg hok]
        exact slicer_levels s samples offset 0 0 0 h
    · rw [if_neg hc]
      exact h

theorem block_levels (s : State) (block : List Int) (h : LevelsInv s)
    (hb : ∀ x ∈ block, fits_int16 x) : LevelsInv (process_demod_block s block) := by
  have hsamples : ∀ x ∈ s.pending_samples_ ++ block, fits_int16 x := by
    intro x hx
    rcases List.mem_append.1 hx with hx | hx
    · exact h.2.2.2.2 x hx
    · exact hb x hx
  have h0 : LevelsInv
      { s with stats_drop_filtered_ := block.length % 2 ^ 32, pending_samples_ := [] } :=
    ⟨h.1, h.2.1, h.2.2.1, h.2.2.2.1, fun x hx => absurd hx (List.not_mem_nil x)⟩
  have hl := block_loop_levels (s.pending_samples_ ++ block) hsamples
    ((s.pending_samples_ ++ block).length + 1)
    { s with stats_drop_filtered_ := block.length % 2 ^ 32, pending_samples_ := [] } 0 0 h0
  obtain ⟨a1, a2, a3, a4, _⟩ := hl
  exact ⟨a1, a2, a3, a4, fun x hx => hsamples x (List.mem_of_mem_drop hx)⟩

/-- C28. The processor as constructed has `-32768 <= min_sample_ <=
max_sample_ <= 32767`, with a level window and carried samples of `int16_t`
size, and this is kept by the loop body of `process_demod_block` for every
symbol value of `int16_t` size, by `getSymbolFromBuffer`, whose symbol values
are of `int16_t` size when the samples are, by every number of iterations of
the loop and so by `process_demod_block` on every block of `int16_t`
samples; in such a state the level refresh keeps the order of the two
extremes, and each sum, difference and product that it forms lies in the
range of `int32_t`. -/
theorem levels_stay_in_range :
    LevelsInv State.constructed ∧
    (∀ s : State, LevelsInv s →
      -32768 ≤ s.min_sample_ ∧ s.min_sample_ ≤ s.max_sample_ ∧ s.max_sample_ ≤ 32767) ∧
    (∀ (s : State) (symbol : Int), LevelsInv s → fits_int16 symbol →
      LevelsInv (process_demod_block.decide_symbol s symbol)) ∧
    (∀ (s : State) (samples : List Int) (offset : Nat), LevelsInv s →
      (∀ x ∈ samples, fits_int16 x) →
      LevelsInv (getSymbolFromBuffer s samples offset 0 0 0).s ∧
      ((getSymbolFromBuffer s samples offset 0 0 0).ok = true →
        fits_int16 (getSymbolFromBuffer s samples offset 0 0 0).symbol_out)) ∧
    (∀ s : State, LevelsInv s →
      (process_decided_symbol.level_refresh s).min_sample_ ≤
        (process_decided_symbol.level_refresh s).max_sample_ ∧
      LevelsInv (process_decided_symbol.level_refresh s) ∧
      ∀ x ∈ process_decided_symbol.level_refresh_intermediates s, fits_int32 x) ∧
    (∀ (s : State) (samples : List Int) (fuel : Nat), LevelsInv s →
      (∀ x ∈ samples, fits_int16 x) →
      LevelsInv (process_demod_block.loop samples 20 fuel s 0 0).1) ∧
    (∀ (s : State) (block : List Int), LevelsInv s → (∀ x ∈ block, fits_int16 x) →
      LevelsInv (process_demod_block s block)) := by
  refine ⟨?_, ?_, decide_symbol_levels, ?_, ?_, ?_, block_levels⟩
  · refine ⟨?_, ?_, ?_, fun i => ?_, fun x hx => absurd hx (List.not_mem_nil x)⟩
    · show -32768 ≤ (-15000 : Int) ∧ (-15000 : Int) ≤ 32767
      decide
    · show (-15000 : Int) ≤ 15000
      decide
    · show -32768 ≤ (15000 : Int) ∧ (15000 : Int) ≤ 32767
      decide
    · show -32768 ≤ (0 : Int) ∧ (0 : Int) ≤ 32767
      decide
  · intro s h
    exact ⟨h.1.1, h.2.1, h.2.2.1.2⟩
  · intro s samples offset h hs
    exact ⟨slicer_levels s samples offset 0 0 0 h, slicer_symbol_fits s samples offset hs⟩
  · intro s h
    obtain ⟨a, b⟩ := level_refresh_levels s h
    exact ⟨a.2.1, a, b⟩
  · intro s samples fuel h hs
    exact block_loop_levels samples hs fuel s 0 0 h

/-! ## The members that only the block routine writes -/

theorem wbf_wbf (s : State) (f c f1 c1 : Nat) (p p1 : List Int) :
    with_block_fields (with_block_fields s f c p) f1 c1 p1 = with_block_fields s f1 c1 p1 :=
  rfl

theorem wbf_self (s : State) :
    with_block_fields s s.stats_drop_filtered_ s.stats_drop_slot_color_ s.pending_samples_ = s :=
  rfl

theorem wbf_store (s : State) (f c : Nat) (p : List Int) (dibit : Nat) :
    process_decided_symbol.store (with_block_fields s f c p) dibit =
      with_block_fields (process_decided_symbol.store s dibit) f c p :=
  rfl

theorem wbf_resync_refs (s : State) (f c : Nat) (p : List Int) :
    process_decided_symbol.resync_refs (with_block_fields s f c p) =
      with_block_fields (process_decided_symbol.resync_refs s) f c p := by
  unfold process_decided_symbol.resync_refs with_block_fields
  dsimp only
  split_ifs <;> rfl

theorem wbf_searched (s : State) (f c : Nat) (p : List Int) :
    searched (with_block_fields s f c p) = with_block_fields (searched s) f c p := by
  unfold searched
  show process_decided_symbol.resync_refs
      (with_block_fields
        { s with sync_search_symbol_count_ := (s.sync_search_symbol_count_ + 1) % 2 ^ 32 }
        f c p) = _
  exact wbf_resync_refs _ f c p

theorem wbf_level_refresh (s : State) (f c : Nat) (p : List Int) :
    process_decided_symbol.level_refresh (with_block_fields s f c p) =
      with_block_fields (process_decided_symbol.level_refresh s) f c p := by
  unfold process_decided_symbol.level_refresh with_block_fields
  dsimp only

theorem wbf_leave_search (s : State) (f c : Nat) (p : List Int) (id : SyncPatternId) :
    process_decided_symbol.leave_search (with_block_fields s f c p) id =
      with_block_fields (process_decided_symbol.leave_search s id) f c p := by
  unfold process_decided_symbol.leave_search with_block_fields
  dsimp only
  split_ifs <;> rfl

theorem wbf_handle_carrier_loss (s : State) (f c : Nat) (p : List Int) :
    handle_carrier_loss (with_block_fields s f c p) =
      with_block_fields (handle_carrier_loss s) f c p :=
  rfl

theorem wbf_search_match_id (s : State) (f c : Nat) (p : List Int) :
    search_match_id (with_block_fields s f c p) = search_match_id s :=
  search_match_id_congr _ _ rfl rfl rfl

theorem wbf_search_sync (s : State) (f c : Nat) (p : List Int) :
    process_decided_symbol.search_sync (with_block_fields s f c p) =
      with_block_fields (process_decided_symbol.search_sync s) f c p := by
  have hm := wbf_search_match_id s f c p
  by_cases hv : search_match_id s = SyncPatternId.DirectTs1Voice
  · rw [search_sync_voice _ (hm.trans hv), search_sync_voice s hv, wbf_searched,
      wbf_level_refresh, wbf_leave_search]
  · by_cases hd : search_match_id s = SyncPatternId.DirectTs1Data
    · rw [search_sync_data _ (hm.trans hd), search_sync_data s hd, wbf_searched,
        wbf_level_refresh, wbf_leave_search]
    · rw [search_sync_other _ (by rw [hm]; exact hv) (by rw [hm]; exact hd),
        search_sync_other s hv hd, wbf_searched]
      have hc : (with_block_fields (searched s) f c p).sync_search_symbol_count_ =
          (searched s).sync_search_symbol_count_ := rfl
      rw [hc]
      split_ifs
      · rfl
      · rfl

theorem wbf_append_loop (start : Int) (f c : Nat) (p : List Int) (r : Nat) :
    ∀ (s : State) (i : Nat),
      append_dibits.loop start (with_block_fields s f c p) i r =
        with_block_fields (append_dibits.loop start s i r) f c p := by
  induction r with
  | zero => intro s i; rfl
  | succ r ih =>
    intro s i
    unfold append_dibits.loop
    have hd : (with_block_fields s f c p).dibit_index_ = s.dibit_index_ := rfl
    rw [hd]
    by_cases h : s.dibit_index_ < 108
    · rw [if_pos h, if_pos h]
      exact ih
        { s with
          voice_dibits_ := Function.update s.voice_dibits_ s.dibit_index_
            (s.dibit_buf_ (wrap_index (start + (i : Int))))
          dibit_index_ := s.dibit_index_ + 1 }
        (i + 1)
    · rw [if_neg h, if_neg h]

theorem wbf_append_dibits (s : State) (f c : Nat) (p : List Int) (start : Int) (count : Nat) :
    append_dibits (with_block_fields s f c p) start count =
      with_block_fields (append_dibits s start count) f c p :=
  wbf_append_loop start f c p count s 0

theorem wbf_complete_frame (s : State) (f c : Nat) (p : List Int) :
    process_decided_symbol.complete_frame (with_block_fields s f c p) =
      with_block_fields (process_decided_symbol.complete_frame s) f c p := by
  unfold process_decided_symbol.complete_frame
  exact wbf_append_dibits s f c p _ _

theorem wbf_emit_burst (s : State) (f c : Nat) (p : List Int) :
    process_decided_symbol.emit_burst (with_block_fields s f c p) =
      with_block_fields (process_decided_symbol.emit_burst s) f c p := by
  rcases emit_burst_cases s with ⟨h, h5⟩ | ⟨h, h5⟩ <;>
    rcases emit_burst_cases (with_block_fields s f c p) with ⟨g, g5⟩ | ⟨g, g5⟩
  · rw [h, g]; rfl
  · exact absurd h5 g5
  · exact absurd g5 h5
  · rw [h, g]; rfl

theorem wbf_process_voice (s : State) (f c : Nat) (p : List Int) :
    process_decided_symbol.process_voice (with_block_fields s f c p) =
      with_block_fields (process_decided_symbol.process_voice s) f c p := by
  unfold process_decided_symbol.process_voice
  dsimp only
  have h1 : voice_offset (with_block_fields s f c p) = voice_offset s := rfl
  have h2 : (with_block_fields s f c p).active_burst_index_ = s.active_burst_index_ := rfl
  have h3 : (with_block_fields s f c p).dibit_buf_index_ = s.dibit_buf_index_ := rfl
  rw [h1, h2, h3]
  split_ifs
  · rw [wbf_append_dibits]
    have h4 : (with_block_fields (append_dibits s
        ((s.dibit_buf_index_ : Int) -
          ((DMR_FRAME_SYMBOLS + DMR_FRAME2_HALF_SYMBOLS + DMR_SYNC_SYMBOLS + 1 : Nat) : Int))
        DMR_FRAME_SYMBOLS) f c p).dibit_buf_index_ =
        (append_dibits s
        ((s.dibit_buf_index_ : Int) -
          ((DMR_FRAME_SYMBOLS + DMR_FRAME2_HALF_SYMBOLS + DMR_SYNC_SYMBOLS + 1 : Nat) : Int))
        DMR_FRAME_SYMBOLS).dibit_buf_index_ := rfl
    rw [h4, wbf_append_dibits]
  · rw [wbf_append_dibits]
  · rw [wbf_complete_frame, wbf_emit_burst]
  · rfl

theorem wbf_process_data (s : State) (f c : Nat) (p : List Int) :
    process_decided_symbol.process_data (with_block_fields s f c p) =
      with_block_fields (process_decided_symbol.process_data s) f c p := by
  unfold process_decided_symbol.process_data with_block_fields
  dsimp only
  split_ifs <;> rfl

/-- `process_decided_symbol` neither reads nor writes the two block
statistics and the carried samples. -/
theorem wbf_pds (s : State) (f c : Nat) (p : List Int) (dibit : Nat) :
    process_decided_symbol (with_block_fields s f c p) dibit =
      with_block_fields (process_decided_symbol s dibit) f c p := by
  have hp : (with_block_fields s f c p).parseState_ = s.parseState_ := rfl
  cases hs : s.parseState_ with
  | Parse_State_Search_Sync =>
    rw [pds_search _ dibit (hp.trans hs), pds_search s dibit hs, wbf_store, wbf_search_sync]
  | Parse_State_Process_Voice =>
    rw [pds_voice _ dibit (hp.trans hs), pds_voice s dibit hs, wbf_store, wbf_process_voice]
  | Parse_State_Process_Data =>
    rw [pds_data _ dibit (hp.trans hs), pds_data s dibit hs, wbf_store, wbf_process_data]

theorem wbf_decide_symbol (s : State) (f c : Nat) (p : List Int) (symbol : Int) :
    process_demod_block.decide_symbol (with_block_fields s f c p) symbol =
      with_block_fields (process_demod_block.decide_symbol s symbol) f c p := by
  have e : ∀ t : State, process_demod_block.decide_symbol t symbol =
      process_decided_symbol
        (push_sync_char (update_symbol_statistics t symbol)
          (if symbol > t.center_ then '1' else '3'))
        ((if symbol > t.center_ then (if symbol > t.umid_ then 0b01 else 0b00)
          else (if symbol < t.lmid_ then 0b11 else 0b10)) &&& 0x03) := fun _ => rfl
  rw [e, e]
  exact wbf_pds
    (push_sync_char (update_symbol_statistics s symbol) (if symbol > s.center_ then '1' else '3'))
    f c p
    ((if symbol > s.center_ then (if symbol > s.umid_ then 0b01 else 0b00)
      else (if symbol < s.lmid_ then 0b11 else 0b10)) &&& 0x03)

theorem wbf_timing (s : State) (f c : Nat) (p : List Int) (loop_i : Int) :
    getSymbolFromBuffer.timing (with_block_fields s f c p) loop_i =
      ((getSymbolFromBuffer.timing s loop_i).1,
        with_block_fields (getSymbolFromBuffer.timing s loop_i).2 f c p) := by
  unfold getSymbolFromBuffer.timing with_block_fields
  dsimp only
  split_ifs <;> rfl

theorem wbf_sample (s : State) (f c : Nat) (p : List Int) (loop_i x : Int) :
    getSymbolFromBuffer.sample (with_block_fields s f c p) loop_i x =
      (with_block_fields (getSymbolFromBuffer.sample s loop_i x).1 f c p,
        (getSymbolFromBuffer.sample s loop_i x).2) := by
  unfold getSymbolFromBuffer.sample with_block_fields
  dsimp only
  by_cases hf : s.dmr_filter_enabled_ = true
  · rw [if_pos hf, if_pos hf]
    unfold dmr_filter
    dsimp only
    split_ifs <;> rfl
  · rw [if_neg hf, if_neg hf]
    dsimp only
    split_ifs <;> rfl

theorem wbf_symbol_center (s : State) (f c : Nat) (p : List Int) :
    (with_block_fields s f c p).symbol_center_ = s.symbol_center_ :=
  rfl

theorem wbf_slicer_loop (f c : Nat) (p : List Int) (rest : List Int) :
    ∀ (loop_i : Int) (s : State) (offset : Nat) (sum_out count_out symbol_out : Int),
      getSymbolFromBuffer.loop 10 rest loop_i (with_block_fields s f c p) offset sum_out
          count_out symbol_out =
        { getSymbolFromBuffer.loop 10 rest loop_i s offset sum_out count_out symbol_out with
          s := with_block_fields
            (getSymbolFromBuffer.loop 10 rest loop_i s offset sum_out count_out symbol_out).s
            f c p } := by
  induction rest with
  | nil =>
    intro loop_i s offset sum_out count_out symbol_out
    by_cases hlt : loop_i < 10
    · rw [slicer_loop_stuck loop_i _ offset sum_out count_out symbol_out hlt,
        slicer_loop_stuck loop_i s offset sum_out count_out symbol_out hlt, wbf_timing]
    · rw [slicer_loop_done [] loop_i _ offset sum_out count_out symbol_out hlt,
        slicer_loop_done [] loop_i s offset sum_out count_out symbol_out hlt]
      rfl
  | cons x rest ih =>
    intro loop_i s offset sum_out count_out symbol_out
    by_cases hlt : loop_i < 10
    · rw [slicer_loop_step loop_i (getSymbolFromBuffer.timing s loop_i).1
          (with_block_fields (getSymbolFromBuffer.timing s loop_i).2 f c p) rest x _ offset
          sum_out count_out symbol_out hlt (wbf_timing s f c p loop_i),
        slicer_loop_step loop_i _ _ rest x s offset sum_out count_out symbol_out hlt rfl,
        wbf_sample]
      dsimp only
      rw [wbf_symbol_center]
      exact ih _ _ _ _ _ _
    · rw [slicer_loop_done _ loop_i _ offset sum_out count_out symbol_out hlt,
        slicer_loop_done _ loop_i s offset sum_out count_out symbol_out hlt]
      rfl

theorem wbf_slicer (s : State) (f c : Nat) (p : List Int) (samples : List Int) (offset : Nat)
    (sum_out count_out symbol_out : Int) :
    getSymbolFromBuffer (with_block_fields s f c p) samples offset sum_out count_out symbol_out =
      { getSymbolFromBuffer s samples offset sum_out count_out symbol_out with
        s := with_block_fields
          (getSymbolFromBuffer s samples offset sum_out count_out symbol_out).s f c p } := by
  unfold getSymbolFromBuffer
  dsimp only
  by_cases hlt : ((samples.length : Int) - (offset : Int)) % 2 ^ 32 < 10 % 2 ^ 32
  · rw [if_pos hlt, if_pos hlt]
  · rw [if_neg hlt, if_neg hlt]
    exact wbf_slicer_loop f c p _ _ _ _ _ _ _

/-- The loop of a block neither reads nor writes the two block statistics
and the carried samples. -/
theorem wbf_block_loop (samples : List Int) (f c : Nat) (p : List Int) :
    ∀ (fuel : Nat) (s : State) (offset n : Nat),
      process_demod_block.loop samples 20 fuel (with_block_fields s f c p) offset n =
        (with_block_fields (process_demod_block.loop samples 20 fuel s offset n).1 f c p,
          (process_demod_block.loop samples 20 fuel s offset n).2.1,
          (process_demod_block.loop samples 20 fuel s offset n).2.2) ∧
      process_demod_block.symbols samples 20 fuel (with_block_fields s f c p) offset =
        process_demod_block.symbols samples 20 fuel s offset := by
  intro fuel
  induction fuel with
  | zero =>
    intro s offset n
    exact ⟨rfl, rfl⟩
  | succ fuel ih =>
    intro s offset n
    rw [process_demod_block.loop, process_demod_block.loop, process_demod_block.symbols,
      process_demod_block.symbols]
    by_cases hc : ((samples.length : Int) - (offset : Int)) % 2 ^ 32 ≥ ((20 : Nat) : Int)
    · rw [if_pos hc, if_pos hc, if_pos hc, if_pos hc]
      dsimp only
      rw [wbf_slicer]
      dsimp only
      by_cases hok : (getSymbolFromBuffer s samples offset 0 0 0).ok = true
      · rw [if_pos hok, if_pos hok, if_pos hok, if_pos hok, wbf_decide_symbol]
        obtain ⟨i1, i2⟩ := ih
          (process_demod_block.decide_symbol (getSymbolFromBuffer s samples offset 0 0 0).s
            (getSymbolFromBuffer s samples offset 0 0 0).symbol_out)
          (getSymbolFromBuffer s samples offset 0 0 0).offset ((n + 1) % 2 ^ 32)
        exact ⟨i1, by rw [i2]⟩
      · rw [if_neg hok, if_neg hok, if_neg hok, if_neg hok]
        exact ⟨rfl, rfl⟩
    · rw [if_neg hc, if_neg hc, if_neg hc, if_neg hc]
      exact ⟨rfl, rfl⟩

/-! ## More samples behind, and samples dropped in front -/

/-- A successful run of the slicer does not look at the samples behind the
ones it takes. -/
theorem slicer_loop_append (extra : List Int) (rest : List Int) :
    ∀ (loop_i : Int) (s : State) (offset : Nat) (sum_out count_out symbol_out : Int),
      (getSymbolFromBuffer.loop 10 rest loop_i s offset sum_out count_out symbol_out).ok = true →
      getSymbolFromBuffer.loop 10 (rest ++ extra) loop_i s offset sum_out count_out symbol_out =
        getSymbolFromBuffer.loop 10 rest loop_i s offset sum_out count_out symbol_out := by
  induction rest with
  | nil =>
    intro loop_i s offset sum_out count_out symbol_out hok
    by_cases hlt : loop_i < 10
    · rw [slicer_loop_stuck loop_i s offset sum_out count_out symbol_out hlt] at hok
      exact absurd hok (by simp)
    · rw [slicer_loop_done _ loop_i s offset sum_out count_out symbol_out hlt,
        slicer_loop_done _ loop_i s offset sum_out count_out symbol_out hlt]
  | cons x rest ih =>
    intro loop_i s offset sum_out count_out symbol_out hok
    by_cases hlt : loop_i < 10
    · rw [slicer_loop_step loop_i _ _ rest x s offset sum_out count_out symbol_out hlt rfl]
        at hok ⊢
      rw [List.cons_append,
        slicer_loop_step loop_i _ _ (rest ++ extra) x s offset sum_out count_out symbol_out hlt
          rfl]
      exact ih _ _ _ _ _ _ hok
    · rw [slicer_loop_done _ loop_i s offset sum_out count_out symbol_out hlt,
        slicer_loop_done _ loop_i s offset sum_out count_out symbol_out hlt]

theorem slicer_append (s : State) (S B : List Int) (offset : Nat)
    (hoff : offset ≤ S.length) (hlen : (S ++ B).length < 2 ^ 32)
    (hok : (getSymbolFromBuffer s S offset 0 0 0).ok = true) :
    getSymbolFromBuffer s (S ++ B) offset 0 0 0 = getSymbolFromBuffer s S offset 0 0 0 := by
  have hl : (S ++ B).length = S.length + B.length := List.length_append _ _
  unfold getSymbolFromBuffer at hok ⊢
  dsimp only at hok ⊢
  by_cases hlt : ((S.length : Int) - (offset : Int)) % 2 ^ 32 < 10 % 2 ^ 32
  · rw [if_pos hlt] at hok
    exact absurd hok (by simp)
  · rw [if_neg hlt] at hok ⊢
    have hlt2 : ¬ (((S ++ B).length : Int) - (offset : Int)) % 2 ^ 32 < 10 % 2 ^ 32 := by
      rw [hl]
      push_cast
      omega
    rw [if_neg hlt2, List.drop_append_of_le_length hoff]
    exact slicer_loop_append B _ _ _ _ _ _ _ hok

theorem slicer_loop_shift (k : Nat) (rest : List Int) :
    ∀ (loop_i : Int) (s : State) (o : Nat) (sum_out count_out symbol_out : Int),
      getSymbolFromBuffer.loop 10 rest loop_i s (k + o) sum_out count_out symbol_out =
        { getSymbolFromBuffer.loop 10 rest loop_i s o sum_out count_out symbol_out with
          offset := k +
            (getSymbolFromBuffer.loop 10 rest loop_i s o sum_out count_out symbol_out).offset } := by
  induction rest with
  | nil =>
    intro loop_i s o sum_out count_out symbol_out
    by_cases hlt : loop_i < 10
    · rw [slicer_loop_stuck loop_i s _ sum_out count_out symbol_out hlt,
        slicer_loop_stuck loop_i s _ sum_out count_out symbol_out hlt]
    · rw [slicer_loop_done _ loop_i s _ sum_out count_out symbol_out hlt,
        slicer_loop_done _ loop_i s _ sum_out count_out symbol_out hlt]
  | cons x rest ih =>
    intro loop_i s o sum_out count_out symbol_out
    by_cases hlt : loop_i < 10
    · rw [slicer_loop_step loop_i _ _ rest x s (k + o) sum_out count_out symbol_out hlt rfl,
        slicer_loop_step loop_i _ _ rest x s o sum_out count_out symbol_out hlt rfl,
        Nat.add_assoc]
      exact ih _ _ _ _ _ _
    · rw [slicer_loop_done _ loop_i s _ sum_out count_out symbol_out hlt,
        slicer_loop_done _ loop_i s _ sum_out count_out symbol_out hlt]

theorem slicer_shift (s : State) (X : List Int) (k o : Nat) (hk : k + o ≤ X.length) :
    getSymbolFromBuffer s X (k + o) 0 0 0 =
      { getSymbolFromBuffer s (X.drop k) o 0 0 0 with
        offset := k + (getSymbolFromBuffer s (X.drop k) o 0 0 0).offset } := by
  have hl : (X.drop k).length = X.length - k := List.length_drop _ _
  unfold getSymbolFromBuffer
  dsimp only
  by_cases hlt : ((X.length : Int) - ((k + o : Nat) : Int)) % 2 ^ 32 < 10 % 2 ^ 32
  · have hlt2 : (((X.drop k).length : Int) - (o : Int)) % 2 ^ 32 < 10 % 2 ^ 32 := by
      rw [hl]
      omega
    rw [if_pos hlt, if_pos hlt2]
  · have hlt2 : ¬ (((X.drop k).length : Int) - (o : Int)) % 2 ^ 32 < 10 % 2 ^ 32 := by
      rw [hl]
      omega
    rw [if_neg hlt, if_neg hlt2]
    have hd : List.drop (k + o) X = List.drop o (List.drop k X) := by
      rw [List.drop_drop]
    rw [hd]
    exact slicer_loop_shift k _ _ _ _ _ _ _

theorem block_loop_shift (X : List Int) (k : Nat) (hlen : X.length < 2 ^ 32) :
    ∀ (fuel : Nat) (s : State) (o n : Nat), k + o ≤ X.length →
      process_demod_block.loop X 20 fuel s (k + o) n =
        ((process_demod_block.loop (X.drop k) 20 fuel s o n).1,
          k + (process_demod_block.loop (X.drop k) 20 fuel s o n).2.1,
          (process_demod_block.loop (X.drop k) 20 fuel s o n).2.2) ∧
      process_demod_block.symbols X 20 fuel s (k + o) =
        process_demod_block.symbols (X.drop k) 20 fuel s o := by
  have hl : (X.drop k).length = X.length - k := List.length_drop _ _
  intro fuel
  induction fuel with
  | zero =>
    intro s o n _
    exact ⟨rfl, rfl⟩
  | succ fuel ih =>
    intro s o n hk
    rw [process_demod_block.loop, process_demod_block.loop, process_demod_block.symbols,
      process_demod_block.symbols]
    by_cases hc : ((X.length : Int) - ((k + o : Nat) : Int)) % 2 ^ 32 ≥ ((20 : Nat) : Int)
    · have hc2 : (((X.drop k).length : Int) - (o : Int)) % 2 ^ 32 ≥ ((20 : Nat) : Int) := by
        rw [hl]
        omega
      rw [if_pos hc, if_pos hc, if_pos hc2, if_pos hc2]
      dsimp only
      rw [slicer_shift s X k o hk]
      dsimp only
      obtain ⟨s1, _, _⟩ := slicer_offsets s (X.drop k) o (by rw [hl]; omega) (by rw [hl]; omega)
      by_cases hok : (getSymbolFromBuffer s (X.drop k) o 0 0 0).ok = true
      · rw [if_pos hok, if_pos hok, if_pos hok, if_pos hok]
        obtain ⟨i1, i2⟩ := ih
          (process_demod_block.decide_symbol (getSymbolFromBuffer s (X.drop k) o 0 0 0).s
            (getSymbolFromBuffer s (X.drop k) o 0 0 0).symbol_out)
          (getSymbolFromBuffer s (X.drop k) o 0 0 0).offset ((n + 1) % 2 ^ 32)
          (by rw [hl] at s1; omega)
        exact ⟨i1, by rw [i2]⟩
      · rw [if_neg hok, if_neg hok, if_neg hok, if_neg hok]
        exact ⟨rfl, rfl⟩
    · have hc2 : ¬ (((X.drop k).length : Int) - (o : Int)) % 2 ^ 32 ≥ ((20 : Nat) : Int) := by
        rw [hl]
        omega
      rw [if_neg hc, if_neg hc, if_neg hc2, if_neg hc2]
      exact ⟨rfl, rfl⟩

/-- The state and the offset that the loop of a block leaves do not depend on
the count of symbols it starts from. -/
theorem block_loop_count (X : List Int) :
    ∀ (fuel : Nat) (s : State) (o n n1 : Nat),
      (process_demod_block.loop X 20 fuel s o n).1 =
        (process_demod_block.loop X 20 fuel s o n1).1 ∧
      (process_demod_block.loop X 20 fuel s o n).2.1 =
        (process_demod_block.loop X 20 fuel s o n1).2.1 := by
  intro fuel
  induction fuel with
  | zero =>
    intro s o n n1
    exact ⟨rfl, rfl⟩
  | succ fuel ih =>
    intro s o n n1
    rw [process_demod_block.loop, process_demod_block.loop]
    by_cases hc : ((X.length : Int) - (o : Int)) % 2 ^ 32 ≥ ((20 : Nat) : Int)
    · rw [if_pos hc, if_pos hc]
      dsimp only
      by_cases hok : (getSymbolFromBuffer s X o 0 0 0).ok = true
      · rw [if_pos hok, if_pos hok]
        exact ih _ _ _ _
      · rw [if_neg hok, if_neg hok]
        exact ⟨rfl, rfl⟩
    · rw [if_neg hc, if_neg hc]
      exact ⟨rfl, rfl⟩

theorem symbols_fuel (samples : List Int) (hlen : samples.length < 2 ^ 32) :
    ∀ (f1 f2 : Nat) (s : State) (offset : Nat),
      offset ≤ samples.length → samples.length < f1 + offset → samples.length < f2 + offset →
      process_demod_block.symbols samples 20 f1 s offset =
        process_demod_block.symbols samples 20 f2 s offset := by
  intro f1
  induction f1 with
  | zero =>
    intro f2 s offset h1 h2 _
    omega
  | succ f1 ih =>
    intro f2 s offset h1 h2 h3
    cases f2 with
    | zero => omega
    | succ f2 =>
      rw [process_demod_block.symbols, process_demod_block.symbols]
      by_cases hc : ((samples.length : Int) - (offset : Int)) % 2 ^ 32 ≥ ((20 : Nat) : Int)
      · rw [if_pos hc, if_pos hc]
        dsimp only
        have h20 : offset + 20 ≤ samples.length := by omega
        obtain ⟨s1, _, s3⟩ := slicer_offsets s samples offset (by omega) hlen
        by_cases hok : (getSymbolFromBuffer s samples offset 0 0 0).ok = true
        · rw [if_pos hok, if_pos hok]
          have hp := s3 hok
          rw [ih f2 _ _ s1 (by omega) (by omega)]
        · rw [if_neg hok, if_neg hok]
      · rw [if_neg hc, if_neg hc]

/-- With `symbol_center_ = 4`: the loop over the samples `S ++ B` does what
the loop over `S` does and then goes on from where that one stopped. -/
theorem block_loop_extend (S B : List Int) (hlen : (S ++ B).length < 2 ^ 32) :
    ∀ (fuel : Nat) (s : State) (offset n F : Nat),
      s.symbol_center_ = 4 → offset ≤ S.length → S.length < fuel + offset →
      (S ++ B).length < F + offset →
      process_demod_block.loop (S ++ B) 20 F s offset n =
        process_demod_block.loop (S ++ B) 20 F
          (process_demod_block.loop S 20 fuel s offset n).1
          (process_demod_block.loop S 20 fuel s offset n).2.1
          (process_demod_block.loop S 20 fuel s offset n).2.2 ∧
      process_demod_block.symbols (S ++ B) 20 F s offset =
        process_demod_block.symbols S 20 fuel s offset ++
          process_demod_block.symbols (S ++ B) 20 F
            (process_demod_block.loop S 20 fuel s offset n).1
            (process_demod_block.loop S 20 fuel s offset n).2.1 := by
  have hl : (S ++ B).length = S.length + B.length := List.length_append _ _
  have hSlen : S.length < 2 ^ 32 := by omega
  intro fuel
  induction fuel with
  | zero =>
    intro s offset n F _ h1 h2 _
    omega
  | succ fuel ih =>
    intro s offset n F h4 h1 h2 h3
    by_cases hc : ((S.length : Int) - (offset : Int)) % 2 ^ 32 ≥ ((20 : Nat) : Int)
    · have h20 : offset + 20 ≤ S.length := by omega
      obtain ⟨hok, hoff, hcen⟩ := slicer_symbol s S offset h4 (by omega) hSlen
      have happ := slicer_append s S B offset h1 hlen hok
      have hcT : (((S ++ B).length : Int) - (offset : Int)) % 2 ^ 32 ≥ ((20 : Nat) : Int) := by
        rw [hl]
        push_cast
        omega
      cases F with
      | zero => omega
      | succ F =>
        have eS : process_demod_block.loop S 20 (fuel + 1) s offset n =
            process_demod_block.loop S 20 fuel
              (process_demod_block.decide_symbol (getSymbolFromBuffer s S offset 0 0 0).s
                (getSymbolFromBuffer s S offset 0 0 0).symbol_out)
              (getSymbolFromBuffer s S offset 0 0 0).offset ((n + 1) % 2 ^ 32) := by
          rw [process_demod_block.loop, if_pos hc]
          dsimp only
          rw [if_pos hok]
        have eT : process_demod_block.loop (S ++ B) 20 (F + 1) s offset n =
            process_demod_block.loop (S ++ B) 20 F
              (process_demod_block.decide_symbol (getSymbolFromBuffer s S offset 0 0 0).s
                (getSymbolFromBuffer s S offset 0 0 0).symbol_out)
              (getSymbolFromBuffer s S offset 0 0 0).offset ((n + 1) % 2 ^ 32) := by
          rw [process_demod_block.loop, if_pos hcT]
          dsimp only
          rw [happ, if_pos hok]
        have fS : process_demod_block.symbols S 20 (fuel + 1) s offset =
            (getSymbolFromBuffer s S offset 0 0 0).symbol_out ::
            process_demod_block.symbols S 20 fuel
              (process_demod_block.decide_symbol (getSymbolFromBuffer s S offset 0 0 0).s
                (getSymbolFromBuffer s S offset 0 0 0).symbol_out)
              (getSymbolFromBuffer s S offset 0 0 0).offset := by
          rw [process_demod_block.symbols, if_pos hc]
          dsimp only
          rw [if_pos hok]
        have fT : process_demod_block.symbols (S ++ B) 20 (F + 1) s offset =
            (getSymbolFromBuffer s S offset 0 0 0).symbol_out ::
            process_demod_block.symbols (S ++ B) 20 F
              (process_demod_block.decide_symbol (getSymbolFromBuffer s S offset 0 0 0).s
                (getSymbolFromBuffer s S offset 0 0 0).symbol_out)
              (getSymbolFromBuffer s S offset 0 0 0).offset := by
          rw [process_demod_block.symbols, if_pos hcT]
          dsimp only
          rw [happ, if_pos hok]
        rw [eS, eT, fS, fT]
        obtain ⟨b1, b2, _⟩ := block_loop_offsets S hSlen fuel
          (process_demod_block.decide_symbol (getSymbolFromBuffer s S offset 0 0 0).s
            (getSymbolFromBuffer s S offset 0 0 0).symbol_out)
          (getSymbolFromBuffer s S offset 0 0 0).offset ((n + 1) % 2 ^ 32)
          (by omega) (by omega)
        obtain ⟨i1, i2⟩ := ih
          (process_demod_block.decide_symbol (getSymbolFromBuffer s S offset 0 0 0).s
            (getSymbolFromBuffer s S offset 0 0 0).symbol_out)
          (getSymbolFromBuffer s S offset 0 0 0).offset ((n + 1) % 2 ^ 32) F
          (by rw [decide_symbol_symbol_center]; exact hcen) (by omega) (by omega) (by omega)
        have hf := block_loop_fuel (S ++ B) hlen F (F + 1)
          (process_demod_block.loop S 20 fuel
            (process_demod_block.decide_symbol (getSymbolFromBuffer s S offset 0 0 0).s
              (getSymbolFromBuffer s S offset 0 0 0).symbol_out)
            (getSymbolFromBuffer s S offset 0 0 0).offset ((n + 1) % 2 ^ 32)).1
          (process_demod_block.loop S 20 fuel
            (process_demod_block.decide_symbol (getSymbolFromBuffer s S offset 0 0 0).s
              (getSymbolFromBuffer s S offset 0 0 0).symbol_out)
            (getSymbolFromBuffer s S offset 0 0 0).offset ((n + 1) % 2 ^ 32)).2.1
          (process_demod_block.loop S 20 fuel
            (process_demod_block.decide_symbol (getSymbolFromBuffer s S offset 0 0 0).s
              (getSymbolFromBuffer s S offset 0 0 0).symbol_out)
            (getSymbolFromBuffer s S offset 0 0 0).offset ((n + 1) % 2 ^ 32)).2.2
          (by omega) (by omega) (by omega)
        have hg := symbols_fuel (S ++ B) hlen F (F + 1)
          (process_demod_block.loop S 20 fuel
            (process_demod_block.decide_symbol (getSymbolFromBuffer s S offset 0 0 0).s
              (getSymbolFromBuffer s S offset 0 0 0).symbol_out)
            (getSymbolFromBuffer s S offset 0 0 0).offset ((n + 1) % 2 ^ 32)).1
          (process_demod_block.loop S 20 fuel
            (process_demod_block.decide_symbol (getSymbolFromBuffer s S offset 0 0 0).s
              (getSymbolFromBuffer s S offset 0 0 0).symbol_out)
            (getSymbolFromBuffer s S offset 0 0 0).offset ((n + 1) % 2 ^ 32)).2.1
          (by omega) (by omega) (by omega)
        rw [← hf, ← hg, List.cons_append]
        exact ⟨i1, by rw [i2]⟩
    · have eS : process_demod_block.loop S 20 (fuel + 1) s offset n = (s, offset, n) := by
        rw [process_demod_block.loop, if_neg hc]
      have fS : process_demod_block.symbols S 20 (fuel + 1) s offset = [] := by
        rw [process_demod_block.symbols, if_neg hc]
      rw [eS, fS]
      exact ⟨rfl, rfl⟩

/-! ## Two blocks and their concatenation -/

/-- The result of `process_demod_block` in terms of its loop: the three block
fields are written around a loop that neither reads nor writes them. -/
theorem block_shape (s : State) (f c : Nat) (p X : List Int) :
    process_demod_block (with_block_fields s f c p) X =
      with_block_fields
        (process_demod_block.loop (p ++ X) 20 ((p ++ X).length + 1) s 0 0).1
        (X.length % 2 ^ 32)
        (process_demod_block.loop (p ++ X) 20 ((p ++ X).length + 1) s 0 0).2.2
        ((p ++ X).drop (process_demod_block.loop (p ++ X) 20 ((p ++ X).length + 1) s 0 0).2.1) ∧
    process_demod_block.decided (with_block_fields s f c p) X =
      process_demod_block.symbols (p ++ X) 20 ((p ++ X).length + 1) s 0 := by
  obtain ⟨e1, e2⟩ := wbf_block_loop (p ++ X) (X.length % 2 ^ 32) c [] ((p ++ X).length + 1) s 0 0
  constructor
  · have h : process_demod_block (with_block_fields s f c p) X =
        { (process_demod_block.loop (p ++ X) 20 ((p ++ X).length + 1)
            (with_block_fields s (X.length % 2 ^ 32) c []) 0 0).1 with
          stats_drop_slot_color_ := (process_demod_block.loop (p ++ X) 20 ((p ++ X).length + 1)
            (with_block_fields s (X.length % 2 ^ 32) c []) 0 0).2.2,
          pending_samples_ := (p ++ X).drop (process_demod_block.loop (p ++ X) 20
            ((p ++ X).length + 1) (with_block_fields s (X.length % 2 ^ 32) c []) 0 0).2.1 } := rfl
    rw [h, e1]
    rfl
  · unfold process_demod_block.decided
    dsimp only
    show process_demod_block.symbols (p ++ X) 20 ((p ++ X).length + 1)
        (with_block_fields s (X.length % 2 ^ 32) c []) 0 = _
    rw [e2]

/-- With `symbol_center_ = 4`, the loop over `S ++ B` is the loop over `S`
followed by the loop over what that one left of `S` and `B`. -/
theorem block_loop_split (s : State) (S B : List Int) (h4 : s.symbol_center_ = 4)
    (hlen : (S ++ B).length < 2 ^ 32) :
    (process_demod_block.loop S 20 (S.length + 1) s 0 0).2.1 ≤ S.length ∧
    (process_demod_block.loop (S ++ B) 20 ((S ++ B).length + 1) s 0 0).1 =
      (process_demod_block.loop
        (S.drop (process_demod_block.loop S 20 (S.length + 1) s 0 0).2.1 ++ B) 20
        ((S.drop (process_demod_block.loop S 20 (S.length + 1) s 0 0).2.1 ++ B).length + 1)
        (process_demod_block.loop S 20 (S.length + 1) s 0 0).1 0 0).1 ∧
    (process_demod_block.loop (S ++ B) 20 ((S ++ B).length + 1) s 0 0).2.1 =
      (process_demod_block.loop S 20 (S.length + 1) s 0 0).2.1 +
      (process_demod_block.loop
        (S.drop (process_demod_block.loop S 20 (S.length + 1) s 0 0).2.1 ++ B) 20
        ((S.drop (process_demod_block.loop S 20 (S.length + 1) s 0 0).2.1 ++ B).length + 1)
        (process_demod_block.loop S 20 (S.length + 1) s 0 0).1 0 0).2.1 ∧
    process_demod_block.symbols (S ++ B) 20 ((S ++ B).length + 1) s 0 =
      process_demod_block.symbols S 20 (S.length + 1) s 0 ++
      process_demod_block.symbols
        (S.drop (process_demod_block.loop S 20 (S.length + 1) s 0 0).2.1 ++ B) 20
        ((S.drop (process_demod_block.loop S 20 (S.length + 1) s 0 0).2.1 ++ B).length + 1)
        (process_demod_block.loop S 20 (S.length + 1) s 0 0).1 0 := by
  have hl : (S ++ B).length = S.length + B.length := List.length_append _ _
  have hS : S.length < 2 ^ 32 := by omega
  obtain ⟨e1, e2⟩ := block_loop_extend S B hlen (S.length + 1) s 0 0 ((S ++ B).length + 1) h4
    (Nat.zero_le _) (by omega) (by omega)
  obtain ⟨_, b2, _⟩ := block_loop_offsets S hS (S.length + 1) s 0 0 (Nat.zero_le _) (by omega)
  generalize process_demod_block.loop S 20 (S.length + 1) s 0 0 = LA at e1 e2 b2 ⊢
  have hd : (S ++ B).drop LA.2.1 = S.drop LA.2.1 ++ B := List.drop_append_of_le_length b2
  have hdl : (S.drop LA.2.1 ++ B).length = S.length - LA.2.1 + B.length := by
    rw [List.length_append, List.length_drop]
  obtain ⟨c1, c2⟩ := block_loop_count (S ++ B) ((S ++ B).length + 1) LA.1 LA.2.1 LA.2.2 0
  obtain ⟨d1, d2⟩ := block_loop_shift (S ++ B) LA.2.1 hlen ((S ++ B).length + 1) LA.1 0 0
    (by omega)
  rw [show LA.2.1 + 0 = LA.2.1 from rfl, hd] at d1 d2
  have f1 := block_loop_fuel (S.drop LA.2.1 ++ B) (by omega) ((S ++ B).length + 1)
    ((S.drop LA.2.1 ++ B).length + 1) LA.1 0 0 (Nat.zero_le _) (by omega) (by omega)
  have f2 := symbols_fuel (S.drop LA.2.1 ++ B) (by omega) ((S ++ B).length + 1)
    ((S.drop LA.2.1 ++ B).length + 1) LA.1 0 (Nat.zero_le _) (by omega) (by omega)
  rw [f1] at d1
  rw [f2] at d2
  refine ⟨b2, ?_, ?_, ?_⟩
  · rw [e1, c1, d1]
  · rw [e1, c2, d1]
  · rw [e2, d2]

/-- C27. For a state with `symbol_center_ = 4` (the only value the code ever
gives it) and fewer than `2 ^ 32` samples in all, `process_demod_block` on
`A` and then on `B` decides the same symbols, in the same order, as one
`process_demod_block` on `A` followed by `B`, and leaves the same state,
`pushed_` (the messages sent), `pending_samples_` and the filter delay line
`dmr_v` included, apart from `stats_drop_filtered_` and
`stats_drop_slot_color_`. -/
theorem block_split_invariance (s : State) (A B : List Int)
    (h4 : s.symbol_center_ = 4)
    (hlen : (s.pending_samples_ ++ A ++ B).length < 2 ^ 32) :
    process_demod_block (process_demod_block s A) B =
      { process_demod_block s (A ++ B) with
        stats_drop_filtered_ := B.length % 2 ^ 32,
        stats_drop_slot_color_ :=
          (process_demod_block (process_demod_block s A) B).stats_drop_slot_color_ } ∧
    process_demod_block.decided s A ++
        process_demod_block.decided (process_demod_block s A) B =
      process_demod_block.decided s (A ++ B) ∧
    (process_demod_block (process_demod_block s A) B).pushed_ =
      (process_demod_block s (A ++ B)).pushed_ ∧
    (process_demod_block (process_demod_block s A) B).pending_samples_ =
      (process_demod_block s (A ++ B)).pending_samples_ ∧
    (process_demod_block (process_demod_block s A) B).dmr_v =
      (process_demod_block s (A ++ B)).dmr_v := by
  obtain ⟨hA, gA⟩ := block_shape s s.stats_drop_filtered_ s.stats_drop_slot_color_
    s.pending_samples_ A
  obtain ⟨hT, gT⟩ := block_shape s s.stats_drop_filtered_ s.stats_drop_slot_color_
    s.pending_samples_ (A ++ B)
  rw [wbf_self] at hA gA hT gT
  rw [← List.append_assoc] at hT gT
  obtain ⟨k, l1, l2, l3⟩ := block_loop_split s (s.pending_samples_ ++ A) B h4 hlen
  generalize process_demod_block.loop (s.pending_samples_ ++ A) 20
    ((s.pending_samples_ ++ A).length + 1) s 0 0 = LA at hA k l1 l2 l3
  obtain ⟨hB, gB⟩ := block_shape LA.1 (A.length % 2 ^ 32) LA.2.2
    ((s.pending_samples_ ++ A).drop LA.2.1) B
  rw [← hA] at hB gB
  have hd : (s.pending_samples_ ++ A ++ B).drop
      (process_demod_block.loop (s.pending_samples_ ++ A ++ B) 20
        ((s.pending_samples_ ++ A ++ B).length + 1) s 0 0).2.1 =
      ((s.pending_samples_ ++ A).drop LA.2.1 ++ B).drop
        (process_demod_block.loop ((s.pending_samples_ ++ A).drop LA.2.1 ++ B) 20
          (((s.pending_samples_ ++ A).drop LA.2.1 ++ B).length + 1) LA.1 0 0).2.1 := by
    rw [l2, ← List.drop_append_of_le_length k, List.drop_drop]
  rw [l1, hd] at hT
  have hmain : process_demod_block (process_demod_block s A) B =
      { process_demod_block s (A ++ B) with
        stats_drop_filtered_ := B.length % 2 ^ 32,
        stats_drop_slot_color_ :=
          (process_demod_block (process_demod_block s A) B).stats_drop_slot_color_ } := by
    rw [hB, hT]
    rfl
  refine ⟨hmain, ?_, ?_, ?_, ?_⟩
  · rw [gA, gB, gT, l3]
  · rw [hB, hT]
    rfl
  · rw [hB, hT]
    rfl
  · rw [hB, hT]
    rfl

/-! ## The statements of this part on example inputs -/

set_option maxRecDepth 100000 in
theorem two_samples_per_symbol_witness :
    State.constructed.symbol_center_ = 4 ∧
    (getSymbolFromBuffer State.constructed example_block 0 0 0 0).ok = true ∧
    (getSymbolFromBuffer State.constructed example_block 0 0 0 0).count_out = 2 ∧
    (getSymbolFromBuffer State.constructed example_block 0 0 0 0).symbol_out =
      Int.tdiv (getSymbolFromBuffer State.constructed example_block 0 0 0 0).sum_out
        (getSymbolFromBuffer State.constructed example_block 0 0 0 0).count_out :=
  ⟨by decide, by decide!,
    (two_samples_per_symbol State.constructed example_block 0 0 0 0 (by decide)
      (by decide!)).2.2⟩

set_option maxRecDepth 100000 in
theorem samples_per_symbol_decision_witness :
    example_retard.symbol_center_ = 4 ∧
    (0 + 11 ≤ example_crossings.length ∧ example_crossings.length < 2 ^ 32) ∧
    (example_retard.parseState_ = Parse_State_Search_Sync ∧
      example_retard.symbol_center_ - 1 ≤ example_retard.jitter_ ∧
      example_retard.jitter_ ≤ example_retard.symbol_center_) ∧
    (getSymbolFromBuffer example_retard example_crossings 0 0 0 0).ok = true ∧
    (getSymbolFromBuffer example_retard example_crossings 0 0 0 0).offset = 0 + 11 :=
  ⟨by decide, by decide, by decide,
    (samples_per_symbol_decision example_retard example_crossings 0 0 0 0 (by decide)).2
      (by decide) (by decide),
    ((samples_per_symbol_decision example_retard example_crossings 0 0 0 0 (by decide)).1
      ((samples_per_symbol_decision example_retard example_crossings 0 0 0 0 (by decide)).2
        (by decide) (by decide))).1 (by decide)⟩

theorem dmr_filter_exact_witness :
    (∀ i, i ≤ 60 → fits_int16 (State.constructed.dmr_v i)) ∧
    fits_int16 1000 ∧
    (dmr_filter State.constructed 1000).1.dmr_v 60 = 1000 ∧
    fits_int16 (dmr_filter State.constructed 1000).2 :=
  ⟨fun _ _ => show fits_int16 0 from ⟨by decide, by decide⟩, ⟨by decide, by decide⟩,
    (dmr_filter_exact State.constructed 1000 (fun _ _ => show fits_int16 0 from ⟨by decide, by decide⟩)
      ⟨by decide, by decide⟩).2.1,
    (dmr_filter_exact State.constructed 1000 (fun _ _ => show fits_int16 0 from ⟨by decide, by decide⟩)
      ⟨by decide, by decide⟩).2.2.2.2.2.2.2.1⟩

theorem sync_window_is_last_24_witness :
    DMR_SYNC_SYMBOLS ≤ example_wrap.length ∧
    (example_wrap.foldl push_sync_char
      (resetToDefaultState State.constructed)).sync_history_count_ =
        min example_wrap.length kSyncHistorySize ∧
    window24 (build_sync_window
        (example_wrap.foldl push_sync_char (resetToDefaultState State.constructed))
        (fun _ => '0')) =
      example_wrap.drop (example_wrap.length - DMR_SYNC_SYMBOLS) :=
  ⟨by unfold example_wrap; rw [List.length_append, List.length_replicate]; decide,
    (sync_window_is_last_24 State.constructed example_wrap).2.2.1,
    (sync_window_is_last_24 State.constructed example_wrap).2.2.2
      (by unfold example_wrap; rw [List.length_append, List.length_replicate]; decide)
      (fun _ => '0')⟩

set_option maxRecDepth 100000 in
theorem jitter_cleared_in_search_only_witness :
    State.constructed.symbol_center_ = 4 ∧
    (getSymbolFromBuffer State.constructed example_block 0 0 0 0).ok = true ∧
    State.constructed.parseState_ = Parse_State_Search_Sync ∧
    (getSymbolFromBuffer.timing State.constructed 0).2.jitter_ = -1 ∧
    (getSymbolFromBuffer State.constructed example_block 0 0 0 0).s.jitter_ =
      (first_crossing
        (getSymbolFromBuffer.steps 10 (example_block.drop 0) 0 State.constructed)).getD (-1) :=
  ⟨by decide, by decide!, by decide,
    (jitter_cleared_in_search_only State.constructed example_block 0 0 0 0 (by decide)
      (by decide!)).1 (by decide)⟩

set_option maxRecDepth 100000 in
theorem first_crossing_wins_witness :
    example_retard.symbol_center_ = 4 ∧
    (getSymbolFromBuffer example_retard example_crossings 0 0 0 0).ok = true ∧
    (getSymbolFromBuffer example_retard example_crossings 0 0 0 0).s.jitter_ =
      (if 0 ≤ (getSymbolFromBuffer.timing example_retard 0).2.jitter_ then
        (getSymbolFromBuffer.timing example_retard 0).2.jitter_
      else (first_crossing
          (getSymbolFromBuffer.steps 10 (example_crossings.drop 0) 0 example_retard)).getD
        (getSymbolFromBuffer.timing example_retard 0).2.jitter_) :=
  ⟨by decide, by decide!,
    (first_crossing_wins example_retard example_crossings 0 0 0 0 (by decide)
      (by decide!)).2.1⟩

theorem block_split_invariance_witness :
    State.constructed.symbol_center_ = 4 ∧
    (State.constructed.pending_samples_ ++ example_block ++ example_crossings).length < 2 ^ 32 ∧
    process_demod_block.decided State.constructed example_block ++
        process_demod_block.decided (process_demod_block State.constructed example_block)
          example_crossings =
      process_demod_block.decided State.constructed (example_block ++ example_crossings) ∧
    (process_demod_block (process_demod_block State.constructed example_block)
        example_crossings).pending_samples_ =
      (process_demod_block State.constructed (example_block ++ example_crossings)).pending_samples_ :=
  ⟨by decide, by decide,
    (block_split_invariance State.constructed example_block example_crossings (by decide)
      (by decide)).2.1,
    (block_split_invariance State.constructed example_block example_crossings (by decide)
      (by decide)).2.2.2.1⟩

theorem levels_stay_in_range_witness :
    LevelsInv State.constructed ∧
    (∀ x ∈ example_block, fits_int16 x) ∧
    LevelsInv (process_demod_block State.constructed example_block) ∧
    -32768 ≤ (process_demod_block State.constructed example_block).min_sample_ ∧
    (process_demod_block State.constructed example_block).min_sample_ ≤
      (process_demod_block State.constructed example_block).max_sample_ ∧
    (process_demod_block State.constructed example_block).max_sample_ ≤ 32767 :=
  have hb : ∀ x ∈ example_block, fits_int16 x := by
    show ∀ x ∈ example_block, -32768 ≤ x ∧ x ≤ 32767
    decide
  have h := levels_stay_in_range.2.2.2.2.2.2 State.constructed example_block
    levels_stay_in_range.1 hb
  ⟨levels_stay_in_range.1, hb, h, levels_stay_in_range.2.1 _ h⟩

theorem thresholds_ordered_after_match_witness :
    example_data.parseState_ = Parse_State_Search_Sync ∧
    DMR_SYNC_SYMBOLS ≤ example_data.sync_history_count_ ∧
    sync_window example_data = pattern_of SyncPatternId.DirectTs1Data ∧
    example_data.min_sample_ ≤ example_data.max_sample_ ∧
    (process_decided_symbol example_data 2).min_sample_ ≤
      (process_decided_symbol example_data 2).lmid_ ∧
    (process_decided_symbol example_data 2).lmid_ ≤
      (process_decided_symbol example_data 2).center_ ∧
    (process_decided_symbol example_data 2).center_ ≤
      (process_decided_symbol example_data 2).umid_ ∧
    (process_decided_symbol example_data 2).umid_ ≤
      (process_decided_symbol example_data 2).max_sample_ :=
  ⟨by decide, by decide, by decide, by decide,
    thresholds_ordered_after_match example_data 2 SyncPatternId.DirectTs1Data (Or.inr rfl)
      (by decide) (by decide) (by decide) (by decide)⟩

theorem slicer_never_fails_in_block_witness :
    State.constructed.symbol_center_ = 4 ∧
    (0 + 20 ≤ example_block.length ∧ example_block.length < 2 ^ 32) ∧
    (getSymbolFromBuffer State.constructed example_block 0 0 0 0).ok = true ∧
    (getSymbolFromBuffer State.constructed example_block 0 0 0 0).s.symbol_counter_ =
      (State.constructed.symbol_counter_ + 1) % 2 ^ 64 ∧
    example_block.length < 1000 ∧
    process_demod_block.loop example_block 20 1000 State.constructed 0 0 =
      process_demod_block.loop example_block 20 (example_block.length + 1)
        State.constructed 0 0 :=
  ⟨by decide, by decide,
    (slicer_never_fails_in_block.1 State.constructed example_block 0 (by decide) (by decide)
      (by decide)).1,
    (slicer_never_fails_in_block.1 State.constructed example_block 0 (by decide) (by decide)
      (by decide)).2.2.2.1,
    by decide,
    (slicer_never_fails_in_block.2 State.constructed example_block 1000 (by decide)
      (by decide) (by decide)).1⟩

end DSDRx
